import Mathlib

/-! GRAM job manager: request registry and lifecycle references.

A shallow embedding of `gram/jobmanager/source/globus_gram_job_manager.c`:
the request table (`request_hash`), the LRM job-id table (`job_id_hash`),
the reference-count protocol (`add_reference` / `remove_reference`), the
swap-out callback and the shutdown sweep `stop_all_jobs`.

Conventions of the embedding

* The manager is an explicit value that every operation takes and returns.
  The embedding is sequential: one operation runs at a time, as it does
  under the manager mutex.
* A C function that dereferences a pointer returns `none` on the paths where
  that pointer is `NULL` (or dangling); everywhere else it returns `some`.
* Calls into collaborators that are not part of this source file (the
  callback scheduler, the request loader, the state file writer) are answered
  by an `Env` of response functions, and every such call is recorded, in
  program order, in the `calls` list of the outcome.
* `malloc`/`strdup` are taken to succeed; `int` counters are unbounded `Int`.
-/

namespace GramJobManager

/-- Modelled from the spec: the declaration of the job manager phase
enumeration (`globus_gram_jobmanager_state_t`, in `globus_gram_job_manager.h`)
is not part of the sources; its values are the phase names that the `switch`
of `globus_gram_job_manager_stop_all_jobs` enumerates. -/
inductive globus_gram_jobmanager_state_t
  | GLOBUS_GRAM_JOB_MANAGER_STATE_START
  | GLOBUS_GRAM_JOB_MANAGER_STATE_TWO_PHASE
  | GLOBUS_GRAM_JOB_MANAGER_STATE_TWO_PHASE_COMMITTED
  | GLOBUS_GRAM_JOB_MANAGER_STATE_STAGE_IN
  | GLOBUS_GRAM_JOB_MANAGER_STATE_SUBMIT
  | GLOBUS_GRAM_JOB_MANAGER_STATE_POLL1
  | GLOBUS_GRAM_JOB_MANAGER_STATE_POLL2
  | GLOBUS_GRAM_JOB_MANAGER_STATE_CLOSE_OUTPUT
  | GLOBUS_GRAM_JOB_MANAGER_STATE_STAGE_OUT
  | GLOBUS_GRAM_JOB_MANAGER_STATE_TWO_PHASE_END
  | GLOBUS_GRAM_JOB_MANAGER_STATE_TWO_PHASE_END_COMMITTED
  | GLOBUS_GRAM_JOB_MANAGER_STATE_FILE_CLEAN_UP
  | GLOBUS_GRAM_JOB_MANAGER_STATE_SCRATCH_CLEAN_UP
  | GLOBUS_GRAM_JOB_MANAGER_STATE_CACHE_CLEAN_UP
  | GLOBUS_GRAM_JOB_MANAGER_STATE_DONE
  | GLOBUS_GRAM_JOB_MANAGER_STATE_FAILED
  | GLOBUS_GRAM_JOB_MANAGER_STATE_FAILED_CLOSE_OUTPUT
  | GLOBUS_GRAM_JOB_MANAGER_STATE_FAILED_TWO_PHASE
  | GLOBUS_GRAM_JOB_MANAGER_STATE_FAILED_TWO_PHASE_COMMITTED
  | GLOBUS_GRAM_JOB_MANAGER_STATE_FAILED_FILE_CLEAN_UP
  | GLOBUS_GRAM_JOB_MANAGER_STATE_FAILED_SCRATCH_CLEAN_UP
  | GLOBUS_GRAM_JOB_MANAGER_STATE_FAILED_CACHE_CLEAN_UP
  | GLOBUS_GRAM_JOB_MANAGER_STATE_FAILED_DONE
  | GLOBUS_GRAM_JOB_MANAGER_STATE_STOP
  | GLOBUS_GRAM_JOB_MANAGER_STATE_POLL_QUERY1
  | GLOBUS_GRAM_JOB_MANAGER_STATE_POLL_QUERY2
  | GLOBUS_GRAM_JOB_MANAGER_STATE_PROXY_REFRESH
  | GLOBUS_GRAM_JOB_MANAGER_STATE_PRE_CLOSE_OUTPUT
  | GLOBUS_GRAM_JOB_MANAGER_STATE_TWO_PHASE_QUERY1
  | GLOBUS_GRAM_JOB_MANAGER_STATE_TWO_PHASE_QUERY2
  | GLOBUS_GRAM_JOB_MANAGER_STATE_TWO_PHASE_PROXY_REFRESH
  deriving DecidableEq, Repr

open globus_gram_jobmanager_state_t

/-- Modelled from the spec: the GRAM protocol result codes
(`globus_gram_protocol_constants.h`) are not part of the sources; the codes
are kept symbolic, one constructor per name this source file returns or
stores. -/
inductive globus_gram_protocol_error_t
  | GLOBUS_SUCCESS
  | GLOBUS_GRAM_PROTOCOL_ERROR_MALLOC_FAILED
  | GLOBUS_GRAM_PROTOCOL_ERROR_JOB_CONTACT_NOT_FOUND
  | GLOBUS_GRAM_PROTOCOL_ERROR_JM_STOPPED
  | GLOBUS_GRAM_PROTOCOL_ERROR_USER_PROXY_EXPIRED
  | GLOBUS_GRAM_PROTOCOL_ERROR_NULL_PARAMETER
  | GLOBUS_GRAM_PROTOCOL_ERROR_NO_RESOURCES
  | GLOBUS_GRAM_PROTOCOL_ERROR_INVALID_REQUEST
  | GLOBUS_GRAM_PROTOCOL_ERROR_ARG_FILE_CREATION_FAILED
  | GLOBUS_GRAM_PROTOCOL_ERROR_OPENING_USER_PROXY
  deriving DecidableEq, Repr

open globus_gram_protocol_error_t

/-- Modelled from the spec: `GLOBUS_NULL_HANDLE` (globus_common) is not part
of the sources. It is the value of a `globus_callback_handle_t`, an `int`, that
stands for "no timer"; the registry only compares handles with it. -/
def GLOBUS_NULL_HANDLE : Int := 0

/-- Modelled from the spec: the declaration of the job record
`globus_gram_jobmanager_request_t` (`globus_gram_job_manager.h`) is not part of
the sources; these are the fields this source file reads or writes. The
`manager` back pointer is left out: a job in a manager's table points to that
manager. -/
structure globus_gram_jobmanager_request_t where
  job_contact_path : String
  jobmanager_state : globus_gram_jobmanager_state_t
  restart_state : globus_gram_jobmanager_state_t
  status : Int
  failure_code : Int
  stop_reason : globus_gram_protocol_error_t
  unsent_status_change : Bool
  poll_timer : Int
  seg_last_timestamp : Nat
  deriving DecidableEq, Repr

/-- An entry of the request table: `globus_gram_job_manager_ref_t`. The
`request` pointer is `none` when the job is swapped out; the table key is the
entry's own `key`. -/
structure globus_gram_job_manager_ref_t where
  key : String
  request : Option globus_gram_jobmanager_request_t
  reference_count : Int
  cleanup_timer : Int
  job_state : Int
  failure_code : Int
  deriving DecidableEq, Repr

/-- An entry of the LRM job-id table: `globus_gram_job_id_ref_t`. -/
structure globus_gram_job_id_ref_t where
  job_id : String
  job_contact_path : String
  deriving DecidableEq, Repr

/-- Modelled from the spec: the declaration of
`globus_gram_job_manager_config_t` (`globus_gram_job_manager.h`) is not part of
the sources; the registry reads one field of it, `seg_module` (`none` is
`NULL`), which says whether event-stream delivery is configured. -/
structure globus_gram_job_manager_config_t where
  seg_module : Option String
  deriving DecidableEq, Repr

/-- Modelled from the spec: the declaration of `globus_gram_job_manager_t`
(`globus_gram_job_manager.h`) is not part of the sources; these are the fields
the registry operations read or write. The two hashtables are kept as lists of
their entries. -/
structure globus_gram_job_manager_t where
  config : globus_gram_job_manager_config_t
  url_base : String
  request_hash : List globus_gram_job_manager_ref_t
  job_id_hash : List globus_gram_job_id_ref_t
  stop : Bool
  done : Bool
  grace_period_timer : Int
  seg_started : Bool
  seg_last_timestamp : Nat
  deriving DecidableEq, Repr

/-- The two one-shot callbacks this file registers, with the argument they are
registered with (the entry, named by its key, or the manager). -/
inductive Callback
  | globus_l_gram_ref_swap_out (key : String)
  | globus_l_gram_job_manager_grace_period_expired
  deriving DecidableEq, Repr

/-- A call into a collaborator, as it appears in the source. -/
inductive Call
  | GlobusGramJobManagerLock
  | GlobusGramJobManagerUnlock
  | GlobusGramJobManagerRequestLock (job_contact_path : String)
  | GlobusGramJobManagerRequestUnlock (job_contact_path : String)
  | globus_callback_register_oneshot (callback : Callback)
  | globus_callback_unregister (handle : Int)
  | globus_callback_adjust_oneshot (handle : Int)
  | globus_cond_signal
  | globus_gram_job_manager_request_destroy (job_contact_path : String)
  | globus_gram_job_manager_request_free (job_contact_path : String)
  | globus_gram_job_manager_state_file_write (job_contact_path : String)
  | globus_gram_job_manager_state_machine_register (job_contact_path : String)
  deriving DecidableEq, Repr

/-- Modelled from the spec: the request loader
(`globus_gram_job_manager_request_init`), the state file writer
(`globus_gram_job_manager_state_file_write`), the state machine
(`globus_gram_job_manager_state_machine_register`) and the callback scheduler
(`globus_callback_register_oneshot`) are not part of the sources. An `Env`
gives their responses, as functions of the arguments of the call.

* `globus_gram_job_manager_request_init rsl`: the job record rebuilt from the
  restart RSL when it returns `GLOBUS_SUCCESS`, `none` when it returns any
  other code.
* `globus_callback_register_oneshot cb`: the handle written on success, `none`
  on failure (the handle variable is then left as it was).
* `globus_gram_job_manager_state_file_write req`: the result code.
* `globus_gram_job_manager_state_machine_register req`: the value it leaves in
  the job's `poll_timer`. -/
structure Env where
  globus_gram_job_manager_request_init :
    String → Option globus_gram_jobmanager_request_t
  globus_callback_register_oneshot : Callback → Option Int
  globus_gram_job_manager_state_file_write :
    globus_gram_jobmanager_request_t → globus_gram_protocol_error_t
  globus_gram_job_manager_state_machine_register :
    globus_gram_jobmanager_request_t → Int

/-- What an operation leaves behind: its return code, what it wrote through
its out-parameters (`none`: nothing was written), the manager and the
collaborator calls it made, in program order. -/
structure Outcome (α : Type) where
  rc : globus_gram_protocol_error_t
  out : Option α
  manager : globus_gram_job_manager_t
  calls : List Call

/-! ## The hashtable and list library -/

/-- Modelled from the spec: `globus_hashtable_lookup` (globus_common, not part
of the sources) on the request table, a map from key to entry: the entry
stored under the key, if any. -/
def request_hash_lookup :
    List globus_gram_job_manager_ref_t → String → Option globus_gram_job_manager_ref_t
  | [], _ => none
  | e :: es, key => if e.key = key then some e else request_hash_lookup es key

/-- Modelled from the spec: `globus_hashtable_remove` (globus_common, not part
of the sources) on the request table: the table without the entry stored under
the key. -/
def request_hash_remove :
    List globus_gram_job_manager_ref_t → String → List globus_gram_job_manager_ref_t
  | [], _ => []
  | e :: es, key => if e.key = key then es else e :: request_hash_remove es key

/-- A write through the `ref` pointer that `globus_hashtable_lookup` returned:
the entry stored under `ref.key` becomes `ref`. -/
def request_hash_store :
    List globus_gram_job_manager_ref_t → globus_gram_job_manager_ref_t →
      List globus_gram_job_manager_ref_t
  | [], _ => []
  | e :: es, ref => if e.key = ref.key then ref :: es else e :: request_hash_store es ref

/-- Modelled from the spec: `globus_hashtable_lookup` (globus_common, not part
of the sources) on the LRM job-id table. -/
def job_id_hash_lookup :
    List globus_gram_job_id_ref_t → String → Option globus_gram_job_id_ref_t
  | [], _ => none
  | e :: es, job_id => if e.job_id = job_id then some e else job_id_hash_lookup es job_id

/-- Modelled from the spec: `globus_hashtable_insert` (globus_common, not part
of the sources) on the LRM job-id table: refuses a key that is already
present, otherwise adds the entry. -/
def job_id_hash_insert (table : List globus_gram_job_id_ref_t)
    (ref : globus_gram_job_id_ref_t) : Option (List globus_gram_job_id_ref_t) :=
  match job_id_hash_lookup table ref.job_id with
  | some _ => none
  | none => some (ref :: table)

/-- The C string `key+1`: the key without its first byte (keys are ASCII and
not empty). -/
def key_plus_1 (key : String) : String := String.mk (key.data.drop 1)

/-! ## Reference counting -/

/-- `globus_l_gram_restart_job`: rebuilds a job record from the restart RSL
for `job_contact_path`. The result is the job left in `*request` when the
return code is `GLOBUS_SUCCESS`, and `none` for any other return code (its
callers only compare the code with `GLOBUS_SUCCESS`). -/
def globus_l_gram_restart_job (env : Env) (manager : globus_gram_job_manager_t)
    (job_contact_path : String) : Option globus_gram_jobmanager_request_t :=
  let restart_rsl :=
    "&(restart = '" ++ manager.url_base ++ job_contact_path ++ "')(restartcontacts = yes)"
  env.globus_gram_job_manager_request_init restart_rsl

/-- `globus_l_gram_add_reference_locked`. `request` tells whether the caller
passed a non-NULL `request` pointer; the outcome's `out` is the value written
to `*request`. -/
def globus_l_gram_add_reference_locked (env : Env) (manager : globus_gram_job_manager_t)
    (key : String) (request : Bool) :
    Option (Outcome (Option globus_gram_jobmanager_request_t)) :=
  match request_hash_lookup manager.request_hash key with
  | some ref =>
    let ref1 := { ref with reference_count := ref.reference_count + 1 }
    let unregistered : List Call :=
      if ref1.cleanup_timer ≠ GLOBUS_NULL_HANDLE then
        [Call.globus_callback_unregister ref1.cleanup_timer]
      else []
    let ref2 := { ref1 with cleanup_timer := GLOBUS_NULL_HANDLE }
    match ref2.request with
    | none =>
      match globus_l_gram_restart_job env manager (key_plus_1 key) with
      | some loaded =>
        let ref3 := { ref2 with
          request := some { loaded with jobmanager_state := loaded.restart_state } }
        some { rc := GLOBUS_SUCCESS
               out := if request then some ref3.request else none
               manager := { manager with
                 request_hash := request_hash_store manager.request_hash ref3 }
               calls := unregistered }
      | none =>
        let ref3 := { ref2 with reference_count := ref2.reference_count - 1 }
        some { rc := GLOBUS_GRAM_PROTOCOL_ERROR_MALLOC_FAILED
               out := none
               manager := { manager with
                 request_hash := request_hash_store manager.request_hash ref3 }
               calls := unregistered }
    | some _ =>
      some { rc := GLOBUS_SUCCESS
             out := if request then some ref2.request else none
             manager := { manager with
               request_hash := request_hash_store manager.request_hash ref2 }
             calls := unregistered }
  | none =>
    some { rc := GLOBUS_GRAM_PROTOCOL_ERROR_JOB_CONTACT_NOT_FOUND
           out := if request then some none else none
           manager := manager
           calls := [] }

/-- `globus_gram_job_manager_add_reference`: the locked body between
`GlobusGramJobManagerLock` and `GlobusGramJobManagerUnlock`. -/
def globus_gram_job_manager_add_reference (env : Env) (manager : globus_gram_job_manager_t)
    (key : String) (request : Bool) :
    Option (Outcome (Option globus_gram_jobmanager_request_t)) :=
  match globus_l_gram_add_reference_locked env manager key request with
  | some o =>
    some { o with
      calls := [Call.GlobusGramJobManagerLock] ++ o.calls ++ [Call.GlobusGramJobManagerUnlock] }
  | none => none

/-- `globus_gram_job_manager_set_grace_period_timer`. -/
def globus_gram_job_manager_set_grace_period_timer (env : Env)
    (manager : globus_gram_job_manager_t) : globus_gram_job_manager_t × List Call :=
  if manager.request_hash.isEmpty then
    match env.globus_callback_register_oneshot
        Callback.globus_l_gram_job_manager_grace_period_expired with
    | some handle =>
      ({ manager with grace_period_timer := handle },
       [Call.globus_callback_register_oneshot
          Callback.globus_l_gram_job_manager_grace_period_expired])
    | none =>
      ({ manager with done := true },
       [Call.globus_callback_register_oneshot
          Callback.globus_l_gram_job_manager_grace_period_expired,
        Call.globus_cond_signal])
  else (manager, [])

/-- `globus_gram_job_manager_remove_reference`. `none` is the path on which
the count reaches 0 for an entry whose `request` pointer is NULL.
`request->manager` is the manager itself. -/
def globus_gram_job_manager_remove_reference (env : Env)
    (manager : globus_gram_job_manager_t) (key : String) : Option (Outcome Unit) :=
  match request_hash_lookup manager.request_hash key with
  | some ref =>
    let ref1 := { ref with reference_count := ref.reference_count - 1 }
    let manager1 := { manager with
      request_hash := request_hash_store manager.request_hash ref1 }
    if ref1.reference_count = 0 then
      match ref1.request with
      | none => none
      | some request =>
        if request.jobmanager_state = GLOBUS_GRAM_JOB_MANAGER_STATE_DONE ∨
            request.jobmanager_state = GLOBUS_GRAM_JOB_MANAGER_STATE_FAILED_DONE then
          let manager2 := { manager1 with
            request_hash := request_hash_remove manager1.request_hash key }
          let emptied : globus_gram_job_manager_t × List Call :=
            if manager2.request_hash.isEmpty then
              if manager2.stop then
                ({ manager2 with done := true }, [Call.globus_cond_signal])
              else globus_gram_job_manager_set_grace_period_timer env manager2
            else (manager2, [])
          some { rc := GLOBUS_SUCCESS
                 out := none
                 manager := emptied.1
                 calls := [Call.GlobusGramJobManagerLock] ++ emptied.2 ++
                   [Call.globus_gram_job_manager_request_destroy request.job_contact_path,
                    Call.GlobusGramJobManagerUnlock] }
        else if request.jobmanager_state = GLOBUS_GRAM_JOB_MANAGER_STATE_POLL2 ∧
            manager1.seg_started = true then
          let cb := Callback.globus_l_gram_ref_swap_out ref1.key
          let ref2 :=
            match env.globus_callback_register_oneshot cb with
            | some handle => { ref1 with cleanup_timer := handle }
            | none => ref1
          some { rc := GLOBUS_SUCCESS
                 out := none
                 manager := { manager1 with
                   request_hash := request_hash_store manager1.request_hash ref2 }
                 calls := [Call.GlobusGramJobManagerLock,
                   Call.globus_callback_register_oneshot cb,
                   Call.GlobusGramJobManagerUnlock] }
        else
          some { rc := GLOBUS_SUCCESS, out := none, manager := manager1
                 calls := [Call.GlobusGramJobManagerLock, Call.GlobusGramJobManagerUnlock] }
    else
      some { rc := GLOBUS_SUCCESS, out := none, manager := manager1
             calls := [Call.GlobusGramJobManagerLock, Call.GlobusGramJobManagerUnlock] }
  | none =>
    some { rc := GLOBUS_GRAM_PROTOCOL_ERROR_JOB_CONTACT_NOT_FOUND, out := none
           manager := manager
           calls := [Call.GlobusGramJobManagerLock, Call.GlobusGramJobManagerUnlock] }

/-- `globus_gram_job_manager_get_status`: `out` is the pair written to
`*state` and `*failure_code`. -/
def globus_gram_job_manager_get_status (manager : globus_gram_job_manager_t)
    (key : String) : Outcome (Int × Int) :=
  match request_hash_lookup manager.request_hash key with
  | none =>
    { rc := GLOBUS_GRAM_PROTOCOL_ERROR_JOB_CONTACT_NOT_FOUND, out := none
      manager := manager
      calls := [Call.GlobusGramJobManagerLock, Call.GlobusGramJobManagerUnlock] }
  | some ref =>
    { rc := GLOBUS_SUCCESS, out := some (ref.job_state, ref.failure_code)
      manager := manager
      calls := [Call.GlobusGramJobManagerLock, Call.GlobusGramJobManagerUnlock] }

/-- `globus_gram_job_manager_request_exists`: the `globus_bool_t` it returns
(it changes nothing in the manager). -/
def globus_gram_job_manager_request_exists (manager : globus_gram_job_manager_t)
    (key : String) : Bool :=
  match request_hash_lookup manager.request_hash key with
  | some ref => ref.request.isSome
  | none => false

/-- `globus_l_gram_ref_swap_out`, the one-shot registered by
`remove_reference`; `key` names the entry it was registered with. The result
is the manager it leaves and the calls it made; `none` is the path that
dereferences a NULL `request` or an entry no longer in the table. -/
def globus_l_gram_ref_swap_out (env : Env) (manager : globus_gram_job_manager_t)
    (key : String) : Option (globus_gram_job_manager_t × List Call) :=
  match request_hash_lookup manager.request_hash key with
  | none => none
  | some ref =>
    if ref.cleanup_timer ≠ GLOBUS_NULL_HANDLE then
      let ref1 := { ref with cleanup_timer := GLOBUS_NULL_HANDLE }
      if ref1.reference_count = 0 then
        match ref1.request with
        | none => none
        | some request =>
          let _rc := env.globus_gram_job_manager_state_file_write request
          let ref2 := { ref1 with request := none }
          some ({ manager with
                  request_hash := request_hash_store manager.request_hash ref2 },
                [Call.GlobusGramJobManagerLock,
                 Call.globus_callback_unregister ref.cleanup_timer,
                 Call.globus_gram_job_manager_state_file_write request.job_contact_path,
                 Call.globus_gram_job_manager_request_free request.job_contact_path,
                 Call.GlobusGramJobManagerUnlock])
      else
        some ({ manager with
                request_hash := request_hash_store manager.request_hash ref1 },
              [Call.GlobusGramJobManagerLock,
               Call.globus_callback_unregister ref.cleanup_timer,
               Call.GlobusGramJobManagerUnlock])
    else
      some (manager, [Call.GlobusGramJobManagerLock, Call.GlobusGramJobManagerUnlock])

/-! ## Shutdown -/

/-- Modelled from the spec: `globus_gram_job_manager_state_machine_register`
is not part of the sources. For a job in the poll-wait phase the shutdown
"re-triggers its poll timer immediately": the call leaves a handle in the job's
`poll_timer` and nothing else of the job record or of the registry changes. -/
def globus_gram_job_manager_state_machine_register (env : Env)
    (request : globus_gram_jobmanager_request_t) :
    globus_gram_jobmanager_request_t × List Call :=
  ({ request with
       poll_timer := env.globus_gram_job_manager_state_machine_register request },
   [Call.globus_gram_job_manager_state_machine_register request.job_contact_path])

/-- The body of the second loop of `globus_gram_job_manager_stop_all_jobs`
for one job, from `GlobusGramJobManagerRequestLock` to
`GlobusGramJobManagerRequestUnlock`: records the stop reason and the restart
phase, then runs the `switch` on the phase. -/
def stop_all_jobs_request (env : Env) (request : globus_gram_jobmanager_request_t) :
    globus_gram_jobmanager_request_t × List Call :=
  let request1 := { request with
    stop_reason := GLOBUS_GRAM_PROTOCOL_ERROR_USER_PROXY_EXPIRED
    restart_state := request.jobmanager_state }
  let switched : globus_gram_jobmanager_request_t × List Call :=
    match request1.jobmanager_state with
    | GLOBUS_GRAM_JOB_MANAGER_STATE_START =>
      ({ request1 with jobmanager_state := GLOBUS_GRAM_JOB_MANAGER_STATE_STOP }, [])
    | GLOBUS_GRAM_JOB_MANAGER_STATE_POLL2 =>
      globus_gram_job_manager_state_machine_register env
        { request1 with
          jobmanager_state := GLOBUS_GRAM_JOB_MANAGER_STATE_STOP
          unsent_status_change := true }
    | GLOBUS_GRAM_JOB_MANAGER_STATE_TWO_PHASE
    | GLOBUS_GRAM_JOB_MANAGER_STATE_TWO_PHASE_COMMITTED
    | GLOBUS_GRAM_JOB_MANAGER_STATE_STAGE_IN
    | GLOBUS_GRAM_JOB_MANAGER_STATE_SUBMIT
    | GLOBUS_GRAM_JOB_MANAGER_STATE_POLL1
    | GLOBUS_GRAM_JOB_MANAGER_STATE_POLL_QUERY1
    | GLOBUS_GRAM_JOB_MANAGER_STATE_POLL_QUERY2
    | GLOBUS_GRAM_JOB_MANAGER_STATE_TWO_PHASE_QUERY1
    | GLOBUS_GRAM_JOB_MANAGER_STATE_TWO_PHASE_QUERY2
    | GLOBUS_GRAM_JOB_MANAGER_STATE_TWO_PHASE_PROXY_REFRESH
    | GLOBUS_GRAM_JOB_MANAGER_STATE_PROXY_REFRESH =>
      ({ request1 with
           jobmanager_state := GLOBUS_GRAM_JOB_MANAGER_STATE_STOP
           unsent_status_change := true }, [])
    | GLOBUS_GRAM_JOB_MANAGER_STATE_STAGE_OUT
    | GLOBUS_GRAM_JOB_MANAGER_STATE_CLOSE_OUTPUT
    | GLOBUS_GRAM_JOB_MANAGER_STATE_PRE_CLOSE_OUTPUT =>
      ({ request1 with jobmanager_state := GLOBUS_GRAM_JOB_MANAGER_STATE_STOP }, [])
    | GLOBUS_GRAM_JOB_MANAGER_STATE_TWO_PHASE_END =>
      ({ request1 with jobmanager_state := GLOBUS_GRAM_JOB_MANAGER_STATE_STOP }, [])
    | GLOBUS_GRAM_JOB_MANAGER_STATE_TWO_PHASE_END_COMMITTED =>
      ({ request1 with jobmanager_state := GLOBUS_GRAM_JOB_MANAGER_STATE_STOP }, [])
    | GLOBUS_GRAM_JOB_MANAGER_STATE_FILE_CLEAN_UP =>
      ({ request1 with jobmanager_state := GLOBUS_GRAM_JOB_MANAGER_STATE_STOP }, [])
    | GLOBUS_GRAM_JOB_MANAGER_STATE_SCRATCH_CLEAN_UP =>
      ({ request1 with jobmanager_state := GLOBUS_GRAM_JOB_MANAGER_STATE_STOP }, [])
    | GLOBUS_GRAM_JOB_MANAGER_STATE_CACHE_CLEAN_UP =>
      ({ request1 with jobmanager_state := GLOBUS_GRAM_JOB_MANAGER_STATE_STOP }, [])
    | GLOBUS_GRAM_JOB_MANAGER_STATE_DONE
    | GLOBUS_GRAM_JOB_MANAGER_STATE_FAILED
    | GLOBUS_GRAM_JOB_MANAGER_STATE_FAILED_CLOSE_OUTPUT
    | GLOBUS_GRAM_JOB_MANAGER_STATE_FAILED_TWO_PHASE
    | GLOBUS_GRAM_JOB_MANAGER_STATE_FAILED_TWO_PHASE_COMMITTED
    | GLOBUS_GRAM_JOB_MANAGER_STATE_FAILED_FILE_CLEAN_UP
    | GLOBUS_GRAM_JOB_MANAGER_STATE_FAILED_SCRATCH_CLEAN_UP
    | GLOBUS_GRAM_JOB_MANAGER_STATE_FAILED_CACHE_CLEAN_UP
    | GLOBUS_GRAM_JOB_MANAGER_STATE_FAILED_DONE
    | GLOBUS_GRAM_JOB_MANAGER_STATE_STOP =>
      (request1, [])
  let adjusted : List Call :=
    if switched.1.poll_timer ≠ 0 then
      [Call.globus_callback_adjust_oneshot switched.1.poll_timer]
    else []
  (switched.1,
   [Call.GlobusGramJobManagerRequestLock request.job_contact_path] ++ switched.2 ++
     adjusted ++ [Call.GlobusGramJobManagerRequestUnlock request.job_contact_path])

/-- The `case` labels of the `switch` in `globus_gram_job_manager_stop_all_jobs`,
one list per group of labels that shares a statement list up to its `break`,
in source order. -/
def stop_all_jobs_case_labels : List (List globus_gram_jobmanager_state_t) :=
  [ [GLOBUS_GRAM_JOB_MANAGER_STATE_START],
    [GLOBUS_GRAM_JOB_MANAGER_STATE_POLL2],
    [GLOBUS_GRAM_JOB_MANAGER_STATE_TWO_PHASE,
     GLOBUS_GRAM_JOB_MANAGER_STATE_TWO_PHASE_COMMITTED,
     GLOBUS_GRAM_JOB_MANAGER_STATE_STAGE_IN,
     GLOBUS_GRAM_JOB_MANAGER_STATE_SUBMIT,
     GLOBUS_GRAM_JOB_MANAGER_STATE_POLL1,
     GLOBUS_GRAM_JOB_MANAGER_STATE_POLL_QUERY1,
     GLOBUS_GRAM_JOB_MANAGER_STATE_POLL_QUERY2,
     GLOBUS_GRAM_JOB_MANAGER_STATE_TWO_PHASE_QUERY1,
     GLOBUS_GRAM_JOB_MANAGER_STATE_TWO_PHASE_QUERY2,
     GLOBUS_GRAM_JOB_MANAGER_STATE_TWO_PHASE_PROXY_REFRESH,
     GLOBUS_GRAM_JOB_MANAGER_STATE_PROXY_REFRESH],
    [GLOBUS_GRAM_JOB_MANAGER_STATE_STAGE_OUT,
     GLOBUS_GRAM_JOB_MANAGER_STATE_CLOSE_OUTPUT,
     GLOBUS_GRAM_JOB_MANAGER_STATE_PRE_CLOSE_OUTPUT],
    [GLOBUS_GRAM_JOB_MANAGER_STATE_TWO_PHASE_END],
    [GLOBUS_GRAM_JOB_MANAGER_STATE_TWO_PHASE_END_COMMITTED],
    [GLOBUS_GRAM_JOB_MANAGER_STATE_FILE_CLEAN_UP],
    [GLOBUS_GRAM_JOB_MANAGER_STATE_SCRATCH_CLEAN_UP],
    [GLOBUS_GRAM_JOB_MANAGER_STATE_CACHE_CLEAN_UP],
    [GLOBUS_GRAM_JOB_MANAGER_STATE_DONE,
     GLOBUS_GRAM_JOB_MANAGER_STATE_FAILED,
     GLOBUS_GRAM_JOB_MANAGER_STATE_FAILED_CLOSE_OUTPUT,
     GLOBUS_GRAM_JOB_MANAGER_STATE_FAILED_TWO_PHASE,
     GLOBUS_GRAM_JOB_MANAGER_STATE_FAILED_TWO_PHASE_COMMITTED,
     GLOBUS_GRAM_JOB_MANAGER_STATE_FAILED_FILE_CLEAN_UP,
     GLOBUS_GRAM_JOB_MANAGER_STATE_FAILED_SCRATCH_CLEAN_UP,
     GLOBUS_GRAM_JOB_MANAGER_STATE_FAILED_CACHE_CLEAN_UP,
     GLOBUS_GRAM_JOB_MANAGER_STATE_FAILED_DONE,
     GLOBUS_GRAM_JOB_MANAGER_STATE_STOP] ]

/-- The phases from which the `switch` assigns
`GLOBUS_GRAM_JOB_MANAGER_STATE_STOP`: START, POLL2, the in-flight phases and
the late cleanup phases. -/
def stop_all_jobs_stopping_phases : List globus_gram_jobmanager_state_t :=
  [GLOBUS_GRAM_JOB_MANAGER_STATE_START,
   GLOBUS_GRAM_JOB_MANAGER_STATE_POLL2,
   GLOBUS_GRAM_JOB_MANAGER_STATE_TWO_PHASE,
   GLOBUS_GRAM_JOB_MANAGER_STATE_TWO_PHASE_COMMITTED,
   GLOBUS_GRAM_JOB_MANAGER_STATE_STAGE_IN,
   GLOBUS_GRAM_JOB_MANAGER_STATE_SUBMIT,
   GLOBUS_GRAM_JOB_MANAGER_STATE_POLL1,
   GLOBUS_GRAM_JOB_MANAGER_STATE_POLL_QUERY1,
   GLOBUS_GRAM_JOB_MANAGER_STATE_POLL_QUERY2,
   GLOBUS_GRAM_JOB_MANAGER_STATE_TWO_PHASE_QUERY1,
   GLOBUS_GRAM_JOB_MANAGER_STATE_TWO_PHASE_QUERY2,
   GLOBUS_GRAM_JOB_MANAGER_STATE_TWO_PHASE_PROXY_REFRESH,
   GLOBUS_GRAM_JOB_MANAGER_STATE_PROXY_REFRESH,
   GLOBUS_GRAM_JOB_MANAGER_STATE_STAGE_OUT,
   GLOBUS_GRAM_JOB_MANAGER_STATE_CLOSE_OUTPUT,
   GLOBUS_GRAM_JOB_MANAGER_STATE_PRE_CLOSE_OUTPUT,
   GLOBUS_GRAM_JOB_MANAGER_STATE_TWO_PHASE_END,
   GLOBUS_GRAM_JOB_MANAGER_STATE_TWO_PHASE_END_COMMITTED,
   GLOBUS_GRAM_JOB_MANAGER_STATE_FILE_CLEAN_UP,
   GLOBUS_GRAM_JOB_MANAGER_STATE_SCRATCH_CLEAN_UP,
   GLOBUS_GRAM_JOB_MANAGER_STATE_CACHE_CLEAN_UP]

/-- First loop of `globus_gram_job_manager_stop_all_jobs`: one forced
reference per entry of the snapshot `job_refs`. `none` is the failed
`assert(rc == GLOBUS_SUCCESS)`. -/
def stop_all_jobs_add_references (env : Env) :
    globus_gram_job_manager_t → List globus_gram_job_manager_ref_t →
      Option (globus_gram_job_manager_t × List Call)
  | manager, [] => some (manager, [])
  | manager, ref :: tmp =>
    match globus_l_gram_add_reference_locked env manager ref.key false with
    | none => none
    | some o =>
      if o.rc = GLOBUS_SUCCESS then
        match stop_all_jobs_add_references env o.manager tmp with
        | none => none
        | some (manager1, calls) => some (manager1, o.calls ++ calls)
      else none

/-- Second loop of `globus_gram_job_manager_stop_all_jobs`: for each entry of
the snapshot, force the phase of its job and release the forced reference.
The entry is read through the snapshot's pointer, that is, it is the table's
current entry for that key; `none` is the path on which that entry is gone or
its `request` is NULL. -/
def stop_all_jobs_stop_requests (env : Env) :
    globus_gram_job_manager_t → List globus_gram_job_manager_ref_t →
      Option (globus_gram_job_manager_t × List Call)
  | manager, [] => some (manager, [])
  | manager, ref :: tmp =>
    match request_hash_lookup manager.request_hash ref.key with
    | none => none
    | some cur =>
      match cur.request with
      | none => none
      | some request =>
        let stopped := stop_all_jobs_request env request
        let manager1 := { manager with
          request_hash :=
            request_hash_store manager.request_hash { cur with request := some stopped.1 } }
        match globus_gram_job_manager_remove_reference env manager1 ref.key with
        | none => none
        | some o =>
          match stop_all_jobs_stop_requests env o.manager tmp with
          | none => none
          | some (manager2, calls) => some (manager2, stopped.2 ++ o.calls ++ calls)

/-- `globus_gram_job_manager_stop_all_jobs`. The snapshot `job_refs` made by
`globus_hashtable_to_list` is the list of the table's entries. -/
def globus_gram_job_manager_stop_all_jobs (env : Env)
    (manager : globus_gram_job_manager_t) :
    Option (globus_gram_job_manager_t × List Call) :=
  let manager1 := { manager with stop := true }
  let job_refs := manager1.request_hash
  match stop_all_jobs_add_references env manager1 job_refs with
  | none => none
  | some (manager2, calls1) =>
    match stop_all_jobs_stop_requests env manager2 job_refs with
    | none => none
    | some (manager3, calls2) =>
      some (manager3,
        [Call.GlobusGramJobManagerLock] ++ calls1 ++ [Call.GlobusGramJobManagerUnlock] ++
          calls2)

/-! ## LRM job ids -/

/-- The tokens `strtok_r(.., ",", ..)` yields on a string: its maximal runs of
characters other than `sep`, in order. `acc` is the current run, reversed. -/
def strtok_r_tokens (sep : Char) : List Char → List Char → List String
  | [], acc => if acc = [] then [] else [String.mk acc.reverse]
  | c :: cs, acc =>
    if c = sep then
      if acc = [] then strtok_r_tokens sep cs []
      else String.mk acc.reverse :: strtok_r_tokens sep cs []
    else strtok_r_tokens sep cs (c :: acc)

/-- Modelled from the spec: `globus_list_insert` (globus_common) is not part
of the sources. This is a successful insertion that puts the new element at
the head of the list. Where a statement depends on the position of the new
element or on a failing insertion, the library is a parameter instead
(`SubjobsLibrary`). -/
def globus_list_insert (list : List String) (datum : String) : List String :=
  datum :: list

/-- `globus_gram_split_subjobs` on the path on which every `strdup` and every
insertion succeeds: the list left in `*subjobs`, one `globus_list_insert` per
token. The failure paths are in `globus_gram_split_subjobs_call`. -/
def globus_gram_split_subjobs (job_id : String) : List String :=
  (strtok_r_tokens ',' job_id.data []).foldl globus_list_insert []

/-- The `for` loop of `globus_gram_job_manager_register_job_id` over the
sub-ids, on the paths on which `malloc` and `strdup` succeed: the result code
and the job-id table when the loop is left. The allocation failures are in
`register_job_id_loop_call`. -/
def register_job_id_loop (request : globus_gram_jobmanager_request_t) :
    List globus_gram_job_id_ref_t → List String →
      globus_gram_protocol_error_t × List globus_gram_job_id_ref_t
  | table, [] => (GLOBUS_SUCCESS, table)
  | table, subjob_id :: tmp_list =>
    match job_id_hash_lookup table subjob_id with
    | some old_ref =>
      if old_ref.job_contact_path ≠ request.job_contact_path then
        (GLOBUS_GRAM_PROTOCOL_ERROR_MALLOC_FAILED, table)
      else
        (GLOBUS_SUCCESS, table)
    | none =>
      match job_id_hash_insert table
          { job_id := subjob_id, job_contact_path := request.job_contact_path } with
      | none => (GLOBUS_GRAM_PROTOCOL_ERROR_MALLOC_FAILED, table)
      | some table1 => register_job_id_loop request table1 tmp_list

/-- `globus_gram_job_manager_register_job_id` on the paths on which every
allocation before the loop succeeds, so that the mutex is taken and the loop
runs. The returns before `GlobusGramJobManagerLock` and the allocation failures
are in `globus_gram_job_manager_register_job_id_call`, which is this function
when the library never fails (`register_job_id_call_no_failure`). -/
def globus_gram_job_manager_register_job_id (manager : globus_gram_job_manager_t)
    (job_id : String) (request : globus_gram_jobmanager_request_t) : Outcome Unit :=
  let subjobs : List String :=
    if manager.config.seg_module ≠ none then globus_gram_split_subjobs job_id
    else globus_list_insert [] job_id
  let looped := register_job_id_loop request manager.job_id_hash subjobs
  { rc := looped.1, out := none
    manager := { manager with job_id_hash := looped.2 }
    calls := [Call.GlobusGramJobManagerLock, Call.GlobusGramJobManagerUnlock] }

/-! ## Adding a request, cached status, job-id resolution, grace period -/

/-- Modelled from the spec: `globus_hashtable_insert` (globus_common, not part
of the sources) on the request table: refuses a key that is already present,
otherwise adds the entry. -/
def request_hash_insert (table : List globus_gram_job_manager_ref_t)
    (ref : globus_gram_job_manager_ref_t) : Option (List globus_gram_job_manager_ref_t) :=
  match request_hash_lookup table ref.key with
  | some _ => none
  | none => some (ref :: table)

/-- Modelled from the spec: `globus_hashtable_remove` (globus_common, not part
of the sources) on the LRM job-id table: the table without the entry stored
under the id. -/
def job_id_hash_remove :
    List globus_gram_job_id_ref_t → String → List globus_gram_job_id_ref_t
  | [], _ => []
  | e :: es, job_id => if e.job_id = job_id then es else e :: job_id_hash_remove es job_id

/-- The registry fields of the manager as `globus_gram_job_manager_init` leaves
them when it succeeds; `url_base` is the contact that
`globus_gram_protocol_allow_attach` wrote. -/
def globus_gram_job_manager_init (config : globus_gram_job_manager_config_t)
    (url_base : String) : globus_gram_job_manager_t :=
  { config := config
    url_base := url_base
    request_hash := []
    job_id_hash := []
    stop := false
    done := false
    grace_period_timer := GLOBUS_NULL_HANDLE
    seg_started := false
    seg_last_timestamp := 0 }

/-- The entry that `globus_gram_job_manager_add_request` fills in before it
inserts it. -/
def add_request_ref (key : String) (request : globus_gram_jobmanager_request_t) :
    globus_gram_job_manager_ref_t :=
  { key := key
    request := some request
    reference_count := 0
    cleanup_timer := GLOBUS_NULL_HANDLE
    job_state := request.status
    failure_code := request.failure_code }

/-- `globus_gram_job_manager_add_request`. `request` is the (non-NULL) job
record to add. -/
def globus_gram_job_manager_add_request (manager : globus_gram_job_manager_t)
    (key : String) (request : globus_gram_jobmanager_request_t) : Outcome Unit :=
  if manager.stop then
    { rc := GLOBUS_GRAM_PROTOCOL_ERROR_JM_STOPPED, out := none, manager := manager
      calls := [Call.GlobusGramJobManagerLock, Call.GlobusGramJobManagerUnlock] }
  else
    let ref := add_request_ref key request
    if manager.grace_period_timer ≠ GLOBUS_NULL_HANDLE then
      if manager.done then
        { rc := GLOBUS_GRAM_PROTOCOL_ERROR_MALLOC_FAILED, out := none, manager := manager
          calls := [Call.GlobusGramJobManagerLock,
            Call.globus_callback_unregister manager.grace_period_timer,
            Call.GlobusGramJobManagerUnlock] }
      else
        let manager1 := { manager with grace_period_timer := GLOBUS_NULL_HANDLE }
        match request_hash_insert manager1.request_hash ref with
        | some table =>
          { rc := GLOBUS_SUCCESS, out := none
            manager := { manager1 with request_hash := table }
            calls := [Call.GlobusGramJobManagerLock,
              Call.globus_callback_unregister manager.grace_period_timer,
              Call.GlobusGramJobManagerUnlock] }
        | none =>
          { rc := GLOBUS_GRAM_PROTOCOL_ERROR_MALLOC_FAILED, out := none, manager := manager1
            calls := [Call.GlobusGramJobManagerLock,
              Call.globus_callback_unregister manager.grace_period_timer,
              Call.GlobusGramJobManagerUnlock] }
    else
      match request_hash_insert manager.request_hash ref with
      | some table =>
        { rc := GLOBUS_SUCCESS, out := none
          manager := { manager with request_hash := table }
          calls := [Call.GlobusGramJobManagerLock, Call.GlobusGramJobManagerUnlock] }
      | none =>
        { rc := GLOBUS_GRAM_PROTOCOL_ERROR_MALLOC_FAILED, out := none, manager := manager
          calls := [Call.GlobusGramJobManagerLock, Call.GlobusGramJobManagerUnlock] }

/-- `globus_gram_job_manager_add_reference_by_jobid`. It first writes NULL to
`*request` (when `request` is not NULL), so `out` is that NULL unless
`globus_l_gram_add_reference_locked` writes the handle again. It takes no
lock of its own. -/
def globus_gram_job_manager_add_reference_by_jobid (env : Env)
    (manager : globus_gram_job_manager_t) (jobid : String) (request : Bool) :
    Option (Outcome (Option globus_gram_jobmanager_request_t)) :=
  let cleared : Option (Option globus_gram_jobmanager_request_t) :=
    if request then some none else none
  if manager.stop then
    some { rc := GLOBUS_GRAM_PROTOCOL_ERROR_JM_STOPPED, out := cleared
           manager := manager, calls := [] }
  else
    match job_id_hash_lookup manager.job_id_hash jobid with
    | none =>
      some { rc := GLOBUS_GRAM_PROTOCOL_ERROR_JOB_CONTACT_NOT_FOUND, out := cleared
             manager := manager, calls := [] }
    | some jobref =>
      match globus_l_gram_add_reference_locked env manager jobref.job_contact_path request with
      | none => none
      | some o =>
        some { o with
          out := match o.out with
            | some written => some written
            | none => cleared }

/-- `globus_gram_job_manager_set_status`. -/
def globus_gram_job_manager_set_status (manager : globus_gram_job_manager_t)
    (key : String) (state : Int) (failure_code : Int) : Outcome Unit :=
  match request_hash_lookup manager.request_hash key with
  | none =>
    { rc := GLOBUS_GRAM_PROTOCOL_ERROR_JOB_CONTACT_NOT_FOUND, out := none
      manager := manager
      calls := [Call.GlobusGramJobManagerLock, Call.GlobusGramJobManagerUnlock] }
  | some ref =>
    { rc := GLOBUS_SUCCESS, out := none
      manager := { manager with
        request_hash := request_hash_store manager.request_hash
          { ref with job_state := state, failure_code := failure_code } }
      calls := [Call.GlobusGramJobManagerLock, Call.GlobusGramJobManagerUnlock] }

/-- `globus_gram_job_manager_unregister_job_id`; `job_id` is `none` for a
NULL pointer. -/
def globus_gram_job_manager_unregister_job_id (manager : globus_gram_job_manager_t)
    (job_id : Option String) : Outcome Unit :=
  match job_id with
  | none =>
    { rc := GLOBUS_GRAM_PROTOCOL_ERROR_JOB_CONTACT_NOT_FOUND, out := none
      manager := manager, calls := [] }
  | some id =>
    match job_id_hash_lookup manager.job_id_hash id with
    | none =>
      { rc := GLOBUS_GRAM_PROTOCOL_ERROR_JOB_CONTACT_NOT_FOUND, out := none
        manager := manager
        calls := [Call.GlobusGramJobManagerLock, Call.GlobusGramJobManagerUnlock] }
    | some _ =>
      { rc := GLOBUS_SUCCESS, out := none
        manager := { manager with job_id_hash := job_id_hash_remove manager.job_id_hash id }
        calls := [Call.GlobusGramJobManagerLock, Call.GlobusGramJobManagerUnlock] }

/-- `globus_l_gram_job_manager_grace_period_expired`, the one-shot registered
by `globus_gram_job_manager_set_grace_period_timer`. -/
def globus_l_gram_job_manager_grace_period_expired (manager : globus_gram_job_manager_t) :
    globus_gram_job_manager_t × List Call :=
  if manager.grace_period_timer ≠ GLOBUS_NULL_HANDLE then
    if manager.request_hash.isEmpty then
      ({ manager with done := true, grace_period_timer := GLOBUS_NULL_HANDLE },
       [Call.GlobusGramJobManagerLock,
        Call.globus_callback_unregister manager.grace_period_timer,
        Call.globus_cond_signal,
        Call.GlobusGramJobManagerUnlock])
    else
      ({ manager with grace_period_timer := GLOBUS_NULL_HANDLE },
       [Call.GlobusGramJobManagerLock,
        Call.globus_callback_unregister manager.grace_period_timer,
        Call.GlobusGramJobManagerUnlock])
  else (manager, [Call.GlobusGramJobManagerLock, Call.GlobusGramJobManagerUnlock])

/-! ## Sequences of lease calls -/

/-- One call of a sequence of lease calls on a key, with the collaborators'
responses during that call: `AcquireLease` is
`globus_gram_job_manager_add_reference`, `ReleaseLease` is
`globus_gram_job_manager_remove_reference`. -/
inductive LeaseCall
  | AcquireLease (env : Env)
  | ReleaseLease (env : Env)

/-- Tally of a sequence of lease calls: the manager it leaves, the number of
acquires that returned `GLOBUS_SUCCESS` and the number of releases made. -/
structure LeaseTally where
  manager : globus_gram_job_manager_t
  acquired : Nat
  released : Nat

/-- Runs a sequence of lease calls on `key`, left to right. -/
def lease_calls (key : String) :
    globus_gram_job_manager_t → List LeaseCall → Option LeaseTally
  | manager, [] => some { manager := manager, acquired := 0, released := 0 }
  | manager, LeaseCall.AcquireLease env :: rest =>
    match globus_gram_job_manager_add_reference env manager key true with
    | none => none
    | some o =>
      match lease_calls key o.manager rest with
      | none => none
      | some t =>
        some { t with acquired := t.acquired + (if o.rc = GLOBUS_SUCCESS then 1 else 0) }
  | manager, LeaseCall.ReleaseLease env :: rest =>
    match globus_gram_job_manager_remove_reference env manager key with
    | none => none
    | some o =>
      match lease_calls key o.manager rest with
      | none => none
      | some t => some { t with released := t.released + 1 }

/-- The hashtable discipline on the request table: no key is stored twice
(`globus_hashtable_insert` refuses a key that is present). -/
def request_hash_wf (table : List globus_gram_job_manager_ref_t) : Prop :=
  (table.map (fun e => e.key)).Nodup

instance (table : List globus_gram_job_manager_ref_t) : Decidable (request_hash_wf table) := by
  unfold request_hash_wf; infer_instance

/-- One step of the registry: a call of one of its operations, the firing of
one of its two callbacks, a holder of a job writing to the resident job
record, or code outside the registry writing the manager's SEG fields. The
step ends in the manager that the operation leaves. -/
inductive Step : globus_gram_job_manager_t → globus_gram_job_manager_t → Prop
  | add_request (manager : globus_gram_job_manager_t) (key : String)
      (request : globus_gram_jobmanager_request_t) :
      Step manager (globus_gram_job_manager_add_request manager key request).manager
  | add_reference (env : Env) (manager : globus_gram_job_manager_t) (key : String)
      (request : Bool) (manager2 : globus_gram_job_manager_t) :
      (globus_gram_job_manager_add_reference env manager key request).map
          (fun o => o.manager) = some manager2 →
      Step manager manager2
  | add_reference_by_jobid (env : Env) (manager : globus_gram_job_manager_t)
      (jobid : String) (request : Bool) (manager2 : globus_gram_job_manager_t) :
      (globus_gram_job_manager_add_reference_by_jobid env manager jobid request).map
          (fun o => o.manager) = some manager2 →
      Step manager manager2
  | remove_reference (env : Env) (manager : globus_gram_job_manager_t) (key : String)
      (manager2 : globus_gram_job_manager_t) :
      (globus_gram_job_manager_remove_reference env manager key).map
          (fun o => o.manager) = some manager2 →
      Step manager manager2
  | register_job_id (manager : globus_gram_job_manager_t) (job_id : String)
      (request : globus_gram_jobmanager_request_t) :
      Step manager (globus_gram_job_manager_register_job_id manager job_id request).manager
  | unregister_job_id (manager : globus_gram_job_manager_t) (job_id : Option String) :
      Step manager (globus_gram_job_manager_unregister_job_id manager job_id).manager
  | set_status (manager : globus_gram_job_manager_t) (key : String) (state : Int)
      (failure_code : Int) :
      Step manager (globus_gram_job_manager_set_status manager key state failure_code).manager
  | stop_all_jobs (env : Env) (manager manager2 : globus_gram_job_manager_t)
      (calls : List Call) :
      globus_gram_job_manager_stop_all_jobs env manager = some (manager2, calls) →
      Step manager manager2
  | ref_swap_out (env : Env) (manager : globus_gram_job_manager_t) (key : String)
      (manager2 : globus_gram_job_manager_t) (calls : List Call) :
      globus_l_gram_ref_swap_out env manager key = some (manager2, calls) →
      Step manager manager2
  | grace_period_expired (manager : globus_gram_job_manager_t) :
      Step manager (globus_l_gram_job_manager_grace_period_expired manager).1
  | job_written (manager : globus_gram_job_manager_t) (key : String)
      (ref : globus_gram_job_manager_ref_t)
      (job job2 : globus_gram_jobmanager_request_t) :
      request_hash_lookup manager.request_hash key = some ref →
      ref.request = some job →
      Step manager
        { manager with
          request_hash := request_hash_store manager.request_hash
            { ref with request := some job2 } }
  | seg_written (manager : globus_gram_job_manager_t) (seg_started : Bool)
      (seg_last_timestamp : Nat) :
      Step manager
        { manager with seg_started := seg_started, seg_last_timestamp := seg_last_timestamp }

/-- The manager states that a freshly initialised manager reaches in finitely
many steps. -/
def Reachable (manager : globus_gram_job_manager_t) : Prop :=
  ∃ config url_base,
    Relation.ReflTransGen Step (globus_gram_job_manager_init config url_base) manager

/-- Every swapped-out entry of the table has the null handle in its
`cleanup_timer`. -/
def swapped_out_disarmed (table : List globus_gram_job_manager_ref_t) : Prop :=
  ∀ e ∈ table, e.request = none → e.cleanup_timer = GLOBUS_NULL_HANDLE

/-- With the SEG configured, every id in the LRM job-id table is one sub-id:
not empty and without a comma. -/
def job_ids_single (manager : globus_gram_job_manager_t) : Prop :=
  manager.config.seg_module ≠ none →
    ∀ e ∈ manager.job_id_hash, e.job_id.data ≠ [] ∧ ',' ∉ e.job_id.data

/-! ## Sample states -/

/-- A job record for the contact path `/1/2/` in the given phase. -/
def sample_request (phase : globus_gram_jobmanager_state_t) :
    globus_gram_jobmanager_request_t :=
  { job_contact_path := "/1/2/"
    jobmanager_state := phase
    restart_state := GLOBUS_GRAM_JOB_MANAGER_STATE_START
    status := 2
    failure_code := 0
    stop_reason := GLOBUS_SUCCESS
    unsent_status_change := false
    poll_timer := 0
    seg_last_timestamp := 0 }

/-- A table entry under the given key. -/
def sample_ref (key : String) (request : Option globus_gram_jobmanager_request_t)
    (reference_count : Int) (cleanup_timer : Int) : globus_gram_job_manager_ref_t :=
  { key := key
    request := request
    reference_count := reference_count
    cleanup_timer := cleanup_timer
    job_state := 2
    failure_code := 0 }

/-- A running manager with the SEG configured and started, holding the given
request table and no LRM job ids. -/
def sample_manager (request_hash : List globus_gram_job_manager_ref_t) :
    globus_gram_job_manager_t :=
  { config := { seg_module := some "pbs" }
    url_base := "https://gram.example.org:2119"
    request_hash := request_hash
    job_id_hash := []
    stop := false
    done := false
    grace_period_timer := GLOBUS_NULL_HANDLE
    seg_started := true
    seg_last_timestamp := 0 }

/-- Collaborators that all succeed: every reload yields a job whose restart
phase is POLL2, every one-shot gets the handle 7. -/
def sample_env : Env :=
  { globus_gram_job_manager_request_init := fun _ =>
      some { sample_request GLOBUS_GRAM_JOB_MANAGER_STATE_START with
        restart_state := GLOBUS_GRAM_JOB_MANAGER_STATE_POLL2 }
    globus_callback_register_oneshot := fun _ => some 7
    globus_gram_job_manager_state_file_write := fun _ => GLOBUS_SUCCESS
    globus_gram_job_manager_state_machine_register := fun _ => 9 }

/-- Collaborators that all fail: no reload, no one-shot, no state file. -/
def sample_env_failing : Env :=
  { globus_gram_job_manager_request_init := fun _ => none
    globus_callback_register_oneshot := fun _ => none
    globus_gram_job_manager_state_file_write := fun _ =>
      GLOBUS_GRAM_PROTOCOL_ERROR_MALLOC_FAILED
    globus_gram_job_manager_state_machine_register := fun _ => 0 }

/-- A stopping manager in which the LRM id `A` is registered to the resident
job `/1/2/`. -/
def sample_manager_stopping : globus_gram_job_manager_t :=
  { sample_manager
      [sample_ref "/1/2/" (some (sample_request GLOBUS_GRAM_JOB_MANAGER_STATE_POLL2)) 0 0] with
    job_id_hash := [{ job_id := "A", job_contact_path := "/1/2/" }]
    stop := true }

/-- A running manager in which the LRM id `A` is registered to the resident
job `/1/2/`. -/
def sample_manager_registered : globus_gram_job_manager_t :=
  { sample_manager
      [sample_ref "/1/2/" (some (sample_request GLOBUS_GRAM_JOB_MANAGER_STATE_POLL2)) 0 0] with
    job_id_hash := [{ job_id := "A", job_contact_path := "/1/2/" }] }

/-- `globus_gram_job_manager_request_exists` as a call: the manager it leaves,
the `globus_bool_t` it returns and the calls it makes. -/
def globus_gram_job_manager_request_exists_call (manager : globus_gram_job_manager_t)
    (key : String) : globus_gram_job_manager_t × Bool × List Call :=
  (manager, globus_gram_job_manager_request_exists manager key,
   [Call.GlobusGramJobManagerLock, Call.GlobusGramJobManagerUnlock])

/-- Modelled from the spec: the allocator behind `strdup` and
`globus_list_insert` (libc, globus_common) is not part of the sources.
`strdup s` tells whether the copy of `s` is made (`false`: it returns NULL),
`globus_list_insert list datum` whether the new list cell is allocated
(`false`: it returns a failure code). -/
structure Allocator where
  strdup : String → Bool
  globus_list_insert : List String → String → Bool

/-- The `for` loop of `globus_gram_job_manager_get_job_id_list` over the
entries of the job-id table, with the list built so far: the result code and
the list left in `*job_id_list` (on a failed allocation the list is destroyed
and `*job_id_list` is NULL, the empty list). -/
def get_job_id_list_loop (alloc : Allocator) :
    List globus_gram_job_id_ref_t → List String →
      globus_gram_protocol_error_t × List String
  | [], job_id_list => (GLOBUS_SUCCESS, job_id_list)
  | ref :: rest, job_id_list =>
    if alloc.strdup ref.job_id then
      if alloc.globus_list_insert job_id_list ref.job_id then
        get_job_id_list_loop alloc rest (globus_list_insert job_id_list ref.job_id)
      else (GLOBUS_GRAM_PROTOCOL_ERROR_MALLOC_FAILED, [])
    else (GLOBUS_GRAM_PROTOCOL_ERROR_MALLOC_FAILED, [])

/-- `globus_gram_job_manager_get_job_id_list`; `out` is the list written to
`*job_id_list`. `globus_hashtable_first`/`globus_hashtable_next` walk the
entries of the table. -/
def globus_gram_job_manager_get_job_id_list (alloc : Allocator)
    (manager : globus_gram_job_manager_t) : Outcome (List String) :=
  let looped := get_job_id_list_loop alloc manager.job_id_hash []
  { rc := looped.1, out := some looped.2, manager := manager
    calls := [Call.GlobusGramJobManagerLock, Call.GlobusGramJobManagerUnlock] }

/-- The hashtable discipline on the LRM job-id table: no id is stored twice
(`globus_hashtable_insert` refuses an id that is present). -/
def job_id_hash_wf (table : List globus_gram_job_id_ref_t) : Prop :=
  (table.map (fun e => e.job_id)).Nodup

instance (table : List globus_gram_job_id_ref_t) : Decidable (job_id_hash_wf table) := by
  unfold job_id_hash_wf; infer_instance

/-- An allocator that never fails. -/
def sample_allocator : Allocator :=
  { strdup := fun _ => true
    globus_list_insert := fun _ _ => true }

/-- The job that the first loop of `globus_gram_job_manager_stop_all_jobs`
leaves resident in an entry, that is, the job the second loop finds: a resident
job as it is, a swapped-out one as `globus_l_gram_add_reference_locked` reloads
it (in its restart phase). `none`: the reload fails. -/
def stop_all_jobs_resident_job (env : Env) (manager : globus_gram_job_manager_t)
    (ref : globus_gram_job_manager_ref_t) : Option globus_gram_jobmanager_request_t :=
  match ref.request with
  | some job => some job
  | none =>
    (globus_l_gram_restart_job env manager (key_plus_1 ref.key)).map
      (fun loaded => { loaded with jobmanager_state := loaded.restart_state })

/-- The key `globus_gram_job_manager_request_load_all` builds for a state file:
the two numbers of its name in decimal, each followed by a slash
(`"%"PRIu64"/%"PRIu64"/"`). -/
def request_load_all_key (uniq1 uniq2 : Nat) : String :=
  toString uniq1 ++ "/" ++ toString uniq2 ++ "/"

/-- The `while` loop of `globus_gram_job_manager_request_load_all` over the
names `readdir` yields. A name is given as the `sscanf` of the state file
pattern sees it: `none` when it does not match, the two numbers when it does.
`requests` is the list built so far. `none` is the path on which
`globus_list_insert` fails: the job is freed and its `seg_last_timestamp` is
read all the same. -/
def request_load_all_loop (env : Env) (alloc : Allocator) :
    globus_gram_job_manager_t → List (Option (Nat × Nat)) →
      List globus_gram_jobmanager_request_t →
      Option (globus_gram_job_manager_t × List globus_gram_jobmanager_request_t)
  | manager, [], requests => some (manager, requests)
  | manager, none :: rest, requests => request_load_all_loop env alloc manager rest requests
  | manager, some (uniq1, uniq2) :: rest, requests =>
    match globus_l_gram_restart_job env manager (request_load_all_key uniq1 uniq2) with
    | none => request_load_all_loop env alloc manager rest requests
    | some request =>
      if alloc.globus_list_insert (requests.map (fun r => r.job_contact_path))
          request.job_contact_path then
        let manager1 :=
          if manager.seg_last_timestamp = 0 ∨
              manager.seg_last_timestamp > request.seg_last_timestamp then
            { manager with seg_last_timestamp := request.seg_last_timestamp }
          else manager
        request_load_all_loop env alloc manager1 rest (request :: requests)
      else none

/-- `globus_gram_job_manager_request_load_all`, once the state directory is
open; `entries` are the names in it and `out` is the list written to
`*requests`. It returns 0 whatever happened in the loop. -/
def globus_gram_job_manager_request_load_all (env : Env) (alloc : Allocator)
    (manager : globus_gram_job_manager_t) (entries : List (Option (Nat × Nat))) :
    Option (Outcome (List globus_gram_jobmanager_request_t)) :=
  match request_load_all_loop env alloc manager entries [] with
  | none => none
  | some (manager1, requests) =>
    some { rc := GLOBUS_SUCCESS, out := some requests, manager := manager1, calls := [] }

/-- Following the claim's words: the non-empty segments obtained by splitting
the raw id on `','`, in order. -/
def nonempty_comma_segments (raw : String) : List String :=
  ((raw.data.splitOn ',').filter (fun segment => !segment.isEmpty)).map String.mk

/-- A loader for two state files: the job `1/2/` comes back with
`seg_last_timestamp` 0, every other job with 5. -/
def sample_env_timestamps : Env :=
  { sample_env with
    globus_gram_job_manager_request_init := fun rsl =>
      if rsl = "&(restart = 'https://gram.example.org:21191/2/')(restartcontacts = yes)" then
        some { sample_request GLOBUS_GRAM_JOB_MANAGER_STATE_POLL2 with seg_last_timestamp := 0 }
      else
        some { sample_request GLOBUS_GRAM_JOB_MANAGER_STATE_POLL2 with
          job_contact_path := "/3/4/", seg_last_timestamp := 5 } }

/-- The calls of a trace that take or release the manager mutex, in order. -/
def lock_trace (calls : List Call) : List Call :=
  calls.filter
    (fun c => decide (c = Call.GlobusGramJobManagerLock) ||
      decide (c = Call.GlobusGramJobManagerUnlock))

/-- A trace of an operation that takes the manager mutex first, releases it
last, and takes and releases it once. -/
def locked_once (calls : List Call) : Prop :=
  calls.head? = some Call.GlobusGramJobManagerLock ∧
    calls.getLast? = some Call.GlobusGramJobManagerUnlock ∧
    lock_trace calls = [Call.GlobusGramJobManagerLock, Call.GlobusGramJobManagerUnlock]

instance (calls : List Call) : Decidable (locked_once calls) := by
  unfold locked_once; infer_instance

/-- Runs a trace against the manager mutex, which is held `depth` times at the
start (0 or 1): the depth at the end; `none` when the trace takes the mutex
while it holds it or releases it while it does not. -/
def lock_depth : List Call → Nat → Option Nat
  | [], depth => some depth
  | c :: rest, depth =>
    if c = Call.GlobusGramJobManagerLock then
      if depth = 0 then lock_depth rest 1 else none
    else if c = Call.GlobusGramJobManagerUnlock then
      if depth = 1 then lock_depth rest 0 else none
    else lock_depth rest depth

/-- The lease invariant of the request table: no reference count is negative,
and an entry whose job is absent or whose swap-out timer is armed has the
reference count 0. -/
def lease_invariant (table : List globus_gram_job_manager_ref_t) : Prop :=
  ∀ e ∈ table, 0 ≤ e.reference_count ∧
    ((e.request = none ∨ e.cleanup_timer ≠ GLOBUS_NULL_HANDLE) → e.reference_count = 0)

/-- One step of a manager whose callers release only leases they hold: the
steps of `Step`, with `globus_gram_job_manager_remove_reference` called only on
a key whose entry has a reference count of at least 1. -/
inductive LeaseStep : globus_gram_job_manager_t → globus_gram_job_manager_t → Prop
  | add_request (manager : globus_gram_job_manager_t) (key : String)
      (request : globus_gram_jobmanager_request_t) :
      LeaseStep manager (globus_gram_job_manager_add_request manager key request).manager
  | add_reference (env : Env) (manager : globus_gram_job_manager_t) (key : String)
      (request : Bool) (manager2 : globus_gram_job_manager_t) :
      (globus_gram_job_manager_add_reference env manager key request).map
          (fun o => o.manager) = some manager2 →
      LeaseStep manager manager2
  | add_reference_by_jobid (env : Env) (manager : globus_gram_job_manager_t)
      (jobid : String) (request : Bool) (manager2 : globus_gram_job_manager_t) :
      (globus_gram_job_manager_add_reference_by_jobid env manager jobid request).map
          (fun o => o.manager) = some manager2 →
      LeaseStep manager manager2
  | remove_reference (env : Env) (manager : globus_gram_job_manager_t) (key : String)
      (ref : globus_gram_job_manager_ref_t) (manager2 : globus_gram_job_manager_t) :
      request_hash_lookup manager.request_hash key = some ref →
      1 ≤ ref.reference_count →
      (globus_gram_job_manager_remove_reference env manager key).map
          (fun o => o.manager) = some manager2 →
      LeaseStep manager manager2
  | register_job_id (manager : globus_gram_job_manager_t) (job_id : String)
      (request : globus_gram_jobmanager_request_t) :
      LeaseStep manager
        (globus_gram_job_manager_register_job_id manager job_id request).manager
  | unregister_job_id (manager : globus_gram_job_manager_t) (job_id : Option String) :
      LeaseStep manager (globus_gram_job_manager_unregister_job_id manager job_id).manager
  | set_status (manager : globus_gram_job_manager_t) (key : String) (state : Int)
      (failure_code : Int) :
      LeaseStep manager
        (globus_gram_job_manager_set_status manager key state failure_code).manager
  | stop_all_jobs (env : Env) (manager manager2 : globus_gram_job_manager_t)
      (calls : List Call) :
      globus_gram_job_manager_stop_all_jobs env manager = some (manager2, calls) →
      LeaseStep manager manager2
  | ref_swap_out (env : Env) (manager : globus_gram_job_manager_t) (key : String)
      (manager2 : globus_gram_job_manager_t) (calls : List Call) :
      globus_l_gram_ref_swap_out env manager key = some (manager2, calls) →
      LeaseStep manager manager2
  | grace_period_expired (manager : globus_gram_job_manager_t) :
      LeaseStep manager (globus_l_gram_job_manager_grace_period_expired manager).1
  | job_written (manager : globus_gram_job_manager_t) (key : String)
      (ref : globus_gram_job_manager_ref_t)
      (job job2 : globus_gram_jobmanager_request_t) :
      request_hash_lookup manager.request_hash key = some ref →
      ref.request = some job →
      LeaseStep manager
        { manager with
          request_hash := request_hash_store manager.request_hash
            { ref with request := some job2 } }
  | seg_written (manager : globus_gram_job_manager_t) (seg_started : Bool)
      (seg_last_timestamp : Nat) :
      LeaseStep manager
        { manager with seg_started := seg_started, seg_last_timestamp := seg_last_timestamp }

/-- The manager states that a freshly initialised manager reaches in finitely
many steps when its callers release only leases they hold. -/
def LeaseReachable (manager : globus_gram_job_manager_t) : Prop :=
  ∃ config url_base,
    Relation.ReflTransGen LeaseStep (globus_gram_job_manager_init config url_base) manager

/-! ## LRM job ids: the library as a parameter -/

/-- The library calls of `globus_gram_job_manager_register_job_id` and
`globus_gram_split_subjobs` that are not part of the sources (libc,
globus_common), as parameters.

* `strdup s`: whether the copy of `s` is allocated.
* `malloc subjob_id`: whether the `globus_gram_job_id_ref_t` for this sub-id is
  allocated.
* `globus_list_insert list datum`: the list after the insertion, with the new
  element wherever the library puts it, or `none` when the insertion fails. -/
structure SubjobsLibrary where
  strdup : String → Bool
  malloc : String → Bool
  globus_list_insert : List String → String → Option (List String)

/-- The `for` loop of `globus_gram_split_subjobs` over the tokens that
`strtok_r` yields: `none` when a `strdup` or an insertion fails. -/
def split_subjobs_loop (lib : SubjobsLibrary) : List String → List String → Option (List String)
  | subjobs, [] => some subjobs
  | subjobs, job_id_string :: rest =>
    if lib.strdup job_id_string then
      match lib.globus_list_insert subjobs job_id_string with
      | some subjobs1 => split_subjobs_loop lib subjobs1 rest
      | none => none
    else none

/-- `globus_gram_split_subjobs` with its failures: the list left in `*subjobs`
when it returns `GLOBUS_SUCCESS`; `none` when it returns
`GLOBUS_GRAM_PROTOCOL_ERROR_MALLOC_FAILED`, its only failure code, and leaves
`*subjobs` NULL. -/
def globus_gram_split_subjobs_call (lib : SubjobsLibrary) (job_id : String) :
    Option (List String) :=
  if lib.strdup job_id then split_subjobs_loop lib [] (strtok_r_tokens ',' job_id.data [])
  else none

/-- The `for` loop of `globus_gram_job_manager_register_job_id` over the
sub-ids with its allocations: the result code and the job-id table when the
loop is left. -/
def register_job_id_loop_call (lib : SubjobsLibrary)
    (request : globus_gram_jobmanager_request_t) :
    List globus_gram_job_id_ref_t → List String →
      globus_gram_protocol_error_t × List globus_gram_job_id_ref_t
  | table, [] => (GLOBUS_SUCCESS, table)
  | table, subjob_id :: tmp_list =>
    match job_id_hash_lookup table subjob_id with
    | some old_ref =>
      if old_ref.job_contact_path ≠ request.job_contact_path then
        (GLOBUS_GRAM_PROTOCOL_ERROR_MALLOC_FAILED, table)
      else
        (GLOBUS_SUCCESS, table)
    | none =>
      if lib.malloc subjob_id then
        if lib.strdup subjob_id then
          if lib.strdup request.job_contact_path then
            match job_id_hash_insert table
                { job_id := subjob_id, job_contact_path := request.job_contact_path } with
            | none => (GLOBUS_GRAM_PROTOCOL_ERROR_MALLOC_FAILED, table)
            | some table1 => register_job_id_loop_call lib request table1 tmp_list
          else (GLOBUS_GRAM_PROTOCOL_ERROR_MALLOC_FAILED, table)
        else (GLOBUS_GRAM_PROTOCOL_ERROR_MALLOC_FAILED, table)
      else (GLOBUS_GRAM_PROTOCOL_ERROR_MALLOC_FAILED, table)

/-- `globus_gram_job_manager_register_job_id` with every return path. When
`globus_gram_split_subjobs` fails, or (`seg_module` NULL) the `strdup` of the
raw id fails, it returns before `GlobusGramJobManagerLock`. `none` is the path
on which, with `seg_module` NULL, `globus_list_insert` fails: the test after
it looks at `tmp`, not at `rc`, so the function goes on with the failure code
in `rc` and an empty list, takes the mutex, skips the loop, and under
`if (rc != GLOBUS_SUCCESS)` frees through `ref`, which was never assigned. -/
def globus_gram_job_manager_register_job_id_call (lib : SubjobsLibrary)
    (manager : globus_gram_job_manager_t) (job_id : String)
    (request : globus_gram_jobmanager_request_t) : Option (Outcome Unit) :=
  let locked (subjobs : List String) : Outcome Unit :=
    let looped := register_job_id_loop_call lib request manager.job_id_hash subjobs
    { rc := looped.1, out := none
      manager := { manager with job_id_hash := looped.2 }
      calls := [Call.GlobusGramJobManagerLock, Call.GlobusGramJobManagerUnlock] }
  if manager.config.seg_module ≠ none then
    match globus_gram_split_subjobs_call lib job_id with
    | none =>
      some { rc := GLOBUS_GRAM_PROTOCOL_ERROR_MALLOC_FAILED, out := none
             manager := manager, calls := [] }
    | some subjobs => some (locked subjobs)
  else
    if lib.strdup job_id then
      match lib.globus_list_insert [] job_id with
      | some subjobs => some (locked subjobs)
      | none => none
    else
      some { rc := GLOBUS_GRAM_PROTOCOL_ERROR_MALLOC_FAILED, out := none
             manager := manager, calls := [] }

/-- A library that never fails and puts a new list element at the head. -/
def sample_library : SubjobsLibrary :=
  { strdup := fun _ => true
    malloc := fun _ => true
    globus_list_insert := fun list datum => some (globus_list_insert list datum) }

/-- A library that never fails and keeps the list in the order of insertion. -/
def sample_library_raw_order : SubjobsLibrary :=
  { strdup := fun _ => true
    malloc := fun _ => true
    globus_list_insert := fun list datum => some (list ++ [datum]) }

/-- A library whose `malloc` fails. -/
def sample_library_no_malloc : SubjobsLibrary :=
  { sample_library with malloc := fun _ => false }

/-- A library whose `strdup` fails. -/
def sample_library_no_strdup : SubjobsLibrary :=
  { sample_library with strdup := fun _ => false }

/-! ## Facts about the tables -/

theorem request_hash_lookup_key {table : List globus_gram_job_manager_ref_t} {key : String}
    {ref : globus_gram_job_manager_ref_t} (h : request_hash_lookup table key = some ref) :
    ref.key = key := by
  induction table with
  | nil => simp [request_hash_lookup] at h
  | cons e es ih =>
    by_cases hk : e.key = key
    · simp [request_hash_lookup, hk] at h
      rw [← h]; exact hk
    · simp [request_hash_lookup, hk] at h
      exact ih h

theorem request_hash_lookup_mem {table : List globus_gram_job_manager_ref_t} {key : String}
    {ref : globus_gram_job_manager_ref_t} (h : request_hash_lookup table key = some ref) :
    ref ∈ table := by
  induction table with
  | nil => simp [request_hash_lookup] at h
  | cons e es ih =>
    by_cases hk : e.key = key
    · simp [request_hash_lookup, hk] at h
      simp [h]
    · simp [request_hash_lookup, hk] at h
      exact List.mem_cons_of_mem _ (ih h)

theorem request_hash_lookup_none {table : List globus_gram_job_manager_ref_t} {key : String} :
    request_hash_lookup table key = none ↔ ∀ e ∈ table, e.key ≠ key := by
  induction table with
  | nil => simp [request_hash_lookup]
  | cons e es ih =>
    by_cases hk : e.key = key
    · simp [request_hash_lookup, hk]
    · simp [request_hash_lookup, hk, ih]

theorem request_hash_lookup_of_mem {table : List globus_gram_job_manager_ref_t}
    (hwf : request_hash_wf table) {ref : globus_gram_job_manager_ref_t} (h : ref ∈ table) :
    request_hash_lookup table ref.key = some ref := by
  induction table with
  | nil => simp at h
  | cons e es ih =>
    simp only [request_hash_wf, List.map_cons, List.nodup_cons, List.mem_map, not_exists,
      not_and] at hwf
    rcases List.mem_cons.1 h with rfl | hmem
    · simp [request_hash_lookup]
    · have hne : e.key ≠ ref.key := fun heq => hwf.1 ref hmem heq.symm
      simp only [request_hash_lookup, hne, if_false]
      exact ih hwf.2 hmem

theorem request_hash_store_keys (table : List globus_gram_job_manager_ref_t)
    (ref : globus_gram_job_manager_ref_t) :
    (request_hash_store table ref).map (fun e => e.key) = table.map (fun e => e.key) := by
  induction table with
  | nil => simp [request_hash_store]
  | cons e es ih =>
    by_cases hk : e.key = ref.key
    · simp [request_hash_store, hk]
    · simp [request_hash_store, hk, ih]

theorem request_hash_store_wf {table : List globus_gram_job_manager_ref_t}
    (ref : globus_gram_job_manager_ref_t) (hwf : request_hash_wf table) :
    request_hash_wf (request_hash_store table ref) := by
  unfold request_hash_wf
  rw [request_hash_store_keys]
  exact hwf

theorem request_hash_lookup_store_same {table : List globus_gram_job_manager_ref_t}
    {ref old : globus_gram_job_manager_ref_t}
    (h : request_hash_lookup table ref.key = some old) :
    request_hash_lookup (request_hash_store table ref) ref.key = some ref := by
  induction table with
  | nil => simp [request_hash_lookup] at h
  | cons e es ih =>
    by_cases hk : e.key = ref.key
    · simp [request_hash_store, request_hash_lookup, hk]
    · simp only [request_hash_lookup, hk, if_false] at h
      simp only [request_hash_store, request_hash_lookup, hk, if_false]
      exact ih h

theorem request_hash_lookup_store_key {table : List globus_gram_job_manager_ref_t}
    {ref old : globus_gram_job_manager_ref_t} {key : String} (hkey : ref.key = key)
    (h : request_hash_lookup table key = some old) :
    request_hash_lookup (request_hash_store table ref) key = some ref := by
  subst hkey
  exact request_hash_lookup_store_same h

theorem request_hash_lookup_store_other (table : List globus_gram_job_manager_ref_t)
    (ref : globus_gram_job_manager_ref_t) {key : String} (hne : key ≠ ref.key) :
    request_hash_lookup (request_hash_store table ref) key = request_hash_lookup table key := by
  induction table with
  | nil => simp [request_hash_store]
  | cons e es ih =>
    by_cases hk : e.key = ref.key
    · have hne2 : e.key ≠ key := fun h => hne (h ▸ hk)
      have hne3 : ref.key ≠ key := fun h => hne h.symm
      simp [request_hash_store, request_hash_lookup, hk, hne3]
    · simp only [request_hash_store, if_neg hk, request_hash_lookup, ih]

theorem request_hash_remove_sublist (table : List globus_gram_job_manager_ref_t) (key : String) :
    List.Sublist (request_hash_remove table key) table := by
  induction table with
  | nil => simp [request_hash_remove]
  | cons e es ih =>
    by_cases hk : e.key = key
    · simp [request_hash_remove, hk]
    · simp only [request_hash_remove, hk, if_false]
      exact List.Sublist.cons₂ _ ih

theorem request_hash_remove_wf {table : List globus_gram_job_manager_ref_t} (key : String)
    (hwf : request_hash_wf table) : request_hash_wf (request_hash_remove table key) := by
  unfold request_hash_wf at *
  exact List.Nodup.sublist ((request_hash_remove_sublist table key).map _) hwf

theorem request_hash_lookup_remove_same {table : List globus_gram_job_manager_ref_t}
    (key : String) (hwf : request_hash_wf table) :
    request_hash_lookup (request_hash_remove table key) key = none := by
  induction table with
  | nil => simp [request_hash_remove, request_hash_lookup]
  | cons e es ih =>
    simp only [request_hash_wf, List.map_cons, List.nodup_cons, List.mem_map, not_exists,
      not_and] at hwf
    by_cases hk : e.key = key
    · simp only [request_hash_remove, hk, if_true]
      rw [request_hash_lookup_none]
      intro e2 he2 heq
      exact hwf.1 e2 he2 (heq.trans hk.symm)
    · simp only [request_hash_remove, request_hash_lookup, hk, if_false]
      exact ih hwf.2

theorem request_hash_lookup_remove_other (table : List globus_gram_job_manager_ref_t)
    {key key2 : String} (hne : key2 ≠ key) :
    request_hash_lookup (request_hash_remove table key) key2 =
      request_hash_lookup table key2 := by
  induction table with
  | nil => simp [request_hash_remove]
  | cons e es ih =>
    by_cases hk : e.key = key
    · have hne2 : e.key ≠ key2 := fun h => hne (h ▸ hk)
      simp only [request_hash_remove, if_pos hk, request_hash_lookup, if_neg hne2]
    · simp only [request_hash_remove, if_neg hk, request_hash_lookup, ih]

/-! ## Acquiring a lease -/

/-- What `globus_l_gram_add_reference_locked` does to an entry whose job is
resident. -/
theorem add_reference_locked_resident (env : Env) (manager : globus_gram_job_manager_t)
    (key : String) (request : Bool) (ref : globus_gram_job_manager_ref_t)
    (job : globus_gram_jobmanager_request_t)
    (href : request_hash_lookup manager.request_hash key = some ref)
    (hjob : ref.request = some job) :
    globus_l_gram_add_reference_locked env manager key request =
      some { rc := GLOBUS_SUCCESS
             out := if request then some (some job) else none
             manager := { manager with
               request_hash := request_hash_store manager.request_hash
                 { ref with reference_count := ref.reference_count + 1
                            cleanup_timer := GLOBUS_NULL_HANDLE } }
             calls := if ref.cleanup_timer ≠ GLOBUS_NULL_HANDLE then
                 [Call.globus_callback_unregister ref.cleanup_timer] else [] } := by
  simp only [globus_l_gram_add_reference_locked, href, hjob]

/-- What `globus_l_gram_add_reference_locked` does to an entry whose job is
swapped out, when the reload succeeds. -/
theorem add_reference_locked_reload (env : Env) (manager : globus_gram_job_manager_t)
    (key : String) (request : Bool) (ref : globus_gram_job_manager_ref_t)
    (loaded : globus_gram_jobmanager_request_t)
    (href : request_hash_lookup manager.request_hash key = some ref)
    (hjob : ref.request = none)
    (hload : globus_l_gram_restart_job env manager (key_plus_1 key) = some loaded) :
    globus_l_gram_add_reference_locked env manager key request =
      some { rc := GLOBUS_SUCCESS
             out := if request then
                 some (some { loaded with jobmanager_state := loaded.restart_state })
               else none
             manager := { manager with
               request_hash := request_hash_store manager.request_hash
                 { ref with reference_count := ref.reference_count + 1
                            cleanup_timer := GLOBUS_NULL_HANDLE
                            request := some { loaded with
                              jobmanager_state := loaded.restart_state } } }
             calls := if ref.cleanup_timer ≠ GLOBUS_NULL_HANDLE then
                 [Call.globus_callback_unregister ref.cleanup_timer] else [] } := by
  simp only [globus_l_gram_add_reference_locked, href, hjob, hload]

/-- The public wrapper on an entry whose job is resident. -/
theorem add_reference_resident (env : Env) (manager : globus_gram_job_manager_t)
    (key : String) (request : Bool) (ref : globus_gram_job_manager_ref_t)
    (job : globus_gram_jobmanager_request_t)
    (href : request_hash_lookup manager.request_hash key = some ref)
    (hjob : ref.request = some job) :
    globus_gram_job_manager_add_reference env manager key request =
      some { rc := GLOBUS_SUCCESS
             out := if request then some (some job) else none
             manager := { manager with
               request_hash := request_hash_store manager.request_hash
                 { ref with reference_count := ref.reference_count + 1
                            cleanup_timer := GLOBUS_NULL_HANDLE } }
             calls := [Call.GlobusGramJobManagerLock] ++
               (if ref.cleanup_timer ≠ GLOBUS_NULL_HANDLE then
                 [Call.globus_callback_unregister ref.cleanup_timer] else []) ++
               [Call.GlobusGramJobManagerUnlock] } := by
  simp only [globus_gram_job_manager_add_reference,
    add_reference_locked_resident env manager key request ref job href hjob]

/-- The public wrapper on an entry whose job is swapped out, when the reload
succeeds. -/
theorem add_reference_reload (env : Env) (manager : globus_gram_job_manager_t)
    (key : String) (request : Bool) (ref : globus_gram_job_manager_ref_t)
    (loaded : globus_gram_jobmanager_request_t)
    (href : request_hash_lookup manager.request_hash key = some ref)
    (hjob : ref.request = none)
    (hload : globus_l_gram_restart_job env manager (key_plus_1 key) = some loaded) :
    globus_gram_job_manager_add_reference env manager key request =
      some { rc := GLOBUS_SUCCESS
             out := if request then
                 some (some { loaded with jobmanager_state := loaded.restart_state })
               else none
             manager := { manager with
               request_hash := request_hash_store manager.request_hash
                 { ref with reference_count := ref.reference_count + 1
                            cleanup_timer := GLOBUS_NULL_HANDLE
                            request := some { loaded with
                              jobmanager_state := loaded.restart_state } } }
             calls := [Call.GlobusGramJobManagerLock] ++
               (if ref.cleanup_timer ≠ GLOBUS_NULL_HANDLE then
                 [Call.globus_callback_unregister ref.cleanup_timer] else []) ++
               [Call.GlobusGramJobManagerUnlock] } := by
  simp only [globus_gram_job_manager_add_reference,
    add_reference_locked_reload env manager key request ref loaded href hjob hload]

/-- C4: on a key that is in the request table with a resident job,
`globus_gram_job_manager_add_reference` returns `GLOBUS_SUCCESS`, hands back
the entry's job, leaves the entry with its reference count one higher and its
cleanup timer at the null handle (whatever it was), and changes no other entry
of the request table, nor the job-id table, `stop` or `done`. -/
theorem add_reference_resident_entry (env : Env) (manager : globus_gram_job_manager_t)
    (key : String) (ref : globus_gram_job_manager_ref_t)
    (job : globus_gram_jobmanager_request_t)
    (href : request_hash_lookup manager.request_hash key = some ref)
    (hjob : ref.request = some job) :
    ∃ o, globus_gram_job_manager_add_reference env manager key true = some o ∧
      o.rc = GLOBUS_SUCCESS ∧
      o.out = some (some job) ∧
      request_hash_lookup o.manager.request_hash key =
        some { ref with reference_count := ref.reference_count + 1
                        cleanup_timer := GLOBUS_NULL_HANDLE } ∧
      (∀ key2, key2 ≠ key →
        request_hash_lookup o.manager.request_hash key2 =
          request_hash_lookup manager.request_hash key2) ∧
      o.manager.request_hash.map (fun e => e.key) =
        manager.request_hash.map (fun e => e.key) ∧
      o.manager.job_id_hash = manager.job_id_hash ∧
      o.manager.stop = manager.stop ∧
      o.manager.done = manager.done := by
  have hkey : ref.key = key := request_hash_lookup_key href
  refine ⟨_, add_reference_resident env manager key true ref job href hjob,
    rfl, rfl, ?_, ?_, ?_, rfl, rfl, rfl⟩
  · exact request_hash_lookup_store_key hkey href
  · intro key2 hne
    exact request_hash_lookup_store_other _ _ (by simpa [hkey] using hne)
  · exact request_hash_store_keys _ _

/-- C5: on an entry whose job is swapped out, when the reload succeeds,
`globus_gram_job_manager_add_reference` returns `GLOBUS_SUCCESS`, makes the
job resident again with its phase set to the reloaded job's `restart_state`,
hands that job back and leaves the reference count one higher. -/
theorem add_reference_swapped_out_entry (env : Env) (manager : globus_gram_job_manager_t)
    (key : String) (ref : globus_gram_job_manager_ref_t)
    (loaded : globus_gram_jobmanager_request_t)
    (href : request_hash_lookup manager.request_hash key = some ref)
    (hjob : ref.request = none)
    (hload : globus_l_gram_restart_job env manager (key_plus_1 key) = some loaded) :
    ∃ o ref2 job, globus_gram_job_manager_add_reference env manager key true = some o ∧
      o.rc = GLOBUS_SUCCESS ∧
      request_hash_lookup o.manager.request_hash key = some ref2 ∧
      ref2.request = some job ∧
      job = { loaded with jobmanager_state := loaded.restart_state } ∧
      job.jobmanager_state = loaded.restart_state ∧
      o.out = some (some job) ∧
      ref2.reference_count = ref.reference_count + 1 := by
  have hkey : ref.key = key := request_hash_lookup_key href
  refine ⟨_,
    { ref with reference_count := ref.reference_count + 1
               cleanup_timer := GLOBUS_NULL_HANDLE
               request := some { loaded with jobmanager_state := loaded.restart_state } },
    _, add_reference_reload env manager key true ref loaded href hjob hload,
    rfl, ?_, rfl, rfl, rfl, rfl, rfl⟩
  exact request_hash_lookup_store_key hkey href

/-! ## Releasing a lease -/

/-- `globus_gram_job_manager_set_grace_period_timer` touches neither table nor
the stop flag. -/
theorem set_grace_period_timer_fields (env : Env) (manager : globus_gram_job_manager_t) :
    (globus_gram_job_manager_set_grace_period_timer env manager).1.request_hash =
        manager.request_hash ∧
      (globus_gram_job_manager_set_grace_period_timer env manager).1.job_id_hash =
        manager.job_id_hash ∧
      (globus_gram_job_manager_set_grace_period_timer env manager).1.stop = manager.stop ∧
      (globus_gram_job_manager_set_grace_period_timer env manager).1.seg_started =
        manager.seg_started := by
  unfold globus_gram_job_manager_set_grace_period_timer
  split
  · split <;> exact ⟨rfl, rfl, rfl, rfl⟩
  · exact ⟨rfl, rfl, rfl, rfl⟩

/-- `globus_gram_job_manager_set_grace_period_timer` never registers the
swap-out one-shot. -/
theorem set_grace_period_timer_calls (env : Env) (manager : globus_gram_job_manager_t)
    (key : String) :
    Call.globus_callback_register_oneshot (Callback.globus_l_gram_ref_swap_out key) ∉
      (globus_gram_job_manager_set_grace_period_timer env manager).2 := by
  unfold globus_gram_job_manager_set_grace_period_timer
  split
  · split <;> simp
  · simp

/-- A release that does not bring the count to zero only stores the
decremented count. -/
theorem remove_reference_nonzero (env : Env) (manager : globus_gram_job_manager_t)
    (key : String) (ref : globus_gram_job_manager_ref_t)
    (href : request_hash_lookup manager.request_hash key = some ref)
    (hcount : ref.reference_count - 1 ≠ 0) :
    globus_gram_job_manager_remove_reference env manager key =
      some { rc := GLOBUS_SUCCESS, out := none
             manager := { manager with
               request_hash := request_hash_store manager.request_hash
                 { ref with reference_count := ref.reference_count - 1 } }
             calls := [Call.GlobusGramJobManagerLock, Call.GlobusGramJobManagerUnlock] } := by
  simp only [globus_gram_job_manager_remove_reference, href, hcount, if_false]

/-- A release that brings the count to zero on a job in phase DONE or
FAILED_DONE takes the entry out of the table. -/
theorem remove_reference_terminal (env : Env) (manager : globus_gram_job_manager_t)
    (key : String) (ref : globus_gram_job_manager_ref_t)
    (job : globus_gram_jobmanager_request_t)
    (href : request_hash_lookup manager.request_hash key = some ref)
    (hjob : ref.request = some job)
    (hcount : ref.reference_count - 1 = 0)
    (hphase : job.jobmanager_state = GLOBUS_GRAM_JOB_MANAGER_STATE_DONE ∨
      job.jobmanager_state = GLOBUS_GRAM_JOB_MANAGER_STATE_FAILED_DONE) :
    ∃ o, globus_gram_job_manager_remove_reference env manager key = some o ∧
      o.rc = GLOBUS_SUCCESS ∧
      o.manager.request_hash =
        request_hash_remove
          (request_hash_store manager.request_hash
            { ref with reference_count := ref.reference_count - 1 }) key ∧
      o.manager.job_id_hash = manager.job_id_hash ∧
      o.manager.stop = manager.stop ∧
      (∀ key2, Call.globus_callback_register_oneshot
          (Callback.globus_l_gram_ref_swap_out key2) ∉ o.calls) := by
  simp only [globus_gram_job_manager_remove_reference, href, hjob, hcount, hphase, if_true]
  refine ⟨_, rfl, rfl, ?_, ?_, ?_, ?_⟩
  · split_ifs <;> simp [set_grace_period_timer_fields]
  · split_ifs <;> simp [set_grace_period_timer_fields]
  · split_ifs <;> simp [set_grace_period_timer_fields]
  · intro key2
    split_ifs <;> simp [set_grace_period_timer_calls]

/-- A release that brings the count to zero on a job in phase POLL2 while the
SEG is started registers the swap-out one-shot into the entry's timer. -/
theorem remove_reference_poll2 (env : Env) (manager : globus_gram_job_manager_t)
    (key : String) (ref : globus_gram_job_manager_ref_t)
    (job : globus_gram_jobmanager_request_t)
    (href : request_hash_lookup manager.request_hash key = some ref)
    (hjob : ref.request = some job)
    (hcount : ref.reference_count - 1 = 0)
    (hphase : job.jobmanager_state = GLOBUS_GRAM_JOB_MANAGER_STATE_POLL2)
    (hseg : manager.seg_started = true) :
    globus_gram_job_manager_remove_reference env manager key =
      some { rc := GLOBUS_SUCCESS, out := none
             manager := { manager with
               request_hash := request_hash_store
                 (request_hash_store manager.request_hash
                   { ref with reference_count := ref.reference_count - 1 })
                 (match env.globus_callback_register_oneshot
                     (Callback.globus_l_gram_ref_swap_out ref.key) with
                  | some handle =>
                    { ref with reference_count := ref.reference_count - 1
                               cleanup_timer := handle }
                  | none => { ref with reference_count := ref.reference_count - 1 }) }
             calls := [Call.GlobusGramJobManagerLock,
               Call.globus_callback_register_oneshot
                 (Callback.globus_l_gram_ref_swap_out ref.key),
               Call.GlobusGramJobManagerUnlock] } := by
  simp only [globus_gram_job_manager_remove_reference, href, hjob, hcount, hphase, hseg,
    if_true]
  simp

/-- A release that brings the count to zero in any other situation only stores
the decremented count. -/
theorem remove_reference_idle (env : Env) (manager : globus_gram_job_manager_t)
    (key : String) (ref : globus_gram_job_manager_ref_t)
    (job : globus_gram_jobmanager_request_t)
    (href : request_hash_lookup manager.request_hash key = some ref)
    (hjob : ref.request = some job)
    (hcount : ref.reference_count - 1 = 0)
    (hterm : ¬ (job.jobmanager_state = GLOBUS_GRAM_JOB_MANAGER_STATE_DONE ∨
      job.jobmanager_state = GLOBUS_GRAM_JOB_MANAGER_STATE_FAILED_DONE))
    (hpoll : ¬ (job.jobmanager_state = GLOBUS_GRAM_JOB_MANAGER_STATE_POLL2 ∧
      manager.seg_started = true)) :
    globus_gram_job_manager_remove_reference env manager key =
      some { rc := GLOBUS_SUCCESS, out := none
             manager := { manager with
               request_hash := request_hash_store manager.request_hash
                 { ref with reference_count := ref.reference_count - 1 } }
             calls := [Call.GlobusGramJobManagerLock, Call.GlobusGramJobManagerUnlock] } := by
  simp only [globus_gram_job_manager_remove_reference, href, hjob, hcount, hterm, hpoll,
    if_true, if_false]

/-- C2: for an entry with a resident job in phase DONE or FAILED_DONE, a
`globus_gram_job_manager_remove_reference` that brings the reference count to
zero takes the key out of the request table in that same call: afterwards the
lookup of the key finds nothing, `get_status` reports
`JOB_CONTACT_NOT_FOUND`, `request_exists` is false, and every other key's
entry is what it was. -/
theorem remove_reference_removes_terminal (env : Env) (manager : globus_gram_job_manager_t)
    (key : String) (ref : globus_gram_job_manager_ref_t)
    (job : globus_gram_jobmanager_request_t)
    (hwf : request_hash_wf manager.request_hash)
    (href : request_hash_lookup manager.request_hash key = some ref)
    (hjob : ref.request = some job)
    (hcount : ref.reference_count - 1 = 0)
    (hphase : job.jobmanager_state = GLOBUS_GRAM_JOB_MANAGER_STATE_DONE ∨
      job.jobmanager_state = GLOBUS_GRAM_JOB_MANAGER_STATE_FAILED_DONE) :
    ∃ o, globus_gram_job_manager_remove_reference env manager key = some o ∧
      o.rc = GLOBUS_SUCCESS ∧
      request_hash_lookup o.manager.request_hash key = none ∧
      (globus_gram_job_manager_get_status o.manager key).rc =
        GLOBUS_GRAM_PROTOCOL_ERROR_JOB_CONTACT_NOT_FOUND ∧
      (globus_gram_job_manager_get_status o.manager key).out = none ∧
      globus_gram_job_manager_request_exists o.manager key = false ∧
      (∀ key2, key2 ≠ key →
        request_hash_lookup o.manager.request_hash key2 =
          request_hash_lookup manager.request_hash key2) := by
  obtain ⟨o, hrun, hrc, htable, -, -, -⟩ :=
    remove_reference_terminal env manager key ref job href hjob hcount hphase
  have hkey : ref.key = key := request_hash_lookup_key href
  have hgone : request_hash_lookup o.manager.request_hash key = none := by
    rw [htable]
    exact request_hash_lookup_remove_same key (request_hash_store_wf _ hwf)
  refine ⟨o, hrun, hrc, hgone, ?_, ?_, ?_, ?_⟩
  · simp only [globus_gram_job_manager_get_status, hgone]
  · simp only [globus_gram_job_manager_get_status, hgone]
  · simp only [globus_gram_job_manager_request_exists, hgone]
  · intro key2 hne
    rw [htable, request_hash_lookup_remove_other _ hne]
    exact request_hash_lookup_store_other _ _ (by simpa [hkey] using hne)

/-- C3: for an entry with a resident job,
`globus_gram_job_manager_remove_reference` registers the swap-out one-shot
`globus_l_gram_ref_swap_out` exactly when the decremented reference count is 0,
the job's phase is POLL2 and `seg_started` is set, and then the handle the
scheduler hands out is stored in the entry's `cleanup_timer`; in every other
case where the phase is not DONE or FAILED_DONE it registers no one-shot at all
and the entry stays in the table, its job resident, with only the reference
count decremented. -/
theorem remove_reference_swap_out_timer (env : Env) (manager : globus_gram_job_manager_t)
    (key : String) (ref : globus_gram_job_manager_ref_t)
    (job : globus_gram_jobmanager_request_t)
    (href : request_hash_lookup manager.request_hash key = some ref)
    (hjob : ref.request = some job) :
    ∃ o, globus_gram_job_manager_remove_reference env manager key = some o ∧
      (Call.globus_callback_register_oneshot (Callback.globus_l_gram_ref_swap_out key) ∈
          o.calls ↔
        (ref.reference_count - 1 = 0 ∧
          job.jobmanager_state = GLOBUS_GRAM_JOB_MANAGER_STATE_POLL2 ∧
          manager.seg_started = true)) ∧
      ((ref.reference_count - 1 = 0 ∧
          job.jobmanager_state = GLOBUS_GRAM_JOB_MANAGER_STATE_POLL2 ∧
          manager.seg_started = true) →
        ∀ handle, env.globus_callback_register_oneshot
            (Callback.globus_l_gram_ref_swap_out key) = some handle →
          request_hash_lookup o.manager.request_hash key =
            some { ref with reference_count := ref.reference_count - 1
                            cleanup_timer := handle }) ∧
      (¬ (job.jobmanager_state = GLOBUS_GRAM_JOB_MANAGER_STATE_DONE ∨
            job.jobmanager_state = GLOBUS_GRAM_JOB_MANAGER_STATE_FAILED_DONE) →
        ¬ (ref.reference_count - 1 = 0 ∧
            job.jobmanager_state = GLOBUS_GRAM_JOB_MANAGER_STATE_POLL2 ∧
            manager.seg_started = true) →
        (∀ cb, Call.globus_callback_register_oneshot cb ∉ o.calls) ∧
          request_hash_lookup o.manager.request_hash key =
            some { ref with reference_count := ref.reference_count - 1 } ∧
          globus_gram_job_manager_request_exists o.manager key = true) := by
  have hkey : ref.key = key := request_hash_lookup_key href
  have hstored : request_hash_lookup
      (request_hash_store manager.request_hash
        { ref with reference_count := ref.reference_count - 1 }) key =
      some { ref with reference_count := ref.reference_count - 1 } := by
    exact request_hash_lookup_store_key hkey href
  by_cases hcount : ref.reference_count - 1 = 0
  · by_cases hterm : job.jobmanager_state = GLOBUS_GRAM_JOB_MANAGER_STATE_DONE ∨
        job.jobmanager_state = GLOBUS_GRAM_JOB_MANAGER_STATE_FAILED_DONE
    · obtain ⟨o, hrun, -, -, -, -, hcalls⟩ :=
        remove_reference_terminal env manager key ref job href hjob hcount hterm
      refine ⟨o, hrun, ?_, ?_, ?_⟩
      · constructor
        · intro h; exact absurd h (hcalls key)
        · rintro ⟨-, hp, -⟩
          rcases hterm with h | h <;> rw [hp] at h <;> cases h
      · rintro ⟨-, hp, -⟩
        rcases hterm with h | h <;> rw [hp] at h <;> cases h
      · intro h; exact absurd hterm h
    · by_cases hpoll : job.jobmanager_state = GLOBUS_GRAM_JOB_MANAGER_STATE_POLL2 ∧
          manager.seg_started = true
      · refine ⟨_, remove_reference_poll2 env manager key ref job href hjob hcount
          hpoll.1 hpoll.2, ?_, ?_, ?_⟩
        · simp [hkey, hcount, hpoll.1, hpoll.2]
        · intro _ handle hhandle
          rw [← hkey] at hhandle
          simp only [hhandle]
          exact request_hash_lookup_store_key hkey hstored
        · intro _ h; exact absurd ⟨hcount, hpoll.1, hpoll.2⟩ h
      · refine ⟨_, remove_reference_idle env manager key ref job href hjob hcount hterm
          hpoll, ?_, ?_, ?_⟩
        · simp only [List.mem_cons, List.mem_singleton, false_or, or_false,
            List.not_mem_nil, reduceCtorEq, false_iff]
          rintro ⟨-, hp, hs⟩
          exact hpoll ⟨hp, hs⟩
        · rintro ⟨-, hp, hs⟩
          exact absurd ⟨hp, hs⟩ hpoll
        · intro _ _
          refine ⟨by simp, hstored, ?_⟩
          simp only [globus_gram_job_manager_request_exists, hstored]
          simp [hjob]
  · refine ⟨_, remove_reference_nonzero env manager key ref href hcount, ?_, ?_, ?_⟩
    · simp only [List.mem_cons, List.mem_singleton, false_or, or_false,
        List.not_mem_nil, reduceCtorEq, false_iff]
      rintro ⟨hc, -, -⟩
      exact hcount hc
    · rintro ⟨hc, -, -⟩
      exact absurd hc hcount
    · intro _ _
      refine ⟨by simp, hstored, ?_⟩
      simp only [globus_gram_job_manager_request_exists, hstored]
      simp [hjob]

/-! ## The swap-out callback -/

/-- The swap-out callback on an entry whose timer is still armed and whose
count is zero: the job is dropped. -/
theorem ref_swap_out_drops (env : Env) (manager : globus_gram_job_manager_t)
    (key : String) (ref : globus_gram_job_manager_ref_t)
    (job : globus_gram_jobmanager_request_t)
    (href : request_hash_lookup manager.request_hash key = some ref)
    (hjob : ref.request = some job)
    (htimer : ref.cleanup_timer ≠ GLOBUS_NULL_HANDLE)
    (hcount : ref.reference_count = 0) :
    globus_l_gram_ref_swap_out env manager key =
      some ({ manager with
              request_hash := request_hash_store manager.request_hash
                { ref with cleanup_timer := GLOBUS_NULL_HANDLE, request := none } },
            [Call.GlobusGramJobManagerLock,
             Call.globus_callback_unregister ref.cleanup_timer,
             Call.globus_gram_job_manager_state_file_write job.job_contact_path,
             Call.globus_gram_job_manager_request_free job.job_contact_path,
             Call.GlobusGramJobManagerUnlock]) := by
  simp only [globus_l_gram_ref_swap_out, href, hjob, htimer, hcount, if_true, ne_eq,
    not_false_eq_true]

/-- The swap-out callback on an entry whose timer is still armed but whose
count is not zero: only the timer is cleared. -/
theorem ref_swap_out_referenced (env : Env) (manager : globus_gram_job_manager_t)
    (key : String) (ref : globus_gram_job_manager_ref_t)
    (href : request_hash_lookup manager.request_hash key = some ref)
    (htimer : ref.cleanup_timer ≠ GLOBUS_NULL_HANDLE)
    (hcount : ref.reference_count ≠ 0) :
    globus_l_gram_ref_swap_out env manager key =
      some ({ manager with
              request_hash := request_hash_store manager.request_hash
                { ref with cleanup_timer := GLOBUS_NULL_HANDLE } },
            [Call.GlobusGramJobManagerLock,
             Call.globus_callback_unregister ref.cleanup_timer,
             Call.GlobusGramJobManagerUnlock]) := by
  simp only [globus_l_gram_ref_swap_out, href, htimer, hcount, if_true, if_false, ne_eq,
    not_false_eq_true]

/-- The swap-out callback on an entry whose timer was disarmed: nothing
changes. -/
theorem ref_swap_out_disarmed (env : Env) (manager : globus_gram_job_manager_t)
    (key : String) (ref : globus_gram_job_manager_ref_t)
    (href : request_hash_lookup manager.request_hash key = some ref)
    (htimer : ref.cleanup_timer = GLOBUS_NULL_HANDLE) :
    globus_l_gram_ref_swap_out env manager key =
      some (manager, [Call.GlobusGramJobManagerLock, Call.GlobusGramJobManagerUnlock]) := by
  simp only [globus_l_gram_ref_swap_out, href, htimer, ne_eq, not_true_eq_false, if_false]

/-- C7: on an entry with a resident job, `globus_l_gram_ref_swap_out` drops the
job exactly when, as it runs, the entry's `cleanup_timer` is still armed and
its reference count is 0; with the timer disarmed or the count non-zero the
job stays resident. In every case the entry stays in the request table under
its key, with its reference count and its cached state and failure code
unchanged, and no other entry changes. -/
theorem ref_swap_out_rechecks (env : Env) (manager : globus_gram_job_manager_t)
    (key : String) (ref : globus_gram_job_manager_ref_t)
    (job : globus_gram_jobmanager_request_t)
    (href : request_hash_lookup manager.request_hash key = some ref)
    (hjob : ref.request = some job) :
    ∃ manager2 calls ref2,
      globus_l_gram_ref_swap_out env manager key = some (manager2, calls) ∧
      request_hash_lookup manager2.request_hash key = some ref2 ∧
      (ref2.request = none ↔
        (ref.cleanup_timer ≠ GLOBUS_NULL_HANDLE ∧ ref.reference_count = 0)) ∧
      (¬ (ref.cleanup_timer ≠ GLOBUS_NULL_HANDLE ∧ ref.reference_count = 0) →
        ref2.request = some job) ∧
      ref2.key = ref.key ∧
      ref2.reference_count = ref.reference_count ∧
      ref2.job_state = ref.job_state ∧
      ref2.failure_code = ref.failure_code ∧
      manager2.request_hash.map (fun e => e.key) =
        manager.request_hash.map (fun e => e.key) ∧
      (∀ key2, key2 ≠ key →
        request_hash_lookup manager2.request_hash key2 =
          request_hash_lookup manager.request_hash key2) := by
  have hkey : ref.key = key := request_hash_lookup_key href
  by_cases htimer : ref.cleanup_timer = GLOBUS_NULL_HANDLE
  · refine ⟨_, _, ref, ref_swap_out_disarmed env manager key ref href htimer, href, ?_, ?_,
      rfl, rfl, rfl, rfl, rfl, fun _ _ => rfl⟩
    · simp [htimer, hjob]
    · intro _; exact hjob
  · by_cases hcount : ref.reference_count = 0
    · refine ⟨_, _, { ref with cleanup_timer := GLOBUS_NULL_HANDLE, request := none },
        ref_swap_out_drops env manager key ref job href hjob htimer hcount, ?_, ?_, ?_,
        rfl, rfl, rfl, rfl, request_hash_store_keys _ _, ?_⟩
      · exact request_hash_lookup_store_key hkey href
      · simp [htimer, hcount]
      · intro h; exact absurd ⟨htimer, hcount⟩ h
      · intro key2 hne
        exact request_hash_lookup_store_other _ _ (by simpa [hkey] using hne)
    · refine ⟨_, _, { ref with cleanup_timer := GLOBUS_NULL_HANDLE },
        ref_swap_out_referenced env manager key ref href htimer hcount, ?_, ?_, ?_,
        rfl, rfl, rfl, rfl, request_hash_store_keys _ _, ?_⟩
      · exact request_hash_lookup_store_key hkey href
      · simp [hcount, hjob]
      · intro _; exact hjob
      · intro key2 hne
        exact request_hash_lookup_store_other _ _ (by simpa [hkey] using hne)

/-- C6: for an entry with reference count 0, a resident job and an armed
swap-out timer, after `globus_l_gram_ref_swap_out` runs `request_exists` is
false while `get_status` still succeeds with the cached state and failure code
the entry had; and a following `add_reference` whose reload succeeds returns
`GLOBUS_SUCCESS`, after which `request_exists` is true again and `get_status`
still gives the same cached pair. -/
theorem swap_out_then_reload (env : Env) (manager : globus_gram_job_manager_t)
    (key : String) (ref : globus_gram_job_manager_ref_t)
    (job : globus_gram_jobmanager_request_t)
    (href : request_hash_lookup manager.request_hash key = some ref)
    (hcount : ref.reference_count = 0)
    (hjob : ref.request = some job)
    (htimer : ref.cleanup_timer ≠ GLOBUS_NULL_HANDLE) :
    ∃ manager2 calls,
      globus_l_gram_ref_swap_out env manager key = some (manager2, calls) ∧
      globus_gram_job_manager_request_exists manager2 key = false ∧
      (globus_gram_job_manager_get_status manager2 key).rc = GLOBUS_SUCCESS ∧
      (globus_gram_job_manager_get_status manager2 key).out =
        some (ref.job_state, ref.failure_code) ∧
      ∀ (env2 : Env) (loaded : globus_gram_jobmanager_request_t),
        globus_l_gram_restart_job env2 manager2 (key_plus_1 key) = some loaded →
        ∃ o, globus_gram_job_manager_add_reference env2 manager2 key true = some o ∧
          o.rc = GLOBUS_SUCCESS ∧
          globus_gram_job_manager_request_exists o.manager key = true ∧
          (globus_gram_job_manager_get_status o.manager key).rc = GLOBUS_SUCCESS ∧
          (globus_gram_job_manager_get_status o.manager key).out =
            some (ref.job_state, ref.failure_code) := by
  have hkey : ref.key = key := request_hash_lookup_key href
  have hswapped : request_hash_lookup
      (request_hash_store manager.request_hash
        { ref with cleanup_timer := GLOBUS_NULL_HANDLE, request := none }) key =
      some { ref with cleanup_timer := GLOBUS_NULL_HANDLE, request := none } := by
    exact request_hash_lookup_store_key hkey href
  refine ⟨_, _, ref_swap_out_drops env manager key ref job href hjob htimer hcount,
    ?_, ?_, ?_, ?_⟩
  · simp only [globus_gram_job_manager_request_exists, hswapped]
    rfl
  · simp only [globus_gram_job_manager_get_status, hswapped]
  · simp only [globus_gram_job_manager_get_status, hswapped]
  · intro env2 loaded hload
    have hreloaded : request_hash_lookup
        (request_hash_store
          (request_hash_store manager.request_hash
            { ref with cleanup_timer := GLOBUS_NULL_HANDLE, request := none })
          { ref with cleanup_timer := GLOBUS_NULL_HANDLE
                     reference_count := ref.reference_count + 1
                     request := some { loaded with
                       jobmanager_state := loaded.restart_state } }) key =
        some { ref with cleanup_timer := GLOBUS_NULL_HANDLE
                        reference_count := ref.reference_count + 1
                        request := some { loaded with
                          jobmanager_state := loaded.restart_state } } :=
      request_hash_lookup_store_key hkey hswapped
    refine ⟨_, add_reference_reload env2 _ key true _ loaded hswapped rfl hload,
      rfl, ?_, ?_, ?_⟩
    · simp only [globus_gram_job_manager_request_exists, hreloaded]
      rfl
    · simp only [globus_gram_job_manager_get_status, hreloaded]
    · simp only [globus_gram_job_manager_get_status, hreloaded]

/-! ## Sequences of lease calls on one key -/

/-- Every way `globus_l_gram_add_reference_locked` can leave an entry that is
in the table: it stores one entry back under the same key, either with the
count one higher and the job resident, or (failed reload) with the count as it
was and the job still absent. -/
theorem add_reference_locked_shape (env : Env) (manager : globus_gram_job_manager_t)
    (key : String) (request : Bool) (ref : globus_gram_job_manager_ref_t)
    (href : request_hash_lookup manager.request_hash key = some ref) :
    ∃ o ref2, globus_l_gram_add_reference_locked env manager key request = some o ∧
      o.manager = { manager with
        request_hash := request_hash_store manager.request_hash ref2 } ∧
      ref2.key = ref.key ∧
      ((o.rc = GLOBUS_SUCCESS ∧ ref2.reference_count = ref.reference_count + 1 ∧
          ref2.request ≠ none ∧ (ref.request ≠ none → ref2.request = ref.request)) ∨
        (o.rc = GLOBUS_GRAM_PROTOCOL_ERROR_MALLOC_FAILED ∧
          ref2.reference_count = ref.reference_count ∧ ref.request = none ∧
          ref2.request = none ∧
          globus_l_gram_restart_job env manager (key_plus_1 key) = none)) := by
  cases hjob : ref.request with
  | some job =>
    refine ⟨_, _, add_reference_locked_resident env manager key request ref job href hjob,
      rfl, rfl, Or.inl ⟨rfl, rfl, ?_, ?_⟩⟩
    · simp [hjob]
    · intro _; exact hjob
  | none =>
    cases hload : globus_l_gram_restart_job env manager (key_plus_1 key) with
    | some loaded =>
      refine ⟨_, _,
        add_reference_locked_reload env manager key request ref loaded href hjob hload,
        rfl, rfl, Or.inl ⟨rfl, rfl, ?_, ?_⟩⟩
      · simp
      · intro h; exact absurd rfl h
    | none =>
      refine ⟨{ rc := GLOBUS_GRAM_PROTOCOL_ERROR_MALLOC_FAILED, out := none
                manager := { manager with
                  request_hash := request_hash_store manager.request_hash
                    { ref with cleanup_timer := GLOBUS_NULL_HANDLE } }
                calls := if ref.cleanup_timer ≠ GLOBUS_NULL_HANDLE then
                  [Call.globus_callback_unregister ref.cleanup_timer] else [] },
        { ref with cleanup_timer := GLOBUS_NULL_HANDLE }, ?_, rfl, rfl,
        Or.inr ⟨rfl, rfl, rfl, hjob, rfl⟩⟩
      simp only [globus_l_gram_add_reference_locked, href, hjob, hload, add_sub_cancel_right]

/-- The same for the public `globus_gram_job_manager_add_reference`. -/
theorem add_reference_shape (env : Env) (manager : globus_gram_job_manager_t)
    (key : String) (request : Bool) (ref : globus_gram_job_manager_ref_t)
    (href : request_hash_lookup manager.request_hash key = some ref) :
    ∃ o ref2, globus_gram_job_manager_add_reference env manager key request = some o ∧
      o.manager = { manager with
        request_hash := request_hash_store manager.request_hash ref2 } ∧
      ref2.key = ref.key ∧
      ((o.rc = GLOBUS_SUCCESS ∧ ref2.reference_count = ref.reference_count + 1 ∧
          ref2.request ≠ none ∧ (ref.request ≠ none → ref2.request = ref.request)) ∨
        (o.rc = GLOBUS_GRAM_PROTOCOL_ERROR_MALLOC_FAILED ∧
          ref2.reference_count = ref.reference_count ∧ ref.request = none ∧
          ref2.request = none ∧
          globus_l_gram_restart_job env manager (key_plus_1 key) = none)) := by
  obtain ⟨o, ref2, hrun, hm, hk, h⟩ :=
    add_reference_locked_shape env manager key request ref href
  exact ⟨{ o with calls :=
      [Call.GlobusGramJobManagerLock] ++ o.calls ++ [Call.GlobusGramJobManagerUnlock] },
    ref2, by simp only [globus_gram_job_manager_add_reference, hrun], hm, hk, h⟩

/-- A key that is not in the table: `add_reference` reports it and changes
nothing. -/
theorem add_reference_absent (env : Env) (manager : globus_gram_job_manager_t)
    (key : String) (request : Bool)
    (href : request_hash_lookup manager.request_hash key = none) :
    ∃ o, globus_gram_job_manager_add_reference env manager key request = some o ∧
      o.rc = GLOBUS_GRAM_PROTOCOL_ERROR_JOB_CONTACT_NOT_FOUND ∧ o.manager = manager := by
  exact ⟨{ rc := GLOBUS_GRAM_PROTOCOL_ERROR_JOB_CONTACT_NOT_FOUND
           out := if request then some none else none
           manager := manager
           calls := [Call.GlobusGramJobManagerLock] ++ [] ++ [Call.GlobusGramJobManagerUnlock] },
    by simp only [globus_gram_job_manager_add_reference,
      globus_l_gram_add_reference_locked, href], rfl, rfl⟩

/-- A key that is not in the table: `remove_reference` reports it and changes
nothing. -/
theorem remove_reference_absent (env : Env) (manager : globus_gram_job_manager_t)
    (key : String) (href : request_hash_lookup manager.request_hash key = none) :
    ∃ o, globus_gram_job_manager_remove_reference env manager key = some o ∧
      o.rc = GLOBUS_GRAM_PROTOCOL_ERROR_JOB_CONTACT_NOT_FOUND ∧ o.manager = manager := by
  exact ⟨{ rc := GLOBUS_GRAM_PROTOCOL_ERROR_JOB_CONTACT_NOT_FOUND, out := none
           manager := manager
           calls := [Call.GlobusGramJobManagerLock, Call.GlobusGramJobManagerUnlock] },
    by simp only [globus_gram_job_manager_remove_reference, href], rfl, rfl⟩

/-- Storing twice under the same key keeps the second entry. -/
theorem request_hash_store_store (table : List globus_gram_job_manager_ref_t)
    (a b : globus_gram_job_manager_ref_t) (hkey : a.key = b.key) :
    request_hash_store (request_hash_store table a) b = request_hash_store table b := by
  induction table with
  | nil => simp [request_hash_store]
  | cons e es ih =>
    by_cases hk : e.key = a.key
    · have hk2 : e.key = b.key := hk.trans hkey
      simp only [request_hash_store, if_pos hk, if_pos hk2, if_pos hkey]
    · have hk2 : ¬ e.key = b.key := fun h => hk (h.trans hkey.symm)
      simp only [request_hash_store, if_neg hk, if_neg hk2, ih]

/-- Every way `globus_gram_job_manager_remove_reference` can leave an entry
that is in the table, unless the count reaches zero on an absent job: it
either stores the entry back with the count one lower and the same job, or
(count zero, phase DONE or FAILED_DONE) takes it out of the table. -/
theorem remove_reference_shape (env : Env) (manager : globus_gram_job_manager_t)
    (key : String) (ref : globus_gram_job_manager_ref_t)
    (href : request_hash_lookup manager.request_hash key = some ref)
    (hsafe : ref.request = none → ref.reference_count - 1 ≠ 0) :
    ∃ o, globus_gram_job_manager_remove_reference env manager key = some o ∧
      o.rc = GLOBUS_SUCCESS ∧
      o.manager.stop = manager.stop ∧
      ((∃ ref2, ref2.key = ref.key ∧ ref2.request = ref.request ∧
          ref2.reference_count = ref.reference_count - 1 ∧
          o.manager.request_hash = request_hash_store manager.request_hash ref2) ∨
        (ref.reference_count - 1 = 0 ∧
          (∃ job, ref.request = some job ∧
            (job.jobmanager_state = GLOBUS_GRAM_JOB_MANAGER_STATE_DONE ∨
              job.jobmanager_state = GLOBUS_GRAM_JOB_MANAGER_STATE_FAILED_DONE)) ∧
          o.manager.request_hash =
            request_hash_remove
              (request_hash_store manager.request_hash
                { ref with reference_count := ref.reference_count - 1 }) key)) := by
  by_cases hcount : ref.reference_count - 1 = 0
  · by_cases hres : ref.request = none
    · exact absurd hcount (hsafe hres)
    · obtain ⟨job, hjob⟩ := Option.ne_none_iff_exists'.1 hres
      by_cases hterm : job.jobmanager_state = GLOBUS_GRAM_JOB_MANAGER_STATE_DONE ∨
          job.jobmanager_state = GLOBUS_GRAM_JOB_MANAGER_STATE_FAILED_DONE
      · obtain ⟨o, hrun, hrc, htable, -, hstop, -⟩ :=
          remove_reference_terminal env manager key ref job href hjob hcount hterm
        exact ⟨o, hrun, hrc, hstop, Or.inr ⟨hcount, ⟨job, hjob, hterm⟩, htable⟩⟩
      · by_cases hpoll : job.jobmanager_state = GLOBUS_GRAM_JOB_MANAGER_STATE_POLL2 ∧
            manager.seg_started = true
        · refine ⟨_, remove_reference_poll2 env manager key ref job href hjob hcount
            hpoll.1 hpoll.2, rfl, rfl, Or.inl ?_⟩
          cases hreg : env.globus_callback_register_oneshot
              (Callback.globus_l_gram_ref_swap_out ref.key) with
          | some handle =>
            exact ⟨{ ref with reference_count := ref.reference_count - 1
                              cleanup_timer := handle }, rfl, rfl, rfl,
              request_hash_store_store _ _ _ rfl⟩
          | none =>
            exact ⟨{ ref with reference_count := ref.reference_count - 1 }, rfl, rfl, rfl,
              request_hash_store_store _ _ _ rfl⟩
        · exact ⟨_, remove_reference_idle env manager key ref job href hjob hcount hterm
            hpoll, rfl, rfl, Or.inl ⟨{ ref with reference_count := ref.reference_count - 1 },
              rfl, rfl, rfl, rfl⟩⟩
  · exact ⟨_, remove_reference_nonzero env manager key ref href hcount, rfl, rfl,
      Or.inl ⟨{ ref with reference_count := ref.reference_count - 1 }, rfl, rfl, rfl, rfl⟩⟩

/-- Lease calls on a key that is not in the table leave the manager as it
is. -/
theorem lease_calls_absent (key : String) (ops : List LeaseCall) :
    ∀ manager : globus_gram_job_manager_t,
      request_hash_lookup manager.request_hash key = none →
      ∃ t, lease_calls key manager ops = some t ∧ t.manager = manager := by
  induction ops with
  | nil => intro manager _; exact ⟨_, rfl, rfl⟩
  | cons op rest ih =>
    intro manager habs
    cases op with
    | AcquireLease env =>
      obtain ⟨o, hrun, -, hm⟩ := add_reference_absent env manager key true habs
      obtain ⟨t, ht, htm⟩ := ih o.manager (by rw [hm]; exact habs)
      exact ⟨{ t with acquired := t.acquired + (if o.rc = GLOBUS_SUCCESS then 1 else 0) },
        by simp only [lease_calls, hrun, ht], htm.trans hm⟩
    | ReleaseLease env =>
      obtain ⟨o, hrun, -, hm⟩ := remove_reference_absent env manager key habs
      obtain ⟨t, ht, htm⟩ := ih o.manager (by rw [hm]; exact habs)
      exact ⟨{ t with released := t.released + 1 },
        by simp only [lease_calls, hrun, ht], htm.trans hm⟩

/-- The count of an entry along a sequence of lease calls, for every manager
the sequence can start from. -/
theorem lease_calls_count_aux (key : String) (ops : List LeaseCall) :
    ∀ (manager : globus_gram_job_manager_t) (ref : globus_gram_job_manager_ref_t),
      request_hash_wf manager.request_hash →
      request_hash_lookup manager.request_hash key = some ref →
      (ref.request = none → ref.reference_count ≤ 0) →
      ∃ t, lease_calls key manager ops = some t ∧
        ∀ ref2, request_hash_lookup t.manager.request_hash key = some ref2 →
          ref2.reference_count = ref.reference_count + t.acquired - t.released := by
  induction ops with
  | nil =>
    intro manager ref _ href _
    refine ⟨_, rfl, ?_⟩
    intro ref2 h2
    simp only [href, Option.some.injEq] at h2
    subst h2
    simp
  | cons op rest ih =>
    intro manager ref hwf href hsafe
    have hkey : ref.key = key := request_hash_lookup_key href
    cases op with
    | AcquireLease env =>
      obtain ⟨o, ref1, hrun, hm, hk, hcases⟩ := add_reference_shape env manager key true ref href
      have hlook : request_hash_lookup o.manager.request_hash key = some ref1 := by
        rw [hm]; exact request_hash_lookup_store_key (hk.trans hkey) href
      have hwf1 : request_hash_wf o.manager.request_hash := by
        rw [hm]; exact request_hash_store_wf _ hwf
      have hsafe1 : ref1.request = none → ref1.reference_count ≤ 0 := by
        intro hnone
        rcases hcases with ⟨-, -, hres, -⟩ | ⟨-, hc, hr, -, -⟩
        · exact absurd hnone hres
        · rw [hc]; exact hsafe hr
      obtain ⟨t, ht, hcount⟩ := ih o.manager ref1 hwf1 hlook hsafe1
      refine ⟨{ t with acquired := t.acquired + (if o.rc = GLOBUS_SUCCESS then 1 else 0) },
        by simp only [lease_calls, hrun, ht], ?_⟩
      intro ref2 h2
      have h := hcount ref2 h2
      rcases hcases with ⟨hrc, hc, -, -⟩ | ⟨hrc, hc, -, -, -⟩
      · simp only [hrc, if_true, Nat.cast_add, Nat.cast_one]
        omega
      · simp only [hrc, reduceCtorEq, if_false, Nat.add_zero]
        omega
    | ReleaseLease env =>
      have hsafe0 : ref.request = none → ref.reference_count - 1 ≠ 0 := by
        intro hnone
        have := hsafe hnone
        omega
      obtain ⟨o, hrun, -, -, hcases⟩ :=
        remove_reference_shape env manager key ref href hsafe0
      rcases hcases with ⟨ref1, hk, hreq, hc, htable⟩ | ⟨-, -, htable⟩
      · have hlook : request_hash_lookup o.manager.request_hash key = some ref1 := by
          rw [htable]; exact request_hash_lookup_store_key (hk.trans hkey) href
        have hwf1 : request_hash_wf o.manager.request_hash := by
          rw [htable]; exact request_hash_store_wf _ hwf
        have hsafe1 : ref1.request = none → ref1.reference_count ≤ 0 := by
          intro hnone
          have := hsafe (hreq ▸ hnone)
          omega
        obtain ⟨t, ht, hcount⟩ := ih o.manager ref1 hwf1 hlook hsafe1
        refine ⟨{ t with released := t.released + 1 },
          by simp only [lease_calls, hrun, ht], ?_⟩
        intro ref2 h2
        have h := hcount ref2 h2
        simp only [Nat.cast_add, Nat.cast_one]
        omega
      · have hgone : request_hash_lookup o.manager.request_hash key = none := by
          rw [htable]
          exact request_hash_lookup_remove_same key (request_hash_store_wf _ hwf)
        obtain ⟨t, ht, htm⟩ := lease_calls_absent key rest o.manager hgone
        refine ⟨{ t with released := t.released + 1 },
          by simp only [lease_calls, hrun, ht], ?_⟩
        intro ref2 h2
        simp only [htm, hgone] at h2
        cases h2

/-- C1 (as amended): for every manager state and every finite sequence of
`add_reference` / `remove_reference` calls on one registered key, the sequence
runs to its end and, as long as the entry exists, its reference count equals
its starting value plus the number of successful acquires minus the number of
releases made so far (the statement holds for every sequence, hence after each
call of a longer one). `remove_reference` does not guard the decrement, so the
count is non-negative exactly when the releases made do not outnumber the
starting value plus the successful acquires. -/
theorem lease_calls_reference_count (key : String) (ops : List LeaseCall)
    (manager : globus_gram_job_manager_t) (ref : globus_gram_job_manager_ref_t)
    (hwf : request_hash_wf manager.request_hash)
    (href : request_hash_lookup manager.request_hash key = some ref)
    (hsafe : ref.request = none → ref.reference_count ≤ 0) :
    ∃ t, lease_calls key manager ops = some t ∧
      ∀ ref2, request_hash_lookup t.manager.request_hash key = some ref2 →
        ref2.reference_count = ref.reference_count + t.acquired - t.released ∧
        (0 ≤ ref2.reference_count ↔
          (t.released : Int) ≤ ref.reference_count + t.acquired) := by
  obtain ⟨t, ht, hcount⟩ := lease_calls_count_aux key ops manager ref hwf href hsafe
  refine ⟨t, ht, ?_⟩
  intro ref2 h2
  have h := hcount ref2 h2
  exact ⟨h, by omega⟩

/-! ## Shutdown: the phase switch -/

/-- The phase the `switch` leaves, by cases on the phase it finds. -/
theorem stop_all_jobs_request_phase (env : Env) (request : globus_gram_jobmanager_request_t) :
    (stop_all_jobs_request env request).1.jobmanager_state =
      if request.jobmanager_state ∈ stop_all_jobs_stopping_phases then
        GLOBUS_GRAM_JOB_MANAGER_STATE_STOP
      else request.jobmanager_state := by
  cases h : request.jobmanager_state <;>
    simp [stop_all_jobs_request, globus_gram_job_manager_state_machine_register,
      stop_all_jobs_stopping_phases, h]

/-- C8: the `switch` of `globus_gram_job_manager_stop_all_jobs` is a total
mapping on the phase enumeration. From START, POLL2, every in-flight phase and
every late cleanup phase (the list `stop_all_jobs_stopping_phases`) the job
ends in STOP; from every other phase, DONE and FAILED_DONE among them, the job
keeps its phase; and every phase occurs under exactly one group of `case`
labels, the first nine groups being those that assign STOP. -/
theorem stop_all_jobs_switch_total (env : Env) (request : globus_gram_jobmanager_request_t) :
    ((stop_all_jobs_request env request).1.jobmanager_state =
        if request.jobmanager_state ∈ stop_all_jobs_stopping_phases then
          GLOBUS_GRAM_JOB_MANAGER_STATE_STOP
        else request.jobmanager_state) ∧
      (request.jobmanager_state ∉ stop_all_jobs_stopping_phases ↔
        request.jobmanager_state ∈
          [GLOBUS_GRAM_JOB_MANAGER_STATE_DONE,
           GLOBUS_GRAM_JOB_MANAGER_STATE_FAILED,
           GLOBUS_GRAM_JOB_MANAGER_STATE_FAILED_CLOSE_OUTPUT,
           GLOBUS_GRAM_JOB_MANAGER_STATE_FAILED_TWO_PHASE,
           GLOBUS_GRAM_JOB_MANAGER_STATE_FAILED_TWO_PHASE_COMMITTED,
           GLOBUS_GRAM_JOB_MANAGER_STATE_FAILED_FILE_CLEAN_UP,
           GLOBUS_GRAM_JOB_MANAGER_STATE_FAILED_SCRATCH_CLEAN_UP,
           GLOBUS_GRAM_JOB_MANAGER_STATE_FAILED_CACHE_CLEAN_UP,
           GLOBUS_GRAM_JOB_MANAGER_STATE_FAILED_DONE,
           GLOBUS_GRAM_JOB_MANAGER_STATE_STOP]) ∧
      (stop_all_jobs_case_labels.countP
          (fun labels => decide (request.jobmanager_state ∈ labels)) = 1) ∧
      (request.jobmanager_state ∈ stop_all_jobs_stopping_phases ↔
        ∃ labels ∈ stop_all_jobs_case_labels.take 9, request.jobmanager_state ∈ labels) := by
  refine ⟨stop_all_jobs_request_phase env request, ?_, ?_, ?_⟩
  · cases request.jobmanager_state <;> decide
  · cases request.jobmanager_state <;> decide
  · cases request.jobmanager_state <;> decide

/-! ## Shutdown: the two loops -/

/-- The reload only reads the manager's `url_base`. -/
theorem restart_job_url_base (env : Env) (m1 m2 : globus_gram_job_manager_t)
    (path : String) (h : m1.url_base = m2.url_base) :
    globus_l_gram_restart_job env m1 path = globus_l_gram_restart_job env m2 path := by
  simp only [globus_l_gram_restart_job, h]

theorem job_id_hash_lookup_cons_ne (table : List globus_gram_job_id_ref_t)
    (e : globus_gram_job_id_ref_t) {job_id : String} (hne : e.job_id ≠ job_id) :
    job_id_hash_lookup (e :: table) job_id = job_id_hash_lookup table job_id := by
  simp only [job_id_hash_lookup, if_neg hne]

/-- The registration loop on sub-ids that are pairwise distinct and all
unregistered: it succeeds, maps each of them to the job's contact path and
leaves every other id as it was. -/
theorem register_job_id_loop_distinct (request : globus_gram_jobmanager_request_t)
    (subjobs : List String) :
    ∀ table : List globus_gram_job_id_ref_t,
      subjobs.Nodup →
      (∀ s ∈ subjobs, job_id_hash_lookup table s = none) →
      (register_job_id_loop request table subjobs).1 = GLOBUS_SUCCESS ∧
      (∀ s ∈ subjobs,
        job_id_hash_lookup (register_job_id_loop request table subjobs).2 s =
          some { job_id := s, job_contact_path := request.job_contact_path }) ∧
      (∀ s, s ∉ subjobs →
        job_id_hash_lookup (register_job_id_loop request table subjobs).2 s =
          job_id_hash_lookup table s) := by
  induction subjobs with
  | nil =>
    intro table _ _
    exact ⟨rfl, by simp, fun _ _ => rfl⟩
  | cons s rest ih =>
    intro table hnodup hnew
    simp only [List.nodup_cons] at hnodup
    have hs : job_id_hash_lookup table s = none := hnew s (List.mem_cons_self _ _)
    have hstep : register_job_id_loop request table (s :: rest) =
        register_job_id_loop request
          ({ job_id := s, job_contact_path := request.job_contact_path } :: table) rest := by
      simp only [register_job_id_loop, hs, job_id_hash_insert]
    have hnew1 : ∀ s2 ∈ rest,
        job_id_hash_lookup
          ({ job_id := s, job_contact_path := request.job_contact_path } :: table) s2 =
          none := by
      intro s2 hs2
      have hne : s ≠ s2 := fun h => hnodup.1 (h ▸ hs2)
      rw [job_id_hash_lookup_cons_ne _ _ hne]
      exact hnew s2 (List.mem_cons_of_mem _ hs2)
    obtain ⟨hrc, hmapped, hother⟩ := ih _ hnodup.2 hnew1
    rw [hstep]
    refine ⟨hrc, ?_, ?_⟩
    · intro s2 hs2
      rcases List.mem_cons.1 hs2 with rfl | hmem
      · rw [hother s2 hnodup.1]
        simp only [job_id_hash_lookup, if_true]
      · exact hmapped s2 hmem
    · intro s2 hs2
      simp only [List.mem_cons, not_or] at hs2
      rw [hother s2 hs2.2]
      exact job_id_hash_lookup_cons_ne _ _ (fun h => hs2.1 h.symm)

/-- With the SEG configured, registering a raw id whose sub-ids are pairwise
distinct and all unregistered succeeds and maps every sub-id to the job's
contact path. -/
theorem register_job_id_distinct (manager : globus_gram_job_manager_t) (job_id : String)
    (request : globus_gram_jobmanager_request_t)
    (hseg : manager.config.seg_module ≠ none)
    (hnodup : (globus_gram_split_subjobs job_id).Nodup)
    (hnew : ∀ s ∈ globus_gram_split_subjobs job_id,
      job_id_hash_lookup manager.job_id_hash s = none) :
    (globus_gram_job_manager_register_job_id manager job_id request).rc = GLOBUS_SUCCESS ∧
      ∀ s ∈ globus_gram_split_subjobs job_id,
        job_id_hash_lookup
          (globus_gram_job_manager_register_job_id manager job_id request).manager.job_id_hash
          s = some { job_id := s, job_contact_path := request.job_contact_path } := by
  obtain ⟨hrc, hmapped, -⟩ :=
    register_job_id_loop_distinct request _ manager.job_id_hash hnodup hnew
  simp only [globus_gram_job_manager_register_job_id, hseg, ne_eq, not_false_eq_true, if_true]
  exact ⟨hrc, hmapped⟩

/-- The example of the specification: with the SEG configured and neither
sub-id registered, registering `A,B` for the job with contact path `/1/2/`
succeeds and both `A` and `B` resolve to `/1/2/`. -/
theorem register_job_id_two_sub_ids :
    (globus_gram_job_manager_register_job_id (sample_manager []) "A,B"
        (sample_request GLOBUS_GRAM_JOB_MANAGER_STATE_SUBMIT)).rc = GLOBUS_SUCCESS ∧
      job_id_hash_lookup
        (globus_gram_job_manager_register_job_id (sample_manager []) "A,B"
          (sample_request GLOBUS_GRAM_JOB_MANAGER_STATE_SUBMIT)).manager.job_id_hash "A" =
        some { job_id := "A", job_contact_path := "/1/2/" } ∧
      job_id_hash_lookup
        (globus_gram_job_manager_register_job_id (sample_manager []) "A,B"
          (sample_request GLOBUS_GRAM_JOB_MANAGER_STATE_SUBMIT)).manager.job_id_hash "B" =
        some { job_id := "B", job_contact_path := "/1/2/" } := by
  decide

/-- C10 (the code at the failing input): with the SEG configured and no id
registered, registering the raw id `A,A,B,B` returns `GLOBUS_SUCCESS`, yet the
sub-id `A` is not in the job-id table afterwards: the loop registers `B`,
meets `B` again, finds it registered with this contact and leaves the loop,
before it reaches `A`. -/
theorem register_job_id_repeated_sub_id :
    globus_gram_split_subjobs "A,A,B,B" = ["B", "B", "A", "A"] ∧
      (∀ s ∈ globus_gram_split_subjobs "A,A,B,B",
        job_id_hash_lookup (sample_manager []).job_id_hash s = none) ∧
      (globus_gram_job_manager_register_job_id (sample_manager []) "A,A,B,B"
        (sample_request GLOBUS_GRAM_JOB_MANAGER_STATE_SUBMIT)).rc = GLOBUS_SUCCESS ∧
      (globus_gram_job_manager_register_job_id (sample_manager []) "A,A,B,B"
        (sample_request GLOBUS_GRAM_JOB_MANAGER_STATE_SUBMIT)).manager.job_id_hash =
        [{ job_id := "B", job_contact_path := "/1/2/" }] ∧
      job_id_hash_lookup
        (globus_gram_job_manager_register_job_id (sample_manager []) "A,A,B,B"
          (sample_request GLOBUS_GRAM_JOB_MANAGER_STATE_SUBMIT)).manager.job_id_hash "A" =
        none := by
  decide

/-! ## The theorems at sample states -/

/-- C1 (the claim as stated fails): on an entry whose count is 0, one
`remove_reference` leaves the entry in the table with the count -1. -/
theorem remove_reference_count_negative :
    (lease_calls "/1/2/"
        (sample_manager
          [sample_ref "/1/2/" (some (sample_request GLOBUS_GRAM_JOB_MANAGER_STATE_START)) 0 0])
        [LeaseCall.ReleaseLease sample_env]).map
      (fun t => t.manager.request_hash.map (fun e => (e.key, e.reference_count))) =
      some [("/1/2/", -1)] := by
  decide

/-- C1 at a sample state: an acquire and two releases on an entry that starts
with the count 1. -/
theorem lease_calls_reference_count_witness :
    request_hash_wf (sample_manager
        [sample_ref "/1/2/" (some (sample_request GLOBUS_GRAM_JOB_MANAGER_STATE_START)) 1 0]
      ).request_hash ∧
      request_hash_lookup (sample_manager
          [sample_ref "/1/2/" (some (sample_request GLOBUS_GRAM_JOB_MANAGER_STATE_START)) 1 0]
        ).request_hash "/1/2/" =
        some (sample_ref "/1/2/"
          (some (sample_request GLOBUS_GRAM_JOB_MANAGER_STATE_START)) 1 0) ∧
      ∃ t, lease_calls "/1/2/"
          (sample_manager
            [sample_ref "/1/2/" (some (sample_request GLOBUS_GRAM_JOB_MANAGER_STATE_START))
              1 0])
          [LeaseCall.AcquireLease sample_env, LeaseCall.ReleaseLease sample_env,
            LeaseCall.ReleaseLease sample_env] = some t ∧
        ∀ ref2, request_hash_lookup t.manager.request_hash "/1/2/" = some ref2 →
          ref2.reference_count =
              (sample_ref "/1/2/"
                (some (sample_request GLOBUS_GRAM_JOB_MANAGER_STATE_START)) 1 0
              ).reference_count + t.acquired - t.released ∧
            (0 ≤ ref2.reference_count ↔
              (t.released : Int) ≤
                (sample_ref "/1/2/"
                  (some (sample_request GLOBUS_GRAM_JOB_MANAGER_STATE_START)) 1 0
                ).reference_count + t.acquired) :=
  ⟨by decide, by decide,
    lease_calls_reference_count "/1/2/" _ _ _ (by decide) (by decide)
      (by intro h; cases h)⟩

/-- C2 at a sample state: the last reference to a DONE job is released. -/
theorem remove_reference_removes_terminal_witness :
    request_hash_wf (sample_manager
        [sample_ref "/1/2/" (some (sample_request GLOBUS_GRAM_JOB_MANAGER_STATE_DONE)) 1 0,
         sample_ref "/3/4/" none 0 0]).request_hash ∧
      ∃ o, globus_gram_job_manager_remove_reference sample_env
          (sample_manager
            [sample_ref "/1/2/" (some (sample_request GLOBUS_GRAM_JOB_MANAGER_STATE_DONE)) 1 0,
             sample_ref "/3/4/" none 0 0]) "/1/2/" = some o ∧
        o.rc = GLOBUS_SUCCESS ∧
        request_hash_lookup o.manager.request_hash "/1/2/" = none ∧
        globus_gram_job_manager_request_exists o.manager "/1/2/" = false := by
  refine ⟨by decide, ?_⟩
  obtain ⟨o, hrun, hrc, hgone, -, -, hexists, -⟩ :=
    remove_reference_removes_terminal sample_env
      (sample_manager
        [sample_ref "/1/2/" (some (sample_request GLOBUS_GRAM_JOB_MANAGER_STATE_DONE)) 1 0,
         sample_ref "/3/4/" none 0 0]) "/1/2/"
      (sample_ref "/1/2/" (some (sample_request GLOBUS_GRAM_JOB_MANAGER_STATE_DONE)) 1 0)
      (sample_request GLOBUS_GRAM_JOB_MANAGER_STATE_DONE)
      (by decide) (by decide) rfl (by decide) (Or.inl rfl)
  exact ⟨o, hrun, hrc, hgone, hexists⟩

/-- C3 at a sample state: the last reference to a POLL2 job is released while
the SEG is started, and the swap-out one-shot is registered. -/
theorem remove_reference_swap_out_timer_witness :
    ∃ o, globus_gram_job_manager_remove_reference sample_env
        (sample_manager
          [sample_ref "/1/2/" (some (sample_request GLOBUS_GRAM_JOB_MANAGER_STATE_POLL2)) 1 0])
        "/1/2/" = some o ∧
      Call.globus_callback_register_oneshot (Callback.globus_l_gram_ref_swap_out "/1/2/") ∈
        o.calls ∧
      request_hash_lookup o.manager.request_hash "/1/2/" =
        some (sample_ref "/1/2/"
          (some (sample_request GLOBUS_GRAM_JOB_MANAGER_STATE_POLL2)) 0 7) := by
  obtain ⟨o, hrun, hiff, harmed, -⟩ :=
    remove_reference_swap_out_timer sample_env
      (sample_manager
        [sample_ref "/1/2/" (some (sample_request GLOBUS_GRAM_JOB_MANAGER_STATE_POLL2)) 1 0])
      "/1/2/"
      (sample_ref "/1/2/" (some (sample_request GLOBUS_GRAM_JOB_MANAGER_STATE_POLL2)) 1 0)
      (sample_request GLOBUS_GRAM_JOB_MANAGER_STATE_POLL2) (by decide) rfl
  exact ⟨o, hrun, hiff.2 ⟨by decide, rfl, rfl⟩, harmed ⟨by decide, rfl, rfl⟩ 7 rfl⟩

/-- C4 at a sample state: a reference is added to a resident job whose
swap-out timer is armed. -/
theorem add_reference_resident_entry_witness :
    ∃ o, globus_gram_job_manager_add_reference sample_env
        (sample_manager
          [sample_ref "/1/2/" (some (sample_request GLOBUS_GRAM_JOB_MANAGER_STATE_POLL2)) 0 7])
        "/1/2/" true = some o ∧
      o.rc = GLOBUS_SUCCESS ∧
      o.out = some (some (sample_request GLOBUS_GRAM_JOB_MANAGER_STATE_POLL2)) ∧
      request_hash_lookup o.manager.request_hash "/1/2/" =
        some (sample_ref "/1/2/"
          (some (sample_request GLOBUS_GRAM_JOB_MANAGER_STATE_POLL2)) 1 GLOBUS_NULL_HANDLE) := by
  obtain ⟨o, hrun, hrc, hout, hentry, -⟩ :=
    add_reference_resident_entry sample_env
      (sample_manager
        [sample_ref "/1/2/" (some (sample_request GLOBUS_GRAM_JOB_MANAGER_STATE_POLL2)) 0 7])
      "/1/2/"
      (sample_ref "/1/2/" (some (sample_request GLOBUS_GRAM_JOB_MANAGER_STATE_POLL2)) 0 7)
      (sample_request GLOBUS_GRAM_JOB_MANAGER_STATE_POLL2) (by decide) rfl
  exact ⟨o, hrun, hrc, hout, hentry⟩

/-- C5 at a sample state: a reference is added to a swapped-out job, and the
reloaded job comes back in its restart phase POLL2. -/
theorem add_reference_swapped_out_entry_witness :
    ∃ o ref2 job, globus_gram_job_manager_add_reference sample_env
        (sample_manager [sample_ref "/1/2/" none 0 0]) "/1/2/" true = some o ∧
      o.rc = GLOBUS_SUCCESS ∧
      request_hash_lookup o.manager.request_hash "/1/2/" = some ref2 ∧
      ref2.request = some job ∧
      job.jobmanager_state = GLOBUS_GRAM_JOB_MANAGER_STATE_POLL2 ∧
      o.out = some (some job) ∧
      ref2.reference_count = 1 := by
  obtain ⟨o, ref2, job, hrun, hrc, hentry, hres, -, hphase, hout, hcount⟩ :=
    add_reference_swapped_out_entry sample_env (sample_manager [sample_ref "/1/2/" none 0 0])
      "/1/2/" (sample_ref "/1/2/" none 0 0)
      { sample_request GLOBUS_GRAM_JOB_MANAGER_STATE_START with
        restart_state := GLOBUS_GRAM_JOB_MANAGER_STATE_POLL2 }
      (by decide) rfl rfl
  exact ⟨o, ref2, job, hrun, hrc, hentry, hres, hphase, hout, hcount⟩

/-- C6 at a sample state: an idle POLL2 job is swapped out and reloaded. -/
theorem swap_out_then_reload_witness :
    ∃ manager2 calls,
      globus_l_gram_ref_swap_out sample_env
        (sample_manager
          [sample_ref "/1/2/" (some (sample_request GLOBUS_GRAM_JOB_MANAGER_STATE_POLL2)) 0 7])
        "/1/2/" = some (manager2, calls) ∧
      globus_gram_job_manager_request_exists manager2 "/1/2/" = false ∧
      (globus_gram_job_manager_get_status manager2 "/1/2/").out = some (2, 0) ∧
      ∃ o, globus_gram_job_manager_add_reference sample_env manager2 "/1/2/" true = some o ∧
        o.rc = GLOBUS_SUCCESS ∧
        globus_gram_job_manager_request_exists o.manager "/1/2/" = true ∧
        (globus_gram_job_manager_get_status o.manager "/1/2/").out = some (2, 0) := by
  obtain ⟨manager2, calls, hrun, hexists, -, hstatus, hnext⟩ :=
    swap_out_then_reload sample_env
      (sample_manager
        [sample_ref "/1/2/" (some (sample_request GLOBUS_GRAM_JOB_MANAGER_STATE_POLL2)) 0 7])
      "/1/2/"
      (sample_ref "/1/2/" (some (sample_request GLOBUS_GRAM_JOB_MANAGER_STATE_POLL2)) 0 7)
      (sample_request GLOBUS_GRAM_JOB_MANAGER_STATE_POLL2) (by decide) rfl rfl (by decide)
  obtain ⟨o, hrun2, hrc2, hexists2, -, hstatus2⟩ := hnext sample_env _ rfl
  exact ⟨manager2, calls, hrun, hexists, hstatus, o, hrun2, hrc2, hexists2, hstatus2⟩

/-- C7 at a sample state: the callback fires after a new reference disarmed
the timer, and the job stays resident. -/
theorem ref_swap_out_rechecks_witness :
    ∃ manager2 calls ref2,
      globus_l_gram_ref_swap_out sample_env
        (sample_manager
          [sample_ref "/1/2/" (some (sample_request GLOBUS_GRAM_JOB_MANAGER_STATE_POLL2)) 1
            GLOBUS_NULL_HANDLE])
        "/1/2/" = some (manager2, calls) ∧
      request_hash_lookup manager2.request_hash "/1/2/" = some ref2 ∧
      ref2.request = some (sample_request GLOBUS_GRAM_JOB_MANAGER_STATE_POLL2) ∧
      ref2.reference_count = 1 := by
  obtain ⟨manager2, calls, ref2, hrun, hentry, -, hstays, -, hcount, -⟩ :=
    ref_swap_out_rechecks sample_env
      (sample_manager
        [sample_ref "/1/2/" (some (sample_request GLOBUS_GRAM_JOB_MANAGER_STATE_POLL2)) 1
          GLOBUS_NULL_HANDLE])
      "/1/2/"
      (sample_ref "/1/2/" (some (sample_request GLOBUS_GRAM_JOB_MANAGER_STATE_POLL2)) 1
        GLOBUS_NULL_HANDLE)
      (sample_request GLOBUS_GRAM_JOB_MANAGER_STATE_POLL2) (by decide) rfl
  exact ⟨manager2, calls, ref2, hrun, hentry, hstays (by decide), hcount⟩

/-- On a string without the separator `strtok_r` yields the whole string as
its one token (or nothing, if the string is empty). -/
theorem strtok_r_tokens_no_sep (sep : Char) :
    ∀ (cs acc : List Char), sep ∉ cs →
      strtok_r_tokens sep cs acc =
        if acc.reverse ++ cs = [] then [] else [String.mk (acc.reverse ++ cs)] := by
  intro cs
  induction cs with
  | nil =>
    intro acc _
    by_cases h : acc = []
    · simp [strtok_r_tokens, h]
    · simp [strtok_r_tokens, h]
  | cons c cs ih =>
    intro acc hsep
    simp only [List.mem_cons, not_or] at hsep
    have hc : ¬ c = sep := fun h => hsep.1 h.symm
    simp only [strtok_r_tokens, if_neg hc]
    rw [ih (c :: acc) hsep.2]
    simp

/-- A non-empty raw id without a comma is its own single sub-id. -/
theorem split_subjobs_single (job_id : String) (hne : job_id.data ≠ [])
    (hcomma : ',' ∉ job_id.data) : globus_gram_split_subjobs job_id = [job_id] := by
  unfold globus_gram_split_subjobs
  rw [strtok_r_tokens_no_sep ',' job_id.data [] hcomma]
  simp [hne, globus_list_insert]

/-- For an id that is one sub-id (either the SEG is not configured, or the id
is not empty and has no comma), registered to an owner other than the job's
contact path, `globus_gram_job_manager_register_job_id` returns
`MALLOC_FAILED` and leaves the manager as it was. -/
theorem register_job_id_single_conflict (manager : globus_gram_job_manager_t)
    (job_id : String) (request : globus_gram_jobmanager_request_t)
    (old_ref : globus_gram_job_id_ref_t)
    (hid : manager.config.seg_module = none ∨ (job_id.data ≠ [] ∧ ',' ∉ job_id.data))
    (hold : job_id_hash_lookup manager.job_id_hash job_id = some old_ref)
    (hother : old_ref.job_contact_path ≠ request.job_contact_path) :
    (globus_gram_job_manager_register_job_id manager job_id request).rc ≠ GLOBUS_SUCCESS ∧
      (globus_gram_job_manager_register_job_id manager job_id request).rc =
        GLOBUS_GRAM_PROTOCOL_ERROR_MALLOC_FAILED ∧
      (globus_gram_job_manager_register_job_id manager job_id request).manager = manager ∧
      job_id_hash_lookup
        (globus_gram_job_manager_register_job_id manager job_id request).manager.job_id_hash
        job_id = some old_ref := by
  have hsub : (if manager.config.seg_module ≠ none then globus_gram_split_subjobs job_id
      else globus_list_insert [] job_id) = [job_id] := by
    by_cases hseg : manager.config.seg_module = none
    · simp [hseg, globus_list_insert]
    · rcases hid with h | ⟨hne, hcomma⟩
      · exact absurd h hseg
      · simp only [ne_eq, hseg, not_false_eq_true, if_true]
        exact split_subjobs_single job_id hne hcomma
  have hloop : register_job_id_loop request manager.job_id_hash [job_id] =
      (GLOBUS_GRAM_PROTOCOL_ERROR_MALLOC_FAILED, manager.job_id_hash) := by
    simp only [register_job_id_loop, hold, hother, ne_eq, not_false_eq_true, if_true]
  have hrun : globus_gram_job_manager_register_job_id manager job_id request =
      { rc := GLOBUS_GRAM_PROTOCOL_ERROR_MALLOC_FAILED, out := none, manager := manager
        calls := [Call.GlobusGramJobManagerLock, Call.GlobusGramJobManagerUnlock] } := by
    simp only [globus_gram_job_manager_register_job_id, hsub, hloop]
  rw [hrun]
  exact ⟨by simp, rfl, rfl, hold⟩

/-- C12 (the code at the failing input): with the SEG configured and `B`
already registered to the job's own contact path `/1/2/`, registering the raw
id `A,B,C` for that job returns `GLOBUS_SUCCESS`, yet afterwards `A` is not in
the job-id table: the loop inserts `C`, finds `B` registered with this contact
and leaves the loop before it reaches `A`. -/
theorem register_job_id_partly_registered :
    globus_gram_split_subjobs "A,B,C" = ["C", "B", "A"] ∧
      (globus_gram_job_manager_register_job_id
        { sample_manager [] with
          job_id_hash := [{ job_id := "B", job_contact_path := "/1/2/" }] }
        "A,B,C" (sample_request GLOBUS_GRAM_JOB_MANAGER_STATE_SUBMIT)).rc = GLOBUS_SUCCESS ∧
      (globus_gram_job_manager_register_job_id
        { sample_manager [] with
          job_id_hash := [{ job_id := "B", job_contact_path := "/1/2/" }] }
        "A,B,C" (sample_request GLOBUS_GRAM_JOB_MANAGER_STATE_SUBMIT)).manager.job_id_hash =
        [{ job_id := "C", job_contact_path := "/1/2/" },
         { job_id := "B", job_contact_path := "/1/2/" }] ∧
      job_id_hash_lookup
        (globus_gram_job_manager_register_job_id
          { sample_manager [] with
            job_id_hash := [{ job_id := "B", job_contact_path := "/1/2/" }] }
          "A,B,C" (sample_request GLOBUS_GRAM_JOB_MANAGER_STATE_SUBMIT)).manager.job_id_hash
        "A" = none := by
  decide

/-! ## Releasing an unknown key -/

/-- C14: on a key that is not in the request table,
`globus_gram_job_manager_remove_reference` returns `JOB_CONTACT_NOT_FOUND` and
leaves the manager exactly as it was (both tables, `stop`, `done`, the
timers); a second call gives the same code and the same manager. -/
theorem remove_reference_unknown_key (env env2 : Env) (manager : globus_gram_job_manager_t)
    (key : String) (habs : request_hash_lookup manager.request_hash key = none) :
    ∃ o o2, globus_gram_job_manager_remove_reference env manager key = some o ∧
      o.rc = GLOBUS_GRAM_PROTOCOL_ERROR_JOB_CONTACT_NOT_FOUND ∧
      o.manager = manager ∧
      globus_gram_job_manager_remove_reference env2 o.manager key = some o2 ∧
      o2.rc = GLOBUS_GRAM_PROTOCOL_ERROR_JOB_CONTACT_NOT_FOUND ∧
      o2.manager = manager := by
  obtain ⟨o, hrun, hrc, hm⟩ := remove_reference_absent env manager key habs
  obtain ⟨o2, hrun2, hrc2, hm2⟩ := remove_reference_absent env2 manager key habs
  exact ⟨o, o2, hrun, hrc, hm, by rw [hm]; exact hrun2, hrc2, hm2⟩

/-! ## A failed state file write -/

/-- C16 (the code at the failing input): the swap-out callback runs for an
entry with reference count 0 and an armed timer while the state file writer
reports a failure; the job is dropped all the same and the entry's `request`
is cleared. -/
theorem ref_swap_out_failed_write :
    sample_env_failing.globus_gram_job_manager_state_file_write
        (sample_request GLOBUS_GRAM_JOB_MANAGER_STATE_POLL2) ≠ GLOBUS_SUCCESS ∧
      (globus_l_gram_ref_swap_out sample_env_failing
          (sample_manager
            [sample_ref "/1/2/" (some (sample_request GLOBUS_GRAM_JOB_MANAGER_STATE_POLL2))
              0 7])
          "/1/2/").map (fun r => r.1.request_hash) =
        some [sample_ref "/1/2/" none 0 GLOBUS_NULL_HANDLE] ∧
      (globus_l_gram_ref_swap_out sample_env_failing
          (sample_manager
            [sample_ref "/1/2/" (some (sample_request GLOBUS_GRAM_JOB_MANAGER_STATE_POLL2))
              0 7])
          "/1/2/").map
          (fun r => decide
            (Call.globus_gram_job_manager_request_free "/1/2/" ∈ r.2)) = some true := by
  decide

/-! ## Adding a request -/

/-- With the stop flag set, `add_request` only reports `JM_STOPPED`. -/
theorem add_request_stopped (manager : globus_gram_job_manager_t) (key : String)
    (request : globus_gram_jobmanager_request_t) (hstop : manager.stop = true) :
    globus_gram_job_manager_add_request manager key request =
      { rc := GLOBUS_GRAM_PROTOCOL_ERROR_JM_STOPPED, out := none, manager := manager
        calls := [Call.GlobusGramJobManagerLock, Call.GlobusGramJobManagerUnlock] } := by
  simp only [globus_gram_job_manager_add_request, hstop, if_true]

/-- Without stop flag and grace timer, `add_request` is the insertion. -/
theorem add_request_plain (manager : globus_gram_job_manager_t) (key : String)
    (request : globus_gram_jobmanager_request_t) (hstop : manager.stop = false)
    (htimer : manager.grace_period_timer = GLOBUS_NULL_HANDLE) :
    globus_gram_job_manager_add_request manager key request =
      match request_hash_insert manager.request_hash (add_request_ref key request) with
      | some table =>
        { rc := GLOBUS_SUCCESS, out := none
          manager := { manager with request_hash := table }
          calls := [Call.GlobusGramJobManagerLock, Call.GlobusGramJobManagerUnlock] }
      | none =>
        { rc := GLOBUS_GRAM_PROTOCOL_ERROR_MALLOC_FAILED, out := none, manager := manager
          calls := [Call.GlobusGramJobManagerLock, Call.GlobusGramJobManagerUnlock] } := by
  simp only [globus_gram_job_manager_add_request, hstop, htimer, ne_eq, not_true_eq_false,
    if_false, Bool.false_eq_true]

/-- Without stop flag, with the grace timer armed and `done` set,
`add_request` unregisters the timer and fails. -/
theorem add_request_drained (manager : globus_gram_job_manager_t) (key : String)
    (request : globus_gram_jobmanager_request_t) (hstop : manager.stop = false)
    (htimer : manager.grace_period_timer ≠ GLOBUS_NULL_HANDLE)
    (hdone : manager.done = true) :
    globus_gram_job_manager_add_request manager key request =
      { rc := GLOBUS_GRAM_PROTOCOL_ERROR_MALLOC_FAILED, out := none, manager := manager
        calls := [Call.GlobusGramJobManagerLock,
          Call.globus_callback_unregister manager.grace_period_timer,
          Call.GlobusGramJobManagerUnlock] } := by
  simp only [globus_gram_job_manager_add_request, hstop, htimer, hdone, ne_eq,
    not_false_eq_true, if_true, if_false, Bool.false_eq_true]

/-- Without stop flag, with the grace timer armed and `done` clear,
`add_request` unregisters the timer, clears the handle and inserts. -/
theorem add_request_grace (manager : globus_gram_job_manager_t) (key : String)
    (request : globus_gram_jobmanager_request_t) (hstop : manager.stop = false)
    (htimer : manager.grace_period_timer ≠ GLOBUS_NULL_HANDLE)
    (hdone : manager.done = false) :
    globus_gram_job_manager_add_request manager key request =
      match request_hash_insert manager.request_hash (add_request_ref key request) with
      | some table =>
        { rc := GLOBUS_SUCCESS, out := none
          manager := { manager with
            grace_period_timer := GLOBUS_NULL_HANDLE, request_hash := table }
          calls := [Call.GlobusGramJobManagerLock,
            Call.globus_callback_unregister manager.grace_period_timer,
            Call.GlobusGramJobManagerUnlock] }
      | none =>
        { rc := GLOBUS_GRAM_PROTOCOL_ERROR_MALLOC_FAILED, out := none
          manager := { manager with grace_period_timer := GLOBUS_NULL_HANDLE }
          calls := [Call.GlobusGramJobManagerLock,
            Call.globus_callback_unregister manager.grace_period_timer,
            Call.GlobusGramJobManagerUnlock] } := by
  simp only [globus_gram_job_manager_add_request, hstop, htimer, hdone, ne_eq,
    not_false_eq_true, if_true, if_false, Bool.false_eq_true]

/-- Inserting a key that is not in the table puts the entry at its head. -/
theorem request_hash_insert_new (table : List globus_gram_job_manager_ref_t)
    (ref : globus_gram_job_manager_ref_t)
    (hnew : request_hash_lookup table ref.key = none) :
    request_hash_insert table ref = some (ref :: table) := by
  simp only [request_hash_insert, hnew]

/-- C17: for a manager that is not stopping, has no armed grace timer and does
not hold the key, `globus_gram_job_manager_add_request` succeeds and adds
exactly one entry, under the key, with reference count 0, the job resident and
the cached state and failure code equal to the job's `status` and
`failure_code`; right afterwards `request_exists` is true and `get_status`
returns those two values; every other key's entry and every other field of the
manager is unchanged. -/
theorem add_request_new_entry (manager : globus_gram_job_manager_t) (key : String)
    (request : globus_gram_jobmanager_request_t) (hstop : manager.stop = false)
    (htimer : manager.grace_period_timer = GLOBUS_NULL_HANDLE)
    (hnew : request_hash_lookup manager.request_hash key = none) :
    (globus_gram_job_manager_add_request manager key request).rc = GLOBUS_SUCCESS ∧
      (globus_gram_job_manager_add_request manager key request).manager =
        { manager with
          request_hash :=
            { key := key
              request := some request
              reference_count := 0
              cleanup_timer := GLOBUS_NULL_HANDLE
              job_state := request.status
              failure_code := request.failure_code } :: manager.request_hash } ∧
      request_hash_lookup
          (globus_gram_job_manager_add_request manager key request).manager.request_hash key =
        some { key := key
               request := some request
               reference_count := 0
               cleanup_timer := GLOBUS_NULL_HANDLE
               job_state := request.status
               failure_code := request.failure_code } ∧
      globus_gram_job_manager_request_exists
          (globus_gram_job_manager_add_request manager key request).manager key = true ∧
      (globus_gram_job_manager_get_status
          (globus_gram_job_manager_add_request manager key request).manager key).rc =
        GLOBUS_SUCCESS ∧
      (globus_gram_job_manager_get_status
          (globus_gram_job_manager_add_request manager key request).manager key).out =
        some (request.status, request.failure_code) ∧
      (∀ key2, key2 ≠ key →
        request_hash_lookup
            (globus_gram_job_manager_add_request manager key request).manager.request_hash
            key2 =
          request_hash_lookup manager.request_hash key2) := by
  rw [add_request_plain manager key request hstop htimer,
    request_hash_insert_new _ (add_request_ref key request) hnew]
  refine ⟨rfl, rfl, ?_, ?_, ?_, ?_, ?_⟩
  · simp [request_hash_lookup, add_request_ref]
  · simp [globus_gram_job_manager_request_exists, request_hash_lookup, add_request_ref]
  · simp [globus_gram_job_manager_get_status, request_hash_lookup, add_request_ref]
  · simp [globus_gram_job_manager_get_status, request_hash_lookup, add_request_ref]
  · intro key2 hne
    have hne2 : ¬ key = key2 := fun h => hne h.symm
    simp [request_hash_lookup, add_request_ref, hne2]

/-- After a successful `add_request` the grace-period timer is the null
handle. -/
theorem add_request_success_timer (manager : globus_gram_job_manager_t) (key : String)
    (request : globus_gram_jobmanager_request_t)
    (hrc : (globus_gram_job_manager_add_request manager key request).rc = GLOBUS_SUCCESS) :
    (globus_gram_job_manager_add_request manager key request).manager.grace_period_timer =
      GLOBUS_NULL_HANDLE := by
  cases hstop : manager.stop with
  | true =>
    rw [add_request_stopped manager key request hstop] at hrc
    cases hrc
  | false =>
    by_cases htimer : manager.grace_period_timer = GLOBUS_NULL_HANDLE
    · rw [add_request_plain manager key request hstop htimer] at hrc ⊢
      cases hins : request_hash_insert manager.request_hash (add_request_ref key request) with
      | none => rw [hins] at hrc; cases hrc
      | some table => exact htimer
    · cases hdone : manager.done with
      | true =>
        rw [add_request_drained manager key request hstop htimer hdone] at hrc
        cases hrc
      | false =>
        rw [add_request_grace manager key request hstop htimer hdone]
        cases hins : request_hash_insert manager.request_hash (add_request_ref key request) with
        | none => rfl
        | some table => rfl

/-- C19: for a manager that is not stopping and whose grace-period timer is
armed, `globus_gram_job_manager_add_request` unregisters that timer; if `done`
is already true the call fails and the manager, its request table included, is
unchanged; otherwise the grace-period timer is the null handle afterwards and,
if the key is new, the call succeeds with the new entry in the table. And for
every manager whatsoever, after a successful `add_request` the grace-period
timer is the null handle. -/
theorem add_request_cancels_grace_timer (manager : globus_gram_job_manager_t) (key : String)
    (request : globus_gram_jobmanager_request_t) (hstop : manager.stop = false)
    (htimer : manager.grace_period_timer ≠ GLOBUS_NULL_HANDLE) :
    Call.globus_callback_unregister manager.grace_period_timer ∈
        (globus_gram_job_manager_add_request manager key request).calls ∧
      (manager.done = true →
        (globus_gram_job_manager_add_request manager key request).rc ≠ GLOBUS_SUCCESS ∧
        (globus_gram_job_manager_add_request manager key request).manager = manager) ∧
      (manager.done = false →
        (globus_gram_job_manager_add_request manager key request).manager.grace_period_timer =
            GLOBUS_NULL_HANDLE ∧
          (request_hash_lookup manager.request_hash key = none →
            (globus_gram_job_manager_add_request manager key request).rc = GLOBUS_SUCCESS ∧
            globus_gram_job_manager_request_exists
              (globus_gram_job_manager_add_request manager key request).manager key = true)) ∧
      (∀ (manager2 : globus_gram_job_manager_t) (key2 : String)
          (request2 : globus_gram_jobmanager_request_t),
        (globus_gram_job_manager_add_request manager2 key2 request2).rc = GLOBUS_SUCCESS →
        (globus_gram_job_manager_add_request manager2 key2 request2).manager.grace_period_timer =
          GLOBUS_NULL_HANDLE) := by
  refine ⟨?_, ?_, ?_, add_request_success_timer⟩
  · cases hdone : manager.done with
    | true =>
      rw [add_request_drained manager key request hstop htimer hdone]
      simp
    | false =>
      rw [add_request_grace manager key request hstop htimer hdone]
      cases request_hash_insert manager.request_hash (add_request_ref key request) <;> simp
  · intro hdone
    rw [add_request_drained manager key request hstop htimer hdone]
    exact ⟨by simp, rfl⟩
  · intro hdone
    rw [add_request_grace manager key request hstop htimer hdone]
    constructor
    · cases request_hash_insert manager.request_hash (add_request_ref key request) <;> rfl
    · intro hnew
      rw [request_hash_insert_new _ (add_request_ref key request) hnew]
      refine ⟨rfl, ?_⟩
      simp [globus_gram_job_manager_request_exists, request_hash_lookup, add_request_ref]

/-! ## Releasing the last entry -/

/-- The outcome of the release that takes an entry out of the table, in
full. -/
theorem remove_reference_terminal_outcome (env : Env) (manager : globus_gram_job_manager_t)
    (key : String) (ref : globus_gram_job_manager_ref_t)
    (job : globus_gram_jobmanager_request_t)
    (href : request_hash_lookup manager.request_hash key = some ref)
    (hjob : ref.request = some job)
    (hcount : ref.reference_count - 1 = 0)
    (hphase : job.jobmanager_state = GLOBUS_GRAM_JOB_MANAGER_STATE_DONE ∨
      job.jobmanager_state = GLOBUS_GRAM_JOB_MANAGER_STATE_FAILED_DONE) :
    globus_gram_job_manager_remove_reference env manager key =
      some
        { rc := GLOBUS_SUCCESS
          out := none
          manager :=
            (if (request_hash_remove
                  (request_hash_store manager.request_hash
                    { ref with reference_count := ref.reference_count - 1 }) key).isEmpty then
              if manager.stop then
                ({ manager with
                    request_hash := request_hash_remove
                      (request_hash_store manager.request_hash
                        { ref with reference_count := ref.reference_count - 1 }) key
                    done := true }, [Call.globus_cond_signal])
              else globus_gram_job_manager_set_grace_period_timer env
                { manager with
                    request_hash := request_hash_remove
                      (request_hash_store manager.request_hash
                        { ref with reference_count := ref.reference_count - 1 }) key }
            else
              ({ manager with
                  request_hash := request_hash_remove
                    (request_hash_store manager.request_hash
                      { ref with reference_count := ref.reference_count - 1 }) key },
                ([] : List Call))).1
          calls := [Call.GlobusGramJobManagerLock] ++
            (if (request_hash_remove
                  (request_hash_store manager.request_hash
                    { ref with reference_count := ref.reference_count - 1 }) key).isEmpty then
              if manager.stop then
                ({ manager with
                    request_hash := request_hash_remove
                      (request_hash_store manager.request_hash
                        { ref with reference_count := ref.reference_count - 1 }) key
                    done := true }, [Call.globus_cond_signal])
              else globus_gram_job_manager_set_grace_period_timer env
                { manager with
                    request_hash := request_hash_remove
                      (request_hash_store manager.request_hash
                        { ref with reference_count := ref.reference_count - 1 }) key }
            else
              ({ manager with
                  request_hash := request_hash_remove
                    (request_hash_store manager.request_hash
                      { ref with reference_count := ref.reference_count - 1 }) key },
                ([] : List Call))).2 ++
            [Call.globus_gram_job_manager_request_destroy job.job_contact_path,
             Call.GlobusGramJobManagerUnlock] } := by
  simp only [globus_gram_job_manager_remove_reference, href, hjob, hcount, hphase, if_true]

/-- C20: when `globus_gram_job_manager_remove_reference` takes an entry out of
the request table (count brought to zero, phase DONE or FAILED_DONE): if the
table is empty afterwards and the stop flag is set, `done` becomes true and the
condition is signalled; if the table is empty and the stop flag is clear, the
grace-period one-shot is registered and, when that succeeds, its handle is in
`grace_period_timer` and `done` keeps its value; if the table is not empty,
`done` and `grace_period_timer` are unchanged. -/
theorem remove_reference_last_entry (env : Env) (manager : globus_gram_job_manager_t)
    (key : String) (ref : globus_gram_job_manager_ref_t)
    (job : globus_gram_jobmanager_request_t)
    (href : request_hash_lookup manager.request_hash key = some ref)
    (hjob : ref.request = some job)
    (hcount : ref.reference_count - 1 = 0)
    (hphase : job.jobmanager_state = GLOBUS_GRAM_JOB_MANAGER_STATE_DONE ∨
      job.jobmanager_state = GLOBUS_GRAM_JOB_MANAGER_STATE_FAILED_DONE) :
    ∃ o, globus_gram_job_manager_remove_reference env manager key = some o ∧
      o.manager.request_hash =
        request_hash_remove
          (request_hash_store manager.request_hash
            { ref with reference_count := ref.reference_count - 1 }) key ∧
      (o.manager.request_hash = [] → manager.stop = true →
        o.manager.done = true ∧ Call.globus_cond_signal ∈ o.calls ∧
        o.manager.grace_period_timer = manager.grace_period_timer) ∧
      (o.manager.request_hash = [] → manager.stop = false →
        Call.globus_callback_register_oneshot
            Callback.globus_l_gram_job_manager_grace_period_expired ∈ o.calls ∧
        ∀ handle, env.globus_callback_register_oneshot
            Callback.globus_l_gram_job_manager_grace_period_expired = some handle →
          o.manager.grace_period_timer = handle ∧ o.manager.done = manager.done) ∧
      (o.manager.request_hash ≠ [] →
        o.manager.done = manager.done ∧
        o.manager.grace_period_timer = manager.grace_period_timer) := by
  refine ⟨_, remove_reference_terminal_outcome env manager key ref job href hjob hcount hphase,
    ?_⟩
  generalize request_hash_remove
    (request_hash_store manager.request_hash
      { ref with reference_count := ref.reference_count - 1 }) key = table
  cases table with
  | nil =>
    cases hstop : manager.stop with
    | true => simp
    | false =>
      cases hreg : env.globus_callback_register_oneshot
          Callback.globus_l_gram_job_manager_grace_period_expired with
      | none => simp [globus_gram_job_manager_set_grace_period_timer, hreg]
      | some handle => simp [globus_gram_job_manager_set_grace_period_timer, hreg]
  | cons e es => simp

/-! ## Resolving an LRM job id -/

/-- C13 (the claim as stated fails): with the stop flag set and the LRM id `A`
registered to the resident job `/1/2/`, `add_reference_by_jobid` returns
`JM_STOPPED` and changes nothing, while `add_reference` on `/1/2/` returns
`GLOBUS_SUCCESS` and raises the count. -/
theorem add_reference_by_jobid_stopped :
    job_id_hash_lookup sample_manager_stopping.job_id_hash "A" =
        some { job_id := "A", job_contact_path := "/1/2/" } ∧
      (globus_gram_job_manager_add_reference_by_jobid sample_env sample_manager_stopping
          "A" true).map (fun o => (o.rc, o.manager.request_hash.map (fun e => e.reference_count))) =
        some (GLOBUS_GRAM_PROTOCOL_ERROR_JM_STOPPED, [0]) ∧
      (globus_gram_job_manager_add_reference sample_env sample_manager_stopping
          "/1/2/" true).map (fun o => (o.rc, o.manager.request_hash.map (fun e => e.reference_count))) =
        some (GLOBUS_SUCCESS, [1]) := by
  decide

/-- C13 (as amended): with the stop flag clear and the LRM id registered to
the owner key `k`, `globus_gram_job_manager_add_reference_by_jobid` returns the
same code and leaves the same manager as `globus_gram_job_manager_add_reference`
on `k`, and hands back the same job handle whenever `add_reference` writes one
(on a failed reload `add_reference` writes none and `add_reference_by_jobid`
has set the handle to NULL). Its other outcomes are `JOB_CONTACT_NOT_FOUND`,
when the stop flag is clear and the LRM id is not registered, and `JM_STOPPED`,
whenever the stop flag is set; in both the manager is unchanged and the handle
is NULL. -/
theorem add_reference_by_jobid_resolves (env : Env) (manager : globus_gram_job_manager_t)
    (jobid : String) (request : Bool) :
    (manager.stop = false →
      ∀ jobref, job_id_hash_lookup manager.job_id_hash jobid = some jobref →
        (∀ o, globus_gram_job_manager_add_reference env manager jobref.job_contact_path
            request = some o →
          ∃ o2, globus_gram_job_manager_add_reference_by_jobid env manager jobid request =
              some o2 ∧
            o2.rc = o.rc ∧ o2.manager = o.manager ∧
            (∀ written, o.out = some written → o2.out = some written) ∧
            (o.out = none → o2.out = if request then some none else none)) ∧
        (globus_gram_job_manager_add_reference env manager jobref.job_contact_path request =
            none →
          globus_gram_job_manager_add_reference_by_jobid env manager jobid request = none)) ∧
      (manager.stop = false → job_id_hash_lookup manager.job_id_hash jobid = none →
        globus_gram_job_manager_add_reference_by_jobid env manager jobid request =
          some { rc := GLOBUS_GRAM_PROTOCOL_ERROR_JOB_CONTACT_NOT_FOUND
                 out := if request then some none else none
                 manager := manager, calls := [] }) ∧
      (manager.stop = true →
        globus_gram_job_manager_add_reference_by_jobid env manager jobid request =
          some { rc := GLOBUS_GRAM_PROTOCOL_ERROR_JM_STOPPED
                 out := if request then some none else none
                 manager := manager, calls := [] }) := by
  refine ⟨?_, ?_, ?_⟩
  · intro hstop jobref hreg
    constructor
    · intro o hrun
      simp only [globus_gram_job_manager_add_reference] at hrun
      cases hlocked : globus_l_gram_add_reference_locked env manager jobref.job_contact_path
          request with
      | none => rw [hlocked] at hrun; cases hrun
      | some o1 =>
        rw [hlocked] at hrun
        simp only [Option.some.injEq] at hrun
        subst hrun
        refine ⟨{ o1 with
            out := match o1.out with
              | some written => some written
              | none => if request then some none else none },
          by simp only [globus_gram_job_manager_add_reference_by_jobid, hstop, hreg,
            hlocked, Bool.false_eq_true, if_false], rfl, rfl, ?_, ?_⟩
        · intro written hw
          simp only at hw
          simp only [hw]
        · intro hn
          simp only at hn
          simp only [hn]
    · intro hrun
      simp only [globus_gram_job_manager_add_reference] at hrun
      cases hlocked : globus_l_gram_add_reference_locked env manager jobref.job_contact_path
          request with
      | none =>
        simp only [globus_gram_job_manager_add_reference_by_jobid, hstop, hreg, hlocked,
          Bool.false_eq_true, if_false]
      | some o1 => rw [hlocked] at hrun; cases hrun
  · intro hstop hreg
    simp only [globus_gram_job_manager_add_reference_by_jobid, hstop, hreg,
      Bool.false_eq_true, if_false]
  · intro hstop
    simp only [globus_gram_job_manager_add_reference_by_jobid, hstop, if_true]

/-! ## Reachable states -/

/-- An entry of the table after a store is the stored entry or was in the
table. -/
theorem request_hash_mem_store {table : List globus_gram_job_manager_ref_t}
    {ref e : globus_gram_job_manager_ref_t} (h : e ∈ request_hash_store table ref) :
    e = ref ∨ e ∈ table := by
  induction table with
  | nil => simp [request_hash_store] at h
  | cons x xs ih =>
    by_cases hk : x.key = ref.key
    · simp only [request_hash_store, if_pos hk, List.mem_cons] at h
      rcases h with h | h
      · exact Or.inl h
      · exact Or.inr (List.mem_cons_of_mem _ h)
    · simp only [request_hash_store, if_neg hk, List.mem_cons] at h
      rcases h with h | h
      · exact Or.inr (by simp [h])
      · rcases ih h with h2 | h2
        · exact Or.inl h2
        · exact Or.inr (List.mem_cons_of_mem _ h2)

/-- Storing an entry that is resident or disarmed keeps the invariant. -/
theorem swapped_out_disarmed_store {table : List globus_gram_job_manager_ref_t}
    (ref : globus_gram_job_manager_ref_t) (h : swapped_out_disarmed table)
    (href : ref.request = none → ref.cleanup_timer = GLOBUS_NULL_HANDLE) :
    swapped_out_disarmed (request_hash_store table ref) := by
  intro e he
  rcases request_hash_mem_store he with rfl | hmem
  · exact href
  · exact h e hmem

/-- Removing an entry keeps the invariant. -/
theorem swapped_out_disarmed_remove {table : List globus_gram_job_manager_ref_t}
    (key : String) (h : swapped_out_disarmed table) :
    swapped_out_disarmed (request_hash_remove table key) := by
  intro e he
  exact h e ((request_hash_remove_sublist table key).subset he)

/-- What `globus_l_gram_add_reference_locked` never touches, and the invariant
it keeps. -/
theorem add_reference_locked_frame (env : Env) (manager : globus_gram_job_manager_t)
    (key : String) (request : Bool)
    (o : Outcome (Option globus_gram_jobmanager_request_t))
    (hrun : globus_l_gram_add_reference_locked env manager key request = some o) :
    o.manager.stop = manager.stop ∧ o.manager.job_id_hash = manager.job_id_hash ∧
      o.manager.url_base = manager.url_base ∧ o.manager.config = manager.config ∧
      (swapped_out_disarmed manager.request_hash →
        swapped_out_disarmed o.manager.request_hash) := by
  cases href : request_hash_lookup manager.request_hash key with
  | none =>
    simp only [globus_l_gram_add_reference_locked, href, Option.some.injEq] at hrun
    subst hrun
    exact ⟨rfl, rfl, rfl, rfl, id⟩
  | some ref =>
    cases hjob : ref.request with
    | some job =>
      simp only [globus_l_gram_add_reference_locked, href, hjob, Option.some.injEq] at hrun
      subst hrun
      exact ⟨rfl, rfl, rfl, rfl, fun h => swapped_out_disarmed_store _ h (fun _ => rfl)⟩
    | none =>
      cases hload : globus_l_gram_restart_job env manager (key_plus_1 key) with
      | some loaded =>
        simp only [globus_l_gram_add_reference_locked, href, hjob, hload,
          Option.some.injEq] at hrun
        subst hrun
        exact ⟨rfl, rfl, rfl, rfl, fun h => swapped_out_disarmed_store _ h (fun _ => rfl)⟩
      | none =>
        simp only [globus_l_gram_add_reference_locked, href, hjob, hload,
          Option.some.injEq] at hrun
        subst hrun
        exact ⟨rfl, rfl, rfl, rfl, fun h => swapped_out_disarmed_store _ h (fun _ => rfl)⟩

/-- The same for `globus_gram_job_manager_add_reference`. -/
theorem add_reference_frame (env : Env) (manager : globus_gram_job_manager_t)
    (key : String) (request : Bool)
    (o : Outcome (Option globus_gram_jobmanager_request_t))
    (hrun : globus_gram_job_manager_add_reference env manager key request = some o) :
    o.manager.stop = manager.stop ∧ o.manager.job_id_hash = manager.job_id_hash ∧
      o.manager.url_base = manager.url_base ∧ o.manager.config = manager.config ∧
      (swapped_out_disarmed manager.request_hash →
        swapped_out_disarmed o.manager.request_hash) := by
  simp only [globus_gram_job_manager_add_reference] at hrun
  cases hlocked : globus_l_gram_add_reference_locked env manager key request with
  | none => rw [hlocked] at hrun; cases hrun
  | some o1 =>
    rw [hlocked] at hrun
    simp only [Option.some.injEq] at hrun
    subst hrun
    exact add_reference_locked_frame env manager key request o1 hlocked

/-- The same for `globus_gram_job_manager_add_reference_by_jobid`. -/
theorem add_reference_by_jobid_frame (env : Env) (manager : globus_gram_job_manager_t)
    (jobid : String) (request : Bool)
    (o : Outcome (Option globus_gram_jobmanager_request_t))
    (hrun : globus_gram_job_manager_add_reference_by_jobid env manager jobid request = some o) :
    o.manager.stop = manager.stop ∧ o.manager.job_id_hash = manager.job_id_hash ∧
      o.manager.url_base = manager.url_base ∧ o.manager.config = manager.config ∧
      (swapped_out_disarmed manager.request_hash →
        swapped_out_disarmed o.manager.request_hash) := by
  unfold globus_gram_job_manager_add_reference_by_jobid at hrun
  by_cases hstop : manager.stop = true
  · simp only [hstop, if_true, Option.some.injEq] at hrun
    subst hrun
    exact ⟨rfl, rfl, rfl, rfl, id⟩
  · simp only [if_neg hstop] at hrun
    cases hreg : job_id_hash_lookup manager.job_id_hash jobid with
    | none =>
      simp only [hreg, Option.some.injEq] at hrun
      subst hrun
      exact ⟨rfl, rfl, rfl, rfl, id⟩
    | some jobref =>
      simp only [hreg] at hrun
      cases hlocked : globus_l_gram_add_reference_locked env manager jobref.job_contact_path
          request with
      | none => rw [hlocked] at hrun; cases hrun
      | some o1 =>
        rw [hlocked] at hrun
        simp only [Option.some.injEq] at hrun
        subst hrun
        exact add_reference_locked_frame env manager _ request o1 hlocked

/-- `globus_gram_job_manager_set_grace_period_timer` keeps `url_base` and
`config`. -/
theorem set_grace_period_timer_frame (env : Env) (manager : globus_gram_job_manager_t) :
    (globus_gram_job_manager_set_grace_period_timer env manager).1.url_base =
        manager.url_base ∧
      (globus_gram_job_manager_set_grace_period_timer env manager).1.config =
        manager.config := by
  unfold globus_gram_job_manager_set_grace_period_timer
  split
  · split <;> exact ⟨rfl, rfl⟩
  · exact ⟨rfl, rfl⟩

/-- What `globus_gram_job_manager_remove_reference` never touches, and the
invariant it keeps. -/
theorem remove_reference_frame (env : Env) (manager : globus_gram_job_manager_t)
    (key : String) (o : Outcome Unit)
    (hrun : globus_gram_job_manager_remove_reference env manager key = some o) :
    o.manager.stop = manager.stop ∧ o.manager.job_id_hash = manager.job_id_hash ∧
      o.manager.url_base = manager.url_base ∧ o.manager.config = manager.config ∧
      (swapped_out_disarmed manager.request_hash →
        swapped_out_disarmed o.manager.request_hash) := by
  cases href : request_hash_lookup manager.request_hash key with
  | none =>
    simp only [globus_gram_job_manager_remove_reference, href, Option.some.injEq] at hrun
    subst hrun
    exact ⟨rfl, rfl, rfl, rfl, id⟩
  | some ref =>
    have hmem : ref ∈ manager.request_hash := request_hash_lookup_mem href
    have hgood : swapped_out_disarmed manager.request_hash →
        swapped_out_disarmed (request_hash_store manager.request_hash
          { ref with reference_count := ref.reference_count - 1 }) :=
      fun h => swapped_out_disarmed_store _ h (fun hn => h ref hmem hn)
    by_cases hcount : ref.reference_count - 1 = 0
    · cases hjob : ref.request with
      | none =>
        simp only [globus_gram_job_manager_remove_reference, href, hcount, hjob, if_true] at hrun
        cases hrun
      | some job =>
        by_cases hterm : job.jobmanager_state = GLOBUS_GRAM_JOB_MANAGER_STATE_DONE ∨
            job.jobmanager_state = GLOBUS_GRAM_JOB_MANAGER_STATE_FAILED_DONE
        · obtain ⟨o2, hrun2, -, htable, hjid, hstop, -⟩ :=
            remove_reference_terminal env manager key ref job href hjob hcount hterm
          have hout := remove_reference_terminal_outcome env manager key ref job href hjob
            hcount hterm
          rw [hrun] at hrun2 hout
          simp only [Option.some.injEq] at hrun2
          subst hrun2
          refine ⟨hstop, hjid, ?_, ?_, ?_⟩
          · simp only [Option.some.injEq] at hout
            rw [hout]
            split_ifs <;> simp [set_grace_period_timer_frame]
          · simp only [Option.some.injEq] at hout
            rw [hout]
            split_ifs <;> simp [set_grace_period_timer_frame]
          · intro h
            rw [htable]
            exact swapped_out_disarmed_remove _ (hgood h)
        · by_cases hpoll : job.jobmanager_state = GLOBUS_GRAM_JOB_MANAGER_STATE_POLL2 ∧
              manager.seg_started = true
          · rw [remove_reference_poll2 env manager key ref job href hjob hcount
              hpoll.1 hpoll.2] at hrun
            simp only [Option.some.injEq] at hrun
            subst hrun
            refine ⟨rfl, rfl, rfl, rfl, fun h => swapped_out_disarmed_store _ (hgood h) ?_⟩
            intro hn
            split at hn <;> simp [hjob] at hn
          · rw [remove_reference_idle env manager key ref job href hjob hcount hterm
              hpoll] at hrun
            simp only [Option.some.injEq] at hrun
            subst hrun
            exact ⟨rfl, rfl, rfl, rfl, hgood⟩
    · rw [remove_reference_nonzero env manager key ref href hcount] at hrun
      simp only [Option.some.injEq] at hrun
      subst hrun
      exact ⟨rfl, rfl, rfl, rfl, hgood⟩

/-- What `globus_gram_job_manager_add_request` never touches, and the invariant
it keeps. -/
theorem add_request_frame (manager : globus_gram_job_manager_t) (key : String)
    (request : globus_gram_jobmanager_request_t) :
    (globus_gram_job_manager_add_request manager key request).manager.stop = manager.stop ∧
      (globus_gram_job_manager_add_request manager key request).manager.job_id_hash =
        manager.job_id_hash ∧
      (globus_gram_job_manager_add_request manager key request).manager.config =
        manager.config ∧
      (swapped_out_disarmed manager.request_hash →
        swapped_out_disarmed
          (globus_gram_job_manager_add_request manager key request).manager.request_hash) := by
  cases hstop : manager.stop with
  | true =>
    rw [add_request_stopped manager key request hstop]
    exact ⟨hstop, rfl, rfl, id⟩
  | false =>
    have hins : ∀ table, request_hash_insert manager.request_hash
        (add_request_ref key request) = some table →
        swapped_out_disarmed manager.request_hash → swapped_out_disarmed table := by
      intro table htable hinv
      unfold request_hash_insert at htable
      split at htable
      · cases htable
      · simp only [Option.some.injEq] at htable
        subst htable
        intro e he
        rcases List.mem_cons.1 he with rfl | hmem
        · intro hn; simp [add_request_ref] at hn
        · exact hinv e hmem
    by_cases htimer : manager.grace_period_timer = GLOBUS_NULL_HANDLE
    · rw [add_request_plain manager key request hstop htimer]
      cases h : request_hash_insert manager.request_hash (add_request_ref key request) with
      | none => exact ⟨hstop, rfl, rfl, id⟩
      | some table => exact ⟨hstop, rfl, rfl, hins table h⟩
    · cases hdone : manager.done with
      | true =>
        rw [add_request_drained manager key request hstop htimer hdone]
        exact ⟨hstop, rfl, rfl, id⟩
      | false =>
        rw [add_request_grace manager key request hstop htimer hdone]
        cases h : request_hash_insert manager.request_hash (add_request_ref key request) with
        | none => exact ⟨hstop, rfl, rfl, id⟩
        | some table => exact ⟨hstop, rfl, rfl, hins table h⟩

/-- `globus_gram_job_manager_register_job_id` keeps `stop`, the request table
and `config`. -/
theorem register_job_id_frame (manager : globus_gram_job_manager_t) (job_id : String)
    (request : globus_gram_jobmanager_request_t) :
    (globus_gram_job_manager_register_job_id manager job_id request).manager.stop =
        manager.stop ∧
      (globus_gram_job_manager_register_job_id manager job_id request).manager.request_hash =
        manager.request_hash ∧
      (globus_gram_job_manager_register_job_id manager job_id request).manager.config =
        manager.config :=
  ⟨rfl, rfl, rfl⟩

/-- `globus_gram_job_manager_unregister_job_id` keeps `stop`, the request
table and `config`. -/
theorem unregister_job_id_frame (manager : globus_gram_job_manager_t)
    (job_id : Option String) :
    (globus_gram_job_manager_unregister_job_id manager job_id).manager.stop = manager.stop ∧
      (globus_gram_job_manager_unregister_job_id manager job_id).manager.request_hash =
        manager.request_hash ∧
      (globus_gram_job_manager_unregister_job_id manager job_id).manager.config =
        manager.config := by
  cases job_id with
  | none => exact ⟨rfl, rfl, rfl⟩
  | some id =>
    cases h : job_id_hash_lookup manager.job_id_hash id <;>
      simp [globus_gram_job_manager_unregister_job_id, h]

/-- What `globus_gram_job_manager_set_status` never touches, and the invariant
it keeps. -/
theorem set_status_frame (manager : globus_gram_job_manager_t) (key : String)
    (state failure_code : Int) :
    (globus_gram_job_manager_set_status manager key state failure_code).manager.stop =
        manager.stop ∧
      (globus_gram_job_manager_set_status manager key state failure_code).manager.job_id_hash =
        manager.job_id_hash ∧
      (globus_gram_job_manager_set_status manager key state failure_code).manager.config =
        manager.config ∧
      (swapped_out_disarmed manager.request_hash →
        swapped_out_disarmed
          (globus_gram_job_manager_set_status manager key state
            failure_code).manager.request_hash) := by
  unfold globus_gram_job_manager_set_status
  cases href : request_hash_lookup manager.request_hash key with
  | none => exact ⟨rfl, rfl, rfl, id⟩
  | some ref =>
    exact ⟨rfl, rfl, rfl, fun h => swapped_out_disarmed_store _ h
      (fun hn => h ref (request_hash_lookup_mem href) hn)⟩

/-- What `globus_l_gram_ref_swap_out` never touches, and the invariant it
keeps. -/
theorem ref_swap_out_frame (env : Env) (manager : globus_gram_job_manager_t) (key : String)
    (manager2 : globus_gram_job_manager_t) (calls : List Call)
    (hrun : globus_l_gram_ref_swap_out env manager key = some (manager2, calls)) :
    manager2.stop = manager.stop ∧ manager2.job_id_hash = manager.job_id_hash ∧
      manager2.config = manager.config ∧
      (swapped_out_disarmed manager.request_hash →
        swapped_out_disarmed manager2.request_hash) := by
  cases href : request_hash_lookup manager.request_hash key with
  | none =>
    simp only [globus_l_gram_ref_swap_out, href] at hrun
    cases hrun
  | some ref =>
    by_cases htimer : ref.cleanup_timer = GLOBUS_NULL_HANDLE
    · rw [ref_swap_out_disarmed env manager key ref href htimer] at hrun
      simp only [Option.some.injEq, Prod.mk.injEq] at hrun
      obtain ⟨hm, -⟩ := hrun
      subst hm
      exact ⟨rfl, rfl, rfl, id⟩
    · by_cases hcount : ref.reference_count = 0
      · cases hjob : ref.request with
        | none =>
          simp only [globus_l_gram_ref_swap_out, href, htimer, hcount, hjob, ne_eq,
            not_false_eq_true, if_true] at hrun
          cases hrun
        | some job =>
          rw [ref_swap_out_drops env manager key ref job href hjob htimer hcount] at hrun
          simp only [Option.some.injEq, Prod.mk.injEq] at hrun
          obtain ⟨hm, -⟩ := hrun
          subst hm
          exact ⟨rfl, rfl, rfl, fun h => swapped_out_disarmed_store _ h (fun _ => rfl)⟩
      · rw [ref_swap_out_referenced env manager key ref href htimer hcount] at hrun
        simp only [Option.some.injEq, Prod.mk.injEq] at hrun
        obtain ⟨hm, -⟩ := hrun
        subst hm
        exact ⟨rfl, rfl, rfl, fun h => swapped_out_disarmed_store _ h (fun _ => rfl)⟩

/-- `globus_l_gram_job_manager_grace_period_expired` keeps `stop`, both tables
and `config`. -/
theorem grace_period_expired_frame (manager : globus_gram_job_manager_t) :
    (globus_l_gram_job_manager_grace_period_expired manager).1.stop = manager.stop ∧
      (globus_l_gram_job_manager_grace_period_expired manager).1.job_id_hash =
        manager.job_id_hash ∧
      (globus_l_gram_job_manager_grace_period_expired manager).1.request_hash =
        manager.request_hash ∧
      (globus_l_gram_job_manager_grace_period_expired manager).1.config =
        manager.config := by
  unfold globus_l_gram_job_manager_grace_period_expired
  split
  · split <;> exact ⟨rfl, rfl, rfl, rfl⟩
  · exact ⟨rfl, rfl, rfl, rfl⟩

/-- The first loop of `stop_all_jobs` keeps `stop`, the job-id table and the
invariant. -/
theorem stop_all_jobs_add_references_frame (env : Env)
    (job_refs : List globus_gram_job_manager_ref_t) :
    ∀ (manager manager2 : globus_gram_job_manager_t) (calls : List Call),
      stop_all_jobs_add_references env manager job_refs = some (manager2, calls) →
      manager2.stop = manager.stop ∧ manager2.job_id_hash = manager.job_id_hash ∧
        manager2.config = manager.config ∧
        (swapped_out_disarmed manager.request_hash →
          swapped_out_disarmed manager2.request_hash) := by
  induction job_refs with
  | nil =>
    intro manager manager2 calls hrun
    simp only [stop_all_jobs_add_references, Option.some.injEq, Prod.mk.injEq] at hrun
    obtain ⟨hm, -⟩ := hrun
    subst hm
    exact ⟨rfl, rfl, rfl, id⟩
  | cons r rest ih =>
    intro manager manager2 calls hrun
    simp only [stop_all_jobs_add_references] at hrun
    cases hlocked : globus_l_gram_add_reference_locked env manager r.key false with
    | none => rw [hlocked] at hrun; cases hrun
    | some o =>
      rw [hlocked] at hrun
      simp only at hrun
      split at hrun
      · cases hrest : stop_all_jobs_add_references env o.manager rest with
        | none => rw [hrest] at hrun; cases hrun
        | some res =>
          obtain ⟨m3, calls3⟩ := res
          rw [hrest] at hrun
          simp only [Option.some.injEq, Prod.mk.injEq] at hrun
          obtain ⟨hm, -⟩ := hrun
          subst hm
          obtain ⟨h1, h2, -, h4, h5⟩ :=
            add_reference_locked_frame env manager r.key false o hlocked
          obtain ⟨g1, g2, g3, g4⟩ := ih o.manager m3 calls3 hrest
          exact ⟨g1.trans h1, g2.trans h2, g3.trans h4, fun h => g4 (h5 h)⟩
      · cases hrun

/-- The second loop of `stop_all_jobs` keeps `stop`, the job-id table and the
invariant. -/
theorem stop_all_jobs_stop_requests_frame (env : Env)
    (job_refs : List globus_gram_job_manager_ref_t) :
    ∀ (manager manager2 : globus_gram_job_manager_t) (calls : List Call),
      stop_all_jobs_stop_requests env manager job_refs = some (manager2, calls) →
      manager2.stop = manager.stop ∧ manager2.job_id_hash = manager.job_id_hash ∧
        manager2.config = manager.config ∧
        (swapped_out_disarmed manager.request_hash →
          swapped_out_disarmed manager2.request_hash) := by
  induction job_refs with
  | nil =>
    intro manager manager2 calls hrun
    simp only [stop_all_jobs_stop_requests, Option.some.injEq, Prod.mk.injEq] at hrun
    obtain ⟨hm, -⟩ := hrun
    subst hm
    exact ⟨rfl, rfl, rfl, id⟩
  | cons r rest ih =>
    intro manager manager2 calls hrun
    simp only [stop_all_jobs_stop_requests] at hrun
    cases hcur : request_hash_lookup manager.request_hash r.key with
    | none => rw [hcur] at hrun; cases hrun
    | some cur =>
      rw [hcur] at hrun
      simp only at hrun
      cases hjob : cur.request with
      | none => rw [hjob] at hrun; cases hrun
      | some job =>
        rw [hjob] at hrun
        simp only at hrun
        cases hrel : globus_gram_job_manager_remove_reference env
            { manager with
              request_hash := request_hash_store manager.request_hash
                { cur with request := some (stop_all_jobs_request env job).1 } } r.key with
        | none => rw [hrel] at hrun; cases hrun
        | some o =>
          rw [hrel] at hrun
          simp only at hrun
          cases hrest : stop_all_jobs_stop_requests env o.manager rest with
          | none => rw [hrest] at hrun; cases hrun
          | some res =>
            obtain ⟨m3, calls3⟩ := res
            rw [hrest] at hrun
            simp only [Option.some.injEq, Prod.mk.injEq] at hrun
            obtain ⟨hm, -⟩ := hrun
            subst hm
            obtain ⟨h1, h2, -, h4, h5⟩ := remove_reference_frame env _ r.key o hrel
            obtain ⟨g1, g2, g3, g4⟩ := ih o.manager m3 calls3 hrest
            refine ⟨g1.trans h1, g2.trans h2, g3.trans h4, fun h => g4 (h5 ?_)⟩
            exact swapped_out_disarmed_store _ h (fun hn => by cases hn)

/-- `globus_gram_job_manager_stop_all_jobs` leaves the stop flag set, and keeps
the job-id table and the invariant. -/
theorem stop_all_jobs_frame (env : Env) (manager manager2 : globus_gram_job_manager_t)
    (calls : List Call)
    (hrun : globus_gram_job_manager_stop_all_jobs env manager = some (manager2, calls)) :
    manager2.stop = true ∧ manager2.job_id_hash = manager.job_id_hash ∧
      manager2.config = manager.config ∧
      (swapped_out_disarmed manager.request_hash →
        swapped_out_disarmed manager2.request_hash) := by
  simp only [globus_gram_job_manager_stop_all_jobs] at hrun
  cases h1 : stop_all_jobs_add_references env { manager with stop := true }
      manager.request_hash with
  | none => rw [h1] at hrun; cases hrun
  | some res1 =>
    obtain ⟨m2, calls1⟩ := res1
    rw [h1] at hrun
    simp only at hrun
    cases h2 : stop_all_jobs_stop_requests env m2 manager.request_hash with
    | none => rw [h2] at hrun; cases hrun
    | some res2 =>
      obtain ⟨m3, calls2⟩ := res2
      rw [h2] at hrun
      simp only [Option.some.injEq, Prod.mk.injEq] at hrun
      obtain ⟨hm, -⟩ := hrun
      subst hm
      obtain ⟨a1, a2, a3, a4⟩ := stop_all_jobs_add_references_frame env _ _ _ _ h1
      obtain ⟨b1, b2, b3, b4⟩ := stop_all_jobs_stop_requests_frame env _ _ _ _ h2
      exact ⟨b1.trans a1, b2.trans a2, b3.trans a3, fun h => b4 (a4 h)⟩


/-- The tokens of `strtok_r` are not empty and do not contain the separator. -/
theorem strtok_r_tokens_single (sep : Char) :
    ∀ (cs acc : List Char), sep ∉ acc →
      ∀ t ∈ strtok_r_tokens sep cs acc, t.data ≠ [] ∧ sep ∉ t.data := by
  intro cs
  induction cs with
  | nil =>
    intro acc hacc t ht
    by_cases h : acc = []
    · simp [strtok_r_tokens, h] at ht
    · simp only [strtok_r_tokens, if_neg h, List.mem_singleton] at ht
      subst ht
      exact ⟨by simpa using h, by simpa using hacc⟩
  | cons c cs ih =>
    intro acc hacc t ht
    by_cases hc : c = sep
    · by_cases h : acc = []
      · simp only [strtok_r_tokens, if_pos hc, if_pos h] at ht
        exact ih [] (by simp) t ht
      · simp only [strtok_r_tokens, if_pos hc, if_neg h, List.mem_cons] at ht
        rcases ht with rfl | ht
        · exact ⟨by simpa using h, by simpa using hacc⟩
        · exact ih [] (by simp) t ht
    · simp only [strtok_r_tokens, if_neg hc] at ht
      refine ih (c :: acc) ?_ t ht
      simp only [List.mem_cons, not_or]
      exact ⟨fun h => hc h.symm, hacc⟩

/-- The sub-ids of a raw id are its tokens. -/
theorem split_subjobs_mem (job_id s : String) (h : s ∈ globus_gram_split_subjobs job_id) :
    s ∈ strtok_r_tokens ',' job_id.data [] := by
  unfold globus_gram_split_subjobs at h
  have hfold : ∀ (ts init : List String),
      ts.foldl globus_list_insert init = ts.reverse ++ init := by
    intro ts
    induction ts with
    | nil => intro init; rfl
    | cons t ts ih => intro init; simp [List.foldl, ih, globus_list_insert]
  rw [hfold] at h
  simpa using h

/-- An entry of the job-id table after the registration loop was in the table
before or is for one of the sub-ids. -/
theorem register_job_id_loop_mem (request : globus_gram_jobmanager_request_t)
    (subjobs : List String) :
    ∀ (table : List globus_gram_job_id_ref_t) (e : globus_gram_job_id_ref_t),
      e ∈ (register_job_id_loop request table subjobs).2 →
      e ∈ table ∨ e.job_id ∈ subjobs := by
  induction subjobs with
  | nil =>
    intro table e he
    exact Or.inl he
  | cons s rest ih =>
    intro table e he
    cases hold : job_id_hash_lookup table s with
    | some old_ref =>
      simp only [register_job_id_loop, hold] at he
      split at he <;> exact Or.inl he
    | none =>
      simp only [register_job_id_loop, hold, job_id_hash_insert] at he
      rcases ih _ e he with h | h
      · rcases List.mem_cons.1 h with rfl | h2
        · exact Or.inr (List.mem_cons_self _ _)
        · exact Or.inl h2
      · exact Or.inr (List.mem_cons_of_mem _ h)

/-- An entry of the job-id table after a removal was in the table before. -/
theorem job_id_hash_remove_mem (table : List globus_gram_job_id_ref_t) (job_id : String)
    (e : globus_gram_job_id_ref_t) (h : e ∈ job_id_hash_remove table job_id) : e ∈ table := by
  induction table with
  | nil => simp [job_id_hash_remove] at h
  | cons x xs ih =>
    by_cases hk : x.job_id = job_id
    · simp only [job_id_hash_remove, if_pos hk] at h
      exact List.mem_cons_of_mem _ h
    · simp only [job_id_hash_remove, if_neg hk, List.mem_cons] at h
      rcases h with h | h
      · exact h ▸ List.mem_cons_self _ _
      · exact List.mem_cons_of_mem _ (ih h)

/-- A successful lookup in the job-id table returns an entry of the table
stored under the id asked for. -/
theorem job_id_hash_lookup_mem_key {table : List globus_gram_job_id_ref_t} {job_id : String}
    {ref : globus_gram_job_id_ref_t} (h : job_id_hash_lookup table job_id = some ref) :
    ref ∈ table ∧ ref.job_id = job_id := by
  induction table with
  | nil => simp [job_id_hash_lookup] at h
  | cons x xs ih =>
    by_cases hk : x.job_id = job_id
    · simp only [job_id_hash_lookup, if_pos hk, Option.some.injEq] at h
      subst h
      exact ⟨List.mem_cons_self _ _, hk⟩
    · simp only [job_id_hash_lookup, if_neg hk] at h
      exact ⟨List.mem_cons_of_mem _ (ih h).1, (ih h).2⟩

/-- The property `job_ids_single` only reads `config` and the job-id table. -/
theorem job_ids_single_of_eq {manager manager2 : globus_gram_job_manager_t}
    (hconfig : manager2.config = manager.config)
    (hids : manager2.job_id_hash = manager.job_id_hash) (h : job_ids_single manager) :
    job_ids_single manager2 := by
  intro hseg e he
  rw [hconfig] at hseg
  rw [hids] at he
  exact h hseg e he

/-- `globus_gram_job_manager_register_job_id` keeps `job_ids_single`: with the
SEG configured it inserts tokens only. -/
theorem register_job_id_job_ids_single (manager : globus_gram_job_manager_t)
    (job_id : String) (request : globus_gram_jobmanager_request_t)
    (h : job_ids_single manager) :
    job_ids_single (globus_gram_job_manager_register_job_id manager job_id request).manager := by
  intro hseg e he
  have hseg2 : ¬ manager.config.seg_module = none := hseg
  simp only [globus_gram_job_manager_register_job_id, ne_eq, hseg2, not_false_eq_true,
    if_true] at he
  rcases register_job_id_loop_mem request _ _ e he with hold | hnew
  · exact h hseg2 e hold
  · exact strtok_r_tokens_single ',' job_id.data [] (by simp) e.job_id
      (split_subjobs_mem job_id e.job_id hnew)

/-- `globus_gram_job_manager_unregister_job_id` keeps `job_ids_single`. -/
theorem unregister_job_id_job_ids_single (manager : globus_gram_job_manager_t)
    (job_id : Option String) (h : job_ids_single manager) :
    job_ids_single (globus_gram_job_manager_unregister_job_id manager job_id).manager := by
  cases job_id with
  | none => exact h
  | some id =>
    cases hl : job_id_hash_lookup manager.job_id_hash id with
    | none =>
      intro hseg e he
      simp only [globus_gram_job_manager_unregister_job_id, hl] at he hseg
      exact h hseg e he
    | some ref =>
      intro hseg e he
      simp only [globus_gram_job_manager_unregister_job_id, hl] at he hseg
      exact h hseg e (job_id_hash_remove_mem _ _ _ he)

/-- No step clears the stop flag, and every step keeps the two invariants. -/
theorem step_frame (manager manager2 : globus_gram_job_manager_t) (hstep : Step manager manager2) :
    (manager.stop = true → manager2.stop = true) ∧
      (swapped_out_disarmed manager.request_hash →
        swapped_out_disarmed manager2.request_hash) ∧
      (job_ids_single manager → job_ids_single manager2) := by
  cases hstep with
  | add_request _ key request =>
    obtain ⟨h1, h2, h3, h4⟩ := add_request_frame manager key request
    exact ⟨fun h => h1.trans h, h4, job_ids_single_of_eq h3 h2⟩
  | add_reference env _ key request _ hrun =>
    obtain ⟨o, ho, hm⟩ := Option.map_eq_some'.1 hrun
    subst hm
    obtain ⟨h1, h2, -, h4, h5⟩ := add_reference_frame env manager key request o ho
    exact ⟨fun h => h1.trans h, h5, job_ids_single_of_eq h4 h2⟩
  | add_reference_by_jobid env _ jobid request _ hrun =>
    obtain ⟨o, ho, hm⟩ := Option.map_eq_some'.1 hrun
    subst hm
    obtain ⟨h1, h2, -, h4, h5⟩ := add_reference_by_jobid_frame env manager jobid request o ho
    exact ⟨fun h => h1.trans h, h5, job_ids_single_of_eq h4 h2⟩
  | remove_reference env _ key _ hrun =>
    obtain ⟨o, ho, hm⟩ := Option.map_eq_some'.1 hrun
    subst hm
    obtain ⟨h1, h2, -, h4, h5⟩ := remove_reference_frame env manager key o ho
    exact ⟨fun h => h1.trans h, h5, job_ids_single_of_eq h4 h2⟩
  | register_job_id _ job_id request =>
    obtain ⟨h1, h2, -⟩ := register_job_id_frame manager job_id request
    exact ⟨fun h => h1.trans h, fun h => h2 ▸ h,
      register_job_id_job_ids_single manager job_id request⟩
  | unregister_job_id _ job_id =>
    obtain ⟨h1, h2, -⟩ := unregister_job_id_frame manager job_id
    exact ⟨fun h => h1.trans h, fun h => h2 ▸ h,
      unregister_job_id_job_ids_single manager job_id⟩
  | set_status _ key state failure_code =>
    obtain ⟨h1, h2, h3, h4⟩ := set_status_frame manager key state failure_code
    exact ⟨fun h => h1.trans h, h4, job_ids_single_of_eq h3 h2⟩
  | stop_all_jobs env _ _ calls hrun =>
    obtain ⟨h1, h2, h3, h4⟩ := stop_all_jobs_frame env manager manager2 calls hrun
    exact ⟨fun _ => h1, h4, job_ids_single_of_eq h3 h2⟩
  | ref_swap_out env _ key _ calls hrun =>
    obtain ⟨h1, h2, h3, h4⟩ := ref_swap_out_frame env manager key manager2 calls hrun
    exact ⟨fun h => h1.trans h, h4, job_ids_single_of_eq h3 h2⟩
  | grace_period_expired _ =>
    obtain ⟨h1, h2, h3, h4⟩ := grace_period_expired_frame manager
    exact ⟨fun h => h1.trans h, fun h => h3 ▸ h, job_ids_single_of_eq h4 h2⟩
  | job_written _ key ref job job2 href hjob =>
    exact ⟨id, fun h => swapped_out_disarmed_store _ h (fun hn => by cases hn),
      job_ids_single_of_eq rfl rfl⟩
  | seg_written _ seg_started seg_last_timestamp =>
    exact ⟨id, id, job_ids_single_of_eq rfl rfl⟩

/-- The same for finitely many steps. -/
theorem steps_frame (manager manager2 : globus_gram_job_manager_t)
    (hsteps : Relation.ReflTransGen Step manager manager2) :
    (manager.stop = true → manager2.stop = true) ∧
      (swapped_out_disarmed manager.request_hash →
        swapped_out_disarmed manager2.request_hash) ∧
      (job_ids_single manager → job_ids_single manager2) := by
  induction hsteps with
  | refl => exact ⟨id, id, id⟩
  | tail _ hstep ih =>
    obtain ⟨h1, h2, h3⟩ := step_frame _ _ hstep
    exact ⟨fun h => h1 (ih.1 h), fun h => h2 (ih.2.1 h), fun h => h3 (ih.2.2 h)⟩

/-- In every reachable manager state with the SEG configured, the ids in the
LRM job-id table are single sub-ids. -/
theorem reachable_job_ids_single (manager : globus_gram_job_manager_t)
    (hreach : Reachable manager) : job_ids_single manager := by
  obtain ⟨config, url_base, hsteps⟩ := hreach
  refine (steps_frame _ _ hsteps).2.2 ?_
  intro _ e he
  simp [globus_gram_job_manager_init] at he

/-- In every reachable manager state a swapped-out entry has no armed swap-out
timer. -/
theorem reachable_swapped_out_disarmed (manager : globus_gram_job_manager_t)
    (hreach : Reachable manager) : swapped_out_disarmed manager.request_hash := by
  obtain ⟨config, url_base, hsteps⟩ := hreach
  refine (steps_frame _ _ hsteps).2.1 ?_
  intro e he
  simp [globus_gram_job_manager_init] at he

/-- Storing the entry that is already stored changes nothing. -/
theorem request_hash_store_self {table : List globus_gram_job_manager_ref_t} {key : String}
    {ref : globus_gram_job_manager_ref_t} (h : request_hash_lookup table key = some ref) :
    request_hash_store table ref = table := by
  induction table with
  | nil => simp [request_hash_store]
  | cons e es ih =>
    have hkey : ref.key = key := request_hash_lookup_key h
    by_cases hk : e.key = key
    · simp only [request_hash_lookup, if_pos hk, Option.some.injEq] at h
      subst h
      simp only [request_hash_store, if_true]
    · simp only [request_hash_lookup, if_neg hk] at h
      have hk2 : ¬ e.key = ref.key := by rw [hkey]; exact hk
      simp only [request_hash_store, if_neg hk2, ih h]

/-- C15: in every reachable manager state, when
`globus_gram_job_manager_add_reference` is called on a swapped-out entry and
the reload fails, the call returns a failure code, writes no job handle, and
the entry is exactly as it was: same reference count, job still absent, same
timer handle, same cached state and failure code. In fact the whole manager is
as it was, and apart from the lock no call is made: no callback is registered
or unregistered. -/
theorem add_reference_failed_reload (env : Env) (manager : globus_gram_job_manager_t)
    (key : String) (request : Bool) (ref : globus_gram_job_manager_ref_t)
    (hreach : Reachable manager)
    (href : request_hash_lookup manager.request_hash key = some ref)
    (hjob : ref.request = none)
    (hfail : globus_l_gram_restart_job env manager (key_plus_1 key) = none) :
    ∃ o, globus_gram_job_manager_add_reference env manager key request = some o ∧
      o.rc ≠ GLOBUS_SUCCESS ∧
      o.rc = GLOBUS_GRAM_PROTOCOL_ERROR_MALLOC_FAILED ∧
      o.out = none ∧
      request_hash_lookup o.manager.request_hash key = some ref ∧
      o.manager = manager ∧
      o.calls = [Call.GlobusGramJobManagerLock, Call.GlobusGramJobManagerUnlock] := by
  have htimer : ref.cleanup_timer = GLOBUS_NULL_HANDLE :=
    reachable_swapped_out_disarmed manager hreach ref (request_hash_lookup_mem href) hjob
  have hsame : ({ ref with request := none
                           reference_count := ref.reference_count + 1 - 1
                           cleanup_timer := GLOBUS_NULL_HANDLE } :
      globus_gram_job_manager_ref_t) = ref := by
    cases ref
    simp only [add_sub_cancel_right] at *
    simp only [htimer, hjob]
  have hrun : globus_gram_job_manager_add_reference env manager key request =
      some { rc := GLOBUS_GRAM_PROTOCOL_ERROR_MALLOC_FAILED, out := none, manager := manager
             calls := [Call.GlobusGramJobManagerLock] ++
               (if ref.cleanup_timer ≠ GLOBUS_NULL_HANDLE then
                 [Call.globus_callback_unregister ref.cleanup_timer] else []) ++
               [Call.GlobusGramJobManagerUnlock] } := by
    simp only [globus_gram_job_manager_add_reference, globus_l_gram_add_reference_locked,
      href, hjob, hfail, hsame, request_hash_store_self href]
  refine ⟨_, hrun, by simp, rfl, rfl, href, rfl, ?_⟩
  simp [htimer]

/-- C18: for a manager whose stop flag is set,
`globus_gram_job_manager_add_request` returns `JM_STOPPED` and leaves the whole
manager as it was. And once `globus_gram_job_manager_stop_all_jobs` has
returned, after any finite number of further steps of the registry, every
`add_request` still returns `JM_STOPPED` and changes nothing. -/
theorem add_request_after_stop (manager : globus_gram_job_manager_t) (key : String)
    (request : globus_gram_jobmanager_request_t) (hstop : manager.stop = true) :
    (globus_gram_job_manager_add_request manager key request).rc =
        GLOBUS_GRAM_PROTOCOL_ERROR_JM_STOPPED ∧
      (globus_gram_job_manager_add_request manager key request).manager = manager ∧
      (∀ (env : Env) (manager0 manager1 manager2 : globus_gram_job_manager_t)
          (calls : List Call) (key2 : String) (request2 : globus_gram_jobmanager_request_t),
        globus_gram_job_manager_stop_all_jobs env manager0 = some (manager1, calls) →
        Relation.ReflTransGen Step manager1 manager2 →
        (globus_gram_job_manager_add_request manager2 key2 request2).rc =
            GLOBUS_GRAM_PROTOCOL_ERROR_JM_STOPPED ∧
          (globus_gram_job_manager_add_request manager2 key2 request2).manager = manager2) := by
  refine ⟨?_, ?_, ?_⟩
  · rw [add_request_stopped manager key request hstop]
  · rw [add_request_stopped manager key request hstop]
  · intro env manager0 manager1 manager2 calls key2 request2 hrun hsteps
    have h1 : manager1.stop = true := (stop_all_jobs_frame env manager0 manager1 calls hrun).1
    have h2 : manager2.stop = true := (steps_frame manager1 manager2 hsteps).1 h1
    rw [add_request_stopped manager2 key2 request2 h2]
    exact ⟨rfl, rfl⟩


/-- A reachable state with a swapped-out entry: a POLL2 job is added, leased,
released and swapped out. -/
theorem sample_swapped_out_reachable :
    Reachable (sample_manager [sample_ref "/1/2/" none 0 0]) := by
  refine ⟨{ seg_module := some "pbs" }, "https://gram.example.org:2119", ?_⟩
  have s1 : Step (globus_gram_job_manager_init { seg_module := some "pbs" }
      "https://gram.example.org:2119") (sample_manager []) :=
    Step.seg_written _ true 0
  have s2 : Step (sample_manager [])
      (sample_manager
        [sample_ref "/1/2/" (some (sample_request GLOBUS_GRAM_JOB_MANAGER_STATE_POLL2)) 0 0]) :=
    Step.add_request _ "/1/2/" (sample_request GLOBUS_GRAM_JOB_MANAGER_STATE_POLL2)
  have s3 : Step
      (sample_manager
        [sample_ref "/1/2/" (some (sample_request GLOBUS_GRAM_JOB_MANAGER_STATE_POLL2)) 0 0])
      (sample_manager
        [sample_ref "/1/2/" (some (sample_request GLOBUS_GRAM_JOB_MANAGER_STATE_POLL2)) 1 0]) :=
    Step.add_reference sample_env _ "/1/2/" true _ (by decide)
  have s4 : Step
      (sample_manager
        [sample_ref "/1/2/" (some (sample_request GLOBUS_GRAM_JOB_MANAGER_STATE_POLL2)) 1 0])
      (sample_manager
        [sample_ref "/1/2/" (some (sample_request GLOBUS_GRAM_JOB_MANAGER_STATE_POLL2)) 0 7]) :=
    Step.remove_reference sample_env _ "/1/2/" _ (by decide)
  have s5 : Step
      (sample_manager
        [sample_ref "/1/2/" (some (sample_request GLOBUS_GRAM_JOB_MANAGER_STATE_POLL2)) 0 7])
      (sample_manager [sample_ref "/1/2/" none 0 0]) :=
    Step.ref_swap_out sample_env _ "/1/2/" _ _ rfl
  exact ((((Relation.ReflTransGen.single s1).tail s2).tail s3).tail s4).tail s5

/-- C15 at a sample state: the reload of the swapped-out job `/1/2/` fails. -/
theorem add_reference_failed_reload_witness :
    Reachable (sample_manager [sample_ref "/1/2/" none 0 0]) ∧
      ∃ o, globus_gram_job_manager_add_reference sample_env_failing
          (sample_manager [sample_ref "/1/2/" none 0 0]) "/1/2/" true = some o ∧
        o.rc ≠ GLOBUS_SUCCESS ∧
        o.rc = GLOBUS_GRAM_PROTOCOL_ERROR_MALLOC_FAILED ∧
        o.out = none ∧
        request_hash_lookup o.manager.request_hash "/1/2/" =
          some (sample_ref "/1/2/" none 0 0) ∧
        o.manager = sample_manager [sample_ref "/1/2/" none 0 0] ∧
        o.calls = [Call.GlobusGramJobManagerLock, Call.GlobusGramJobManagerUnlock] :=
  ⟨sample_swapped_out_reachable,
    add_reference_failed_reload sample_env_failing _ "/1/2/" true _
      sample_swapped_out_reachable (by decide) rfl rfl⟩

/-- C11: in every reachable manager state, for an LRM id that is registered to
the owner `k1` and a job whose contact path differs from `k1`,
`globus_gram_job_manager_register_job_id` returns a failure code and leaves the
manager, hence the id's mapping to `k1`, as it was. -/
theorem register_job_id_conflict (manager : globus_gram_job_manager_t) (job_id : String)
    (request : globus_gram_jobmanager_request_t) (old_ref : globus_gram_job_id_ref_t)
    (hreach : Reachable manager)
    (hold : job_id_hash_lookup manager.job_id_hash job_id = some old_ref)
    (hother : old_ref.job_contact_path ≠ request.job_contact_path) :
    (globus_gram_job_manager_register_job_id manager job_id request).rc ≠ GLOBUS_SUCCESS ∧
      (globus_gram_job_manager_register_job_id manager job_id request).rc =
        GLOBUS_GRAM_PROTOCOL_ERROR_MALLOC_FAILED ∧
      (globus_gram_job_manager_register_job_id manager job_id request).manager = manager ∧
      job_id_hash_lookup
        (globus_gram_job_manager_register_job_id manager job_id request).manager.job_id_hash
        job_id = some old_ref := by
  have hid : manager.config.seg_module = none ∨
      (job_id.data ≠ [] ∧ ',' ∉ job_id.data) := by
    by_cases hseg : manager.config.seg_module = none
    · exact Or.inl hseg
    · obtain ⟨hmem, hkey⟩ := job_id_hash_lookup_mem_key hold
      have hsingle := reachable_job_ids_single manager hreach hseg old_ref hmem
      rw [hkey] at hsingle
      exact Or.inr hsingle
  exact register_job_id_single_conflict manager job_id request old_ref hid hold hother

/-- A reachable state in which the LRM id `A` is registered to the resident
job `/1/2/`. -/
theorem sample_registered_reachable : Reachable sample_manager_registered := by
  refine ⟨{ seg_module := some "pbs" }, "https://gram.example.org:2119", ?_⟩
  have s1 : Step (globus_gram_job_manager_init { seg_module := some "pbs" }
      "https://gram.example.org:2119") (sample_manager []) :=
    Step.seg_written _ true 0
  have s2 : Step (sample_manager [])
      (sample_manager
        [sample_ref "/1/2/" (some (sample_request GLOBUS_GRAM_JOB_MANAGER_STATE_POLL2)) 0 0]) :=
    Step.add_request _ "/1/2/" (sample_request GLOBUS_GRAM_JOB_MANAGER_STATE_POLL2)
  have s3 : Step
      (sample_manager
        [sample_ref "/1/2/" (some (sample_request GLOBUS_GRAM_JOB_MANAGER_STATE_POLL2)) 0 0])
      sample_manager_registered :=
    Step.register_job_id _ "A" (sample_request GLOBUS_GRAM_JOB_MANAGER_STATE_POLL2)
  exact ((Relation.ReflTransGen.single s1).tail s2).tail s3

/-! ## More theorems at sample states -/

/-- C11 at a sample state: `A` is registered to `/1/2/` and the job `/3/4/`
tries to register it. -/
theorem register_job_id_conflict_witness :
    Reachable sample_manager_registered ∧
      job_id_hash_lookup sample_manager_registered.job_id_hash "A" =
        some { job_id := "A", job_contact_path := "/1/2/" } ∧
      (globus_gram_job_manager_register_job_id sample_manager_registered "A"
        { sample_request GLOBUS_GRAM_JOB_MANAGER_STATE_SUBMIT with
          job_contact_path := "/3/4/" }).rc ≠ GLOBUS_SUCCESS ∧
      (globus_gram_job_manager_register_job_id sample_manager_registered "A"
        { sample_request GLOBUS_GRAM_JOB_MANAGER_STATE_SUBMIT with
          job_contact_path := "/3/4/" }).manager = sample_manager_registered := by
  obtain ⟨hrc, -, hm, -⟩ :=
    register_job_id_conflict sample_manager_registered "A"
      { sample_request GLOBUS_GRAM_JOB_MANAGER_STATE_SUBMIT with job_contact_path := "/3/4/" }
      { job_id := "A", job_contact_path := "/1/2/" }
      sample_registered_reachable (by decide) (by decide)
  exact ⟨sample_registered_reachable, by decide, hrc, hm⟩

/-- C13 at a sample state: the stop flag is clear and `A` resolves to the
resident job `/1/2/`. -/
theorem add_reference_by_jobid_resolves_witness :
    sample_manager_registered.stop = false ∧
      ∃ o o2,
        globus_gram_job_manager_add_reference sample_env sample_manager_registered
          "/1/2/" true = some o ∧
        globus_gram_job_manager_add_reference_by_jobid sample_env sample_manager_registered
          "A" true = some o2 ∧
        o2.rc = o.rc ∧ o2.manager = o.manager ∧
        o2.out = some (some (sample_request GLOBUS_GRAM_JOB_MANAGER_STATE_POLL2)) := by
  refine ⟨rfl, ?_⟩
  have hrun := add_reference_resident sample_env sample_manager_registered "/1/2/" true
    (sample_ref "/1/2/" (some (sample_request GLOBUS_GRAM_JOB_MANAGER_STATE_POLL2)) 0 0)
    (sample_request GLOBUS_GRAM_JOB_MANAGER_STATE_POLL2) (by decide) rfl
  obtain ⟨o2, hrun2, hrc, hm, hout, -⟩ :=
    ((add_reference_by_jobid_resolves sample_env sample_manager_registered "A" true).1 rfl
      { job_id := "A", job_contact_path := "/1/2/" } (by decide)).1 _ hrun
  exact ⟨_, o2, hrun, hrun2, hrc, hm, hout _ rfl⟩

/-- C14 at a sample state: the key `/9/9/` is not in the table. -/
theorem remove_reference_unknown_key_witness :
    request_hash_lookup
        (sample_manager
          [sample_ref "/1/2/" (some (sample_request GLOBUS_GRAM_JOB_MANAGER_STATE_POLL2)) 1 0]
        ).request_hash "/9/9/" = none ∧
      ∃ o o2,
        globus_gram_job_manager_remove_reference sample_env
          (sample_manager
            [sample_ref "/1/2/" (some (sample_request GLOBUS_GRAM_JOB_MANAGER_STATE_POLL2))
              1 0])
          "/9/9/" = some o ∧
        o.rc = GLOBUS_GRAM_PROTOCOL_ERROR_JOB_CONTACT_NOT_FOUND ∧
        o.manager =
          sample_manager
            [sample_ref "/1/2/" (some (sample_request GLOBUS_GRAM_JOB_MANAGER_STATE_POLL2))
              1 0] ∧
        globus_gram_job_manager_remove_reference sample_env_failing o.manager "/9/9/" =
          some o2 ∧
        o2.rc = GLOBUS_GRAM_PROTOCOL_ERROR_JOB_CONTACT_NOT_FOUND ∧
        o2.manager =
          sample_manager
            [sample_ref "/1/2/" (some (sample_request GLOBUS_GRAM_JOB_MANAGER_STATE_POLL2))
              1 0] :=
  ⟨by decide,
    remove_reference_unknown_key sample_env sample_env_failing _ "/9/9/" (by decide)⟩

/-- C17 at a sample state: the job `/1/2/` is added to an empty manager. -/
theorem add_request_new_entry_witness :
    (sample_manager []).stop = false ∧
      (globus_gram_job_manager_add_request (sample_manager []) "/1/2/"
        (sample_request GLOBUS_GRAM_JOB_MANAGER_STATE_START)).rc = GLOBUS_SUCCESS ∧
      (globus_gram_job_manager_add_request (sample_manager []) "/1/2/"
        (sample_request GLOBUS_GRAM_JOB_MANAGER_STATE_START)).manager =
        sample_manager
          [sample_ref "/1/2/" (some (sample_request GLOBUS_GRAM_JOB_MANAGER_STATE_START)) 0 0] ∧
      globus_gram_job_manager_request_exists
        (globus_gram_job_manager_add_request (sample_manager []) "/1/2/"
          (sample_request GLOBUS_GRAM_JOB_MANAGER_STATE_START)).manager "/1/2/" = true := by
  obtain ⟨hrc, hm, -, hexists, -⟩ :=
    add_request_new_entry (sample_manager []) "/1/2/"
      (sample_request GLOBUS_GRAM_JOB_MANAGER_STATE_START) rfl rfl rfl
  exact ⟨rfl, hrc, hm, hexists⟩

/-- C18 at a sample state: a stopping manager refuses the job `/3/4/`. -/
theorem add_request_after_stop_witness :
    sample_manager_stopping.stop = true ∧
      (globus_gram_job_manager_add_request sample_manager_stopping "/3/4/"
        (sample_request GLOBUS_GRAM_JOB_MANAGER_STATE_START)).rc =
        GLOBUS_GRAM_PROTOCOL_ERROR_JM_STOPPED ∧
      (globus_gram_job_manager_add_request sample_manager_stopping "/3/4/"
        (sample_request GLOBUS_GRAM_JOB_MANAGER_STATE_START)).manager =
        sample_manager_stopping := by
  obtain ⟨hrc, hm, -⟩ :=
    add_request_after_stop sample_manager_stopping "/3/4/"
      (sample_request GLOBUS_GRAM_JOB_MANAGER_STATE_START) rfl
  exact ⟨rfl, hrc, hm⟩

/-- C19 at a sample state: a job arrives while the grace-period timer 5 is
armed and `done` is still clear. -/
theorem add_request_cancels_grace_timer_witness :
    ({ sample_manager [] with grace_period_timer := 5 } :
        globus_gram_job_manager_t).grace_period_timer ≠ GLOBUS_NULL_HANDLE ∧
      Call.globus_callback_unregister 5 ∈
        (globus_gram_job_manager_add_request
          { sample_manager [] with grace_period_timer := 5 } "/1/2/"
          (sample_request GLOBUS_GRAM_JOB_MANAGER_STATE_START)).calls ∧
      (globus_gram_job_manager_add_request
        { sample_manager [] with grace_period_timer := 5 } "/1/2/"
        (sample_request GLOBUS_GRAM_JOB_MANAGER_STATE_START)).manager.grace_period_timer =
        GLOBUS_NULL_HANDLE ∧
      (globus_gram_job_manager_add_request
        { sample_manager [] with grace_period_timer := 5 } "/1/2/"
        (sample_request GLOBUS_GRAM_JOB_MANAGER_STATE_START)).rc = GLOBUS_SUCCESS := by
  obtain ⟨hcall, -, hclear, -⟩ :=
    add_request_cancels_grace_timer
      { sample_manager [] with grace_period_timer := 5 } "/1/2/"
      (sample_request GLOBUS_GRAM_JOB_MANAGER_STATE_START) rfl (by decide)
  exact ⟨by decide, hcall, (hclear rfl).1, ((hclear rfl).2 rfl).1⟩

/-- C20 at a sample state: the last reference to the only job, which is DONE,
is released by a manager that is not stopping; the grace-period timer gets the
handle 7. -/
theorem remove_reference_last_entry_witness :
    ∃ o, globus_gram_job_manager_remove_reference sample_env
        (sample_manager
          [sample_ref "/1/2/" (some (sample_request GLOBUS_GRAM_JOB_MANAGER_STATE_DONE)) 1 0])
        "/1/2/" = some o ∧
      o.manager.request_hash = [] ∧
      o.manager.grace_period_timer = 7 ∧
      o.manager.done = false := by
  obtain ⟨o, hrun, htable, -, hgrace, -⟩ :=
    remove_reference_last_entry sample_env
      (sample_manager
        [sample_ref "/1/2/" (some (sample_request GLOBUS_GRAM_JOB_MANAGER_STATE_DONE)) 1 0])
      "/1/2/"
      (sample_ref "/1/2/" (some (sample_request GLOBUS_GRAM_JOB_MANAGER_STATE_DONE)) 1 0)
      (sample_request GLOBUS_GRAM_JOB_MANAGER_STATE_DONE) (by decide) rfl (by decide)
      (Or.inl rfl)
  have hempty : o.manager.request_hash = [] := by rw [htable]; decide
  exact ⟨o, hrun, hempty, ((hgrace hempty rfl).2 7 rfl).1, ((hgrace hempty rfl).2 7 rfl).2⟩

/-! ## The grace-period callback -/

/-- C22: when `globus_l_gram_job_manager_grace_period_expired` runs with the
grace-period timer armed, it unregisters the timer, leaves the null handle in
`grace_period_timer`, and sets `done` exactly when the request table is empty
at that moment (otherwise `done` keeps its value); nothing else changes. When
it runs with the timer already disarmed it changes nothing. -/
theorem grace_period_expired_rechecks (manager : globus_gram_job_manager_t) :
    (manager.grace_period_timer ≠ GLOBUS_NULL_HANDLE →
      (globus_l_gram_job_manager_grace_period_expired manager).1 =
          { manager with
            done := if manager.request_hash = [] then true else manager.done
            grace_period_timer := GLOBUS_NULL_HANDLE } ∧
        (manager.request_hash = [] →
          (globus_l_gram_job_manager_grace_period_expired manager).1.done = true) ∧
        (manager.request_hash ≠ [] →
          (globus_l_gram_job_manager_grace_period_expired manager).1.done = manager.done) ∧
        (globus_l_gram_job_manager_grace_period_expired manager).1.grace_period_timer =
          GLOBUS_NULL_HANDLE ∧
        Call.globus_callback_unregister manager.grace_period_timer ∈
          (globus_l_gram_job_manager_grace_period_expired manager).2) ∧
      (manager.grace_period_timer = GLOBUS_NULL_HANDLE →
        (globus_l_gram_job_manager_grace_period_expired manager).1 = manager ∧
        (globus_l_gram_job_manager_grace_period_expired manager).2 =
          [Call.GlobusGramJobManagerLock, Call.GlobusGramJobManagerUnlock]) := by
  constructor
  · intro harmed
    cases htable : manager.request_hash with
    | nil =>
      simp [globus_l_gram_job_manager_grace_period_expired, harmed, htable]
    | cons e es =>
      simp [globus_l_gram_job_manager_grace_period_expired, harmed, htable]
  · intro hnull
    simp [globus_l_gram_job_manager_grace_period_expired, hnull]

/-! ## The cached status -/

/-- `globus_gram_job_manager_get_status` changes nothing. -/
theorem get_status_manager (manager : globus_gram_job_manager_t) (key : String) :
    (globus_gram_job_manager_get_status manager key).manager = manager := by
  unfold globus_gram_job_manager_get_status
  cases request_hash_lookup manager.request_hash key <;> rfl

/-- `globus_gram_job_manager_set_status` on a key that is in the table. -/
theorem set_status_present (manager : globus_gram_job_manager_t) (key : String)
    (ref : globus_gram_job_manager_ref_t) (state failure_code : Int)
    (href : request_hash_lookup manager.request_hash key = some ref) :
    globus_gram_job_manager_set_status manager key state failure_code =
      { rc := GLOBUS_SUCCESS, out := none
        manager := { manager with
          request_hash := request_hash_store manager.request_hash
            { ref with job_state := state, failure_code := failure_code } }
        calls := [Call.GlobusGramJobManagerLock, Call.GlobusGramJobManagerUnlock] } := by
  simp only [globus_gram_job_manager_set_status, href]

/-- `globus_gram_job_manager_get_status` on a key that is in the table. -/
theorem get_status_present (manager : globus_gram_job_manager_t) (key : String)
    (ref : globus_gram_job_manager_ref_t)
    (href : request_hash_lookup manager.request_hash key = some ref) :
    (globus_gram_job_manager_get_status manager key).rc = GLOBUS_SUCCESS ∧
      (globus_gram_job_manager_get_status manager key).out =
        some (ref.job_state, ref.failure_code) := by
  simp only [globus_gram_job_manager_get_status, href, and_self]

/-- C23: for a key that is in the request table (job resident or not),
`globus_gram_job_manager_set_status` succeeds and writes the entry's two cached
fields only: the entry keeps its key, job, reference count and timer, every
other key looks up as before, the keys of the table and every other field of
the manager are as they were. A following `globus_gram_job_manager_get_status`
returns the pair just written and changes nothing, and after a second
`set_status` it returns the second pair. -/
theorem set_status_then_get_status (manager : globus_gram_job_manager_t) (key : String)
    (ref : globus_gram_job_manager_ref_t) (state failure_code state2 failure_code2 : Int)
    (href : request_hash_lookup manager.request_hash key = some ref) :
    (globus_gram_job_manager_set_status manager key state failure_code).rc = GLOBUS_SUCCESS ∧
      (globus_gram_job_manager_set_status manager key state failure_code).manager =
        { manager with
          request_hash := request_hash_store manager.request_hash
            { ref with job_state := state, failure_code := failure_code } } ∧
      request_hash_lookup
          (globus_gram_job_manager_set_status manager key state
            failure_code).manager.request_hash key =
        some { ref with job_state := state, failure_code := failure_code } ∧
      (∀ key2, key2 ≠ key →
        request_hash_lookup
            (globus_gram_job_manager_set_status manager key state
              failure_code).manager.request_hash key2 =
          request_hash_lookup manager.request_hash key2) ∧
      (globus_gram_job_manager_set_status manager key state
          failure_code).manager.request_hash.map (fun e => e.key) =
        manager.request_hash.map (fun e => e.key) ∧
      (globus_gram_job_manager_get_status
          (globus_gram_job_manager_set_status manager key state failure_code).manager
          key).rc = GLOBUS_SUCCESS ∧
      (globus_gram_job_manager_get_status
          (globus_gram_job_manager_set_status manager key state failure_code).manager
          key).out = some (state, failure_code) ∧
      (globus_gram_job_manager_get_status
          (globus_gram_job_manager_set_status manager key state failure_code).manager
          key).manager =
        (globus_gram_job_manager_set_status manager key state failure_code).manager ∧
      (globus_gram_job_manager_get_status
          (globus_gram_job_manager_set_status
            (globus_gram_job_manager_set_status manager key state failure_code).manager
            key state2 failure_code2).manager
          key).out = some (state2, failure_code2) := by
  have hkey : ref.key = key := request_hash_lookup_key href
  have hlook : request_hash_lookup
      (request_hash_store manager.request_hash
        { ref with job_state := state, failure_code := failure_code }) key =
      some { ref with job_state := state, failure_code := failure_code } :=
    request_hash_lookup_store_key hkey href
  rw [set_status_present manager key ref state failure_code href]
  refine ⟨rfl, rfl, hlook, ?_, request_hash_store_keys _ _, ?_, ?_, get_status_manager _ _, ?_⟩
  · intro key2 hne
    exact request_hash_lookup_store_other _ _ (by rw [hkey]; exact hne)
  · exact (get_status_present
      { manager with
        request_hash := request_hash_store manager.request_hash
          { ref with job_state := state, failure_code := failure_code } } key _ hlook).1
  · exact (get_status_present
      { manager with
        request_hash := request_hash_store manager.request_hash
          { ref with job_state := state, failure_code := failure_code } } key _ hlook).2
  · have hlook2 : request_hash_lookup
        (request_hash_store
          (request_hash_store manager.request_hash
            { ref with job_state := state, failure_code := failure_code })
          { ref with job_state := state2, failure_code := failure_code2 }) key =
        some { ref with job_state := state2, failure_code := failure_code2 } :=
      request_hash_lookup_store_key hkey hlook
    rw [set_status_present
      { manager with
        request_hash := request_hash_store manager.request_hash
          { ref with job_state := state, failure_code := failure_code } }
      key _ state2 failure_code2 hlook]
    exact (get_status_present
      { manager with
        request_hash := request_hash_store
          (request_hash_store manager.request_hash
            { ref with job_state := state, failure_code := failure_code })
          { ref with job_state := state2, failure_code := failure_code2 } } key _ hlook2).2

/-- C23 at a sample state: the status of the swapped-out job `/1/2/` is set to
`(8, 0)` and then to `(4, 17)`. -/
theorem set_status_then_get_status_witness :
    request_hash_lookup (sample_manager [sample_ref "/1/2/" none 0 0]).request_hash "/1/2/" =
        some (sample_ref "/1/2/" none 0 0) ∧
      (globus_gram_job_manager_get_status
          (globus_gram_job_manager_set_status (sample_manager [sample_ref "/1/2/" none 0 0])
            "/1/2/" 8 0).manager
          "/1/2/").out = some (8, 0) ∧
      (globus_gram_job_manager_get_status
          (globus_gram_job_manager_set_status
            (globus_gram_job_manager_set_status (sample_manager [sample_ref "/1/2/" none 0 0])
              "/1/2/" 8 0).manager
            "/1/2/" 4 17).manager
          "/1/2/").out = some (4, 17) := by
  obtain ⟨-, -, -, -, -, -, hget, -, hget2⟩ :=
    set_status_then_get_status (sample_manager [sample_ref "/1/2/" none 0 0]) "/1/2/"
      (sample_ref "/1/2/" none 0 0) 8 0 4 17 (by decide)
  exact ⟨by decide, hget, hget2⟩

/-! ## Residency and unknown keys -/

/-- C24: `globus_gram_job_manager_request_exists` returns true exactly when
the request table has an entry for the key and that entry's job is resident;
it is false for an absent key and for a swapped-out entry; the call leaves the
manager as it was. -/
theorem request_exists_iff_resident (manager : globus_gram_job_manager_t) (key : String) :
    (globus_gram_job_manager_request_exists manager key = true ↔
        ∃ ref job, request_hash_lookup manager.request_hash key = some ref ∧
          ref.request = some job) ∧
      (request_hash_lookup manager.request_hash key = none →
        globus_gram_job_manager_request_exists manager key = false) ∧
      (∀ ref, request_hash_lookup manager.request_hash key = some ref →
        ref.request = none →
        globus_gram_job_manager_request_exists manager key = false) ∧
      (globus_gram_job_manager_request_exists_call manager key).1 = manager ∧
      (globus_gram_job_manager_request_exists_call manager key).2.1 =
        globus_gram_job_manager_request_exists manager key := by
  refine ⟨?_, ?_, ?_, rfl, rfl⟩
  · cases href : request_hash_lookup manager.request_hash key with
    | none => simp [globus_gram_job_manager_request_exists, href]
    | some ref =>
      cases hjob : ref.request with
      | none => simp [globus_gram_job_manager_request_exists, href, hjob]
      | some job => simp [globus_gram_job_manager_request_exists, href, hjob]
  · intro href
    simp [globus_gram_job_manager_request_exists, href]
  · intro ref href hjob
    simp [globus_gram_job_manager_request_exists, href, hjob]

/-- C24 at a sample state: `/1/2/` is resident, `/3/4/` is swapped out and
`/9/9/` is unknown. -/
theorem request_exists_iff_resident_witness :
    globus_gram_job_manager_request_exists
        (sample_manager
          [sample_ref "/1/2/" (some (sample_request GLOBUS_GRAM_JOB_MANAGER_STATE_POLL2)) 1 0,
           sample_ref "/3/4/" none 0 0]) "/1/2/" = true ∧
      globus_gram_job_manager_request_exists
        (sample_manager
          [sample_ref "/1/2/" (some (sample_request GLOBUS_GRAM_JOB_MANAGER_STATE_POLL2)) 1 0,
           sample_ref "/3/4/" none 0 0]) "/3/4/" = false ∧
      globus_gram_job_manager_request_exists
        (sample_manager
          [sample_ref "/1/2/" (some (sample_request GLOBUS_GRAM_JOB_MANAGER_STATE_POLL2)) 1 0,
           sample_ref "/3/4/" none 0 0]) "/9/9/" = false :=
  ⟨(request_exists_iff_resident _ "/1/2/").1.2
      ⟨sample_ref "/1/2/" (some (sample_request GLOBUS_GRAM_JOB_MANAGER_STATE_POLL2)) 1 0,
        sample_request GLOBUS_GRAM_JOB_MANAGER_STATE_POLL2, by decide, rfl⟩,
    (request_exists_iff_resident _ "/3/4/").2.2.1 (sample_ref "/3/4/" none 0 0) (by decide) rfl,
    (request_exists_iff_resident _ "/9/9/").2.1 (by decide)⟩

/-- C30: on a key that is not in the request table,
`globus_gram_job_manager_add_reference` returns `JOB_CONTACT_NOT_FOUND`, writes
NULL to the job handle when the caller asked for one, and leaves the manager
as it was. -/
theorem add_reference_unknown_key (env : Env) (manager : globus_gram_job_manager_t)
    (key : String) (request : Bool)
    (habs : request_hash_lookup manager.request_hash key = none) :
    ∃ o, globus_gram_job_manager_add_reference env manager key request = some o ∧
      o.rc = GLOBUS_GRAM_PROTOCOL_ERROR_JOB_CONTACT_NOT_FOUND ∧
      o.out = (if request then some none else none) ∧
      (request = true → o.out = some none) ∧
      o.manager = manager := by
  refine ⟨{ rc := GLOBUS_GRAM_PROTOCOL_ERROR_JOB_CONTACT_NOT_FOUND
            out := if request then some none else none
            manager := manager
            calls := [Call.GlobusGramJobManagerLock] ++ [] ++
              [Call.GlobusGramJobManagerUnlock] }, ?_, rfl, rfl, ?_, rfl⟩
  · simp only [globus_gram_job_manager_add_reference, globus_l_gram_add_reference_locked,
      habs]
  · intro h
    simp [h]

/-- C30 at a sample state: the key `/9/9/` is unknown and a handle is asked
for. -/
theorem add_reference_unknown_key_witness :
    request_hash_lookup
        (sample_manager
          [sample_ref "/1/2/" (some (sample_request GLOBUS_GRAM_JOB_MANAGER_STATE_POLL2)) 1 0]
        ).request_hash "/9/9/" = none ∧
      ∃ o, globus_gram_job_manager_add_reference sample_env
          (sample_manager
            [sample_ref "/1/2/" (some (sample_request GLOBUS_GRAM_JOB_MANAGER_STATE_POLL2))
              1 0])
          "/9/9/" true = some o ∧
        o.rc = GLOBUS_GRAM_PROTOCOL_ERROR_JOB_CONTACT_NOT_FOUND ∧
        o.out = some none ∧
        o.manager =
          sample_manager
            [sample_ref "/1/2/" (some (sample_request GLOBUS_GRAM_JOB_MANAGER_STATE_POLL2))
              1 0] := by
  obtain ⟨o, hrun, hrc, -, hout, hm⟩ :=
    add_reference_unknown_key sample_env
      (sample_manager
        [sample_ref "/1/2/" (some (sample_request GLOBUS_GRAM_JOB_MANAGER_STATE_POLL2)) 1 0])
      "/9/9/" true (by decide)
  exact ⟨by decide, o, hrun, hrc, hout rfl, hm⟩

/-! ## The LRM job-id table: exact ids and snapshots -/

/-- A lookup in the job-id table misses exactly when no entry carries the id. -/
theorem job_id_hash_lookup_none {table : List globus_gram_job_id_ref_t} {job_id : String} :
    job_id_hash_lookup table job_id = none ↔ ∀ e ∈ table, e.job_id ≠ job_id := by
  induction table with
  | nil => simp [job_id_hash_lookup]
  | cons x xs ih =>
    by_cases hk : x.job_id = job_id
    · simp [job_id_hash_lookup, hk]
    · simp [job_id_hash_lookup, hk, ih]

/-- Removing an id does not change what another id looks up. -/
theorem job_id_hash_lookup_remove_other (table : List globus_gram_job_id_ref_t)
    {job_id other : String} (hne : other ≠ job_id) :
    job_id_hash_lookup (job_id_hash_remove table job_id) other =
      job_id_hash_lookup table other := by
  induction table with
  | nil => rfl
  | cons x xs ih =>
    by_cases hk : x.job_id = job_id
    · have hk2 : ¬ x.job_id = other := fun h => hne (h.symm.trans hk)
      simp only [job_id_hash_remove, if_pos hk, job_id_hash_lookup, if_neg hk2]
    · by_cases hk2 : x.job_id = other
      · simp only [job_id_hash_remove, if_neg hk, job_id_hash_lookup, if_pos hk2]
      · simp only [job_id_hash_remove, if_neg hk, job_id_hash_lookup, if_neg hk2, ih]

/-- Removing an id that is in the table takes out one entry. -/
theorem job_id_hash_remove_length {table : List globus_gram_job_id_ref_t} {job_id : String}
    {ref : globus_gram_job_id_ref_t} (h : job_id_hash_lookup table job_id = some ref) :
    (job_id_hash_remove table job_id).length + 1 = table.length := by
  induction table with
  | nil => simp [job_id_hash_lookup] at h
  | cons x xs ih =>
    by_cases hk : x.job_id = job_id
    · simp only [job_id_hash_remove, if_pos hk, List.length_cons]
    · simp only [job_id_hash_lookup, if_neg hk] at h
      simp only [job_id_hash_remove, if_neg hk, List.length_cons, ih h]

/-- After the removal, a table without duplicates no longer has the id. -/
theorem job_id_hash_lookup_remove_same {table : List globus_gram_job_id_ref_t}
    (job_id : String) (hwf : job_id_hash_wf table) :
    job_id_hash_lookup (job_id_hash_remove table job_id) job_id = none := by
  induction table with
  | nil => rfl
  | cons x xs ih =>
    unfold job_id_hash_wf at hwf
    simp only [List.map_cons, List.nodup_cons] at hwf
    by_cases hk : x.job_id = job_id
    · simp only [job_id_hash_remove, if_pos hk]
      rw [job_id_hash_lookup_none]
      intro e he heq
      exact hwf.1 (List.mem_map.2 ⟨e, he, heq.trans hk.symm⟩)
    · simp only [job_id_hash_remove, if_neg hk, job_id_hash_lookup]
      exact ih hwf.2

/-- A removal keeps the job-id table free of duplicates. -/
theorem job_id_hash_remove_wf {table : List globus_gram_job_id_ref_t} (job_id : String)
    (hwf : job_id_hash_wf table) : job_id_hash_wf (job_id_hash_remove table job_id) := by
  induction table with
  | nil => exact hwf
  | cons x xs ih =>
    unfold job_id_hash_wf at hwf ⊢
    simp only [List.map_cons, List.nodup_cons] at hwf
    by_cases hk : x.job_id = job_id
    · simp only [job_id_hash_remove, if_pos hk]
      exact hwf.2
    · simp only [job_id_hash_remove, if_neg hk, List.map_cons, List.nodup_cons]
      refine ⟨?_, ih hwf.2⟩
      intro hmem
      obtain ⟨e, he, heq⟩ := List.mem_map.1 hmem
      exact hwf.1 (List.mem_map.2 ⟨e, job_id_hash_remove_mem _ _ _ he, heq⟩)

/-- The registration loop keeps the job-id table free of duplicates: it
inserts only ids that the lookup missed. -/
theorem register_job_id_loop_wf (request : globus_gram_jobmanager_request_t)
    (subjobs : List String) :
    ∀ table : List globus_gram_job_id_ref_t, job_id_hash_wf table →
      job_id_hash_wf (register_job_id_loop request table subjobs).2 := by
  induction subjobs with
  | nil =>
    intro table hwf
    exact hwf
  | cons s rest ih =>
    intro table hwf
    cases hold : job_id_hash_lookup table s with
    | some old_ref =>
      simp only [register_job_id_loop, hold]
      split <;> exact hwf
    | none =>
      simp only [register_job_id_loop, hold, job_id_hash_insert]
      apply ih
      unfold job_id_hash_wf at hwf ⊢
      simp only [List.map_cons, List.nodup_cons]
      refine ⟨?_, hwf⟩
      intro hmem
      obtain ⟨e, he, heq⟩ := List.mem_map.1 hmem
      exact job_id_hash_lookup_none.1 hold e he heq

/-- Every step keeps the job-id table free of duplicates. -/
theorem step_job_id_hash_wf (manager manager2 : globus_gram_job_manager_t)
    (hstep : Step manager manager2) (hwf : job_id_hash_wf manager.job_id_hash) :
    job_id_hash_wf manager2.job_id_hash := by
  cases hstep with
  | add_request _ key request =>
    rw [(add_request_frame manager key request).2.1]
    exact hwf
  | add_reference env _ key request _ hrun =>
    obtain ⟨o, ho, hm⟩ := Option.map_eq_some'.1 hrun
    subst hm
    rw [(add_reference_frame env manager key request o ho).2.1]
    exact hwf
  | add_reference_by_jobid env _ jobid request _ hrun =>
    obtain ⟨o, ho, hm⟩ := Option.map_eq_some'.1 hrun
    subst hm
    rw [(add_reference_by_jobid_frame env manager jobid request o ho).2.1]
    exact hwf
  | remove_reference env _ key _ hrun =>
    obtain ⟨o, ho, hm⟩ := Option.map_eq_some'.1 hrun
    subst hm
    rw [(remove_reference_frame env manager key o ho).2.1]
    exact hwf
  | register_job_id _ job_id request =>
    exact register_job_id_loop_wf request _ _ hwf
  | unregister_job_id _ job_id =>
    cases job_id with
    | none => exact hwf
    | some id =>
      cases hl : job_id_hash_lookup manager.job_id_hash id with
      | none =>
        simp only [globus_gram_job_manager_unregister_job_id, hl]
        exact hwf
      | some ref =>
        simp only [globus_gram_job_manager_unregister_job_id, hl]
        exact job_id_hash_remove_wf id hwf
  | set_status _ key state failure_code =>
    rw [(set_status_frame manager key state failure_code).2.1]
    exact hwf
  | stop_all_jobs env _ _ calls hrun =>
    rw [(stop_all_jobs_frame env manager manager2 calls hrun).2.1]
    exact hwf
  | ref_swap_out env _ key _ calls hrun =>
    rw [(ref_swap_out_frame env manager key manager2 calls hrun).2.1]
    exact hwf
  | grace_period_expired _ =>
    rw [(grace_period_expired_frame manager).2.1]
    exact hwf
  | job_written _ key ref job job2 href hjob => exact hwf
  | seg_written _ seg_started seg_last_timestamp => exact hwf

/-- In every reachable manager state no LRM job id is stored twice. -/
theorem reachable_job_id_hash_wf (manager : globus_gram_job_manager_t)
    (hreach : Reachable manager) : job_id_hash_wf manager.job_id_hash := by
  obtain ⟨config, url_base, hsteps⟩ := hreach
  induction hsteps with
  | refl => simp [globus_gram_job_manager_init, job_id_hash_wf]
  | tail _ hstep ih => exact step_job_id_hash_wf _ _ hstep ih

/-- C25: `globus_gram_job_manager_unregister_job_id` looks the id up as it is,
without splitting. If the id is in the job-id table the call succeeds and
takes that entry out: the table is one entry shorter, every other id looks up
as before (and in a table without duplicates the id itself is gone), nothing
else in the manager changes. If the id is not in the table, or is NULL, the
call returns `JOB_CONTACT_NOT_FOUND` and changes nothing; so with the SEG
configured an id with a comma is never found. After registering `A,B` with
the SEG configured, `unregister_job_id("A,B")` is not found and `A` and `B`
stay registered. -/
theorem unregister_job_id_exact (manager : globus_gram_job_manager_t) (job_id : String) :
    (∀ ref, job_id_hash_lookup manager.job_id_hash job_id = some ref →
        (globus_gram_job_manager_unregister_job_id manager (some job_id)).rc =
            GLOBUS_SUCCESS ∧
          (globus_gram_job_manager_unregister_job_id manager (some job_id)).manager =
            { manager with
              job_id_hash := job_id_hash_remove manager.job_id_hash job_id } ∧
          (job_id_hash_remove manager.job_id_hash job_id).length + 1 =
            manager.job_id_hash.length ∧
          (∀ other, other ≠ job_id →
            job_id_hash_lookup (job_id_hash_remove manager.job_id_hash job_id) other =
              job_id_hash_lookup manager.job_id_hash other) ∧
          (job_id_hash_wf manager.job_id_hash →
            job_id_hash_lookup (job_id_hash_remove manager.job_id_hash job_id) job_id =
              none)) ∧
      (job_id_hash_lookup manager.job_id_hash job_id = none →
        (globus_gram_job_manager_unregister_job_id manager (some job_id)).rc =
            GLOBUS_GRAM_PROTOCOL_ERROR_JOB_CONTACT_NOT_FOUND ∧
          (globus_gram_job_manager_unregister_job_id manager (some job_id)).manager =
            manager) ∧
      ((globus_gram_job_manager_unregister_job_id manager none).rc =
          GLOBUS_GRAM_PROTOCOL_ERROR_JOB_CONTACT_NOT_FOUND ∧
        (globus_gram_job_manager_unregister_job_id manager none).manager = manager) ∧
      (manager.config.seg_module ≠ none → job_ids_single manager → ',' ∈ job_id.data →
        (globus_gram_job_manager_unregister_job_id manager (some job_id)).rc =
            GLOBUS_GRAM_PROTOCOL_ERROR_JOB_CONTACT_NOT_FOUND ∧
          (globus_gram_job_manager_unregister_job_id manager (some job_id)).manager =
            manager) ∧
      ((globus_gram_job_manager_unregister_job_id
          (globus_gram_job_manager_register_job_id (sample_manager []) "A,B"
            (sample_request GLOBUS_GRAM_JOB_MANAGER_STATE_SUBMIT)).manager
          (some "A,B")).rc = GLOBUS_GRAM_PROTOCOL_ERROR_JOB_CONTACT_NOT_FOUND ∧
        (globus_gram_job_manager_unregister_job_id
          (globus_gram_job_manager_register_job_id (sample_manager []) "A,B"
            (sample_request GLOBUS_GRAM_JOB_MANAGER_STATE_SUBMIT)).manager
          (some "A,B")).manager.job_id_hash =
          [{ job_id := "A", job_contact_path := "/1/2/" },
           { job_id := "B", job_contact_path := "/1/2/" }]) := by
  have hmiss : job_id_hash_lookup manager.job_id_hash job_id = none →
      (globus_gram_job_manager_unregister_job_id manager (some job_id)).rc =
          GLOBUS_GRAM_PROTOCOL_ERROR_JOB_CONTACT_NOT_FOUND ∧
        (globus_gram_job_manager_unregister_job_id manager (some job_id)).manager =
          manager := by
    intro hnone
    simp only [globus_gram_job_manager_unregister_job_id, hnone, and_self]
  refine ⟨?_, hmiss, ⟨rfl, rfl⟩, ?_, by decide⟩
  · intro ref href
    refine ⟨?_, ?_, job_id_hash_remove_length href, ?_, ?_⟩
    · simp only [globus_gram_job_manager_unregister_job_id, href]
    · simp only [globus_gram_job_manager_unregister_job_id, href]
    · intro other hne
      exact job_id_hash_lookup_remove_other _ hne
    · intro hwf
      exact job_id_hash_lookup_remove_same job_id hwf
  · intro hseg hsingle hcomma
    apply hmiss
    rw [job_id_hash_lookup_none]
    intro e he heq
    exact (hsingle hseg e he).2 (heq ▸ hcomma)

/-- C25 at a sample state: `A` is registered to `/1/2/`; unregistering `A`
empties the job-id table and leaves the request table alone, unregistering `B`
is not found. -/
theorem unregister_job_id_exact_witness :
    job_id_hash_lookup sample_manager_registered.job_id_hash "A" =
        some { job_id := "A", job_contact_path := "/1/2/" } ∧
      (globus_gram_job_manager_unregister_job_id sample_manager_registered (some "A")).rc =
        GLOBUS_SUCCESS ∧
      (globus_gram_job_manager_unregister_job_id sample_manager_registered
          (some "A")).manager =
        { sample_manager_registered with job_id_hash := [] } ∧
      (globus_gram_job_manager_unregister_job_id sample_manager_registered (some "B")).rc =
        GLOBUS_GRAM_PROTOCOL_ERROR_JOB_CONTACT_NOT_FOUND ∧
      (globus_gram_job_manager_unregister_job_id sample_manager_registered
          (some "B")).manager = sample_manager_registered := by
  obtain ⟨hrc, hm, -⟩ :=
    (unregister_job_id_exact sample_manager_registered "A").1
      { job_id := "A", job_contact_path := "/1/2/" } (by decide)
  obtain ⟨hrc2, hm2⟩ :=
    (unregister_job_id_exact sample_manager_registered "B").2.1 (by decide)
  exact ⟨by decide, hrc, hm, hrc2, hm2⟩

/-- When no allocation fails, the loop of `get_job_id_list` pushes every id of
the table on the list. -/
theorem get_job_id_list_loop_ok (alloc : Allocator)
    (hstrdup : ∀ s, alloc.strdup s = true)
    (hinsert : ∀ l s, alloc.globus_list_insert l s = true) :
    ∀ (table : List globus_gram_job_id_ref_t) (job_id_list : List String),
      get_job_id_list_loop alloc table job_id_list =
        (GLOBUS_SUCCESS, (table.map (fun e => e.job_id)).reverse ++ job_id_list) := by
  intro table
  induction table with
  | nil =>
    intro job_id_list
    simp [get_job_id_list_loop]
  | cons e es ih =>
    intro job_id_list
    simp only [get_job_id_list_loop, hstrdup, hinsert, if_true, ih, globus_list_insert,
      List.map_cons, List.reverse_cons, List.append_assoc, List.singleton_append]

/-- C26: when no allocation fails, `globus_gram_job_manager_get_job_id_list`
returns `GLOBUS_SUCCESS` and a list that holds the ids of the job-id table and
nothing else: it is a permutation of the table's ids (its reverse), has the
table's length, an id is on it exactly when it is registered, and when the
table has no id twice (as in every reachable state) each id is on it once. The
manager is left as it was. -/
theorem get_job_id_list_snapshot (alloc : Allocator) (manager : globus_gram_job_manager_t)
    (hstrdup : ∀ s, alloc.strdup s = true)
    (hinsert : ∀ l s, alloc.globus_list_insert l s = true) :
    ∃ job_id_list,
      (globus_gram_job_manager_get_job_id_list alloc manager).out = some job_id_list ∧
      (globus_gram_job_manager_get_job_id_list alloc manager).rc = GLOBUS_SUCCESS ∧
      (globus_gram_job_manager_get_job_id_list alloc manager).manager = manager ∧
      job_id_list.Perm (manager.job_id_hash.map (fun e => e.job_id)) ∧
      job_id_list.length = manager.job_id_hash.length ∧
      (∀ s, s ∈ job_id_list ↔ job_id_hash_lookup manager.job_id_hash s ≠ none) ∧
      (job_id_hash_wf manager.job_id_hash →
        job_id_list.Nodup ∧
        ∀ s, job_id_hash_lookup manager.job_id_hash s ≠ none → job_id_list.count s = 1) := by
  have hmem : ∀ s, s ∈ (manager.job_id_hash.map (fun e => e.job_id)).reverse ↔
      job_id_hash_lookup manager.job_id_hash s ≠ none := by
    intro s
    rw [ne_eq, job_id_hash_lookup_none]
    simp
  refine ⟨(manager.job_id_hash.map (fun e => e.job_id)).reverse, ?_, ?_, rfl,
    List.reverse_perm _, by simp, hmem, ?_⟩
  · simp only [globus_gram_job_manager_get_job_id_list,
      get_job_id_list_loop_ok alloc hstrdup hinsert, List.append_nil]
  · simp only [globus_gram_job_manager_get_job_id_list,
      get_job_id_list_loop_ok alloc hstrdup hinsert]
  · intro hwf
    have hnodup : (manager.job_id_hash.map (fun e => e.job_id)).reverse.Nodup :=
      List.nodup_reverse.2 hwf
    refine ⟨hnodup, ?_⟩
    intro s hs
    exact List.count_eq_one_of_mem hnodup ((hmem s).2 hs)

/-- C26 at a sample state: the ids `C` and `B` are registered and the
allocator never fails. -/
theorem get_job_id_list_snapshot_witness :
    (∀ s, sample_allocator.strdup s = true) ∧
      ∃ job_id_list,
        (globus_gram_job_manager_get_job_id_list sample_allocator
          { sample_manager [] with
            job_id_hash := [{ job_id := "C", job_contact_path := "/1/2/" },
                            { job_id := "B", job_contact_path := "/1/2/" }] }).out =
          some job_id_list ∧
        job_id_list.Perm ["C", "B"] ∧
        job_id_list.length = 2 := by
  obtain ⟨l, hout, -, -, hperm, hlen, -⟩ :=
    get_job_id_list_snapshot sample_allocator
      { sample_manager [] with
        job_id_hash := [{ job_id := "C", job_contact_path := "/1/2/" },
                        { job_id := "B", job_contact_path := "/1/2/" }] }
      (fun _ => rfl) (fun _ _ => rfl)
  exact ⟨fun _ => rfl, l, hout, hperm, hlen⟩

/-- C22 at two sample states: the callback finds the timer 5 armed and the
table empty, or the timer already disarmed. -/
theorem grace_period_expired_rechecks_witness :
    (globus_l_gram_job_manager_grace_period_expired
        { sample_manager [] with grace_period_timer := 5 }).1 =
        { sample_manager [] with done := true } ∧
      (globus_l_gram_job_manager_grace_period_expired (sample_manager [])).1 =
        sample_manager [] := by
  have h1 := ((grace_period_expired_rechecks
    { sample_manager [] with grace_period_timer := 5 }).1 (by decide)).1
  have h2 := ((grace_period_expired_rechecks (sample_manager [])).2 rfl).1
  exact ⟨h1.trans (by decide), h2⟩

/-! ## A conflict in the middle of a batch -/

/-- On a string that continues after a separator, `strtok_r` yields the run
before the separator (unless it is empty) and goes on behind it. -/
theorem strtok_r_tokens_append (sep : Char) (rest : List Char) :
    ∀ (cs acc : List Char), sep ∉ cs →
      strtok_r_tokens sep (cs ++ sep :: rest) acc =
        if acc.reverse ++ cs = [] then strtok_r_tokens sep rest []
        else String.mk (acc.reverse ++ cs) :: strtok_r_tokens sep rest [] := by
  intro cs
  induction cs with
  | nil =>
    intro acc _
    by_cases h : acc = []
    · simp [strtok_r_tokens, h]
    · simp [strtok_r_tokens, h]
  | cons c cs ih =>
    intro acc hsep
    simp only [List.mem_cons, not_or] at hsep
    have hc : ¬ c = sep := fun h => hsep.1 h.symm
    rw [List.cons_append]
    simp only [strtok_r_tokens, if_neg hc]
    rw [ih (c :: acc) hsep.2]
    simp

/-- The sub-ids of five tokens joined by commas: the five tokens, last first. -/
theorem split_subjobs_five (a b c d e : String)
    (htoken : ∀ s ∈ [a, b, c, d, e], s.data ≠ [] ∧ ',' ∉ s.data) :
    globus_gram_split_subjobs (a ++ "," ++ b ++ "," ++ c ++ "," ++ d ++ "," ++ e) =
      [e, d, c, b, a] := by
  have ha := htoken a (by simp)
  have hb := htoken b (by simp)
  have hc := htoken c (by simp)
  have hd := htoken d (by simp)
  have he := htoken e (by simp)
  have hdata : (a ++ "," ++ b ++ "," ++ c ++ "," ++ d ++ "," ++ e).data =
      a.data ++ ',' :: (b.data ++ ',' :: (c.data ++ ',' :: (d.data ++ ',' :: e.data))) := by
    simp [String.data_append]
  unfold globus_gram_split_subjobs
  rw [hdata, strtok_r_tokens_append ',' _ a.data [] ha.2,
    strtok_r_tokens_append ',' _ b.data [] hb.2,
    strtok_r_tokens_append ',' _ c.data [] hc.2,
    strtok_r_tokens_append ',' _ d.data [] hd.2,
    strtok_r_tokens_no_sep ',' e.data [] he.2]
  simp [ha.1, hb.1, hc.1, hd.1, he.1, globus_list_insert]

/-- The registration loop on a list whose third id is registered to another
owner, the first two being new and distinct: the loop fails at the third id and
the first two stay inserted. -/
theorem register_job_id_loop_no_rollback (request : globus_gram_jobmanager_request_t)
    (table : List globus_gram_job_id_ref_t) (x1 x2 x3 : String) (rest : List String)
    (old_ref : globus_gram_job_id_ref_t)
    (h1 : job_id_hash_lookup table x1 = none) (h2 : job_id_hash_lookup table x2 = none)
    (h12 : x1 ≠ x2) (h13 : x1 ≠ x3) (h23 : x2 ≠ x3)
    (h3 : job_id_hash_lookup table x3 = some old_ref)
    (hother : old_ref.job_contact_path ≠ request.job_contact_path) :
    register_job_id_loop request table (x1 :: x2 :: x3 :: rest) =
      (GLOBUS_GRAM_PROTOCOL_ERROR_MALLOC_FAILED,
        { job_id := x2, job_contact_path := request.job_contact_path } ::
          { job_id := x1, job_contact_path := request.job_contact_path } :: table) := by
  have h2b : job_id_hash_lookup
      ({ job_id := x1, job_contact_path := request.job_contact_path } :: table) x2 = none := by
    rw [job_id_hash_lookup_cons_ne _ _ h12]
    exact h2
  have h3b : job_id_hash_lookup
      ({ job_id := x2, job_contact_path := request.job_contact_path } ::
        { job_id := x1, job_contact_path := request.job_contact_path } :: table) x3 =
      some old_ref := by
    rw [job_id_hash_lookup_cons_ne _ _ h23, job_id_hash_lookup_cons_ne _ _ h13]
    exact h3
  simp only [register_job_id_loop, h1, job_id_hash_insert, h2b, h3b, hother, ne_eq,
    not_false_eq_true, if_true]

/-! ## Shutdown: the jobs it leaves -/

/-- The job a reload yields depends on the manager's `url_base` only. -/
theorem stop_all_jobs_resident_job_url_base (env : Env) (m1 m2 : globus_gram_job_manager_t)
    (ref : globus_gram_job_manager_ref_t) (h : m1.url_base = m2.url_base) :
    stop_all_jobs_resident_job env m1 ref = stop_all_jobs_resident_job env m2 ref := by
  simp only [stop_all_jobs_resident_job, restart_job_url_base env m1 m2 _ h]

/-- A forced reference on an entry whose job is resident or can be reloaded
succeeds and leaves that job resident. -/
theorem add_reference_locked_forced (env : Env) (manager : globus_gram_job_manager_t)
    (key : String) (e : globus_gram_job_manager_ref_t)
    (job0 : globus_gram_jobmanager_request_t)
    (he : request_hash_lookup manager.request_hash key = some e)
    (hjob0 : stop_all_jobs_resident_job env manager e = some job0) :
    ∃ o e2, globus_l_gram_add_reference_locked env manager key false = some o ∧
      o.rc = GLOBUS_SUCCESS ∧
      o.manager = { manager with
        request_hash := request_hash_store manager.request_hash e2 } ∧
      e2.key = e.key ∧ e2.request = some job0 := by
  have hkey : e.key = key := request_hash_lookup_key he
  cases hjob : e.request with
  | some job =>
    simp only [stop_all_jobs_resident_job, hjob, Option.some.injEq] at hjob0
    subst hjob0
    exact ⟨_, _, add_reference_locked_resident env manager key false e job he hjob,
      rfl, rfl, rfl, hjob⟩
  | none =>
    simp only [stop_all_jobs_resident_job, hjob, Option.map_eq_some'] at hjob0
    obtain ⟨loaded, hload, hj⟩ := hjob0
    rw [hkey] at hload
    exact ⟨_, _, add_reference_locked_reload env manager key false e loaded he hjob hload,
      rfl, rfl, rfl, by rw [← hj]⟩

/-- First loop, job by job: when every entry of the snapshot is in the table
with a job that is resident or can be reloaded, the loop runs to its end, keeps
the keys of the table, leaves in every entry of the snapshot the job
`stop_all_jobs_resident_job` names, and leaves the other entries alone. -/
theorem stop_all_jobs_add_references_jobs (env : Env)
    (job_refs : List globus_gram_job_manager_ref_t) :
    ∀ manager : globus_gram_job_manager_t,
      (∀ r ∈ job_refs, ∃ e job0, request_hash_lookup manager.request_hash r.key = some e ∧
        stop_all_jobs_resident_job env manager e = some job0) →
      ∃ manager2 calls,
        stop_all_jobs_add_references env manager job_refs = some (manager2, calls) ∧
        manager2.url_base = manager.url_base ∧
        manager2.request_hash.map (fun e => e.key) =
          manager.request_hash.map (fun e => e.key) ∧
        (∀ key e, request_hash_lookup manager.request_hash key = some e →
          ∃ e2, request_hash_lookup manager2.request_hash key = some e2 ∧
            (key ∈ job_refs.map (fun r => r.key) →
              ∃ job0, stop_all_jobs_resident_job env manager e = some job0 ∧
                e2.request = some job0) ∧
            (key ∉ job_refs.map (fun r => r.key) → e2 = e)) := by
  induction job_refs with
  | nil =>
    intro manager _
    refine ⟨manager, [], rfl, rfl, rfl, ?_⟩
    intro key e he
    exact ⟨e, he, by simp, fun _ => rfl⟩
  | cons r rest ih =>
    intro manager hall
    obtain ⟨e0, job0, he0, hj0⟩ := hall r (List.mem_cons_self _ _)
    have hkey0 : e0.key = r.key := request_hash_lookup_key he0
    obtain ⟨o, e1, hrun, hrc, hm, hk, hreq⟩ :=
      add_reference_locked_forced env manager r.key e0 job0 he0 hj0
    have hlook1 : ∀ key, request_hash_lookup o.manager.request_hash key =
        if key = r.key then some e1 else request_hash_lookup manager.request_hash key := by
      intro key
      rw [hm]
      by_cases hkr : key = r.key
      · rw [if_pos hkr, hkr]
        exact request_hash_lookup_store_key (hk.trans hkey0) he0
      · rw [if_neg hkr]
        exact request_hash_lookup_store_other _ _ (by rw [hk, hkey0]; exact hkr)
    have hurl : o.manager.url_base = manager.url_base := by rw [hm]
    have he1res : ∀ m : globus_gram_job_manager_t,
        stop_all_jobs_resident_job env m e1 = some job0 := by
      intro m
      simp only [stop_all_jobs_resident_job, hreq]
    have hall1 : ∀ r2 ∈ rest, ∃ e job1,
        request_hash_lookup o.manager.request_hash r2.key = some e ∧
          stop_all_jobs_resident_job env o.manager e = some job1 := by
      intro r2 hr2
      by_cases hkr : r2.key = r.key
      · exact ⟨e1, job0, by rw [hlook1, if_pos hkr], he1res _⟩
      · obtain ⟨e, job1, he, hj⟩ := hall r2 (List.mem_cons_of_mem _ hr2)
        refine ⟨e, job1, by rw [hlook1, if_neg hkr]; exact he, ?_⟩
        rw [stop_all_jobs_resident_job_url_base env o.manager manager e hurl]
        exact hj
    obtain ⟨manager2, calls, hrest, hurl2, hkeys, hres⟩ := ih o.manager hall1
    refine ⟨manager2, o.calls ++ calls, ?_, ?_, ?_, ?_⟩
    · simp only [stop_all_jobs_add_references, hrun, hrc, if_true, hrest]
    · rw [hurl2, hurl]
    · rw [hkeys, hm]
      exact request_hash_store_keys _ _
    · intro key e he
      by_cases hkr : key = r.key
      · have hee : e0 = e := by
          rw [hkr, he0] at he
          exact Option.some.inj he
        subst hee
        obtain ⟨e2, he2, hin, hout⟩ := hres key e1 (by rw [hlook1, if_pos hkr])
        refine ⟨e2, he2, fun _ => ⟨job0, hj0, ?_⟩, fun hnot => ?_⟩
        · by_cases hmem : key ∈ rest.map (fun r => r.key)
          · obtain ⟨j, hj, hreq2⟩ := hin hmem
            rw [he1res] at hj
            rw [hreq2, ← Option.some.inj hj]
          · rw [hout hmem]
            exact hreq
        · exact absurd (by simp [hkr]) hnot
      · obtain ⟨e2, he2, hin, hout⟩ := hres key e (by rw [hlook1, if_neg hkr]; exact he)
        refine ⟨e2, he2, ?_, ?_⟩
        · intro hmem
          simp only [List.map_cons, List.mem_cons] at hmem
          rcases hmem with h | h
          · exact absurd h hkr
          · obtain ⟨j, hj, hreq2⟩ := hin h
            refine ⟨j, ?_, hreq2⟩
            rw [← stop_all_jobs_resident_job_url_base env o.manager manager e hurl]
            exact hj
        · intro hnot
          apply hout
          intro h
          exact hnot (by simp [h])

/-- Second loop, job by job: when the table is well formed, the snapshot has no
key twice and every entry of the snapshot is in the table and resident, the
loop runs to its end; an entry that is left in the table under a key of the
snapshot holds the result of the `switch` on the job it held before, and the
other entries keep their jobs. -/
theorem stop_all_jobs_stop_requests_jobs (env : Env)
    (job_refs : List globus_gram_job_manager_ref_t) :
    ∀ manager : globus_gram_job_manager_t,
      request_hash_wf manager.request_hash →
      (job_refs.map (fun r => r.key)).Nodup →
      (∀ r ∈ job_refs, ∃ e job, request_hash_lookup manager.request_hash r.key = some e ∧
        e.request = some job) →
      ∃ manager2 calls,
        stop_all_jobs_stop_requests env manager job_refs = some (manager2, calls) ∧
        request_hash_wf manager2.request_hash ∧
        (∀ key e2, request_hash_lookup manager2.request_hash key = some e2 →
          ∃ e, request_hash_lookup manager.request_hash key = some e ∧
            (key ∈ job_refs.map (fun r => r.key) →
              ∃ job, e.request = some job ∧
                e2.request = some (stop_all_jobs_request env job).1) ∧
            (key ∉ job_refs.map (fun r => r.key) → e2.request = e.request)) := by
  induction job_refs with
  | nil =>
    intro manager hwf _ _
    refine ⟨manager, [], rfl, hwf, ?_⟩
    intro key e2 he2
    exact ⟨e2, he2, by simp, fun _ => rfl⟩
  | cons r rest ih =>
    intro manager hwf hnodup hpresent
    simp only [List.map_cons, List.nodup_cons] at hnodup
    obtain ⟨cur, job, hcur, hjob⟩ := hpresent r (List.mem_cons_self _ _)
    have hkeyc : cur.key = r.key := request_hash_lookup_key hcur
    have hcur1 : request_hash_lookup
        (request_hash_store manager.request_hash
          { cur with request := some (stop_all_jobs_request env job).1 }) r.key =
        some { cur with request := some (stop_all_jobs_request env job).1 } :=
      request_hash_lookup_store_key hkeyc hcur
    obtain ⟨o, hrun, -, -, hcases⟩ := remove_reference_shape env
      { manager with
        request_hash := request_hash_store manager.request_hash
          { cur with request := some (stop_all_jobs_request env job).1 } }
      r.key { cur with request := some (stop_all_jobs_request env job).1 } hcur1
      (by intro h; cases h)
    have hlook : ∀ key, key ≠ r.key →
        request_hash_lookup o.manager.request_hash key =
          request_hash_lookup manager.request_hash key := by
      intro key hne
      rcases hcases with ⟨e2, hk2, -, -, htable⟩ | ⟨-, -, htable⟩
      · rw [htable, request_hash_lookup_store_other _ _ (by rw [hk2, hkeyc]; exact hne)]
        exact request_hash_lookup_store_other _ _ (by rw [hkeyc]; exact hne)
      · rw [htable, request_hash_lookup_remove_other _ hne,
          request_hash_lookup_store_other _ _ (by rw [hkeyc]; exact hne)]
        exact request_hash_lookup_store_other _ _ (by rw [hkeyc]; exact hne)
    have hself : ∀ e2, request_hash_lookup o.manager.request_hash r.key = some e2 →
        e2.request = some (stop_all_jobs_request env job).1 := by
      intro e2 he2
      rcases hcases with ⟨e3, hk3, hreq3, -, htable⟩ | ⟨-, -, htable⟩
      · rw [htable, request_hash_lookup_store_key (hk3.trans hkeyc) hcur1] at he2
        simp only [Option.some.injEq] at he2
        rw [← he2, hreq3]
      · rw [htable, request_hash_lookup_remove_same r.key
          (request_hash_store_wf _ (request_hash_store_wf _ hwf))] at he2
        cases he2
    have hwf1 : request_hash_wf o.manager.request_hash := by
      rcases hcases with ⟨e3, -, -, -, htable⟩ | ⟨-, -, htable⟩
      · rw [htable]
        exact request_hash_store_wf _ (request_hash_store_wf _ hwf)
      · rw [htable]
        exact request_hash_remove_wf _ (request_hash_store_wf _ (request_hash_store_wf _ hwf))
    have hne_of_mem : ∀ r2 ∈ rest, r2.key ≠ r.key := by
      intro r2 hr2 heq
      exact hnodup.1 (List.mem_map.2 ⟨r2, hr2, heq⟩)
    have hpresent1 : ∀ r2 ∈ rest, ∃ e job2,
        request_hash_lookup o.manager.request_hash r2.key = some e ∧
          e.request = some job2 := by
      intro r2 hr2
      obtain ⟨e, job2, he, hj⟩ := hpresent r2 (List.mem_cons_of_mem _ hr2)
      exact ⟨e, job2, by rw [hlook _ (hne_of_mem r2 hr2)]; exact he, hj⟩
    obtain ⟨manager2, calls, hrest, hwf2, hfinal⟩ := ih o.manager hwf1 hnodup.2 hpresent1
    refine ⟨manager2, (stop_all_jobs_request env job).2 ++ o.calls ++ calls, ?_, hwf2, ?_⟩
    · simp only [stop_all_jobs_stop_requests, hcur, hjob, hrun, hrest]
    · intro key e2 he2
      obtain ⟨eo, heo, hin, hout⟩ := hfinal key e2 he2
      by_cases hkr : key = r.key
      · subst hkr
        refine ⟨cur, hcur, fun _ => ⟨job, hjob, ?_⟩, fun hnot => ?_⟩
        · rw [hout hnodup.1]
          exact hself eo heo
        · exact absurd (by simp) hnot
      · rw [hlook key hkr] at heo
        refine ⟨eo, heo, ?_, ?_⟩
        · intro hmem
          simp only [List.map_cons, List.mem_cons] at hmem
          rcases hmem with h | h
          · exact absurd h hkr
          · exact hin h
        · intro hnot
          apply hout
          intro h
          exact hnot (by simp [h])

/-- A store leaves an empty table only when the table was empty. -/
theorem request_hash_store_eq_nil {table : List globus_gram_job_manager_ref_t}
    {ref : globus_gram_job_manager_ref_t} (h : request_hash_store table ref = []) :
    table = [] := by
  have hkeys := request_hash_store_keys table ref
  rw [h] at hkeys
  exact List.map_eq_nil_iff.1 hkeys.symm

/-- A release by a stopping manager keeps the stop flag, and keeps or
establishes "an empty table means `done`". -/
theorem remove_reference_drained (env : Env) (manager : globus_gram_job_manager_t)
    (key : String) (o : Outcome Unit)
    (hrun : globus_gram_job_manager_remove_reference env manager key = some o)
    (hstop : manager.stop = true)
    (hinv : manager.request_hash = [] → manager.done = true) :
    o.manager.stop = true ∧ (o.manager.request_hash = [] → o.manager.done = true) := by
  cases href : request_hash_lookup manager.request_hash key with
  | none =>
    simp only [globus_gram_job_manager_remove_reference, href, Option.some.injEq] at hrun
    subst hrun
    exact ⟨hstop, hinv⟩
  | some ref =>
    by_cases hcount : ref.reference_count - 1 = 0
    · cases hjob : ref.request with
      | none =>
        simp only [globus_gram_job_manager_remove_reference, href, hcount, hjob, if_true] at hrun
        cases hrun
      | some job =>
        by_cases hterm : job.jobmanager_state = GLOBUS_GRAM_JOB_MANAGER_STATE_DONE ∨
            job.jobmanager_state = GLOBUS_GRAM_JOB_MANAGER_STATE_FAILED_DONE
        · rw [remove_reference_terminal_outcome env manager key ref job href hjob hcount
            hterm] at hrun
          simp only [Option.some.injEq] at hrun
          subst hrun
          generalize request_hash_remove
            (request_hash_store manager.request_hash
              { ref with reference_count := ref.reference_count - 1 }) key = table
          cases table with
          | nil => simp [hstop]
          | cons e es => simp [hstop]
        · by_cases hpoll : job.jobmanager_state = GLOBUS_GRAM_JOB_MANAGER_STATE_POLL2 ∧
              manager.seg_started = true
          · rw [remove_reference_poll2 env manager key ref job href hjob hcount
              hpoll.1 hpoll.2] at hrun
            simp only [Option.some.injEq] at hrun
            subst hrun
            exact ⟨hstop, fun h =>
              hinv (request_hash_store_eq_nil (request_hash_store_eq_nil h))⟩
          · rw [remove_reference_idle env manager key ref job href hjob hcount hterm
              hpoll] at hrun
            simp only [Option.some.injEq] at hrun
            subst hrun
            exact ⟨hstop, fun h => hinv (request_hash_store_eq_nil h)⟩
    · rw [remove_reference_nonzero env manager key ref href hcount] at hrun
      simp only [Option.some.injEq] at hrun
      subst hrun
      exact ⟨hstop, fun h => hinv (request_hash_store_eq_nil h)⟩

/-- The second loop of `stop_all_jobs`, run by a stopping manager, keeps or
establishes "an empty table means `done`". -/
theorem stop_all_jobs_stop_requests_drained (env : Env)
    (job_refs : List globus_gram_job_manager_ref_t) :
    ∀ (manager manager2 : globus_gram_job_manager_t) (calls : List Call),
      stop_all_jobs_stop_requests env manager job_refs = some (manager2, calls) →
      manager.stop = true →
      (manager.request_hash = [] → manager.done = true) →
      manager2.stop = true ∧ (manager2.request_hash = [] → manager2.done = true) := by
  induction job_refs with
  | nil =>
    intro manager manager2 calls hrun hstop hinv
    simp only [stop_all_jobs_stop_requests, Option.some.injEq, Prod.mk.injEq] at hrun
    obtain ⟨hm, -⟩ := hrun
    subst hm
    exact ⟨hstop, hinv⟩
  | cons r rest ih =>
    intro manager manager2 calls hrun hstop hinv
    simp only [stop_all_jobs_stop_requests] at hrun
    cases hcur : request_hash_lookup manager.request_hash r.key with
    | none => rw [hcur] at hrun; cases hrun
    | some cur =>
      rw [hcur] at hrun
      simp only at hrun
      cases hjob : cur.request with
      | none => rw [hjob] at hrun; cases hrun
      | some job =>
        rw [hjob] at hrun
        simp only at hrun
        cases hrel : globus_gram_job_manager_remove_reference env
            { manager with
              request_hash := request_hash_store manager.request_hash
                { cur with request := some (stop_all_jobs_request env job).1 } } r.key with
        | none => rw [hrel] at hrun; cases hrun
        | some o =>
          rw [hrel] at hrun
          simp only at hrun
          cases hrest : stop_all_jobs_stop_requests env o.manager rest with
          | none => rw [hrest] at hrun; cases hrun
          | some res =>
            obtain ⟨m3, calls3⟩ := res
            rw [hrest] at hrun
            simp only [Option.some.injEq, Prod.mk.injEq] at hrun
            obtain ⟨hm, -⟩ := hrun
            subst hm
            obtain ⟨h1, h2⟩ := remove_reference_drained env _ r.key o hrel hstop
              (fun h => hinv (request_hash_store_eq_nil h))
            exact ih o.manager m3 calls3 hrest h1 h2

/-- What `globus_gram_job_manager_stop_all_jobs` leaves, when the request table
is well formed and every swapped-out entry can be reloaded: it returns, the
stop flag is set, every entry of the table had a job, resident or reloaded by
the first loop, and if the entry is still in the table it holds the result of
the `switch` on that job; and a table that the call has emptied means `done`. -/
theorem stop_all_jobs_outcome (env : Env) (manager : globus_gram_job_manager_t)
    (hwf : request_hash_wf manager.request_hash)
    (hreload : ∀ ref ∈ manager.request_hash, ref.request = none →
      ∃ loaded, globus_l_gram_restart_job env manager (key_plus_1 ref.key) = some loaded) :
    ∃ manager2 calls,
      globus_gram_job_manager_stop_all_jobs env manager = some (manager2, calls) ∧
      manager2.stop = true ∧
      (∀ ref ∈ manager.request_hash,
        ∃ job0, stop_all_jobs_resident_job env manager ref = some job0 ∧
          (∀ job, ref.request = some job → job0 = job) ∧
          ∀ ref2, request_hash_lookup manager2.request_hash ref.key = some ref2 →
            ref2.request = some (stop_all_jobs_request env job0).1) ∧
      (manager.request_hash ≠ [] → manager2.request_hash = [] → manager2.done = true) := by
  have hresident : ∀ r ∈ manager.request_hash,
      ∃ job0, stop_all_jobs_resident_job env manager r = some job0 ∧
        ∀ job, r.request = some job → job0 = job := by
    intro r hr
    cases hjob : r.request with
    | some job =>
      refine ⟨job, by simp only [stop_all_jobs_resident_job, hjob], ?_⟩
      intro job2 h
      exact (Option.some.inj h)
    | none =>
      obtain ⟨loaded, hl⟩ := hreload r hr hjob
      exact ⟨{ loaded with jobmanager_state := loaded.restart_state },
        by simp only [stop_all_jobs_resident_job, hjob, hl, Option.map_some'],
        fun job h => by cases h⟩
  have hall : ∀ r ∈ manager.request_hash, ∃ e job0,
      request_hash_lookup ({ manager with stop := true }).request_hash r.key = some e ∧
        stop_all_jobs_resident_job env { manager with stop := true } e = some job0 := by
    intro r hr
    obtain ⟨job0, hj0, -⟩ := hresident r hr
    refine ⟨r, job0, request_hash_lookup_of_mem hwf hr, ?_⟩
    rw [stop_all_jobs_resident_job_url_base env { manager with stop := true } manager r rfl]
    exact hj0
  obtain ⟨m2, calls1, hloop1, -, hkeys2, hres2⟩ :=
    stop_all_jobs_add_references_jobs env manager.request_hash { manager with stop := true }
      hall
  have hstop2 : m2.stop = true :=
    (stop_all_jobs_add_references_frame env manager.request_hash _ m2 calls1 hloop1).1
  have hwf2 : request_hash_wf m2.request_hash := by
    unfold request_hash_wf
    rw [hkeys2]
    exact hwf
  have hpresent : ∀ r ∈ manager.request_hash, ∃ e job,
      request_hash_lookup m2.request_hash r.key = some e ∧ e.request = some job := by
    intro r hr
    obtain ⟨e2, he2, hin, -⟩ := hres2 r.key r (request_hash_lookup_of_mem hwf hr)
    obtain ⟨job0, -, hreq⟩ := hin (List.mem_map.2 ⟨r, hr, rfl⟩)
    exact ⟨e2, job0, he2, hreq⟩
  obtain ⟨m3, calls2, hloop2, -, hfinal⟩ :=
    stop_all_jobs_stop_requests_jobs env manager.request_hash m2 hwf2 hwf hpresent
  refine ⟨m3, [Call.GlobusGramJobManagerLock] ++ calls1 ++ [Call.GlobusGramJobManagerUnlock] ++
    calls2, ?_, ?_, ?_, ?_⟩
  · simp only [globus_gram_job_manager_stop_all_jobs, hloop1, hloop2]
  · exact (stop_all_jobs_stop_requests_frame env manager.request_hash m2 m3 calls2
      hloop2).1.trans hstop2
  · intro ref hr
    obtain ⟨job0, hj0, hsame⟩ := hresident ref hr
    refine ⟨job0, hj0, hsame, ?_⟩
    intro ref2 href2
    obtain ⟨e, he, hin, -⟩ := hfinal ref.key ref2 href2
    obtain ⟨job, hjob, hreq2⟩ := hin (List.mem_map.2 ⟨ref, hr, rfl⟩)
    obtain ⟨e2, he2, hin2, -⟩ := hres2 ref.key ref (request_hash_lookup_of_mem hwf hr)
    obtain ⟨job1, hj1, hreq1⟩ := hin2 (List.mem_map.2 ⟨ref, hr, rfl⟩)
    rw [stop_all_jobs_resident_job_url_base env { manager with stop := true } manager ref rfl,
      hj0] at hj1
    rw [he2] at he
    have hee : e2 = e := Option.some.inj he
    rw [hee, hjob] at hreq1
    rw [hreq2, Option.some.inj hreq1, ← Option.some.inj hj1]
  · intro hne hempty
    have hne2 : m2.request_hash ≠ [] := by
      intro h
      rw [h] at hkeys2
      exact hne (List.map_eq_nil_iff.1 hkeys2.symm)
    exact (stop_all_jobs_stop_requests_drained env manager.request_hash m2 m3 calls2 hloop2
      hstop2 (fun h => absurd h hne2)).2 hempty

/-- C21 (the claim fails as stated): `globus_gram_job_manager_stop_all_jobs`
on a manager whose request table is already empty and whose `done` is clear
returns with the stop flag set, the table empty and `done` still clear. -/
theorem stop_all_jobs_empty_not_done :
    (sample_manager []).request_hash = [] ∧
      (globus_gram_job_manager_stop_all_jobs sample_env (sample_manager [])).map
        (fun r => (r.1.stop, r.1.request_hash, r.1.done)) = some (true, [], false) := by
  decide

/-- C21 (as amended): when the request table is well formed and every
swapped-out entry can be reloaded, `globus_gram_job_manager_stop_all_jobs`
returns with the stop flag set; if the table was not empty at the call and is
empty at the return, `done` is true; if the table was already empty at the
call, the call only sets the stop flag, so `done` keeps the value it had. -/
theorem stop_all_jobs_drained (env : Env) (manager : globus_gram_job_manager_t)
    (hwf : request_hash_wf manager.request_hash)
    (hreload : ∀ ref ∈ manager.request_hash, ref.request = none →
      ∃ loaded, globus_l_gram_restart_job env manager (key_plus_1 ref.key) = some loaded) :
    ∃ manager2 calls,
      globus_gram_job_manager_stop_all_jobs env manager = some (manager2, calls) ∧
      manager2.stop = true ∧
      (manager.request_hash ≠ [] → manager2.request_hash = [] → manager2.done = true) ∧
      (manager.request_hash = [] → manager2 = { manager with stop := true }) := by
  obtain ⟨manager2, calls, hrun, hstop, -, hdone⟩ := stop_all_jobs_outcome env manager hwf hreload
  refine ⟨manager2, calls, hrun, hstop, hdone, ?_⟩
  intro hempty
  simp only [globus_gram_job_manager_stop_all_jobs, hempty, stop_all_jobs_add_references,
    stop_all_jobs_stop_requests, Option.some.injEq, Prod.mk.injEq] at hrun
  rw [← hrun.1, hempty]

/-- C21 at a sample state: the only job is DONE and unreferenced; the call
takes it out of the table and sets `done`. -/
theorem stop_all_jobs_drained_witness :
    (sample_manager
        [sample_ref "/1/2/" (some (sample_request GLOBUS_GRAM_JOB_MANAGER_STATE_DONE)) 0 0]
      ).request_hash ≠ [] ∧
      (globus_gram_job_manager_stop_all_jobs sample_env
        (sample_manager
          [sample_ref "/1/2/" (some (sample_request GLOBUS_GRAM_JOB_MANAGER_STATE_DONE))
            0 0])).map
        (fun r => r.1.request_hash) = some [] ∧
      ∃ manager2 calls,
        globus_gram_job_manager_stop_all_jobs sample_env
          (sample_manager
            [sample_ref "/1/2/" (some (sample_request GLOBUS_GRAM_JOB_MANAGER_STATE_DONE))
              0 0]) = some (manager2, calls) ∧
        manager2.stop = true ∧
        manager2.done = true := by
  obtain ⟨manager2, calls, hrun, hstop, hdone, -⟩ :=
    stop_all_jobs_drained sample_env
      (sample_manager
        [sample_ref "/1/2/" (some (sample_request GLOBUS_GRAM_JOB_MANAGER_STATE_DONE)) 0 0])
      (by decide) (fun _ _ _ => ⟨_, rfl⟩)
  have htable : (globus_gram_job_manager_stop_all_jobs sample_env
      (sample_manager
        [sample_ref "/1/2/" (some (sample_request GLOBUS_GRAM_JOB_MANAGER_STATE_DONE))
          0 0])).map (fun r => r.1.request_hash) = some [] := by
    decide
  refine ⟨by decide, htable, manager2, calls, hrun, hstop, hdone (by decide) ?_⟩
  rw [hrun] at htable
  exact Option.some.inj htable

/-! ## Restoring jobs at startup -/

/-- C32 (the code at the failing input): the state directory holds the files of
the jobs `1/2/` and `3/4/`, restored in this order with `seg_last_timestamp` 0
and 5, and the manager's `seg_last_timestamp` starts at 0. Both jobs are
restored, and the manager ends with 5, not with the minimum 0: the test
`manager->seg_last_timestamp == 0` takes the 0 it has just stored for "not set
yet". -/
theorem request_load_all_timestamp_zero :
    (sample_manager []).seg_last_timestamp = 0 ∧
      (globus_gram_job_manager_request_load_all sample_env_timestamps sample_allocator
          (sample_manager []) [some (1, 2), some (3, 4)]).map
        (fun o => (o.out.map (fun requests => requests.map (fun r => r.seg_last_timestamp)),
          o.manager.seg_last_timestamp)) = some (some [5, 0], 5) := by
  decide

/-- Where the claim holds: when the loader never yields a job with the
timestamp 0, the loop keeps the manager's `seg_last_timestamp` at 0 as long as
nothing is restored and at the least restored timestamp afterwards. -/
theorem request_load_all_loop_min (env : Env) (alloc : Allocator)
    (hnonzero : ∀ rsl r, env.globus_gram_job_manager_request_init rsl = some r →
      r.seg_last_timestamp ≠ 0)
    (entries : List (Option (Nat × Nat))) :
    ∀ (manager manager2 : globus_gram_job_manager_t)
      (requests requests2 : List globus_gram_jobmanager_request_t),
      request_load_all_loop env alloc manager entries requests = some (manager2, requests2) →
      ((requests = [] ∧ manager.seg_last_timestamp = 0) ∨
        (requests ≠ [] ∧ manager.seg_last_timestamp ≠ 0 ∧
          (∀ r ∈ requests, manager.seg_last_timestamp ≤ r.seg_last_timestamp) ∧
          ∃ r ∈ requests, manager.seg_last_timestamp = r.seg_last_timestamp)) →
      ((requests2 = [] ∧ manager2.seg_last_timestamp = 0) ∨
        (requests2 ≠ [] ∧ manager2.seg_last_timestamp ≠ 0 ∧
          (∀ r ∈ requests2, manager2.seg_last_timestamp ≤ r.seg_last_timestamp) ∧
          ∃ r ∈ requests2, manager2.seg_last_timestamp = r.seg_last_timestamp)) := by
  induction entries with
  | nil =>
    intro manager manager2 requests requests2 hrun hinv
    simp only [request_load_all_loop, Option.some.injEq, Prod.mk.injEq] at hrun
    rw [← hrun.1, ← hrun.2]
    exact hinv
  | cons entry rest ih =>
    intro manager manager2 requests requests2 hrun hinv
    cases entry with
    | none =>
      simp only [request_load_all_loop] at hrun
      exact ih manager manager2 requests requests2 hrun hinv
    | some uniq =>
      obtain ⟨uniq1, uniq2⟩ := uniq
      simp only [request_load_all_loop] at hrun
      cases hload : globus_l_gram_restart_job env manager (request_load_all_key uniq1 uniq2) with
      | none =>
        rw [hload] at hrun
        exact ih manager manager2 requests requests2 hrun hinv
      | some request =>
        have hreq : request.seg_last_timestamp ≠ 0 := hnonzero _ request hload
        rw [hload] at hrun
        simp only at hrun
        split at hrun
        · refine ih _ manager2 (request :: requests) requests2 hrun (Or.inr ?_)
          refine ⟨by simp, ?_⟩
          rcases hinv with ⟨hnil, hzero⟩ | ⟨-, hpos, hle, r0, hr0, heq⟩
          · subst hnil
            simp [hzero, hreq]
          · by_cases hlt : manager.seg_last_timestamp = 0 ∨
                manager.seg_last_timestamp > request.seg_last_timestamp
            · rw [if_pos hlt]
              have hgt : manager.seg_last_timestamp > request.seg_last_timestamp := by
                rcases hlt with h | h
                · exact absurd h hpos
                · exact h
              refine ⟨hreq, ?_, request, by simp, rfl⟩
              intro r hr
              rcases List.mem_cons.1 hr with rfl | hmem
              · exact le_refl _
              · exact le_trans (le_of_lt hgt) (hle r hmem)
            · rw [if_neg hlt]
              simp only [not_or, not_lt] at hlt
              refine ⟨hpos, ?_, r0, List.mem_cons_of_mem _ hr0, heq⟩
              intro r hr
              rcases List.mem_cons.1 hr with rfl | hmem
              · exact hlt.2
              · exact hle r hmem
        · cases hrun

/-! ## What leaves the LRM job-id table -/

/-- The registration loop only puts entries in front of the job-id table, and
an id that was registered keeps its entry. -/
theorem register_job_id_loop_extends (request : globus_gram_jobmanager_request_t)
    (subjobs : List String) :
    ∀ table : List globus_gram_job_id_ref_t,
      (∃ added, (register_job_id_loop request table subjobs).2 = added ++ table) ∧
      ∀ id ref, job_id_hash_lookup table id = some ref →
        job_id_hash_lookup (register_job_id_loop request table subjobs).2 id = some ref := by
  induction subjobs with
  | nil =>
    intro table
    exact ⟨⟨[], rfl⟩, fun _ _ h => h⟩
  | cons s rest ih =>
    intro table
    cases hold : job_id_hash_lookup table s with
    | some old_ref =>
      simp only [register_job_id_loop, hold]
      split
      · exact ⟨⟨[], rfl⟩, fun _ _ h => h⟩
      · exact ⟨⟨[], rfl⟩, fun _ _ h => h⟩
    | none =>
      simp only [register_job_id_loop, hold, job_id_hash_insert]
      obtain ⟨⟨added, hadded⟩, hkeep⟩ :=
        ih ({ job_id := s, job_contact_path := request.job_contact_path } :: table)
      refine ⟨⟨added ++ [{ job_id := s, job_contact_path := request.job_contact_path }], ?_⟩,
        ?_⟩
      · rw [hadded]
        simp
      · intro id ref href
        apply hkeep
        have hne : s ≠ id := by
          intro h
          rw [h, href] at hold
          cases hold
        rw [job_id_hash_lookup_cons_ne _ _ hne]
        exact href

/-- C33: `globus_gram_job_manager_add_request`, `add_reference`,
`add_reference_by_jobid`, `remove_reference` (also when it takes a terminal job
out of the request table), `set_status`, `get_status`, `get_job_id_list`,
`stop_all_jobs`, the swap-out callback and the grace-period callback leave the
LRM job-id table exactly as it was, and `register_job_id` only puts entries in
front of it: every id that was registered still looks up its entry. -/
theorem job_id_hash_kept (manager : globus_gram_job_manager_t) :
    (∀ key request,
        (globus_gram_job_manager_add_request manager key request).manager.job_id_hash =
          manager.job_id_hash) ∧
      (∀ env key request o,
        globus_gram_job_manager_add_reference env manager key request = some o →
        o.manager.job_id_hash = manager.job_id_hash) ∧
      (∀ env jobid request o,
        globus_gram_job_manager_add_reference_by_jobid env manager jobid request = some o →
        o.manager.job_id_hash = manager.job_id_hash) ∧
      (∀ env key o,
        globus_gram_job_manager_remove_reference env manager key = some o →
        o.manager.job_id_hash = manager.job_id_hash) ∧
      (∀ key state failure_code,
        (globus_gram_job_manager_set_status manager key state
          failure_code).manager.job_id_hash = manager.job_id_hash) ∧
      (∀ key,
        (globus_gram_job_manager_get_status manager key).manager.job_id_hash =
          manager.job_id_hash) ∧
      (∀ alloc,
        (globus_gram_job_manager_get_job_id_list alloc manager).manager.job_id_hash =
          manager.job_id_hash) ∧
      (∀ env manager2 calls,
        globus_gram_job_manager_stop_all_jobs env manager = some (manager2, calls) →
        manager2.job_id_hash = manager.job_id_hash) ∧
      (∀ env key manager2 calls,
        globus_l_gram_ref_swap_out env manager key = some (manager2, calls) →
        manager2.job_id_hash = manager.job_id_hash) ∧
      ((globus_l_gram_job_manager_grace_period_expired manager).1.job_id_hash =
        manager.job_id_hash) ∧
      (∀ job_id request,
        (∃ added,
          (globus_gram_job_manager_register_job_id manager job_id request).manager.job_id_hash =
            added ++ manager.job_id_hash) ∧
        ∀ id ref, job_id_hash_lookup manager.job_id_hash id = some ref →
          job_id_hash_lookup
            (globus_gram_job_manager_register_job_id manager job_id
              request).manager.job_id_hash id = some ref) := by
  refine ⟨?_, ?_, ?_, ?_, ?_, ?_, ?_, ?_, ?_, ?_, ?_⟩
  · intro key request
    exact (add_request_frame manager key request).2.1
  · intro env key request o hrun
    exact (add_reference_frame env manager key request o hrun).2.1
  · intro env jobid request o hrun
    exact (add_reference_by_jobid_frame env manager jobid request o hrun).2.1
  · intro env key o hrun
    exact (remove_reference_frame env manager key o hrun).2.1
  · intro key state failure_code
    exact (set_status_frame manager key state failure_code).2.1
  · intro key
    rw [get_status_manager]
  · intro alloc
    rfl
  · intro env manager2 calls hrun
    exact (stop_all_jobs_frame env manager manager2 calls hrun).2.1
  · intro env key manager2 calls hrun
    exact (ref_swap_out_frame env manager key manager2 calls hrun).2.1
  · exact (grace_period_expired_frame manager).2.1
  · intro job_id request
    exact register_job_id_loop_extends request _ manager.job_id_hash

/-- C33 at a sample state: the job `/1/2/`, which owns the LRM id `A`, is DONE
and its last reference is released; the job leaves the request table, its
LRM id stays in the job-id table. -/
theorem job_id_hash_kept_witness :
    ∃ o, globus_gram_job_manager_remove_reference sample_env
        { sample_manager
            [sample_ref "/1/2/" (some (sample_request GLOBUS_GRAM_JOB_MANAGER_STATE_DONE)) 1 0]
          with job_id_hash := [{ job_id := "A", job_contact_path := "/1/2/" }] }
        "/1/2/" = some o ∧
      o.manager.request_hash = [] ∧
      o.manager.job_id_hash = [{ job_id := "A", job_contact_path := "/1/2/" }] := by
  have hrun : ∃ o, globus_gram_job_manager_remove_reference sample_env
      { sample_manager
          [sample_ref "/1/2/" (some (sample_request GLOBUS_GRAM_JOB_MANAGER_STATE_DONE)) 1 0]
        with job_id_hash := [{ job_id := "A", job_contact_path := "/1/2/" }] }
      "/1/2/" = some o ∧ o.manager.request_hash = [] := by
    decide
  obtain ⟨o, ho, htable⟩ := hrun
  exact ⟨o, ho, htable,
    (job_id_hash_kept
      { sample_manager
          [sample_ref "/1/2/" (some (sample_request GLOBUS_GRAM_JOB_MANAGER_STATE_DONE)) 1 0]
        with job_id_hash := [{ job_id := "A", job_contact_path := "/1/2/" }] }).2.2.2.1
      sample_env "/1/2/" o ho⟩

/-! ## The ids a registration walks -/

/-- The tokens of `strtok_r` are the non-empty pieces that `List.splitOnP`
cuts at the separator. -/
theorem strtok_r_tokens_eq_splitOnP (sep : Char) :
    ∀ (cs acc : List Char),
      strtok_r_tokens sep cs acc =
        ((List.splitOnP.go (fun c => c == sep) cs acc).filter
          (fun segment => !segment.isEmpty)).map String.mk := by
  intro cs
  induction cs with
  | nil =>
    intro acc
    by_cases h : acc = []
    · simp [strtok_r_tokens, List.splitOnP.go, h]
    · have hrev : acc.reverse.isEmpty = false := by
        cases hr : acc.reverse with
        | nil => exact absurd (List.reverse_eq_nil_iff.1 hr) h
        | cons x xs => rfl
      simp [strtok_r_tokens, List.splitOnP.go, h, hrev]
  | cons c cs ih =>
    intro acc
    by_cases hc : c = sep
    · by_cases h : acc = []
      · simp [strtok_r_tokens, List.splitOnP.go, hc, h, ih]
      · have hrev : acc.reverse.isEmpty = false := by
          cases hr : acc.reverse with
          | nil => exact absurd (List.reverse_eq_nil_iff.1 hr) h
          | cons x xs => rfl
        simp [strtok_r_tokens, List.splitOnP.go, hc, h, hrev, ih]
    · have hc2 : (c == sep) = false := by simpa using hc
      simp only [strtok_r_tokens, if_neg hc, List.splitOnP.go, hc2, ih]
      simp

/-- The list `globus_gram_split_subjobs` builds: the non-empty comma segments
of the raw id, last first. -/
theorem split_subjobs_eq_segments (job_id : String) :
    globus_gram_split_subjobs job_id = (nonempty_comma_segments job_id).reverse := by
  have hfold : ∀ (ts init : List String),
      ts.foldl globus_list_insert init = ts.reverse ++ init := by
    intro ts
    induction ts with
    | nil => intro init; rfl
    | cons t ts ih => intro init; simp [List.foldl, ih, globus_list_insert]
  unfold globus_gram_split_subjobs nonempty_comma_segments
  rw [hfold, strtok_r_tokens_eq_splitOnP]
  simp [List.splitOn, List.splitOnP]

/-- C34: the ids `globus_gram_job_manager_register_job_id` walks. With
`config->seg_module` set they are the non-empty segments of the raw id between
commas (`nonempty_comma_segments`; the list holds them last first), so empty
segments are dropped, and a raw id without a non-empty segment registers
nothing and the call returns `GLOBUS_SUCCESS`. With `seg_module` NULL the only
id is the raw id as it is, commas included. -/
theorem register_job_id_subjobs (manager : globus_gram_job_manager_t) (job_id : String)
    (request : globus_gram_jobmanager_request_t) :
    (manager.config.seg_module ≠ none →
        globus_gram_job_manager_register_job_id manager job_id request =
          { rc := (register_job_id_loop request manager.job_id_hash
              (nonempty_comma_segments job_id).reverse).1
            out := none
            manager := { manager with
              job_id_hash := (register_job_id_loop request manager.job_id_hash
                (nonempty_comma_segments job_id).reverse).2 }
            calls := [Call.GlobusGramJobManagerLock, Call.GlobusGramJobManagerUnlock] }) ∧
      (∀ s, s ∈ globus_gram_split_subjobs job_id ↔ s ∈ nonempty_comma_segments job_id) ∧
      (∀ s ∈ nonempty_comma_segments job_id, s.data ≠ [] ∧ ',' ∉ s.data) ∧
      (manager.config.seg_module ≠ none → nonempty_comma_segments job_id = [] →
        (globus_gram_job_manager_register_job_id manager job_id request).rc = GLOBUS_SUCCESS ∧
          (globus_gram_job_manager_register_job_id manager job_id request).manager =
            manager) ∧
      (manager.config.seg_module = none →
        globus_gram_job_manager_register_job_id manager job_id request =
          { rc := (register_job_id_loop request manager.job_id_hash [job_id]).1
            out := none
            manager := { manager with
              job_id_hash := (register_job_id_loop request manager.job_id_hash [job_id]).2 }
            calls := [Call.GlobusGramJobManagerLock, Call.GlobusGramJobManagerUnlock] }) := by
  have hmem : ∀ s, s ∈ globus_gram_split_subjobs job_id ↔
      s ∈ nonempty_comma_segments job_id := by
    intro s
    rw [split_subjobs_eq_segments]
    exact List.mem_reverse
  refine ⟨?_, hmem, ?_, ?_, ?_⟩
  · intro hseg
    have hseg2 : ¬ manager.config.seg_module = none := hseg
    simp only [globus_gram_job_manager_register_job_id, ne_eq, hseg2, not_false_eq_true,
      if_true, split_subjobs_eq_segments]
  · intro s hs
    exact strtok_r_tokens_single ',' job_id.data [] (by simp) s
      (split_subjobs_mem job_id s ((hmem s).2 hs))
  · intro hseg hnone
    have hseg2 : ¬ manager.config.seg_module = none := hseg
    simp only [globus_gram_job_manager_register_job_id, ne_eq, hseg2, not_false_eq_true,
      if_true, split_subjobs_eq_segments, hnone, List.reverse_nil, register_job_id_loop,
      and_self]
  · intro hseg
    simp only [globus_gram_job_manager_register_job_id, ne_eq, hseg, not_true_eq_false,
      if_false, globus_list_insert]

/-- C34 at sample inputs: the segments of `,A,,B,` are `A` and `B`, a raw id
of commas only has none, and registering `,A,,B,` with the SEG configured
leaves exactly `A` and `B` registered. -/
theorem register_job_id_subjobs_witness :
    nonempty_comma_segments ",A,,B," = ["A", "B"] ∧
      nonempty_comma_segments ",," = [] ∧
      (globus_gram_job_manager_register_job_id (sample_manager []) ",A,,B,"
        (sample_request GLOBUS_GRAM_JOB_MANAGER_STATE_SUBMIT)).manager.job_id_hash =
        [{ job_id := "A", job_contact_path := "/1/2/" },
         { job_id := "B", job_contact_path := "/1/2/" }] ∧
      (globus_gram_job_manager_register_job_id (sample_manager []) ",,"
        (sample_request GLOBUS_GRAM_JOB_MANAGER_STATE_SUBMIT)).rc = GLOBUS_SUCCESS ∧
      (globus_gram_job_manager_register_job_id (sample_manager []) ",,"
        (sample_request GLOBUS_GRAM_JOB_MANAGER_STATE_SUBMIT)).manager = sample_manager [] := by
  have h := (register_job_id_subjobs (sample_manager []) ",,"
    (sample_request GLOBUS_GRAM_JOB_MANAGER_STATE_SUBMIT)).2.2.2.1 (by decide) (by decide)
  exact ⟨by decide, by decide, by decide, h.1, h.2⟩

/-! ## The code for a conflict, the first reference count -/

/-- The registration loop returns `GLOBUS_SUCCESS` or `MALLOC_FAILED`. -/
theorem register_job_id_loop_codes (request : globus_gram_jobmanager_request_t)
    (subjobs : List String) :
    ∀ table : List globus_gram_job_id_ref_t,
      (register_job_id_loop request table subjobs).1 = GLOBUS_SUCCESS ∨
        (register_job_id_loop request table subjobs).1 =
          GLOBUS_GRAM_PROTOCOL_ERROR_MALLOC_FAILED := by
  induction subjobs with
  | nil =>
    intro table
    exact Or.inl rfl
  | cons s rest ih =>
    intro table
    cases hold : job_id_hash_lookup table s with
    | some old_ref =>
      simp only [register_job_id_loop, hold]
      split
      · exact Or.inr rfl
      · exact Or.inl rfl
    | none =>
      simp only [register_job_id_loop, hold, job_id_hash_insert]
      exact ih _

/-- C36 (the code at the failing input): a job is added to an empty manager;
the entry's reference count is 0, not 1, and the one
`globus_gram_job_manager_remove_reference` made for the `add_request` leaves
the count at -1, the entry still in the table. -/
theorem add_request_reference_count_zero :
    (globus_gram_job_manager_add_request (sample_manager []) "/1/2/"
        (sample_request GLOBUS_GRAM_JOB_MANAGER_STATE_START)).rc = GLOBUS_SUCCESS ∧
      (request_hash_lookup
          (globus_gram_job_manager_add_request (sample_manager []) "/1/2/"
            (sample_request GLOBUS_GRAM_JOB_MANAGER_STATE_START)).manager.request_hash
          "/1/2/").map (fun e => e.reference_count) = some 0 ∧
      ((globus_gram_job_manager_remove_reference sample_env
          (globus_gram_job_manager_add_request (sample_manager []) "/1/2/"
            (sample_request GLOBUS_GRAM_JOB_MANAGER_STATE_START)).manager "/1/2/").bind
        (fun o => (request_hash_lookup o.manager.request_hash "/1/2/").map
          (fun e => e.reference_count))) = some (-1) := by
  decide

/-! ## The manager mutex -/

/-- The depth of the mutex along two traces in a row. -/
theorem lock_depth_append (a b : List Call) :
    ∀ depth, lock_depth (a ++ b) depth = (lock_depth a depth).bind (lock_depth b) := by
  induction a with
  | nil =>
    intro depth
    rfl
  | cons c rest ih =>
    intro depth
    simp only [List.cons_append, lock_depth]
    split_ifs <;> simp [ih]

/-- A trace without a call on the manager mutex leaves its depth alone. -/
theorem lock_depth_of_lock_trace_nil (calls : List Call) (h : lock_trace calls = []) :
    ∀ depth, lock_depth calls depth = some depth := by
  induction calls with
  | nil =>
    intro depth
    rfl
  | cons c rest ih =>
    intro depth
    unfold lock_trace at h
    by_cases h1 : c = Call.GlobusGramJobManagerLock
    · simp [h1] at h
    · by_cases h2 : c = Call.GlobusGramJobManagerUnlock
      · simp [h2] at h
      · simp only [List.filter_cons, h1, h2, decide_False, Bool.or_self, Bool.false_eq_true,
          if_false] at h
        simp only [lock_depth, if_neg h1, if_neg h2]
        exact ih h depth

/-- The depth of the mutex only depends on the calls on the mutex. -/
theorem lock_depth_lock_trace (calls : List Call) :
    ∀ depth, lock_depth calls depth = lock_depth (lock_trace calls) depth := by
  induction calls with
  | nil =>
    intro depth
    rfl
  | cons c rest ih =>
    intro depth
    by_cases h1 : c = Call.GlobusGramJobManagerLock
    · subst h1
      have hf : lock_trace (Call.GlobusGramJobManagerLock :: rest) =
          Call.GlobusGramJobManagerLock :: lock_trace rest := by
        simp [lock_trace]
      rw [hf]
      simp only [lock_depth, if_true]
      by_cases hd : depth = 0
      · simp only [hd, if_true]
        exact ih 1
      · simp only [hd, if_false]
    · by_cases h2 : c = Call.GlobusGramJobManagerUnlock
      · subst h2
        have hf : lock_trace (Call.GlobusGramJobManagerUnlock :: rest) =
            Call.GlobusGramJobManagerUnlock :: lock_trace rest := by
          simp [lock_trace]
        rw [hf]
        simp only [lock_depth, if_neg h1, if_true]
        by_cases hd : depth = 1
        · simp only [hd, if_true]
          exact ih 0
        · simp only [hd, if_false]
      · have hf : lock_trace (c :: rest) = lock_trace rest := by
          simp [lock_trace, h1, h2]
        rw [hf]
        simp only [lock_depth, if_neg h1, if_neg h2]
        exact ih depth

/-- An operation that takes and releases the mutex once leaves it free. -/
theorem lock_depth_of_locked_once (calls : List Call) (h : locked_once calls) :
    lock_depth calls 0 = some 0 := by
  rw [lock_depth_lock_trace, h.2.2]
  rfl

/-- `globus_l_gram_add_reference_locked` makes no call on the manager mutex. -/
theorem add_reference_locked_lock_trace (env : Env) (manager : globus_gram_job_manager_t)
    (key : String) (request : Bool)
    (o : Outcome (Option globus_gram_jobmanager_request_t))
    (hrun : globus_l_gram_add_reference_locked env manager key request = some o) :
    lock_trace o.calls = [] := by
  cases href : request_hash_lookup manager.request_hash key with
  | none =>
    simp only [globus_l_gram_add_reference_locked, href, Option.some.injEq] at hrun
    subst hrun
    rfl
  | some ref =>
    cases hjob : ref.request with
    | some job =>
      simp only [globus_l_gram_add_reference_locked, href, hjob, Option.some.injEq] at hrun
      subst hrun
      simp only [lock_trace]
      split_ifs <;> rfl
    | none =>
      cases hload : globus_l_gram_restart_job env manager (key_plus_1 key) with
      | some loaded =>
        simp only [globus_l_gram_add_reference_locked, href, hjob, hload,
          Option.some.injEq] at hrun
        subst hrun
        simp only [lock_trace]
        split_ifs <;> rfl
      | none =>
        simp only [globus_l_gram_add_reference_locked, href, hjob, hload,
          Option.some.injEq] at hrun
        subst hrun
        simp only [lock_trace]
        split_ifs <;> rfl

/-- The calls on the manager mutex among the calls of two traces in a row. -/
theorem lock_trace_append (a b : List Call) :
    lock_trace (a ++ b) = lock_trace a ++ lock_trace b := by
  simp [lock_trace]

/-- A trace that is `Lock`, then calls off the mutex, then `Unlock`. -/
theorem locked_once_bracket (middle : List Call) (h : lock_trace middle = []) :
    locked_once ([Call.GlobusGramJobManagerLock] ++ middle ++
      [Call.GlobusGramJobManagerUnlock]) := by
  refine ⟨by simp, List.getLast?_concat _, ?_⟩
  rw [lock_trace_append, lock_trace_append, h]
  rfl

/-- `globus_gram_job_manager_add_reference` takes and releases the mutex
once. -/
theorem add_reference_locked_once (env : Env) (manager : globus_gram_job_manager_t)
    (key : String) (request : Bool)
    (o : Outcome (Option globus_gram_jobmanager_request_t))
    (hrun : globus_gram_job_manager_add_reference env manager key request = some o) :
    locked_once o.calls := by
  simp only [globus_gram_job_manager_add_reference] at hrun
  cases hlocked : globus_l_gram_add_reference_locked env manager key request with
  | none => rw [hlocked] at hrun; cases hrun
  | some o1 =>
    rw [hlocked] at hrun
    simp only [Option.some.injEq] at hrun
    subst hrun
    exact locked_once_bracket _
      (add_reference_locked_lock_trace env manager key request o1 hlocked)

/-- `globus_gram_job_manager_remove_reference` takes and releases the mutex
once. -/
theorem remove_reference_locked_once (env : Env) (manager : globus_gram_job_manager_t)
    (key : String) (o : Outcome Unit)
    (hrun : globus_gram_job_manager_remove_reference env manager key = some o) :
    locked_once o.calls := by
  cases href : request_hash_lookup manager.request_hash key with
  | none =>
    simp only [globus_gram_job_manager_remove_reference, href, Option.some.injEq] at hrun
    subst hrun
    exact locked_once_bracket [] rfl
  | some ref =>
    by_cases hcount : ref.reference_count - 1 = 0
    · cases hjob : ref.request with
      | none =>
        simp only [globus_gram_job_manager_remove_reference, href, hcount, hjob, if_true] at hrun
        cases hrun
      | some job =>
        by_cases hterm : job.jobmanager_state = GLOBUS_GRAM_JOB_MANAGER_STATE_DONE ∨
            job.jobmanager_state = GLOBUS_GRAM_JOB_MANAGER_STATE_FAILED_DONE
        · rw [remove_reference_terminal_outcome env manager key ref job href hjob hcount
            hterm] at hrun
          simp only [Option.some.injEq] at hrun
          subst hrun
          have hbracket : ∀ middle : List Call, lock_trace middle = [] →
              locked_once ([Call.GlobusGramJobManagerLock] ++ middle ++
                [Call.globus_gram_job_manager_request_destroy job.job_contact_path,
                 Call.GlobusGramJobManagerUnlock]) := by
            intro middle hmid
            have h := locked_once_bracket
              (middle ++ [Call.globus_gram_job_manager_request_destroy job.job_contact_path])
              (by rw [lock_trace_append, hmid]; rfl)
            simpa using h
          apply hbracket
          generalize request_hash_remove
            (request_hash_store manager.request_hash
              { ref with reference_count := ref.reference_count - 1 }) key = table
          cases table with
          | nil =>
            cases hstop : manager.stop with
            | true => simp [lock_trace]
            | false =>
              cases hreg : env.globus_callback_register_oneshot
                  Callback.globus_l_gram_job_manager_grace_period_expired with
              | none =>
                simp [globus_gram_job_manager_set_grace_period_timer, hreg, lock_trace]
              | some handle =>
                simp [globus_gram_job_manager_set_grace_period_timer, hreg, lock_trace]
          | cons e es => simp [lock_trace]
        · by_cases hpoll : job.jobmanager_state = GLOBUS_GRAM_JOB_MANAGER_STATE_POLL2 ∧
              manager.seg_started = true
          · rw [remove_reference_poll2 env manager key ref job href hjob hcount
              hpoll.1 hpoll.2] at hrun
            simp only [Option.some.injEq] at hrun
            subst hrun
            exact locked_once_bracket
              [Call.globus_callback_register_oneshot
                (Callback.globus_l_gram_ref_swap_out ref.key)] rfl
          · rw [remove_reference_idle env manager key ref job href hjob hcount hterm
              hpoll] at hrun
            simp only [Option.some.injEq] at hrun
            subst hrun
            exact locked_once_bracket [] rfl
    · rw [remove_reference_nonzero env manager key ref href hcount] at hrun
      simp only [Option.some.injEq] at hrun
      subst hrun
      exact locked_once_bracket [] rfl

/-- `globus_gram_job_manager_add_request` takes and releases the mutex once. -/
theorem add_request_locked_once (manager : globus_gram_job_manager_t) (key : String)
    (request : globus_gram_jobmanager_request_t) :
    locked_once (globus_gram_job_manager_add_request manager key request).calls := by
  unfold globus_gram_job_manager_add_request
  split_ifs
  · exact locked_once_bracket [] rfl
  · exact locked_once_bracket [Call.globus_callback_unregister manager.grace_period_timer] rfl
  · simp only
    cases request_hash_insert manager.request_hash (add_request_ref key request) <;>
      exact locked_once_bracket [Call.globus_callback_unregister manager.grace_period_timer]
        rfl
  · simp only
    cases request_hash_insert manager.request_hash (add_request_ref key request) <;>
      exact locked_once_bracket [] rfl

/-- `globus_l_gram_ref_swap_out` takes and releases the mutex once. -/
theorem ref_swap_out_locked_once (env : Env) (manager : globus_gram_job_manager_t)
    (key : String) (manager2 : globus_gram_job_manager_t) (calls : List Call)
    (hrun : globus_l_gram_ref_swap_out env manager key = some (manager2, calls)) :
    locked_once calls := by
  cases href : request_hash_lookup manager.request_hash key with
  | none =>
    simp only [globus_l_gram_ref_swap_out, href] at hrun
    cases hrun
  | some ref =>
    by_cases htimer : ref.cleanup_timer = GLOBUS_NULL_HANDLE
    · rw [ref_swap_out_disarmed env manager key ref href htimer] at hrun
      simp only [Option.some.injEq, Prod.mk.injEq] at hrun
      rw [← hrun.2]
      exact locked_once_bracket [] rfl
    · by_cases hcount : ref.reference_count = 0
      · cases hjob : ref.request with
        | none =>
          simp only [globus_l_gram_ref_swap_out, href, htimer, hcount, hjob, ne_eq,
            not_false_eq_true, if_true] at hrun
          cases hrun
        | some job =>
          rw [ref_swap_out_drops env manager key ref job href hjob htimer hcount] at hrun
          simp only [Option.some.injEq, Prod.mk.injEq] at hrun
          rw [← hrun.2]
          exact locked_once_bracket
            [Call.globus_callback_unregister ref.cleanup_timer,
             Call.globus_gram_job_manager_state_file_write job.job_contact_path,
             Call.globus_gram_job_manager_request_free job.job_contact_path] rfl
      · rw [ref_swap_out_referenced env manager key ref href htimer hcount] at hrun
        simp only [Option.some.injEq, Prod.mk.injEq] at hrun
        rw [← hrun.2]
        exact locked_once_bracket [Call.globus_callback_unregister ref.cleanup_timer] rfl

/-- `globus_l_gram_job_manager_grace_period_expired` takes and releases the
mutex once. -/
theorem grace_period_expired_locked_once (manager : globus_gram_job_manager_t) :
    locked_once (globus_l_gram_job_manager_grace_period_expired manager).2 := by
  unfold globus_l_gram_job_manager_grace_period_expired
  split_ifs
  · exact locked_once_bracket
      [Call.globus_callback_unregister manager.grace_period_timer, Call.globus_cond_signal] rfl
  · exact locked_once_bracket [Call.globus_callback_unregister manager.grace_period_timer] rfl
  · exact locked_once_bracket [] rfl

/-- The loop body of `stop_all_jobs` takes the job's own mutex, not the
manager's. -/
theorem stop_all_jobs_request_lock_trace (env : Env)
    (request : globus_gram_jobmanager_request_t) :
    lock_trace (stop_all_jobs_request env request).2 = [] := by
  simp only [stop_all_jobs_request, lock_trace_append]
  have h1 : lock_trace [Call.GlobusGramJobManagerRequestLock request.job_contact_path] = [] :=
    rfl
  have h2 : lock_trace [Call.GlobusGramJobManagerRequestUnlock request.job_contact_path] =
      [] := rfl
  rw [h1, h2]
  simp only [List.nil_append, List.append_nil, List.append_eq_nil]
  constructor
  · cases request.jobmanager_state <;>
      simp [globus_gram_job_manager_state_machine_register, lock_trace]
  · split_ifs <;> simp [lock_trace]

/-- The first loop of `stop_all_jobs` makes no call on the manager mutex. -/
theorem stop_all_jobs_add_references_lock_trace (env : Env)
    (job_refs : List globus_gram_job_manager_ref_t) :
    ∀ (manager manager2 : globus_gram_job_manager_t) (calls : List Call),
      stop_all_jobs_add_references env manager job_refs = some (manager2, calls) →
      lock_trace calls = [] := by
  induction job_refs with
  | nil =>
    intro manager manager2 calls hrun
    simp only [stop_all_jobs_add_references, Option.some.injEq, Prod.mk.injEq] at hrun
    rw [← hrun.2]
    rfl
  | cons r rest ih =>
    intro manager manager2 calls hrun
    simp only [stop_all_jobs_add_references] at hrun
    cases hlocked : globus_l_gram_add_reference_locked env manager r.key false with
    | none => rw [hlocked] at hrun; cases hrun
    | some o =>
      rw [hlocked] at hrun
      simp only at hrun
      split at hrun
      · cases hrest : stop_all_jobs_add_references env o.manager rest with
        | none => rw [hrest] at hrun; cases hrun
        | some res =>
          obtain ⟨m3, calls3⟩ := res
          rw [hrest] at hrun
          simp only [Option.some.injEq, Prod.mk.injEq] at hrun
          rw [← hrun.2, lock_trace_append,
            add_reference_locked_lock_trace env manager r.key false o hlocked,
            ih o.manager m3 calls3 hrest]
          rfl
      · cases hrun

/-- The second loop of `stop_all_jobs` starts and ends with the manager mutex
free and takes it once per release, never twice in a row. -/
theorem stop_all_jobs_stop_requests_lock_depth (env : Env)
    (job_refs : List globus_gram_job_manager_ref_t) :
    ∀ (manager manager2 : globus_gram_job_manager_t) (calls : List Call),
      stop_all_jobs_stop_requests env manager job_refs = some (manager2, calls) →
      lock_depth calls 0 = some 0 := by
  induction job_refs with
  | nil =>
    intro manager manager2 calls hrun
    simp only [stop_all_jobs_stop_requests, Option.some.injEq, Prod.mk.injEq] at hrun
    rw [← hrun.2]
    rfl
  | cons r rest ih =>
    intro manager manager2 calls hrun
    simp only [stop_all_jobs_stop_requests] at hrun
    cases hcur : request_hash_lookup manager.request_hash r.key with
    | none => rw [hcur] at hrun; cases hrun
    | some cur =>
      rw [hcur] at hrun
      simp only at hrun
      cases hjob : cur.request with
      | none => rw [hjob] at hrun; cases hrun
      | some job =>
        rw [hjob] at hrun
        simp only at hrun
        cases hrel : globus_gram_job_manager_remove_reference env
            { manager with
              request_hash := request_hash_store manager.request_hash
                { cur with request := some (stop_all_jobs_request env job).1 } } r.key with
        | none => rw [hrel] at hrun; cases hrun
        | some o =>
          rw [hrel] at hrun
          simp only at hrun
          cases hrest : stop_all_jobs_stop_requests env o.manager rest with
          | none => rw [hrest] at hrun; cases hrun
          | some res =>
            obtain ⟨m3, calls3⟩ := res
            rw [hrest] at hrun
            simp only [Option.some.injEq, Prod.mk.injEq] at hrun
            rw [← hrun.2, lock_depth_append, lock_depth_append,
              lock_depth_of_lock_trace_nil _ (stop_all_jobs_request_lock_trace env job) 0]
            simp only [Option.some_bind]
            rw [lock_depth_of_locked_once _ (remove_reference_locked_once env _ r.key o hrel)]
            exact ih o.manager m3 calls3 hrest

/-- `globus_gram_job_manager_stop_all_jobs` takes the manager mutex first,
never takes it while it holds it, never releases it while it does not hold it,
and returns with the mutex free. -/
theorem stop_all_jobs_lock_depth (env : Env) (manager manager2 : globus_gram_job_manager_t)
    (calls : List Call)
    (hrun : globus_gram_job_manager_stop_all_jobs env manager = some (manager2, calls)) :
    calls.head? = some Call.GlobusGramJobManagerLock ∧ lock_depth calls 0 = some 0 := by
  simp only [globus_gram_job_manager_stop_all_jobs] at hrun
  cases h1 : stop_all_jobs_add_references env { manager with stop := true }
      manager.request_hash with
  | none => rw [h1] at hrun; cases hrun
  | some res1 =>
    obtain ⟨m2, calls1⟩ := res1
    rw [h1] at hrun
    simp only at hrun
    cases h2 : stop_all_jobs_stop_requests env m2 manager.request_hash with
    | none => rw [h2] at hrun; cases hrun
    | some res2 =>
      obtain ⟨m3, calls2⟩ := res2
      rw [h2] at hrun
      simp only [Option.some.injEq, Prod.mk.injEq] at hrun
      rw [← hrun.2]
      refine ⟨by simp, ?_⟩
      rw [lock_depth_append,
        lock_depth_of_locked_once _ (locked_once_bracket calls1
          (stop_all_jobs_add_references_lock_trace env _ _ _ _ h1))]
      exact stop_all_jobs_stop_requests_lock_depth env _ _ _ _ h2

/-- C40 (the claim fails as stated): `A` is registered to the resident job
`/1/2/`; `globus_gram_job_manager_add_reference_by_jobid` reads `stop` and the
job-id table and raises the entry's reference count, and makes no call on the
manager mutex. -/
theorem add_reference_by_jobid_unlocked :
    (globus_gram_job_manager_add_reference_by_jobid sample_env sample_manager_registered
        "A" true).map
      (fun o => (o.rc, lock_trace o.calls,
        (request_hash_lookup o.manager.request_hash "/1/2/").map
          (fun e => e.reference_count))) = some (GLOBUS_SUCCESS, [], some 1) ∧
      (request_hash_lookup sample_manager_registered.request_hash "/1/2/").map
        (fun e => e.reference_count) = some 0 := by
  decide

/-! ## Shutdown: the table, entry by entry -/

/-- What a successful or failed `globus_l_gram_add_reference_locked` stores for
an entry that is in the table: the timer handle is cleared; on success the
count is one higher and the job is the resident or reloaded one; on a failed
reload the count is what it was and the job is still absent. -/
theorem add_reference_locked_entry (env : Env) (manager : globus_gram_job_manager_t)
    (key : String) (request : Bool)
    (o : Outcome (Option globus_gram_jobmanager_request_t))
    (ref : globus_gram_job_manager_ref_t)
    (hrun : globus_l_gram_add_reference_locked env manager key request = some o)
    (href : request_hash_lookup manager.request_hash key = some ref) :
    ∃ ref2, o.manager = { manager with
        request_hash := request_hash_store manager.request_hash ref2 } ∧
      ref2.key = ref.key ∧ ref2.cleanup_timer = GLOBUS_NULL_HANDLE ∧
      ((o.rc = GLOBUS_SUCCESS ∧ ref2.reference_count = ref.reference_count + 1 ∧
          ref2.request ≠ none ∧
          ref2.request = stop_all_jobs_resident_job env manager ref) ∨
        (o.rc = GLOBUS_GRAM_PROTOCOL_ERROR_MALLOC_FAILED ∧
          ref2.reference_count = ref.reference_count ∧ ref.request = none ∧
          ref2.request = none)) := by
  have hkey : ref.key = key := request_hash_lookup_key href
  cases hjob : ref.request with
  | some job =>
    simp only [globus_l_gram_add_reference_locked, href, hjob, Option.some.injEq] at hrun
    subst hrun
    refine ⟨_, rfl, rfl, rfl, Or.inl ⟨rfl, rfl, ?_, ?_⟩⟩
    · simp [hjob]
    · simp only [stop_all_jobs_resident_job, hjob]
  | none =>
    cases hload : globus_l_gram_restart_job env manager (key_plus_1 key) with
    | some loaded =>
      simp only [globus_l_gram_add_reference_locked, href, hjob, hload,
        Option.some.injEq] at hrun
      subst hrun
      refine ⟨_, rfl, rfl, rfl, Or.inl ⟨rfl, rfl, ?_, ?_⟩⟩
      · simp
      · simp only [stop_all_jobs_resident_job, hjob]
        rw [hkey, hload]
        rfl
    | none =>
      simp only [globus_l_gram_add_reference_locked, href, hjob, hload,
        Option.some.injEq] at hrun
      subst hrun
      refine ⟨_, rfl, rfl, rfl, Or.inr ⟨rfl, ?_, rfl, rfl⟩⟩
      simp

/-- A `globus_l_gram_add_reference_locked` that returns `GLOBUS_SUCCESS` found
the key in the table; one that does not find it leaves the manager as it is. -/
theorem add_reference_locked_found (env : Env) (manager : globus_gram_job_manager_t)
    (key : String) (request : Bool)
    (o : Outcome (Option globus_gram_jobmanager_request_t))
    (hrun : globus_l_gram_add_reference_locked env manager key request = some o) :
    (o.rc = GLOBUS_SUCCESS → ∃ ref, request_hash_lookup manager.request_hash key = some ref) ∧
      (request_hash_lookup manager.request_hash key = none → o.manager = manager) := by
  cases href : request_hash_lookup manager.request_hash key with
  | none =>
    simp only [globus_l_gram_add_reference_locked, href, Option.some.injEq] at hrun
    subst hrun
    refine ⟨?_, fun _ => rfl⟩
    intro h
    cases h
  | some ref =>
    refine ⟨fun _ => ⟨ref, rfl⟩, ?_⟩
    intro h
    cases h

/-- What `globus_gram_job_manager_remove_reference` does to the table when it
finds the key: the other keys keep their entries; the entry either stays, with
the count one lower, the same job and, unless the count reached zero, the same
timer handle, or (count zero, phase DONE or FAILED_DONE) it is taken out. -/
theorem remove_reference_entry (env : Env) (manager : globus_gram_job_manager_t)
    (key : String) (o : Outcome Unit) (ref : globus_gram_job_manager_ref_t)
    (hrun : globus_gram_job_manager_remove_reference env manager key = some o)
    (href : request_hash_lookup manager.request_hash key = some ref) :
    (∃ ref2, o.manager.request_hash = request_hash_store manager.request_hash ref2 ∧
        ref2.key = ref.key ∧ ref2.request = ref.request ∧
        ref2.reference_count = ref.reference_count - 1 ∧
        (ref.reference_count - 1 ≠ 0 → ref2.cleanup_timer = ref.cleanup_timer)) ∨
      (ref.reference_count - 1 = 0 ∧
        (∃ job, ref.request = some job ∧
          (job.jobmanager_state = GLOBUS_GRAM_JOB_MANAGER_STATE_DONE ∨
            job.jobmanager_state = GLOBUS_GRAM_JOB_MANAGER_STATE_FAILED_DONE)) ∧
        o.manager.request_hash =
          request_hash_remove
            (request_hash_store manager.request_hash
              { ref with reference_count := ref.reference_count - 1 }) key) := by
  by_cases hcount : ref.reference_count - 1 = 0
  · cases hjob : ref.request with
    | none =>
      simp only [globus_gram_job_manager_remove_reference, href, hcount, hjob, if_true] at hrun
      cases hrun
    | some job =>
      by_cases hterm : job.jobmanager_state = GLOBUS_GRAM_JOB_MANAGER_STATE_DONE ∨
          job.jobmanager_state = GLOBUS_GRAM_JOB_MANAGER_STATE_FAILED_DONE
      · obtain ⟨o2, hrun2, -, htable, -⟩ :=
          remove_reference_terminal env manager key ref job href hjob hcount hterm
        rw [hrun] at hrun2
        simp only [Option.some.injEq] at hrun2
        subst hrun2
        rw [hjob] at htable
        exact Or.inr ⟨hcount, ⟨job, rfl, hterm⟩, htable⟩
      · by_cases hpoll : job.jobmanager_state = GLOBUS_GRAM_JOB_MANAGER_STATE_POLL2 ∧
            manager.seg_started = true
        · rw [remove_reference_poll2 env manager key ref job href hjob hcount
            hpoll.1 hpoll.2] at hrun
          simp only [Option.some.injEq] at hrun
          subst hrun
          left
          cases hreg : env.globus_callback_register_oneshot
              (Callback.globus_l_gram_ref_swap_out ref.key) with
          | some handle =>
            exact ⟨{ ref with reference_count := ref.reference_count - 1
                              cleanup_timer := handle },
              request_hash_store_store _ _ _ rfl, rfl, hjob, rfl,
              fun h => absurd hcount h⟩
          | none =>
            exact ⟨{ ref with reference_count := ref.reference_count - 1 },
              request_hash_store_store _ _ _ rfl, rfl, hjob, rfl, fun _ => rfl⟩
        · rw [remove_reference_idle env manager key ref job href hjob hcount hterm
            hpoll] at hrun
          simp only [Option.some.injEq] at hrun
          subst hrun
          exact Or.inl ⟨{ ref with reference_count := ref.reference_count - 1 }, rfl, rfl,
            hjob, rfl, fun _ => rfl⟩
  · rw [remove_reference_nonzero env manager key ref href hcount] at hrun
    simp only [Option.some.injEq] at hrun
    subst hrun
    exact Or.inl ⟨{ ref with reference_count := ref.reference_count - 1 }, rfl, rfl, rfl,
      rfl, fun _ => rfl⟩

/-- A `globus_gram_job_manager_remove_reference` that does not find the key
leaves the table as it is. -/
theorem remove_reference_not_found (env : Env) (manager : globus_gram_job_manager_t)
    (key : String) (o : Outcome Unit)
    (hrun : globus_gram_job_manager_remove_reference env manager key = some o)
    (href : request_hash_lookup manager.request_hash key = none) :
    o.manager = manager := by
  simp only [globus_gram_job_manager_remove_reference, href, Option.some.injEq] at hrun
  subst hrun
  rfl

/-- The first loop of `stop_all_jobs`, entry by entry: when the snapshot has no
key twice, every entry of the snapshot was in the table and is left with the
count one higher, the timer handle cleared and the resident or reloaded job;
the other keys keep their entries. -/
theorem stop_all_jobs_add_references_entries (env : Env)
    (job_refs : List globus_gram_job_manager_ref_t) :
    ∀ (manager manager2 : globus_gram_job_manager_t) (calls : List Call),
      stop_all_jobs_add_references env manager job_refs = some (manager2, calls) →
      (job_refs.map (fun r => r.key)).Nodup →
      manager2.request_hash.map (fun e => e.key) =
          manager.request_hash.map (fun e => e.key) ∧
        ∀ key,
          (key ∉ job_refs.map (fun r => r.key) →
            request_hash_lookup manager2.request_hash key =
              request_hash_lookup manager.request_hash key) ∧
          (key ∈ job_refs.map (fun r => r.key) →
            ∃ e e2 job0, request_hash_lookup manager.request_hash key = some e ∧
              request_hash_lookup manager2.request_hash key = some e2 ∧
              e2.reference_count = e.reference_count + 1 ∧
              e2.cleanup_timer = GLOBUS_NULL_HANDLE ∧
              stop_all_jobs_resident_job env manager e = some job0 ∧
              e2.request = some job0) := by
  induction job_refs with
  | nil =>
    intro manager manager2 calls hrun _
    simp only [stop_all_jobs_add_references, Option.some.injEq, Prod.mk.injEq] at hrun
    obtain ⟨hm, -⟩ := hrun
    subst hm
    exact ⟨rfl, fun key => ⟨fun _ => rfl, fun h => by simp at h⟩⟩
  | cons r rest ih =>
    intro manager manager2 calls hrun hnodup
    simp only [List.map_cons, List.nodup_cons] at hnodup
    simp only [stop_all_jobs_add_references] at hrun
    cases hlocked : globus_l_gram_add_reference_locked env manager r.key false with
    | none => rw [hlocked] at hrun; cases hrun
    | some o =>
      rw [hlocked] at hrun
      simp only at hrun
      by_cases hrc : o.rc = GLOBUS_SUCCESS
      · rw [if_pos hrc] at hrun
        cases hrest : stop_all_jobs_add_references env o.manager rest with
        | none => rw [hrest] at hrun; cases hrun
        | some res =>
          obtain ⟨m3, calls3⟩ := res
          rw [hrest] at hrun
          simp only [Option.some.injEq, Prod.mk.injEq] at hrun
          obtain ⟨hm, -⟩ := hrun
          subst hm
          obtain ⟨e0, he0⟩ := (add_reference_locked_found env manager r.key false o hlocked).1 hrc
          have hkey0 : e0.key = r.key := request_hash_lookup_key he0
          obtain ⟨e1, hm1, hk1, htimer1, hcases⟩ :=
            add_reference_locked_entry env manager r.key false o e0 hlocked he0
          have hgood : e1.reference_count = e0.reference_count + 1 ∧
              e1.request = stop_all_jobs_resident_job env manager e0 ∧ e1.request ≠ none := by
            rcases hcases with ⟨-, hc, hres, hreq⟩ | ⟨hfail, -⟩
            · exact ⟨hc, hreq, hres⟩
            · rw [hrc] at hfail
              cases hfail
          have hlook1 : ∀ key, request_hash_lookup o.manager.request_hash key =
              if key = r.key then some e1
              else request_hash_lookup manager.request_hash key := by
            intro key
            rw [hm1]
            by_cases hkr : key = r.key
            · rw [if_pos hkr, hkr]
              exact request_hash_lookup_store_key (hk1.trans hkey0) he0
            · rw [if_neg hkr]
              exact request_hash_lookup_store_other _ _ (by rw [hk1, hkey0]; exact hkr)
          have hurl : o.manager.url_base = manager.url_base := by rw [hm1]
          obtain ⟨hkeys, hall⟩ := ih o.manager m3 calls3 hrest hnodup.2
          refine ⟨?_, ?_⟩
          · rw [hkeys, hm1]
            exact request_hash_store_keys _ _
          · intro key
            obtain ⟨hout, hin⟩ := hall key
            constructor
            · intro hnot
              simp only [List.map_cons, List.mem_cons, not_or] at hnot
              rw [hout hnot.2, hlook1, if_neg hnot.1]
            · intro hmem
              simp only [List.map_cons, List.mem_cons] at hmem
              by_cases hkr : key = r.key
              · have hnot : key ∉ rest.map (fun r => r.key) := by
                  rw [hkr]
                  exact hnodup.1
                obtain ⟨job0, hjob0⟩ := Option.ne_none_iff_exists'.1 hgood.2.2
                refine ⟨e0, e1, job0, by rw [hkr]; exact he0, ?_, hgood.1, htimer1, ?_, hjob0⟩
                · rw [hout hnot, hlook1, if_pos hkr]
                · rw [← hgood.2.1]
                  exact hjob0
              · rcases hmem with h | h
                · exact absurd h hkr
                · obtain ⟨e, e2, job0, he, he2, hc, ht, hj, hreq⟩ := hin h
                  rw [hlook1, if_neg hkr] at he
                  refine ⟨e, e2, job0, he, he2, hc, ht, ?_, hreq⟩
                  rw [← stop_all_jobs_resident_job_url_base env o.manager manager e hurl]
                  exact hj
      · rw [if_neg hrc] at hrun
        cases hrun

/-- The second loop of `stop_all_jobs`, entry by entry: when the table is well
formed and the snapshot has no key twice, every entry of the snapshot was in
the table with a resident job; it either stays, with the count one lower, the
result of the `switch` on that job and, unless the count reached zero, the
same timer handle, or (count zero, phase DONE or FAILED_DONE after the
`switch`) it is taken out; the other keys keep their entries. -/
theorem stop_all_jobs_stop_requests_entries (env : Env)
    (job_refs : List globus_gram_job_manager_ref_t) :
    ∀ (manager manager2 : globus_gram_job_manager_t) (calls : List Call),
      stop_all_jobs_stop_requests env manager job_refs = some (manager2, calls) →
      request_hash_wf manager.request_hash →
      (job_refs.map (fun r => r.key)).Nodup →
      request_hash_wf manager2.request_hash ∧
        ∀ key,
          (key ∉ job_refs.map (fun r => r.key) →
            request_hash_lookup manager2.request_hash key =
              request_hash_lookup manager.request_hash key) ∧
          (key ∈ job_refs.map (fun r => r.key) →
            ∃ e job, request_hash_lookup manager.request_hash key = some e ∧
              e.request = some job ∧
              ((∃ e2, request_hash_lookup manager2.request_hash key = some e2 ∧
                  e2.reference_count = e.reference_count - 1 ∧
                  e2.request = some (stop_all_jobs_request env job).1 ∧
                  (e.reference_count - 1 ≠ 0 → e2.cleanup_timer = e.cleanup_timer)) ∨
                (request_hash_lookup manager2.request_hash key = none ∧
                  e.reference_count - 1 = 0 ∧
                  ((stop_all_jobs_request env job).1.jobmanager_state =
                      GLOBUS_GRAM_JOB_MANAGER_STATE_DONE ∨
                    (stop_all_jobs_request env job).1.jobmanager_state =
                      GLOBUS_GRAM_JOB_MANAGER_STATE_FAILED_DONE)))) := by
  induction job_refs with
  | nil =>
    intro manager manager2 calls hrun hwf _
    simp only [stop_all_jobs_stop_requests, Option.some.injEq, Prod.mk.injEq] at hrun
    obtain ⟨hm, -⟩ := hrun
    subst hm
    exact ⟨hwf, fun key => ⟨fun _ => rfl, fun h => by simp at h⟩⟩
  | cons r rest ih =>
    intro manager manager2 calls hrun hwf hnodup
    simp only [List.map_cons, List.nodup_cons] at hnodup
    simp only [stop_all_jobs_stop_requests] at hrun
    cases hcur : request_hash_lookup manager.request_hash r.key with
    | none => rw [hcur] at hrun; cases hrun
    | some cur =>
      rw [hcur] at hrun
      simp only at hrun
      cases hjob : cur.request with
      | none => rw [hjob] at hrun; cases hrun
      | some job =>
        rw [hjob] at hrun
        simp only at hrun
        cases hrel : globus_gram_job_manager_remove_reference env
            { manager with
              request_hash := request_hash_store manager.request_hash
                { cur with request := some (stop_all_jobs_request env job).1 } } r.key with
        | none => rw [hrel] at hrun; cases hrun
        | some o =>
          rw [hrel] at hrun
          simp only at hrun
          cases hrest : stop_all_jobs_stop_requests env o.manager rest with
          | none => rw [hrest] at hrun; cases hrun
          | some res =>
            obtain ⟨m3, calls3⟩ := res
            rw [hrest] at hrun
            simp only [Option.some.injEq, Prod.mk.injEq] at hrun
            obtain ⟨hm, -⟩ := hrun
            subst hm
            have hkeyc : cur.key = r.key := request_hash_lookup_key hcur
            have hcur1 : request_hash_lookup
                (request_hash_store manager.request_hash
                  { cur with request := some (stop_all_jobs_request env job).1 }) r.key =
                some { cur with request := some (stop_all_jobs_request env job).1 } :=
              request_hash_lookup_store_key hkeyc hcur
            have hcases := remove_reference_entry env _ r.key o _ hrel hcur1
            have hwfs : request_hash_wf (request_hash_store manager.request_hash
                { cur with request := some (stop_all_jobs_request env job).1 }) :=
              request_hash_store_wf _ hwf
            have hlook : ∀ key, key ≠ r.key →
                request_hash_lookup o.manager.request_hash key =
                  request_hash_lookup manager.request_hash key := by
              intro key hne
              rcases hcases with ⟨e2, htable, hk2, -⟩ | ⟨-, -, htable⟩
              · rw [htable,
                  request_hash_lookup_store_other _ _ (by rw [hk2, hkeyc]; exact hne)]
                exact request_hash_lookup_store_other _ _ (by rw [hkeyc]; exact hne)
              · rw [htable, request_hash_lookup_remove_other _ hne,
                  request_hash_lookup_store_other _ _ (by rw [hkeyc]; exact hne)]
                exact request_hash_lookup_store_other _ _ (by rw [hkeyc]; exact hne)
            have hwf1 : request_hash_wf o.manager.request_hash := by
              rcases hcases with ⟨e3, htable, -⟩ | ⟨-, -, htable⟩
              · rw [htable]
                exact request_hash_store_wf _ hwfs
              · rw [htable]
                exact request_hash_remove_wf _ (request_hash_store_wf _ hwfs)
            obtain ⟨hwf3, hall⟩ := ih o.manager m3 calls3 hrest hwf1 hnodup.2
            refine ⟨hwf3, ?_⟩
            intro key
            obtain ⟨hout, hin⟩ := hall key
            constructor
            · intro hnot
              simp only [List.map_cons, List.mem_cons, not_or] at hnot
              rw [hout hnot.2, hlook key hnot.1]
            · intro hmem
              simp only [List.map_cons, List.mem_cons] at hmem
              by_cases hkr : key = r.key
              · have hnot : key ∉ rest.map (fun r => r.key) := by
                  rw [hkr]
                  exact hnodup.1
                refine ⟨cur, job, by rw [hkr]; exact hcur, hjob, ?_⟩
                rw [hout hnot, hkr]
                rcases hcases with ⟨e2, htable, hk2, hreq2, hc2, ht2⟩ | ⟨hc, ⟨j, hj, hterm⟩, htable⟩
                · left
                  refine ⟨e2, ?_, hc2, hreq2, ht2⟩
                  rw [htable]
                  exact request_hash_lookup_store_key (hk2.trans hkeyc) hcur1
                · right
                  simp only [Option.some.injEq] at hj
                  refine ⟨?_, hc, ?_⟩
                  · rw [htable]
                    exact request_hash_lookup_remove_same r.key (request_hash_store_wf _ hwfs)
                  · rw [hj]
                    exact hterm
              · rcases hmem with h | h
                · exact absurd h hkr
                · obtain ⟨e, job2, he, hj2, hrest2⟩ := hin h
                  rw [hlook key hkr] at he
                  exact ⟨e, job2, he, hj2, hrest2⟩

/-- The `switch` leaves a job in phase DONE or FAILED_DONE exactly when it
found it there. -/
theorem stop_all_jobs_request_terminal (env : Env)
    (request : globus_gram_jobmanager_request_t) :
    ((stop_all_jobs_request env request).1.jobmanager_state =
        GLOBUS_GRAM_JOB_MANAGER_STATE_DONE ∨
      (stop_all_jobs_request env request).1.jobmanager_state =
        GLOBUS_GRAM_JOB_MANAGER_STATE_FAILED_DONE) ↔
      (request.jobmanager_state = GLOBUS_GRAM_JOB_MANAGER_STATE_DONE ∨
        request.jobmanager_state = GLOBUS_GRAM_JOB_MANAGER_STATE_FAILED_DONE) := by
  rw [stop_all_jobs_request_phase]
  cases h : request.jobmanager_state <;> simp [stop_all_jobs_stopping_phases]

/-- What `globus_gram_job_manager_stop_all_jobs` does to a well-formed table,
entry by entry: a key that was not in the table is not in it afterwards; an
entry that was in the table had a job, resident or reloaded, and either stays,
with the count it had, that job after the `switch` and, if the count is not
zero, no armed swap-out timer, or (count zero, phase DONE or FAILED_DONE) it is
taken out. -/
theorem stop_all_jobs_entries (env : Env) (manager manager2 : globus_gram_job_manager_t)
    (calls : List Call)
    (hrun : globus_gram_job_manager_stop_all_jobs env manager = some (manager2, calls))
    (hwf : request_hash_wf manager.request_hash) :
    request_hash_wf manager2.request_hash ∧
      ∀ key,
        (request_hash_lookup manager.request_hash key = none →
          request_hash_lookup manager2.request_hash key = none) ∧
        ∀ e, request_hash_lookup manager.request_hash key = some e →
          ∃ job0, stop_all_jobs_resident_job env manager e = some job0 ∧
            ((∃ e2, request_hash_lookup manager2.request_hash key = some e2 ∧
                e2.reference_count = e.reference_count ∧
                e2.request = some (stop_all_jobs_request env job0).1 ∧
                (e.reference_count ≠ 0 → e2.cleanup_timer = GLOBUS_NULL_HANDLE)) ∨
              (request_hash_lookup manager2.request_hash key = none ∧
                e.reference_count = 0 ∧
                (job0.jobmanager_state = GLOBUS_GRAM_JOB_MANAGER_STATE_DONE ∨
                  job0.jobmanager_state = GLOBUS_GRAM_JOB_MANAGER_STATE_FAILED_DONE))) := by
  simp only [globus_gram_job_manager_stop_all_jobs] at hrun
  cases h1 : stop_all_jobs_add_references env { manager with stop := true }
      manager.request_hash with
  | none => rw [h1] at hrun; cases hrun
  | some res1 =>
    obtain ⟨m2, calls1⟩ := res1
    rw [h1] at hrun
    simp only at hrun
    cases h2 : stop_all_jobs_stop_requests env m2 manager.request_hash with
    | none => rw [h2] at hrun; cases hrun
    | some res2 =>
      obtain ⟨m3, calls2⟩ := res2
      rw [h2] at hrun
      simp only [Option.some.injEq, Prod.mk.injEq] at hrun
      obtain ⟨hm, -⟩ := hrun
      subst hm
      obtain ⟨hkeys, hfirst⟩ :=
        stop_all_jobs_add_references_entries env manager.request_hash _ m2 calls1 h1 hwf
      have hwf2 : request_hash_wf m2.request_hash := by
        unfold request_hash_wf
        rw [hkeys]
        exact hwf
      obtain ⟨hwf3, hsecond⟩ :=
        stop_all_jobs_stop_requests_entries env manager.request_hash m2 m3 calls2 h2 hwf2 hwf
      refine ⟨hwf3, ?_⟩
      intro key
      constructor
      · intro hnone
        have hnot : key ∉ manager.request_hash.map (fun r => r.key) := by
          intro hmem
          obtain ⟨e, he, hek⟩ := List.mem_map.1 hmem
          exact (request_hash_lookup_none.1 hnone) e he hek
        rw [(hsecond key).1 hnot, (hfirst key).1 hnot]
        exact hnone
      · intro e he
        have hmem : key ∈ manager.request_hash.map (fun r => r.key) :=
          List.mem_map.2 ⟨e, request_hash_lookup_mem he, request_hash_lookup_key he⟩
        obtain ⟨e0, e1, job0, he0, he1, hc1, ht1, hj0, hreq1⟩ := (hfirst key).2 hmem
        have hee : e0 = e := by
          have h := he0.symm.trans he
          exact Option.some.inj h
        subst hee
        obtain ⟨e1b, job1, he1b, hj1, hrest⟩ := (hsecond key).2 hmem
        rw [he1] at he1b
        have hee1 : e1 = e1b := Option.some.inj he1b
        subst hee1
        rw [hreq1] at hj1
        have hjj : job0 = job1 := Option.some.inj hj1
        subst hjj
        refine ⟨job0, ?_, ?_⟩
        · rw [← stop_all_jobs_resident_job_url_base env { manager with stop := true }
            manager e0 rfl]
          exact hj0
        · rcases hrest with ⟨e2, he2, hc2, hreq2, ht2⟩ | ⟨hgone, hc, hterm⟩
          · left
            refine ⟨e2, he2, by rw [hc2, hc1]; ring, hreq2, ?_⟩
            intro hne
            rw [ht2 (by rw [hc1]; simpa using hne), ht1]
          · right
            refine ⟨hgone, by rw [hc1] at hc; linarith,
              (stop_all_jobs_request_terminal env job0).1 hterm⟩
/-- C37: when the request table is well formed and every swapped-out entry can
be reloaded, `globus_gram_job_manager_stop_all_jobs` returns; its first loop
leaves every entry of the snapshot with the count one higher; every entry that
is in the table after the call was in it before with the same
`reference_count`; and an entry that the call took out of the table had the
count 0 and a job (resident, or as reloaded) in phase DONE or FAILED_DONE. -/
theorem stop_all_jobs_reference_counts (env : Env) (manager : globus_gram_job_manager_t)
    (hwf : request_hash_wf manager.request_hash)
    (hreload : ∀ ref ∈ manager.request_hash, ref.request = none →
      ∃ loaded, globus_l_gram_restart_job env manager (key_plus_1 ref.key) = some loaded) :
    ∃ manager2 calls,
      globus_gram_job_manager_stop_all_jobs env manager = some (manager2, calls) ∧
      (∃ manager1 calls1,
        stop_all_jobs_add_references env { manager with stop := true }
          manager.request_hash = some (manager1, calls1) ∧
        ∀ ref ∈ manager.request_hash,
          ∃ ref1, request_hash_lookup manager1.request_hash ref.key = some ref1 ∧
            ref1.reference_count = ref.reference_count + 1) ∧
      (∀ key ref2, request_hash_lookup manager2.request_hash key = some ref2 →
        ∃ ref, request_hash_lookup manager.request_hash key = some ref ∧
          ref2.reference_count = ref.reference_count) ∧
      (∀ key ref, request_hash_lookup manager.request_hash key = some ref →
        request_hash_lookup manager2.request_hash key = none →
        ref.reference_count = 0 ∧
          ∃ job0, stop_all_jobs_resident_job env manager ref = some job0 ∧
            (job0.jobmanager_state = GLOBUS_GRAM_JOB_MANAGER_STATE_DONE ∨
              job0.jobmanager_state = GLOBUS_GRAM_JOB_MANAGER_STATE_FAILED_DONE)) := by
  obtain ⟨manager2, calls, hrun, -⟩ := stop_all_jobs_outcome env manager hwf hreload
  obtain ⟨-, hentries⟩ := stop_all_jobs_entries env manager manager2 calls hrun hwf
  refine ⟨manager2, calls, hrun, ?_, ?_, ?_⟩
  · have hrun2 := hrun
    simp only [globus_gram_job_manager_stop_all_jobs] at hrun2
    cases h1 : stop_all_jobs_add_references env { manager with stop := true }
        manager.request_hash with
    | none => rw [h1] at hrun2; cases hrun2
    | some res1 =>
      obtain ⟨m1, calls1⟩ := res1
      refine ⟨m1, calls1, rfl, ?_⟩
      intro ref href
      obtain ⟨-, hfirst⟩ :=
        stop_all_jobs_add_references_entries env manager.request_hash _ m1 calls1 h1 hwf
      obtain ⟨e, e2, job0, he, he2, hc, -⟩ :=
        (hfirst ref.key).2 (List.mem_map.2 ⟨ref, href, rfl⟩)
      have hlook : request_hash_lookup manager.request_hash ref.key = some ref :=
        request_hash_lookup_of_mem hwf href
      have hee : e = ref := Option.some.inj (he.symm.trans hlook)
      subst hee
      exact ⟨e2, he2, hc⟩
  · intro key ref2 href2
    cases href : request_hash_lookup manager.request_hash key with
    | none =>
      rw [(hentries key).1 href] at href2
      cases href2
    | some ref =>
      obtain ⟨job0, -, hcases⟩ := (hentries key).2 ref href
      rcases hcases with ⟨e2, he2, hc, -⟩ | ⟨hgone, -⟩
      · rw [href2] at he2
        have hee : ref2 = e2 := Option.some.inj he2
        subst hee
        exact ⟨ref, rfl, hc⟩
      · rw [hgone] at href2
        cases href2
  · intro key ref href hgone
    obtain ⟨job0, hjob0, hcases⟩ := (hentries key).2 ref href
    rcases hcases with ⟨e2, he2, -⟩ | ⟨-, hc, hterm⟩
    · rw [hgone] at he2
      cases he2
    · exact ⟨hc, job0, hjob0, hterm⟩

/-- C37 at a sample state: a DONE job with no reference is taken out, a POLL2
job with two references and a swapped-out entry keep their counts. -/
theorem stop_all_jobs_reference_counts_witness :
    request_hash_wf
        [sample_ref "/1/2/" (some (sample_request GLOBUS_GRAM_JOB_MANAGER_STATE_DONE)) 0 0,
         sample_ref "/3/4/" (some (sample_request GLOBUS_GRAM_JOB_MANAGER_STATE_POLL2)) 2 0,
         sample_ref "/5/6/" none 0 0] ∧
      (globus_gram_job_manager_stop_all_jobs sample_env
        (sample_manager
          [sample_ref "/1/2/" (some (sample_request GLOBUS_GRAM_JOB_MANAGER_STATE_DONE)) 0 0,
           sample_ref "/3/4/" (some (sample_request GLOBUS_GRAM_JOB_MANAGER_STATE_POLL2)) 2 0,
           sample_ref "/5/6/" none 0 0])).map
        (fun r => r.1.request_hash.map (fun e => (e.key, e.reference_count))) =
          some [("/3/4/", 2), ("/5/6/", 0)] ∧
      ∃ manager2 calls,
        globus_gram_job_manager_stop_all_jobs sample_env
          (sample_manager
            [sample_ref "/1/2/" (some (sample_request GLOBUS_GRAM_JOB_MANAGER_STATE_DONE)) 0 0,
             sample_ref "/3/4/" (some (sample_request GLOBUS_GRAM_JOB_MANAGER_STATE_POLL2))
               2 0,
             sample_ref "/5/6/" none 0 0]) = some (manager2, calls) ∧
        ∀ key ref2, request_hash_lookup manager2.request_hash key = some ref2 →
          ∃ ref, request_hash_lookup
              [sample_ref "/1/2/" (some (sample_request GLOBUS_GRAM_JOB_MANAGER_STATE_DONE))
                 0 0,
               sample_ref "/3/4/" (some (sample_request GLOBUS_GRAM_JOB_MANAGER_STATE_POLL2))
                 2 0,
               sample_ref "/5/6/" none 0 0] key = some ref ∧
            ref2.reference_count = ref.reference_count := by
  obtain ⟨manager2, calls, hrun, -, hkept, -⟩ :=
    stop_all_jobs_reference_counts sample_env
      (sample_manager
        [sample_ref "/1/2/" (some (sample_request GLOBUS_GRAM_JOB_MANAGER_STATE_DONE)) 0 0,
         sample_ref "/3/4/" (some (sample_request GLOBUS_GRAM_JOB_MANAGER_STATE_POLL2)) 2 0,
         sample_ref "/5/6/" none 0 0])
      (by decide) (fun _ _ _ => ⟨_, rfl⟩)
  exact ⟨by decide, by decide, manager2, calls, hrun, hkept⟩

/-- The second loop of `stop_all_jobs` over a snapshot in two parts is the loop
over the first part followed by the loop over the second. -/
theorem stop_all_jobs_stop_requests_append (env : Env)
    (pre rest : List globus_gram_job_manager_ref_t) :
    ∀ manager : globus_gram_job_manager_t,
      stop_all_jobs_stop_requests env manager (pre ++ rest) =
        (stop_all_jobs_stop_requests env manager pre).bind
          (fun done => (stop_all_jobs_stop_requests env done.1 rest).map
            (fun res => (res.1, done.2 ++ res.2))) := by
  induction pre with
  | nil =>
    intro manager
    simp only [List.nil_append, stop_all_jobs_stop_requests, Option.some_bind,
      List.nil_append]
    cases stop_all_jobs_stop_requests env manager rest <;> rfl
  | cons r pre ih =>
    intro manager
    rw [List.cons_append]
    simp only [stop_all_jobs_stop_requests]
    cases hcur : request_hash_lookup manager.request_hash r.key with
    | none => rfl
    | some cur =>
      simp only
      cases hjob : cur.request with
      | none => rfl
      | some job =>
        simp only
        cases hrel : globus_gram_job_manager_remove_reference env
            { manager with
              request_hash := request_hash_store manager.request_hash
                { cur with request := some (stop_all_jobs_request env job).1 } } r.key with
        | none => rfl
        | some o =>
          simp only
          rw [ih o.manager]
          cases h1 : stop_all_jobs_stop_requests env o.manager pre with
          | none => rfl
          | some res1 =>
            obtain ⟨m1, calls1⟩ := res1
            simp only [Option.some_bind]
            cases h2 : stop_all_jobs_stop_requests env m1 rest with
            | none => rfl
            | some res2 =>
              obtain ⟨m2, calls2⟩ := res2
              simp only [Option.map_some', Option.some_bind, List.append_assoc]

/-- C38: when the request table is well formed and every swapped-out entry can
be reloaded, the first loop of `globus_gram_job_manager_stop_all_jobs` runs to
its end, and for every entry `ref` of the snapshot the second loop reaches it
(the loop over the entries before it returns) and finds, at that point, the
table's entry for its key with a resident job: the job it had at the call, or
the reloaded one if it was swapped out. So the second loop never reads an
absent job, and the whole call returns. -/
theorem stop_all_jobs_resident_when_read (env : Env) (manager : globus_gram_job_manager_t)
    (hwf : request_hash_wf manager.request_hash)
    (hreload : ∀ ref ∈ manager.request_hash, ref.request = none →
      ∃ loaded, globus_l_gram_restart_job env manager (key_plus_1 ref.key) = some loaded) :
    ∃ manager1 calls1,
      stop_all_jobs_add_references env { manager with stop := true }
        manager.request_hash = some (manager1, calls1) ∧
      (∀ pre ref post, manager.request_hash = pre ++ ref :: post →
        ∃ manager2 calls2 cur job,
          stop_all_jobs_stop_requests env manager1 pre = some (manager2, calls2) ∧
          stop_all_jobs_stop_requests env manager1 manager.request_hash =
            (stop_all_jobs_stop_requests env manager2 (ref :: post)).map
              (fun res => (res.1, calls2 ++ res.2)) ∧
          request_hash_lookup manager2.request_hash ref.key = some cur ∧
          cur.request = some job ∧
          stop_all_jobs_resident_job env manager ref = some job ∧
          (∀ job0, ref.request = some job0 → job = job0)) ∧
      ∃ manager3 calls,
        globus_gram_job_manager_stop_all_jobs env manager = some (manager3, calls) := by
  obtain ⟨manager3, calls, hrun, -⟩ := stop_all_jobs_outcome env manager hwf hreload
  have hrun2 := hrun
  simp only [globus_gram_job_manager_stop_all_jobs] at hrun2
  cases h1 : stop_all_jobs_add_references env { manager with stop := true }
      manager.request_hash with
  | none => rw [h1] at hrun2; cases hrun2
  | some res1 =>
    obtain ⟨m1, calls1⟩ := res1
    refine ⟨m1, calls1, rfl, ?_, manager3, calls, hrun⟩
    obtain ⟨hkeys, hfirst⟩ :=
      stop_all_jobs_add_references_entries env manager.request_hash _ m1 calls1 h1 hwf
    have hwf1 : request_hash_wf m1.request_hash := by
      unfold request_hash_wf
      rw [hkeys]
      exact hwf
    have hresident : ∀ r ∈ manager.request_hash, ∃ e job,
        request_hash_lookup m1.request_hash r.key = some e ∧ e.request = some job ∧
          stop_all_jobs_resident_job env manager r = some job := by
      intro r hr
      obtain ⟨e, e2, job0, he, he2, -, -, hj, hreq⟩ :=
        (hfirst r.key).2 (List.mem_map.2 ⟨r, hr, rfl⟩)
      have hlook : request_hash_lookup manager.request_hash r.key = some r :=
        request_hash_lookup_of_mem hwf hr
      have hee : e = r := Option.some.inj (he.symm.trans hlook)
      subst hee
      refine ⟨e2, job0, he2, hreq, ?_⟩
      rw [← stop_all_jobs_resident_job_url_base env { manager with stop := true } manager e
        rfl]
      exact hj
    intro pre ref post hsplit
    have hnodup : ((pre ++ ref :: post).map (fun r => r.key)).Nodup := by
      rw [← hsplit]
      exact hwf
    rw [List.map_append, List.map_cons] at hnodup
    have hnodup_pre : (pre.map (fun r => r.key)).Nodup := (List.nodup_append.1 hnodup).1
    have hnot : ref.key ∉ pre.map (fun r => r.key) := by
      intro hmem
      exact (List.nodup_append.1 hnodup).2.2 hmem (List.mem_cons_self _ _)
    have hpre : ∀ r ∈ pre, ∃ e job,
        request_hash_lookup m1.request_hash r.key = some e ∧ e.request = some job := by
      intro r hr
      obtain ⟨e, job, he, hj, -⟩ := hresident r (by rw [hsplit]; simp [hr])
      exact ⟨e, job, he, hj⟩
    obtain ⟨m2, calls2, hloop, -, -⟩ :=
      stop_all_jobs_stop_requests_jobs env pre m1 hwf1 hnodup_pre hpre
    obtain ⟨-, hsecond⟩ :=
      stop_all_jobs_stop_requests_entries env pre m1 m2 calls2 hloop hwf1 hnodup_pre
    obtain ⟨cur, job, hcur, hjob, hres⟩ := hresident ref (by rw [hsplit]; simp)
    refine ⟨m2, calls2, cur, job, hloop, ?_, ?_, hjob, hres, ?_⟩
    · rw [hsplit, stop_all_jobs_stop_requests_append, hloop]
      rfl
    · rw [(hsecond ref.key).1 hnot]
      exact hcur
    · intro job0 hjob0
      simp only [stop_all_jobs_resident_job, hjob0, Option.some.injEq] at hres
      exact hres.symm

/-- C38 at a sample state: the second entry is swapped out at the call; when the
second loop reaches it, after the first entry, its job is resident. -/
theorem stop_all_jobs_resident_when_read_witness :
    ∃ manager1 calls1 manager2 calls2 cur job,
      stop_all_jobs_add_references sample_env
        { sample_manager
            [sample_ref "/1/2/" (some (sample_request GLOBUS_GRAM_JOB_MANAGER_STATE_POLL2))
               0 0,
             sample_ref "/3/4/" none 0 0] with stop := true }
        [sample_ref "/1/2/" (some (sample_request GLOBUS_GRAM_JOB_MANAGER_STATE_POLL2)) 0 0,
         sample_ref "/3/4/" none 0 0] = some (manager1, calls1) ∧
      stop_all_jobs_stop_requests sample_env manager1
        [sample_ref "/1/2/" (some (sample_request GLOBUS_GRAM_JOB_MANAGER_STATE_POLL2)) 0 0] =
          some (manager2, calls2) ∧
      request_hash_lookup manager2.request_hash "/3/4/" = some cur ∧
      cur.request = some job := by
  obtain ⟨manager1, calls1, hfirst, hread, -⟩ :=
    stop_all_jobs_resident_when_read sample_env
      (sample_manager
        [sample_ref "/1/2/" (some (sample_request GLOBUS_GRAM_JOB_MANAGER_STATE_POLL2)) 0 0,
         sample_ref "/3/4/" none 0 0])
      (by decide) (fun _ _ _ => ⟨_, rfl⟩)
  obtain ⟨manager2, calls2, cur, job, hloop, -, hcur, hjob, -⟩ :=
    hread
      [sample_ref "/1/2/" (some (sample_request GLOBUS_GRAM_JOB_MANAGER_STATE_POLL2)) 0 0]
      (sample_ref "/3/4/" none 0 0) [] rfl
  exact ⟨manager1, calls1, manager2, calls2, cur, job, hfirst, hloop, hcur, hjob⟩

/-- Storing an entry that satisfies the lease invariant keeps it. -/
theorem lease_invariant_store {table : List globus_gram_job_manager_ref_t}
    (ref : globus_gram_job_manager_ref_t) (h : lease_invariant table)
    (hcount : 0 ≤ ref.reference_count)
    (href : (ref.request = none ∨ ref.cleanup_timer ≠ GLOBUS_NULL_HANDLE) →
      ref.reference_count = 0) :
    lease_invariant (request_hash_store table ref) := by
  intro e he
  rcases request_hash_mem_store he with rfl | hmem
  · exact ⟨hcount, href⟩
  · exact h e hmem

/-- Removing an entry keeps the lease invariant. -/
theorem lease_invariant_remove {table : List globus_gram_job_manager_ref_t}
    (key : String) (h : lease_invariant table) :
    lease_invariant (request_hash_remove table key) := by
  intro e he
  exact h e ((request_hash_remove_sublist table key).subset he)

/-- `globus_l_gram_add_reference_locked` keeps the table well formed and keeps
the lease invariant. -/
theorem add_reference_locked_lease (env : Env) (manager : globus_gram_job_manager_t)
    (key : String) (request : Bool)
    (o : Outcome (Option globus_gram_jobmanager_request_t))
    (hrun : globus_l_gram_add_reference_locked env manager key request = some o)
    (hwf : request_hash_wf manager.request_hash)
    (hinv : lease_invariant manager.request_hash) :
    request_hash_wf o.manager.request_hash ∧ lease_invariant o.manager.request_hash := by
  cases href : request_hash_lookup manager.request_hash key with
  | none =>
    rw [(add_reference_locked_found env manager key request o hrun).2 href]
    exact ⟨hwf, hinv⟩
  | some ref =>
    obtain ⟨ref2, hm, -, htimer, hcases⟩ :=
      add_reference_locked_entry env manager key request o ref hrun href
    obtain ⟨hpos, hzero⟩ := hinv ref (request_hash_lookup_mem href)
    rw [hm]
    refine ⟨request_hash_store_wf _ hwf, lease_invariant_store _ hinv ?_ ?_⟩
    · rcases hcases with ⟨-, hc, -, -⟩ | ⟨-, hc, -, -⟩
      · rw [hc]; linarith
      · rw [hc]; exact hpos
    · intro hbad
      rcases hcases with ⟨-, -, hres, -⟩ | ⟨-, hc, hnone, -⟩
      · rcases hbad with h | h
        · exact absurd h hres
        · exact absurd htimer h
      · rw [hc]
        exact hzero (Or.inl hnone)

/-- A `globus_gram_job_manager_remove_reference` on an entry whose count is at
least 1 keeps the table well formed and keeps the lease invariant. -/
theorem remove_reference_lease (env : Env) (manager : globus_gram_job_manager_t)
    (key : String) (o : Outcome Unit) (ref : globus_gram_job_manager_ref_t)
    (hrun : globus_gram_job_manager_remove_reference env manager key = some o)
    (href : request_hash_lookup manager.request_hash key = some ref)
    (hheld : 1 ≤ ref.reference_count)
    (hwf : request_hash_wf manager.request_hash)
    (hinv : lease_invariant manager.request_hash) :
    request_hash_wf o.manager.request_hash ∧ lease_invariant o.manager.request_hash := by
  obtain ⟨-, hzero⟩ := hinv ref (request_hash_lookup_mem href)
  rcases remove_reference_entry env manager key o ref hrun href with
    ⟨ref2, htable, -, hreq, hc, htimer⟩ | ⟨hc, -, htable⟩
  · rw [htable]
    refine ⟨request_hash_store_wf _ hwf, lease_invariant_store _ hinv ?_ ?_⟩
    · rw [hc]; linarith
    · intro hbad
      by_contra hne
      rw [hc] at hne
      rw [hreq, htimer hne] at hbad
      have := hzero hbad
      linarith
  · rw [htable]
    refine ⟨request_hash_remove_wf _ (request_hash_store_wf _ hwf),
      lease_invariant_remove _ (lease_invariant_store _ hinv ?_ ?_)⟩
    · show 0 ≤ ref.reference_count - 1
      linarith
    · intro _
      exact hc

/-- `globus_gram_job_manager_add_request` keeps the table well formed and
keeps the lease invariant: the entry it adds has the count 0. -/
theorem add_request_lease (manager : globus_gram_job_manager_t) (key : String)
    (request : globus_gram_jobmanager_request_t)
    (hwf : request_hash_wf manager.request_hash)
    (hinv : lease_invariant manager.request_hash) :
    request_hash_wf
        (globus_gram_job_manager_add_request manager key request).manager.request_hash ∧
      lease_invariant
        (globus_gram_job_manager_add_request manager key request).manager.request_hash := by
  have hins : ∀ table, request_hash_insert manager.request_hash
      (add_request_ref key request) = some table →
      request_hash_wf table ∧ lease_invariant table := by
    intro table htable
    unfold request_hash_insert at htable
    cases hlook : request_hash_lookup manager.request_hash (add_request_ref key request).key with
    | some old =>
      rw [hlook] at htable
      cases htable
    | none =>
      rw [hlook] at htable
      simp only [Option.some.injEq] at htable
      subst htable
      constructor
      · unfold request_hash_wf
        rw [List.map_cons, List.nodup_cons]
        refine ⟨?_, hwf⟩
        intro hmem
        obtain ⟨e, he, hek⟩ := List.mem_map.1 hmem
        exact (request_hash_lookup_none.1 hlook) e he hek
      · intro e he
        rcases List.mem_cons.1 he with rfl | hmem
        · exact ⟨le_refl _, fun _ => rfl⟩
        · exact hinv e hmem
  cases hstop : manager.stop with
  | true =>
    rw [add_request_stopped manager key request hstop]
    exact ⟨hwf, hinv⟩
  | false =>
    by_cases htimer : manager.grace_period_timer = GLOBUS_NULL_HANDLE
    · rw [add_request_plain manager key request hstop htimer]
      cases h : request_hash_insert manager.request_hash (add_request_ref key request) with
      | none => exact ⟨hwf, hinv⟩
      | some table => exact hins table h
    · cases hdone : manager.done with
      | true =>
        rw [add_request_drained manager key request hstop htimer hdone]
        exact ⟨hwf, hinv⟩
      | false =>
        rw [add_request_grace manager key request hstop htimer hdone]
        cases h : request_hash_insert manager.request_hash (add_request_ref key request) with
        | none => exact ⟨hwf, hinv⟩
        | some table => exact hins table h

/-- `globus_l_gram_ref_swap_out` keeps the table well formed and keeps the
lease invariant: it drops the job only at count 0. -/
theorem ref_swap_out_lease (env : Env) (manager : globus_gram_job_manager_t) (key : String)
    (manager2 : globus_gram_job_manager_t) (calls : List Call)
    (hrun : globus_l_gram_ref_swap_out env manager key = some (manager2, calls))
    (hwf : request_hash_wf manager.request_hash)
    (hinv : lease_invariant manager.request_hash) :
    request_hash_wf manager2.request_hash ∧ lease_invariant manager2.request_hash := by
  cases href : request_hash_lookup manager.request_hash key with
  | none =>
    simp only [globus_l_gram_ref_swap_out, href] at hrun
    cases hrun
  | some ref =>
    obtain ⟨hpos, hzero⟩ := hinv ref (request_hash_lookup_mem href)
    by_cases htimer : ref.cleanup_timer = GLOBUS_NULL_HANDLE
    · rw [ref_swap_out_disarmed env manager key ref href htimer] at hrun
      simp only [Option.some.injEq, Prod.mk.injEq] at hrun
      obtain ⟨hm, -⟩ := hrun
      subst hm
      exact ⟨hwf, hinv⟩
    · by_cases hcount : ref.reference_count = 0
      · cases hjob : ref.request with
        | none =>
          simp only [globus_l_gram_ref_swap_out, href, htimer, hcount, hjob, ne_eq,
            not_false_eq_true, if_true] at hrun
          cases hrun
        | some job =>
          rw [ref_swap_out_drops env manager key ref job href hjob htimer hcount] at hrun
          simp only [Option.some.injEq, Prod.mk.injEq] at hrun
          obtain ⟨hm, -⟩ := hrun
          subst hm
          exact ⟨request_hash_store_wf _ hwf,
            lease_invariant_store _ hinv hpos (fun _ => hcount)⟩
      · rw [ref_swap_out_referenced env manager key ref href htimer hcount] at hrun
        simp only [Option.some.injEq, Prod.mk.injEq] at hrun
        obtain ⟨hm, -⟩ := hrun
        subst hm
        exact ⟨request_hash_store_wf _ hwf,
          lease_invariant_store _ hinv hpos (fun _ => hzero (Or.inr htimer))⟩

/-- `globus_gram_job_manager_stop_all_jobs` keeps the table well formed and
keeps the lease invariant: it releases the references it took. -/
theorem stop_all_jobs_lease (env : Env) (manager manager2 : globus_gram_job_manager_t)
    (calls : List Call)
    (hrun : globus_gram_job_manager_stop_all_jobs env manager = some (manager2, calls))
    (hwf : request_hash_wf manager.request_hash)
    (hinv : lease_invariant manager.request_hash) :
    request_hash_wf manager2.request_hash ∧ lease_invariant manager2.request_hash := by
  obtain ⟨hwf2, hent⟩ := stop_all_jobs_entries env manager manager2 calls hrun hwf
  refine ⟨hwf2, ?_⟩
  intro e2 he2
  have hlook2 : request_hash_lookup manager2.request_hash e2.key = some e2 :=
    request_hash_lookup_of_mem hwf2 he2
  cases href : request_hash_lookup manager.request_hash e2.key with
  | none =>
    rw [(hent e2.key).1 href] at hlook2
    cases hlook2
  | some ref =>
    obtain ⟨hpos, -⟩ := hinv ref (request_hash_lookup_mem href)
    obtain ⟨job0, -, hcases⟩ := (hent e2.key).2 ref href
    rcases hcases with ⟨e3, he3, hc, hreq, htimer⟩ | ⟨hgone, -⟩
    · rw [hlook2] at he3
      have hee : e2 = e3 := Option.some.inj he3
      subst hee
      refine ⟨by rw [hc]; exact hpos, ?_⟩
      intro hbad
      by_contra hne
      rw [hc] at hne
      rcases hbad with h | h
      · rw [hreq] at h
        cases h
      · exact h (htimer hne)
    · rw [hgone] at hlook2
      cases hlook2

/-- Every step of a manager whose callers release only leases they hold keeps
the table well formed and keeps the lease invariant. -/
theorem lease_step_invariant (manager manager2 : globus_gram_job_manager_t)
    (hstep : LeaseStep manager manager2)
    (hwf : request_hash_wf manager.request_hash)
    (hinv : lease_invariant manager.request_hash) :
    request_hash_wf manager2.request_hash ∧ lease_invariant manager2.request_hash := by
  cases hstep with
  | add_request _ key request => exact add_request_lease manager key request hwf hinv
  | add_reference env _ key request _ hrun =>
    obtain ⟨o, ho, hm⟩ := Option.map_eq_some'.1 hrun
    subst hm
    simp only [globus_gram_job_manager_add_reference] at ho
    cases hlocked : globus_l_gram_add_reference_locked env manager key request with
    | none => rw [hlocked] at ho; cases ho
    | some o1 =>
      rw [hlocked] at ho
      simp only [Option.some.injEq] at ho
      subst ho
      exact add_reference_locked_lease env manager key request o1 hlocked hwf hinv
  | add_reference_by_jobid env _ jobid request _ hrun =>
    obtain ⟨o, ho, hm⟩ := Option.map_eq_some'.1 hrun
    subst hm
    unfold globus_gram_job_manager_add_reference_by_jobid at ho
    by_cases hstop : manager.stop = true
    · simp only [hstop, if_true, Option.some.injEq] at ho
      subst ho
      exact ⟨hwf, hinv⟩
    · simp only [if_neg hstop] at ho
      cases hreg : job_id_hash_lookup manager.job_id_hash jobid with
      | none =>
        simp only [hreg, Option.some.injEq] at ho
        subst ho
        exact ⟨hwf, hinv⟩
      | some jobref =>
        simp only [hreg] at ho
        cases hlocked : globus_l_gram_add_reference_locked env manager
            jobref.job_contact_path request with
        | none => rw [hlocked] at ho; cases ho
        | some o1 =>
          rw [hlocked] at ho
          simp only [Option.some.injEq] at ho
          subst ho
          exact add_reference_locked_lease env manager _ request o1 hlocked hwf hinv
  | remove_reference env _ key ref _ href hheld hrun =>
    obtain ⟨o, ho, hm⟩ := Option.map_eq_some'.1 hrun
    subst hm
    exact remove_reference_lease env manager key o ref ho href hheld hwf hinv
  | register_job_id _ job_id request =>
    rw [(register_job_id_frame manager job_id request).2.1]
    exact ⟨hwf, hinv⟩
  | unregister_job_id _ job_id =>
    rw [(unregister_job_id_frame manager job_id).2.1]
    exact ⟨hwf, hinv⟩
  | set_status _ key state failure_code =>
    unfold globus_gram_job_manager_set_status
    cases href : request_hash_lookup manager.request_hash key with
    | none => exact ⟨hwf, hinv⟩
    | some ref =>
      obtain ⟨hpos, hzero⟩ := hinv ref (request_hash_lookup_mem href)
      exact ⟨request_hash_store_wf _ hwf, lease_invariant_store _ hinv hpos hzero⟩
  | stop_all_jobs env _ _ calls hrun =>
    exact stop_all_jobs_lease env manager manager2 calls hrun hwf hinv
  | ref_swap_out env _ key _ calls hrun =>
    exact ref_swap_out_lease env manager key manager2 calls hrun hwf hinv
  | grace_period_expired _ =>
    rw [(grace_period_expired_frame manager).2.2.1]
    exact ⟨hwf, hinv⟩
  | job_written _ key ref job job2 href hjob =>
    obtain ⟨hpos, hzero⟩ := hinv ref (request_hash_lookup_mem href)
    refine ⟨request_hash_store_wf _ hwf, lease_invariant_store _ hinv hpos ?_⟩
    intro hbad
    rcases hbad with h | h
    · cases h
    · exact hzero (Or.inr h)
  | seg_written _ seg_started seg_last_timestamp => exact ⟨hwf, hinv⟩

/-- A lease-disciplined state with an armed swap-out timer: a POLL2 job is
added, leased once and released once. -/
theorem sample_armed_lease_reachable :
    LeaseReachable
      (sample_manager
        [sample_ref "/1/2/" (some (sample_request GLOBUS_GRAM_JOB_MANAGER_STATE_POLL2)) 0 7]) := by
  refine ⟨{ seg_module := some "pbs" }, "https://gram.example.org:2119", ?_⟩
  have s1 : LeaseStep (globus_gram_job_manager_init { seg_module := some "pbs" }
      "https://gram.example.org:2119") (sample_manager []) :=
    LeaseStep.seg_written _ true 0
  have s2 : LeaseStep (sample_manager [])
      (sample_manager
        [sample_ref "/1/2/" (some (sample_request GLOBUS_GRAM_JOB_MANAGER_STATE_POLL2)) 0 0]) :=
    LeaseStep.add_request _ "/1/2/" (sample_request GLOBUS_GRAM_JOB_MANAGER_STATE_POLL2)
  have s3 : LeaseStep
      (sample_manager
        [sample_ref "/1/2/" (some (sample_request GLOBUS_GRAM_JOB_MANAGER_STATE_POLL2)) 0 0])
      (sample_manager
        [sample_ref "/1/2/" (some (sample_request GLOBUS_GRAM_JOB_MANAGER_STATE_POLL2)) 1 0]) :=
    LeaseStep.add_reference sample_env _ "/1/2/" true _ (by decide)
  have s4 : LeaseStep
      (sample_manager
        [sample_ref "/1/2/" (some (sample_request GLOBUS_GRAM_JOB_MANAGER_STATE_POLL2)) 1 0])
      (sample_manager
        [sample_ref "/1/2/" (some (sample_request GLOBUS_GRAM_JOB_MANAGER_STATE_POLL2)) 0 7]) :=
    LeaseStep.remove_reference sample_env _ "/1/2/"
      (sample_ref "/1/2/" (some (sample_request GLOBUS_GRAM_JOB_MANAGER_STATE_POLL2)) 1 0) _
      (by decide) (by decide) (by decide)
  exact (((Relation.ReflTransGen.single s1).tail s2).tail s3).tail s4

/-- C31: in every manager state that a freshly initialised manager reaches
through the registry operations and the two timer callbacks, with
`remove_reference` called only on entries whose count is at least 1, no key
occurs twice in the request table, no reference count is negative, every entry
whose job is absent or whose swap-out timer is armed has `reference_count` 0,
and every entry with `reference_count` at least 1 has a resident job and no
armed swap-out timer. -/
theorem lease_reachable_invariant (manager : globus_gram_job_manager_t)
    (hreach : LeaseReachable manager) :
    request_hash_wf manager.request_hash ∧
      ∀ e ∈ manager.request_hash,
        0 ≤ e.reference_count ∧
        ((e.request = none ∨ e.cleanup_timer ≠ GLOBUS_NULL_HANDLE) →
          e.reference_count = 0) ∧
        (1 ≤ e.reference_count →
          e.request ≠ none ∧ e.cleanup_timer = GLOBUS_NULL_HANDLE) := by
  obtain ⟨config, url_base, hsteps⟩ := hreach
  have hboth : request_hash_wf manager.request_hash ∧
      lease_invariant manager.request_hash := by
    induction hsteps with
    | refl =>
      constructor
      · simp [request_hash_wf, globus_gram_job_manager_init]
      · intro e he
        simp [globus_gram_job_manager_init] at he
    | tail _ hstep ih => exact lease_step_invariant _ _ hstep ih.1 ih.2
  refine ⟨hboth.1, ?_⟩
  intro e he
  obtain ⟨hpos, hzero⟩ := hboth.2 e he
  refine ⟨hpos, hzero, ?_⟩
  intro hone
  constructor
  · intro hnone
    have := hzero (Or.inl hnone)
    linarith
  · by_contra harmed
    have := hzero (Or.inr harmed)
    linarith

/-- C31 at a sample state: after one lease and its release the POLL2 job's
swap-out timer is armed and the count is 0. -/
theorem lease_reachable_invariant_witness :
    LeaseReachable
        (sample_manager
          [sample_ref "/1/2/" (some (sample_request GLOBUS_GRAM_JOB_MANAGER_STATE_POLL2))
            0 7]) ∧
      ∀ e ∈ (sample_manager
          [sample_ref "/1/2/" (some (sample_request GLOBUS_GRAM_JOB_MANAGER_STATE_POLL2))
            0 7]).request_hash,
        0 ≤ e.reference_count ∧
        ((e.request = none ∨ e.cleanup_timer ≠ GLOBUS_NULL_HANDLE) →
          e.reference_count = 0) ∧
        (1 ≤ e.reference_count →
          e.request ≠ none ∧ e.cleanup_timer = GLOBUS_NULL_HANDLE) :=
  ⟨sample_armed_lease_reachable,
    (lease_reachable_invariant _ sample_armed_lease_reachable).2⟩

/-- Without the discipline the invariant fails: a second release on an entry
that was leased once leaves the count at -1 while the swap-out timer that the
first release armed is still armed. -/
theorem remove_reference_unheld_breaks_invariant :
    Reachable
        (sample_manager
          [sample_ref "/1/2/" (some (sample_request GLOBUS_GRAM_JOB_MANAGER_STATE_POLL2))
            (-1) 7]) ∧
      ¬ lease_invariant
        [sample_ref "/1/2/" (some (sample_request GLOBUS_GRAM_JOB_MANAGER_STATE_POLL2))
          (-1) 7] := by
  constructor
  · refine ⟨{ seg_module := some "pbs" }, "https://gram.example.org:2119", ?_⟩
    have s1 : Step (globus_gram_job_manager_init { seg_module := some "pbs" }
        "https://gram.example.org:2119") (sample_manager []) :=
      Step.seg_written _ true 0
    have s2 : Step (sample_manager [])
        (sample_manager
          [sample_ref "/1/2/" (some (sample_request GLOBUS_GRAM_JOB_MANAGER_STATE_POLL2))
            0 0]) :=
      Step.add_request _ "/1/2/" (sample_request GLOBUS_GRAM_JOB_MANAGER_STATE_POLL2)
    have s3 : Step
        (sample_manager
          [sample_ref "/1/2/" (some (sample_request GLOBUS_GRAM_JOB_MANAGER_STATE_POLL2))
            0 0])
        (sample_manager
          [sample_ref "/1/2/" (some (sample_request GLOBUS_GRAM_JOB_MANAGER_STATE_POLL2))
            1 0]) :=
      Step.add_reference sample_env _ "/1/2/" true _ (by decide)
    have s4 : Step
        (sample_manager
          [sample_ref "/1/2/" (some (sample_request GLOBUS_GRAM_JOB_MANAGER_STATE_POLL2))
            1 0])
        (sample_manager
          [sample_ref "/1/2/" (some (sample_request GLOBUS_GRAM_JOB_MANAGER_STATE_POLL2))
            0 7]) :=
      Step.remove_reference sample_env _ "/1/2/" _ (by decide)
    have s5 : Step
        (sample_manager
          [sample_ref "/1/2/" (some (sample_request GLOBUS_GRAM_JOB_MANAGER_STATE_POLL2))
            0 7])
        (sample_manager
          [sample_ref "/1/2/" (some (sample_request GLOBUS_GRAM_JOB_MANAGER_STATE_POLL2))
            (-1) 7]) :=
      Step.remove_reference sample_env _ "/1/2/" _ (by decide)
    exact ((((Relation.ReflTransGen.single s1).tail s2).tail s3).tail s4).tail s5
  · intro h
    have := (h _ (List.mem_singleton.2 rfl)).2 (Or.inr (by decide))
    exact absurd this (by decide)

/-! ## Shutdown: which jobs stay, which calls are made -/

/-- With a library that never fails, the loop of `globus_gram_split_subjobs`
is a fold of the insertion over the tokens. -/
theorem split_subjobs_loop_no_failure (lib : SubjobsLibrary)
    (insert : List String → String → List String)
    (hstrdup : ∀ s, lib.strdup s = true)
    (hinsert : ∀ list datum, lib.globus_list_insert list datum = some (insert list datum))
    (tokens : List String) :
    ∀ subjobs, split_subjobs_loop lib subjobs tokens = some (tokens.foldl insert subjobs) := by
  induction tokens with
  | nil => intro subjobs; rfl
  | cons t ts ih =>
    intro subjobs
    simp only [split_subjobs_loop, hstrdup, hinsert, if_true, List.foldl]
    exact ih _

/-- With a library whose `malloc` and `strdup` never fail, the registration
loop is `register_job_id_loop`. -/
theorem register_job_id_loop_call_no_failure (lib : SubjobsLibrary)
    (request : globus_gram_jobmanager_request_t)
    (hstrdup : ∀ s, lib.strdup s = true) (hmalloc : ∀ s, lib.malloc s = true)
    (subjobs : List String) :
    ∀ table, register_job_id_loop_call lib request table subjobs =
      register_job_id_loop request table subjobs := by
  induction subjobs with
  | nil => intro table; rfl
  | cons s rest ih =>
    intro table
    cases hold : job_id_hash_lookup table s with
    | some old_ref => simp only [register_job_id_loop_call, register_job_id_loop, hold]
    | none =>
      simp only [register_job_id_loop_call, register_job_id_loop, hold, hstrdup, hmalloc,
        if_true, job_id_hash_insert]
      exact ih _

/-- With a library that never fails and puts new list elements at the head,
`globus_gram_job_manager_register_job_id_call` returns what
`globus_gram_job_manager_register_job_id` gives. -/
theorem register_job_id_call_no_failure (lib : SubjobsLibrary)
    (manager : globus_gram_job_manager_t) (job_id : String)
    (request : globus_gram_jobmanager_request_t)
    (hstrdup : ∀ s, lib.strdup s = true) (hmalloc : ∀ s, lib.malloc s = true)
    (hinsert : ∀ list datum,
      lib.globus_list_insert list datum = some (globus_list_insert list datum)) :
    globus_gram_job_manager_register_job_id_call lib manager job_id request =
      some (globus_gram_job_manager_register_job_id manager job_id request) := by
  by_cases hseg : manager.config.seg_module = none
  · simp only [globus_gram_job_manager_register_job_id_call,
      globus_gram_job_manager_register_job_id, hseg, ne_eq, not_true_eq_false, if_false,
      hstrdup, if_true, hinsert,
      register_job_id_loop_call_no_failure lib request hstrdup hmalloc]
  · simp only [globus_gram_job_manager_register_job_id_call,
      globus_gram_job_manager_register_job_id, hseg, ne_eq, not_false_eq_true, if_true,
      globus_gram_split_subjobs_call, hstrdup,
      split_subjobs_loop_no_failure lib globus_list_insert hstrdup hinsert,
      globus_gram_split_subjobs,
      register_job_id_loop_call_no_failure lib request hstrdup hmalloc]

/-- The registration loop returns `GLOBUS_SUCCESS` or `MALLOC_FAILED`, whatever
the library does. -/
theorem register_job_id_loop_call_codes (lib : SubjobsLibrary)
    (request : globus_gram_jobmanager_request_t) (subjobs : List String) :
    ∀ table : List globus_gram_job_id_ref_t,
      (register_job_id_loop_call lib request table subjobs).1 = GLOBUS_SUCCESS ∨
        (register_job_id_loop_call lib request table subjobs).1 =
          GLOBUS_GRAM_PROTOCOL_ERROR_MALLOC_FAILED := by
  induction subjobs with
  | nil =>
    intro table
    exact Or.inl rfl
  | cons s rest ih =>
    intro table
    cases hold : job_id_hash_lookup table s with
    | some old_ref =>
      simp only [register_job_id_loop_call, hold]
      split
      · exact Or.inr rfl
      · exact Or.inl rfl
    | none =>
      simp only [register_job_id_loop_call, hold, job_id_hash_insert]
      by_cases h1 : lib.malloc s = true
      · by_cases h2 : lib.strdup s = true
        · by_cases h3 : lib.strdup request.job_contact_path = true
          · simp only [h1, h2, h3, if_true]
            exact ih _
          · simp only [h1, h2, h3, if_true, if_false]
            exact Or.inr rfl
        · simp only [h1, h2, if_true, if_false]
          exact Or.inr rfl
      · simp only [h1, if_false]
        exact Or.inr rfl

/-- Every way `globus_gram_job_manager_register_job_id_call` returns: before
the lock, with `MALLOC_FAILED`, the manager untouched and no call made, or
after one locked section in which the loop ran. -/
theorem register_job_id_call_paths (lib : SubjobsLibrary)
    (manager : globus_gram_job_manager_t) (job_id : String)
    (request : globus_gram_jobmanager_request_t) (o : Outcome Unit)
    (hrun : globus_gram_job_manager_register_job_id_call lib manager job_id request =
      some o) :
    (o = { rc := GLOBUS_GRAM_PROTOCOL_ERROR_MALLOC_FAILED, out := none
           manager := manager, calls := [] } ∧
        ((manager.config.seg_module ≠ none ∧
            globus_gram_split_subjobs_call lib job_id = none) ∨
          (manager.config.seg_module = none ∧ lib.strdup job_id = false))) ∨
      ∃ subjobs,
        ((manager.config.seg_module ≠ none ∧
            globus_gram_split_subjobs_call lib job_id = some subjobs) ∨
          (manager.config.seg_module = none ∧ lib.strdup job_id = true ∧
            lib.globus_list_insert [] job_id = some subjobs)) ∧
        o = { rc := (register_job_id_loop_call lib request manager.job_id_hash subjobs).1
              out := none
              manager := { manager with
                job_id_hash :=
                  (register_job_id_loop_call lib request manager.job_id_hash subjobs).2 }
              calls := [Call.GlobusGramJobManagerLock, Call.GlobusGramJobManagerUnlock] } := by
  by_cases hseg : manager.config.seg_module = none
  · cases hdup : lib.strdup job_id with
    | false =>
      simp only [globus_gram_job_manager_register_job_id_call, hseg, ne_eq,
        not_true_eq_false, if_false, hdup, Bool.false_eq_true, Option.some.injEq] at hrun
      exact Or.inl ⟨hrun.symm, Or.inr ⟨hseg, rfl⟩⟩
    | true =>
      cases hins : lib.globus_list_insert [] job_id with
      | none =>
        simp only [globus_gram_job_manager_register_job_id_call, hseg, ne_eq,
          not_true_eq_false, if_false, hdup, if_true, hins] at hrun
        cases hrun
      | some subjobs =>
        simp only [globus_gram_job_manager_register_job_id_call, hseg, ne_eq,
          not_true_eq_false, if_false, hdup, if_true, hins, Option.some.injEq] at hrun
        exact Or.inr ⟨subjobs, Or.inr ⟨hseg, rfl, rfl⟩, hrun.symm⟩
  · cases hsplit : globus_gram_split_subjobs_call lib job_id with
    | none =>
      simp only [globus_gram_job_manager_register_job_id_call, hseg, ne_eq,
        not_false_eq_true, if_true, hsplit, Option.some.injEq] at hrun
      exact Or.inl ⟨hrun.symm, Or.inl ⟨hseg, rfl⟩⟩
    | some subjobs =>
      simp only [globus_gram_job_manager_register_job_id_call, hseg, ne_eq,
        not_false_eq_true, if_true, hsplit, Option.some.injEq] at hrun
      exact Or.inr ⟨subjobs, Or.inl ⟨hseg, rfl⟩, hrun.symm⟩

/-- `globus_gram_job_manager_register_job_id_call` returns unless, with
`seg_module` NULL, the raw id is copied and its insertion into the list
fails. -/
theorem register_job_id_call_returns (lib : SubjobsLibrary)
    (manager : globus_gram_job_manager_t) (job_id : String)
    (request : globus_gram_jobmanager_request_t) :
    globus_gram_job_manager_register_job_id_call lib manager job_id request = none ↔
      manager.config.seg_module = none ∧ lib.strdup job_id = true ∧
        lib.globus_list_insert [] job_id = none := by
  by_cases hseg : manager.config.seg_module = none
  · cases hdup : lib.strdup job_id <;> cases hins : lib.globus_list_insert [] job_id <;>
      simp [globus_gram_job_manager_register_job_id_call, hseg, hdup, hins]
  · cases hsplit : globus_gram_split_subjobs_call lib job_id <;>
      simp [globus_gram_job_manager_register_job_id_call, hseg, hsplit]

/-- The registration loop on a list in which the sub-ids `pre` are new and
allocated and the next one, `s`, is registered to another owner: the loop
inserts `pre`, stops at `s` with `MALLOC_FAILED`, and takes nothing back. -/
theorem register_job_id_loop_call_reaches_conflict (lib : SubjobsLibrary)
    (request : globus_gram_jobmanager_request_t) (s : String) (post : List String)
    (old_ref : globus_gram_job_id_ref_t)
    (hother : old_ref.job_contact_path ≠ request.job_contact_path)
    (hpath : lib.strdup request.job_contact_path = true) (pre : List String) :
    ∀ table : List globus_gram_job_id_ref_t,
      (∀ x ∈ pre, job_id_hash_lookup table x = none) → pre.Nodup → s ∉ pre →
      (∀ x ∈ pre, lib.malloc x = true ∧ lib.strdup x = true) →
      job_id_hash_lookup table s = some old_ref →
      register_job_id_loop_call lib request table (pre ++ s :: post) =
        (GLOBUS_GRAM_PROTOCOL_ERROR_MALLOC_FAILED,
          pre.reverse.map
              (fun x => { job_id := x, job_contact_path := request.job_contact_path }) ++
            table) := by
  induction pre with
  | nil =>
    intro table _ _ _ _ hold
    simp only [List.nil_append, register_job_id_loop_call, hold, hother, ne_eq,
      not_false_eq_true, if_true, List.reverse_nil, List.map_nil]
  | cons x pre ih =>
    intro table hfresh hnodup hs halloc hold
    simp only [List.nodup_cons] at hnodup
    simp only [List.mem_cons, not_or] at hs
    have hx := hfresh x (List.mem_cons_self _ _)
    have hax := halloc x (List.mem_cons_self _ _)
    rw [List.cons_append]
    simp only [register_job_id_loop_call, hx, hax.1, hax.2, hpath, if_true,
      job_id_hash_insert]
    rw [ih ({ job_id := x, job_contact_path := request.job_contact_path } :: table)]
    · simp
    · intro y hy
      have hne : x ≠ y := fun h => hnodup.1 (h ▸ hy)
      rw [job_id_hash_lookup_cons_ne _ _ hne]
      exact hfresh y (List.mem_cons_of_mem _ hy)
    · exact hnodup.2
    · exact hs.2
    · intro y hy
      exact halloc y (List.mem_cons_of_mem _ hy)
    · rw [job_id_hash_lookup_cons_ne _ _ (Ne.symm hs.1)]
      exact hold

/-- The whole function when the loop reaches a sub-id registered to another
owner, whatever the order in which the library's list presents the sub-ids:
the call returns `MALLOC_FAILED` after one locked section, and the sub-ids the
loop visited before stay registered. -/
theorem register_job_id_call_reaches_conflict (lib : SubjobsLibrary)
    (manager : globus_gram_job_manager_t) (job_id : String)
    (request : globus_gram_jobmanager_request_t) (pre : List String) (s : String)
    (post : List String) (old_ref : globus_gram_job_id_ref_t)
    (hwalk : (manager.config.seg_module ≠ none ∧
        globus_gram_split_subjobs_call lib job_id = some (pre ++ s :: post)) ∨
      (manager.config.seg_module = none ∧ lib.strdup job_id = true ∧
        lib.globus_list_insert [] job_id = some (pre ++ s :: post)))
    (hfresh : ∀ x ∈ pre, job_id_hash_lookup manager.job_id_hash x = none)
    (hnodup : pre.Nodup) (hs : s ∉ pre)
    (halloc : ∀ x ∈ pre, lib.malloc x = true ∧ lib.strdup x = true)
    (hpath : lib.strdup request.job_contact_path = true)
    (hold : job_id_hash_lookup manager.job_id_hash s = some old_ref)
    (hother : old_ref.job_contact_path ≠ request.job_contact_path) :
    globus_gram_job_manager_register_job_id_call lib manager job_id request =
      some { rc := GLOBUS_GRAM_PROTOCOL_ERROR_MALLOC_FAILED, out := none
             manager := { manager with
               job_id_hash :=
                 pre.reverse.map
                     (fun x =>
                       { job_id := x, job_contact_path := request.job_contact_path }) ++
                   manager.job_id_hash }
             calls := [Call.GlobusGramJobManagerLock, Call.GlobusGramJobManagerUnlock] } := by
  have hloop := register_job_id_loop_call_reaches_conflict lib request s post old_ref hother
    hpath pre manager.job_id_hash hfresh hnodup hs halloc hold
  rcases hwalk with ⟨hseg, hsplit⟩ | ⟨hseg, hdup, hins⟩
  · have hseg2 : ¬ manager.config.seg_module = none := hseg
    simp only [globus_gram_job_manager_register_job_id_call, ne_eq, hseg2,
      not_false_eq_true, if_true, hsplit, hloop]
  · simp only [globus_gram_job_manager_register_job_id_call, ne_eq, hseg,
      not_true_eq_false, if_false, hdup, if_true, hins, hloop]

/-- C35 (the claim fails as stated): `A` is registered to the job `/1/2/` and
the job `/3/4/` tries to register it; the code returned for this conflict is
`GLOBUS_GRAM_PROTOCOL_ERROR_MALLOC_FAILED`, the very code returned when the job
registers the new id `B` and `malloc` fails. -/
theorem register_job_id_conflict_code :
    job_id_hash_lookup sample_manager_registered.job_id_hash "A" =
        some { job_id := "A", job_contact_path := "/1/2/" } ∧
      job_id_hash_lookup sample_manager_registered.job_id_hash "B" = none ∧
      (globus_gram_job_manager_register_job_id_call sample_library
          sample_manager_registered "A"
          { sample_request GLOBUS_GRAM_JOB_MANAGER_STATE_SUBMIT with
            job_contact_path := "/3/4/" }).map (fun o => o.rc) =
        some GLOBUS_GRAM_PROTOCOL_ERROR_MALLOC_FAILED ∧
      (globus_gram_job_manager_register_job_id_call sample_library_no_malloc
          sample_manager_registered "B"
          { sample_request GLOBUS_GRAM_JOB_MANAGER_STATE_SUBMIT with
            job_contact_path := "/3/4/" }).map (fun o => o.rc) =
        some GLOBUS_GRAM_PROTOCOL_ERROR_MALLOC_FAILED := by
  decide

/-- C35 (as amended): `globus_gram_job_manager_register_job_id` has no code of
its own for a conflict. Whenever it returns, its code is `GLOBUS_SUCCESS` or
`GLOBUS_GRAM_PROTOCOL_ERROR_MALLOC_FAILED`. When its loop reaches a sub-id that
is registered to another contact path (the sub-ids before it in the list being
new and allocated), it returns `MALLOC_FAILED`; and it returns `MALLOC_FAILED`
as well when an allocation fails: in `globus_gram_split_subjobs`, in the copy
of the raw id, or in the loop's `malloc` for a new sub-id. The one path on which
it does not return is, with `seg_module` NULL, a failing `globus_list_insert`,
after which it frees through the unassigned `ref`. -/
theorem register_job_id_one_failure_code (lib : SubjobsLibrary)
    (manager : globus_gram_job_manager_t)
    (job_id : String) (request : globus_gram_jobmanager_request_t) :
    (∀ o, globus_gram_job_manager_register_job_id_call lib manager job_id request = some o →
        o.rc = GLOBUS_SUCCESS ∨ o.rc = GLOBUS_GRAM_PROTOCOL_ERROR_MALLOC_FAILED) ∧
      (∀ pre s post old_ref,
        ((manager.config.seg_module ≠ none ∧
            globus_gram_split_subjobs_call lib job_id = some (pre ++ s :: post)) ∨
          (manager.config.seg_module = none ∧ lib.strdup job_id = true ∧
            lib.globus_list_insert [] job_id = some (pre ++ s :: post))) →
        (∀ x ∈ pre, job_id_hash_lookup manager.job_id_hash x = none) →
        pre.Nodup → s ∉ pre →
        (∀ x ∈ pre, lib.malloc x = true ∧ lib.strdup x = true) →
        lib.strdup request.job_contact_path = true →
        job_id_hash_lookup manager.job_id_hash s = some old_ref →
        old_ref.job_contact_path ≠ request.job_contact_path →
        ∃ o, globus_gram_job_manager_register_job_id_call lib manager job_id request =
            some o ∧
          o.rc = GLOBUS_GRAM_PROTOCOL_ERROR_MALLOC_FAILED) ∧
      (manager.config.seg_module ≠ none →
        globus_gram_split_subjobs_call lib job_id = none →
        ∃ o, globus_gram_job_manager_register_job_id_call lib manager job_id request =
            some o ∧
          o.rc = GLOBUS_GRAM_PROTOCOL_ERROR_MALLOC_FAILED) ∧
      (manager.config.seg_module = none → lib.strdup job_id = false →
        ∃ o, globus_gram_job_manager_register_job_id_call lib manager job_id request =
            some o ∧
          o.rc = GLOBUS_GRAM_PROTOCOL_ERROR_MALLOC_FAILED) ∧
      (∀ s rest,
        ((manager.config.seg_module ≠ none ∧
            globus_gram_split_subjobs_call lib job_id = some (s :: rest)) ∨
          (manager.config.seg_module = none ∧ lib.strdup job_id = true ∧
            lib.globus_list_insert [] job_id = some (s :: rest))) →
        job_id_hash_lookup manager.job_id_hash s = none → lib.malloc s = false →
        ∃ o, globus_gram_job_manager_register_job_id_call lib manager job_id request =
            some o ∧
          o.rc = GLOBUS_GRAM_PROTOCOL_ERROR_MALLOC_FAILED) ∧
      (globus_gram_job_manager_register_job_id_call lib manager job_id request = none ↔
        manager.config.seg_module = none ∧ lib.strdup job_id = true ∧
          lib.globus_list_insert [] job_id = none) := by
  refine ⟨?_, ?_, ?_, ?_, ?_, register_job_id_call_returns lib manager job_id request⟩
  · intro o hrun
    rcases register_job_id_call_paths lib manager job_id request o hrun with
      ⟨ho, -⟩ | ⟨subjobs, -, ho⟩
    · rw [ho]
      exact Or.inr rfl
    · rw [ho]
      exact register_job_id_loop_call_codes lib request subjobs manager.job_id_hash
  · intro pre s post old_ref hwalk hfresh hnodup hs halloc hpath hold hother
    exact ⟨_, register_job_id_call_reaches_conflict lib manager job_id request pre s post
      old_ref hwalk hfresh hnodup hs halloc hpath hold hother, rfl⟩
  · intro hseg hsplit
    have hseg2 : ¬ manager.config.seg_module = none := hseg
    have hrun : globus_gram_job_manager_register_job_id_call lib manager job_id request =
        some { rc := GLOBUS_GRAM_PROTOCOL_ERROR_MALLOC_FAILED, out := none
               manager := manager, calls := [] } := by
      simp only [globus_gram_job_manager_register_job_id_call, ne_eq, hseg2,
        not_false_eq_true, if_true, hsplit]
    exact ⟨_, hrun, rfl⟩
  · intro hseg hdup
    have hrun : globus_gram_job_manager_register_job_id_call lib manager job_id request =
        some { rc := GLOBUS_GRAM_PROTOCOL_ERROR_MALLOC_FAILED, out := none
               manager := manager, calls := [] } := by
      simp only [globus_gram_job_manager_register_job_id_call, ne_eq, hseg,
        not_true_eq_false, if_false, hdup, Bool.false_eq_true]
    exact ⟨_, hrun, rfl⟩
  · intro s rest hwalk hnew hmalloc
    have hloop : (register_job_id_loop_call lib request manager.job_id_hash (s :: rest)).1 =
        GLOBUS_GRAM_PROTOCOL_ERROR_MALLOC_FAILED := by
      simp only [register_job_id_loop_call, hnew, hmalloc, Bool.false_eq_true, if_false]
    have hrun : globus_gram_job_manager_register_job_id_call lib manager job_id request =
        some { rc := (register_job_id_loop_call lib request manager.job_id_hash
                 (s :: rest)).1
               out := none
               manager := { manager with
                 job_id_hash :=
                   (register_job_id_loop_call lib request manager.job_id_hash
                     (s :: rest)).2 }
               calls := [Call.GlobusGramJobManagerLock, Call.GlobusGramJobManagerUnlock] } := by
      rcases hwalk with ⟨hseg, hsplit⟩ | ⟨hseg, hdup, hins⟩
      · have hseg2 : ¬ manager.config.seg_module = none := hseg
        simp only [globus_gram_job_manager_register_job_id_call, ne_eq, hseg2,
          not_false_eq_true, if_true, hsplit]
      · simp only [globus_gram_job_manager_register_job_id_call, ne_eq, hseg,
          not_true_eq_false, if_false, hdup, if_true, hins]
    exact ⟨_, hrun, hloop⟩

/-- C35 at a sample state: registering `B,A` for the job `/3/4/` while `A`
belongs to `/1/2/`, with a list in the order of the raw id: the loop inserts `B`,
reaches `A` and returns `MALLOC_FAILED`. -/
theorem register_job_id_one_failure_code_witness :
    ∃ o, globus_gram_job_manager_register_job_id_call sample_library_raw_order
        sample_manager_registered "B,A"
        { sample_request GLOBUS_GRAM_JOB_MANAGER_STATE_SUBMIT with
          job_contact_path := "/3/4/" } = some o ∧
      o.rc = GLOBUS_GRAM_PROTOCOL_ERROR_MALLOC_FAILED :=
  (register_job_id_one_failure_code sample_library_raw_order sample_manager_registered "B,A"
    { sample_request GLOBUS_GRAM_JOB_MANAGER_STATE_SUBMIT with
      job_contact_path := "/3/4/" }).2.1
    ["B"] "A" [] { job_id := "A", job_contact_path := "/1/2/" }
    (Or.inl ⟨by decide, by decide⟩) (by decide) (by decide) (by decide)
    (fun _ _ => ⟨rfl, rfl⟩) rfl (by decide) (by decide)

/-! ## The manager mutex: every operation -/

/-- C40 (as amended): `add_request`, `add_reference`, `remove_reference`,
`unregister_job_id` (on an id that is not NULL), `set_status`, `get_status`,
`get_job_id_list`, `request_exists`, the swap-out callback and the grace-period
callback each take the manager mutex as their first call, release it as their
last, and take and release it exactly once. `register_job_id`, whenever it
returns, either returned before taking the mutex (the split or the copy of the
raw id failed: `MALLOC_FAILED`, no call made, the manager untouched) or took and
released the mutex exactly once around its loop; the one path on which it does
not return is, with `seg_module` NULL, a failing `globus_list_insert`, after
which it frees through the unassigned `ref`. `stop_all_jobs` takes it first,
and its trace (its own section, then one section per release) never takes the
mutex while holding it nor releases it while not holding it, and ends with the
mutex free. `unregister_job_id(NULL)` makes no call at all.
`add_reference_by_jobid` never takes nor releases the mutex: its caller has to
hold it. -/
theorem registry_lock_discipline (manager : globus_gram_job_manager_t) :
    (∀ key request,
        locked_once (globus_gram_job_manager_add_request manager key request).calls) ∧
      (∀ env key request o,
        globus_gram_job_manager_add_reference env manager key request = some o →
        locked_once o.calls) ∧
      (∀ env key o,
        globus_gram_job_manager_remove_reference env manager key = some o →
        locked_once o.calls) ∧
      (∀ lib job_id request,
        (∀ o,
          globus_gram_job_manager_register_job_id_call lib manager job_id request = some o →
          (o.calls = [] ∧ o.manager = manager ∧
              o.rc = GLOBUS_GRAM_PROTOCOL_ERROR_MALLOC_FAILED) ∨
            locked_once o.calls) ∧
        (globus_gram_job_manager_register_job_id_call lib manager job_id request = none ↔
          manager.config.seg_module = none ∧ lib.strdup job_id = true ∧
            lib.globus_list_insert [] job_id = none)) ∧
      (∀ job_id : String,
        locked_once (globus_gram_job_manager_unregister_job_id manager (some job_id)).calls) ∧
      ((globus_gram_job_manager_unregister_job_id manager none).calls = []) ∧
      (∀ key state failure_code,
        locked_once
          (globus_gram_job_manager_set_status manager key state failure_code).calls) ∧
      (∀ key, locked_once (globus_gram_job_manager_get_status manager key).calls) ∧
      (∀ alloc, locked_once (globus_gram_job_manager_get_job_id_list alloc manager).calls) ∧
      (∀ key, locked_once (globus_gram_job_manager_request_exists_call manager key).2.2) ∧
      (∀ env manager2 calls,
        globus_gram_job_manager_stop_all_jobs env manager = some (manager2, calls) →
        calls.head? = some Call.GlobusGramJobManagerLock ∧ lock_depth calls 0 = some 0) ∧
      (∀ env key manager2 calls,
        globus_l_gram_ref_swap_out env manager key = some (manager2, calls) →
        locked_once calls) ∧
      locked_once (globus_l_gram_job_manager_grace_period_expired manager).2 ∧
      (∀ env jobid request o,
        globus_gram_job_manager_add_reference_by_jobid env manager jobid request = some o →
        lock_trace o.calls = [] ∧ ∀ depth, lock_depth o.calls depth = some depth) := by
  refine ⟨add_request_locked_once manager,
    fun env => add_reference_locked_once env manager,
    fun env => remove_reference_locked_once env manager, ?_, ?_, rfl, ?_, ?_, ?_, ?_,
    fun env manager2 calls h => stop_all_jobs_lock_depth env manager manager2 calls h,
    fun env key => ref_swap_out_locked_once env manager key,
    grace_period_expired_locked_once manager, ?_⟩
  · intro lib job_id request
    refine ⟨?_, register_job_id_call_returns lib manager job_id request⟩
    intro o hrun
    rcases register_job_id_call_paths lib manager job_id request o hrun with
      ⟨ho, -⟩ | ⟨subjobs, -, ho⟩
    · left
      rw [ho]
      exact ⟨rfl, rfl, rfl⟩
    · right
      rw [ho]
      exact locked_once_bracket [] rfl
  · intro job_id
    unfold globus_gram_job_manager_unregister_job_id
    simp only
    split <;> exact locked_once_bracket [] rfl
  · intro key state failure_code
    unfold globus_gram_job_manager_set_status
    split <;> exact locked_once_bracket [] rfl
  · intro key
    unfold globus_gram_job_manager_get_status
    split <;> exact locked_once_bracket [] rfl
  · intro alloc
    exact locked_once_bracket [] rfl
  · intro key
    exact locked_once_bracket [] rfl
  · intro env jobid request o hrun
    have htrace : lock_trace o.calls = [] := by
      unfold globus_gram_job_manager_add_reference_by_jobid at hrun
      by_cases hstop : manager.stop = true
      · simp only [hstop, if_true, Option.some.injEq] at hrun
        subst hrun
        rfl
      · simp only [if_neg hstop] at hrun
        cases hreg : job_id_hash_lookup manager.job_id_hash jobid with
        | none =>
          simp only [hreg, Option.some.injEq] at hrun
          subst hrun
          rfl
        | some jobref =>
          simp only [hreg] at hrun
          cases hlocked : globus_l_gram_add_reference_locked env manager
              jobref.job_contact_path request with
          | none => rw [hlocked] at hrun; cases hrun
          | some o1 =>
            rw [hlocked] at hrun
            simp only [Option.some.injEq] at hrun
            subst hrun
            exact add_reference_locked_lock_trace env manager _ request o1 hlocked
    exact ⟨htrace, lock_depth_of_lock_trace_nil _ htrace⟩

/-- C40 at a sample state: a release that arms the swap-out timer, a whole
shutdown, a registration that runs its loop and one that returns before the
lock because `strdup` fails. -/
theorem registry_lock_discipline_witness :
    (∃ o, globus_gram_job_manager_remove_reference sample_env
        (sample_manager
          [sample_ref "/1/2/" (some (sample_request GLOBUS_GRAM_JOB_MANAGER_STATE_POLL2)) 1 0])
        "/1/2/" = some o ∧ locked_once o.calls) ∧
      (∃ manager2 calls,
        globus_gram_job_manager_stop_all_jobs sample_env
          (sample_manager
            [sample_ref "/1/2/" (some (sample_request GLOBUS_GRAM_JOB_MANAGER_STATE_POLL2))
              0 7]) = some (manager2, calls) ∧
        lock_depth calls 0 = some 0) ∧
      (∃ o, globus_gram_job_manager_register_job_id_call sample_library
          (sample_manager []) "A,B" (sample_request GLOBUS_GRAM_JOB_MANAGER_STATE_SUBMIT) =
            some o ∧
          o.manager ≠ sample_manager [] ∧ locked_once o.calls) ∧
      (globus_gram_job_manager_register_job_id_call sample_library_no_strdup
          (sample_manager []) "A,B" (sample_request GLOBUS_GRAM_JOB_MANAGER_STATE_SUBMIT)).map
        (fun o => (o.rc, o.calls, decide (o.manager = sample_manager []))) =
          some (GLOBUS_GRAM_PROTOCOL_ERROR_MALLOC_FAILED, [], true) := by
  have h := registry_lock_discipline
    (sample_manager
      [sample_ref "/1/2/" (some (sample_request GLOBUS_GRAM_JOB_MANAGER_STATE_POLL2)) 1 0])
  have h2 := registry_lock_discipline
    (sample_manager
      [sample_ref "/1/2/" (some (sample_request GLOBUS_GRAM_JOB_MANAGER_STATE_POLL2)) 0 7])
  have h3 := (registry_lock_discipline (sample_manager [])).2.2.2.1 sample_library "A,B"
    (sample_request GLOBUS_GRAM_JOB_MANAGER_STATE_SUBMIT)
  obtain ⟨manager2, calls, hrun, -⟩ := stop_all_jobs_outcome sample_env
    (sample_manager
      [sample_ref "/1/2/" (some (sample_request GLOBUS_GRAM_JOB_MANAGER_STATE_POLL2)) 0 7])
    (by decide) (fun _ _ _ => ⟨_, rfl⟩)
  obtain ⟨o, ho, -⟩ := remove_reference_shape sample_env
    (sample_manager
      [sample_ref "/1/2/" (some (sample_request GLOBUS_GRAM_JOB_MANAGER_STATE_POLL2)) 1 0])
    "/1/2/"
    (sample_ref "/1/2/" (some (sample_request GLOBUS_GRAM_JOB_MANAGER_STATE_POLL2)) 1 0)
    (by decide) (by intro h; cases h)
  have hreg : globus_gram_job_manager_register_job_id_call sample_library
      (sample_manager []) "A,B" (sample_request GLOBUS_GRAM_JOB_MANAGER_STATE_SUBMIT) =
      some (globus_gram_job_manager_register_job_id (sample_manager []) "A,B"
        (sample_request GLOBUS_GRAM_JOB_MANAGER_STATE_SUBMIT)) :=
    register_job_id_call_no_failure sample_library _ _ _ (fun _ => rfl) (fun _ => rfl)
      (fun _ _ => rfl)
  have hchanged : (globus_gram_job_manager_register_job_id (sample_manager []) "A,B"
      (sample_request GLOBUS_GRAM_JOB_MANAGER_STATE_SUBMIT)).manager ≠ sample_manager [] := by
    decide
  refine ⟨⟨o, ho, h.2.2.1 sample_env "/1/2/" o ho⟩,
    ⟨manager2, calls, hrun, (h2.2.2.2.2.2.2.2.2.2.2.1 sample_env manager2 calls hrun).2⟩,
    ⟨_, hreg, hchanged, ?_⟩, by decide⟩
  rcases h3.1 _ hreg with hearly | hlocked
  · exact absurd hearly.2.1 hchanged
  · exact hlocked

end GramJobManager
